import Mathlib

/-!
# Runtime injection and incremental reconciliation (Parcel core)

A shallow embedding of `packages/core/core/src/applyRuntimes.js`:
the provider loop that turns runtime records into asset-group requests,
`reconcileNewRuntimes`, and the per-connection merge into the bundle graph.

JavaScript `Map` and `Set` are modelled as insertion-ordered lists, thrown
errors as `Except`, and mutation of the shared graph as explicit state passing.
-/

set_option autoImplicit false
set_option maxRecDepth 100000

namespace Parcel

/-! ## JavaScript `Map` and `Set` -/

/-- A JavaScript `Map`: entries in insertion order, keys pairwise distinct. -/
abbrev JsMap (K V : Type) := List (K × V)

/-- A JavaScript `Set`: elements in insertion order, pairwise distinct. -/
abbrev JsSet (K : Type) := List K

/-- JS `map.set(k, v)`: an existing key keeps its position and takes the new
value, a new key is appended. -/
def JsMap.set {K V : Type} [DecidableEq K] : JsMap K V → K → V → JsMap K V
  | [], k, v => [(k, v)]
  | (k0, v0) :: rest, k, v =>
    if k0 = k then (k0, v) :: rest else (k0, v0) :: JsMap.set rest k v

/-- JS `new Map(entries)`: the entries are set one after the other. -/
def JsMap.ofEntries {K V : Type} [DecidableEq K] (entries : List (K × V)) : JsMap K V :=
  entries.foldl (fun m e => JsMap.set m e.1 e.2) []

/-- JS `map.get(k)`; `none` stands for `undefined`. -/
def JsMap.get {K V : Type} [DecidableEq K] : JsMap K V → K → Option V
  | [], _ => none
  | (k0, v0) :: rest, k => if k0 = k then some v0 else JsMap.get rest k

/-- JS `map.keys()`. -/
def JsMap.keys {K V : Type} (m : JsMap K V) : List K := m.map Prod.fst

/-- JS `map.values()`. -/
def JsMap.values {K V : Type} (m : JsMap K V) : List V := m.map Prod.snd

/-- JS `set.add(k)`. -/
def JsSet.add {K : Type} [DecidableEq K] (s : JsSet K) (k : K) : JsSet K :=
  if k ∈ s then s else s ++ [k]

/-- JS `new Set(iterable)`. -/
def JsSet.ofList {K : Type} [DecidableEq K] (xs : List K) : JsSet K :=
  xs.foldl JsSet.add []

/-- JS `set.has(k)`. -/
def JsSet.has {K : Type} [DecidableEq K] (s : JsSet K) (k : K) : Bool :=
  decide (k ∈ s)

/-! ## Data model -/

/-- Graph node identifiers (`NodeId` of `./types`, a string). -/
abbrev NodeId := String

/-- The target environment of a bundle. Only `context` is read by
`applyRuntimes`; `outputFormat` stands for the remaining descriptor fields. -/
structure Environment where
  context : String
  outputFormat : String
deriving DecidableEq, Repr

/-- A dependency as handed over by a runtime provider; `applyRuntimes` reads
its `id` and passes it on to `getDependencyResolution`. -/
structure Dependency where
  id : NodeId
  specifier : String
deriving DecidableEq, Repr

/-- An asset; `applyRuntimes` reads its `id`. -/
structure Asset where
  id : NodeId
  type : String
deriving DecidableEq, Repr

/-- The object literal built at lines 86-97 of `applyRuntimes.js`. -/
structure AssetGroup where
  code : String
  sourcesContent : List (String × String)
  mapBuffer : String
  filePath : String
  env : Environment
  isSource : Bool
  query : List (String × String)
deriving DecidableEq, Repr

/-- An internal bundle: `id`, `type`, `env` and the mutable `entryAssetIds`. -/
structure InternalBundle where
  id : NodeId
  type : String
  env : Environment
  entryAssetIds : List NodeId
deriving DecidableEq, Repr

/-- The `type` tag of a graph node together with its `value`. -/
inductive NodeValue where
  | root
  | asset_group (value : AssetGroup)
  | asset (value : Asset)
  | dependency (value : Dependency)
  | bundle (value : InternalBundle)
  | bundle_group
deriving DecidableEq, Repr

/-- A graph node `{id, type, value}`. -/
structure Node where
  id : NodeId
  value : NodeValue
deriving DecidableEq, Repr

/-- `node.type === 'asset_group'`. -/
def Node.isAssetGroup (node : Node) : Bool :=
  match node.value with
  | NodeValue.asset_group _ => true
  | _ => false

/-- `node.type === 'asset'`. -/
def Node.isAsset (node : Node) : Bool :=
  match node.value with
  | NodeValue.asset _ => true
  | _ => false

/-- `node.type === 'dependency'`. -/
def Node.isDependency (node : Node) : Bool :=
  match node.value with
  | NodeValue.dependency _ => true
  | _ => false

/-- A JavaScript error value thrown by a collaborator. -/
structure JsError where
  message : String
deriving DecidableEq, Repr

/-- A structured diagnostic of `@parcel/diagnostic`. -/
structure Diagnostic where
  message : String
  origin : String
deriving DecidableEq, Repr

/-- What a failing pass throws. -/
inductive PassError where
  /-- The `ThrowableDiagnostic` of line 108. -/
  | throwableDiagnostic (diagnostic : Diagnostic)
  /-- An `AssertionError` of `invariant(...)` or `assert(..., message)`. -/
  | assertionError (message : Option String)
  /-- The error of `nullthrows` on `null` or `undefined`. -/
  | nullthrows
  /-- A graph operation on a node the graph does not hold. -/
  | nodeNotFound (id : NodeId)
  /-- An error thrown by a collaborator and not caught by `applyRuntimes`. -/
  | thrown (error : JsError)
deriving DecidableEq, Repr

/-- `nullthrows(x)`. -/
def nullthrows {α : Type} : Option α → Except PassError α
  | some a => .ok a
  | none => .error PassError.nullthrows

/-- `invariant(cond)`: throws an `AssertionError` without a message. -/
def invariant (cond : Bool) : Except PassError Unit :=
  if cond then .ok () else .error (PassError.assertionError none)

/-- The record type `RuntimeConnection`, lines 28-33. -/
structure RuntimeConnection where
  bundle : InternalBundle
  assetGroup : AssetGroup
  dependency : Option Dependency
  isEntry : Option Bool
deriving DecidableEq, Repr

/-! ## Request identity and set difference -/

/-- Modelled from the spec: `nodeFromAssetGroup` of `./AssetGraph`, which is
not among the sources. The spec (section 3): the identity of a request is the
hash of its fields; the node is a request node holding the request. The hash
itself, `md5FromObject`, is a parameter. -/
def nodeFromAssetGroup (md5FromObject : AssetGroup → NodeId) (assetGroup : AssetGroup) : Node :=
  { id := md5FromObject assetGroup, value := NodeValue.asset_group assetGroup }

/-- Modelled from the spec: `setDifference` of `@parcel/utils`, which is not
among the sources. The spec (section 4.2, step 3): `a − b`, set difference by
identity equality. The result keeps the iteration order of `a`. -/
def setDifference {K : Type} [DecidableEq K] (a b : JsSet K) : JsSet K :=
  a.filter (fun e => !(JsSet.has b e))

/-! ## `reconcileNewRuntimes`, lines 203-235: the arguments of the replace step -/

/-- Lines 209-216: `assetRequestNodesById`. -/
def assetRequestNodesById (md5FromObject : AssetGroup → NodeId)
    (connections : List RuntimeConnection) : JsMap NodeId Node :=
  JsMap.ofEntries
    ((connections.map (fun t => t.assetGroup)).map (fun request =>
      let node := nodeFromAssetGroup md5FromObject request
      (node.id, node)))

/-- Line 217: `newRequestIds`. -/
def newRequestIds (md5FromObject : AssetGroup → NodeId)
    (connections : List RuntimeConnection) : JsSet NodeId :=
  JsSet.ofList (JsMap.keys (assetRequestNodesById md5FromObject connections))

/-- Lines 218-220: `oldRequestIds`, from the result of
`assetGraph.getEntryAssetGroupNodes()`. -/
def oldRequestIds (entryAssetGroupNodes : List Node) : JsSet NodeId :=
  JsSet.ofList (entryAssetGroupNodes.map (fun node => node.id))

/-- Line 222: `toAdd`. -/
def toAdd (md5FromObject : AssetGroup → NodeId) (connections : List RuntimeConnection)
    (entryAssetGroupNodes : List Node) : JsSet NodeId :=
  setDifference (newRequestIds md5FromObject connections) (oldRequestIds entryAssetGroupNodes)

/-- Line 223: `toRemove`. -/
def toRemove (md5FromObject : AssetGroup → NodeId) (connections : List RuntimeConnection)
    (entryAssetGroupNodes : List Node) : JsSet NodeId :=
  setDifference (oldRequestIds entryAssetGroupNodes) (newRequestIds md5FromObject connections)

/-- Lines 227-229: the second argument of `replaceNodesConnectedTo`,
`[...toAdd].map(requestId => nullthrows(assetRequestNodesById.get(requestId)))`. -/
def toAddNodes (md5FromObject : AssetGroup → NodeId) (connections : List RuntimeConnection)
    (entryAssetGroupNodes : List Node) : Except PassError (List Node) :=
  (toAdd md5FromObject connections entryAssetGroupNodes).mapM (fun requestId =>
    nullthrows (JsMap.get (assetRequestNodesById md5FromObject connections) requestId))

/-- Line 230: the third argument of `replaceNodesConnectedTo`,
`node => toRemove.has(node.id)`. -/
def shouldRemove (md5FromObject : AssetGroup → NodeId) (connections : List RuntimeConnection)
    (entryAssetGroupNodes : List Node) (node : Node) : Bool :=
  JsSet.has (toRemove md5FromObject connections entryAssetGroupNodes) node.id

/-! ## The graph of section 4.1 -/

/-- Modelled from the spec: an edge of the `Graph` of `./Graph` (section 4.1);
`type = none` is the default edge type, `some kind` a named edge kind such as
`contains`. -/
structure Edge where
  fromId : NodeId
  toId : NodeId
  type : Option String
deriving DecidableEq, Repr

/-- Modelled from the spec: the class `Graph` of `./Graph`, which is not among
the sources. The spec (section 4.1): a directed graph with typed nodes and
typed edges, nodes held by identifier, neighbours returned in edge insertion
order. -/
structure Graph where
  nodes : JsMap NodeId Node
  edges : List Edge
  rootNodeId : Option NodeId
deriving DecidableEq, Repr

/-- Modelled from the spec: `graph.getNode(id)`. -/
def Graph.getNode (g : Graph) (id : NodeId) : Option Node :=
  JsMap.get g.nodes id

/-- Modelled from the spec: `graph.hasNode(id)`. -/
def Graph.hasNode (g : Graph) (id : NodeId) : Bool :=
  (g.getNode id).isSome

/-- Modelled from the spec: `graph.getRootNode()`. -/
def Graph.getRootNode (g : Graph) : Option Node :=
  match g.rootNodeId with
  | some id => g.getNode id
  | none => none

/-- Modelled from the spec: `graph.addNode(node)` (section 4.1), a `set` on the
map of nodes. -/
def Graph.addNode (g : Graph) (node : Node) : Graph :=
  { g with nodes := JsMap.set g.nodes node.id node }

/-- Modelled from the spec: `graph.hasEdge(from, to, kind)`. -/
def Graph.hasEdge (g : Graph) (fromId toId : NodeId) (type : Option String) : Bool :=
  decide ((⟨fromId, toId, type⟩ : Edge) ∈ g.edges)

/-- Modelled from the spec: `graph.addEdge(from, to, kind=default)` (section
4.1). An edge that is already present is not added a second time. -/
def Graph.addEdge (g : Graph) (fromId toId : NodeId) (type : Option String) : Graph :=
  if g.hasEdge fromId toId type then g
  else { g with edges := g.edges ++ [⟨fromId, toId, type⟩] }

/-- Modelled from the spec: `graph.removeEdge(from, to, kind)` (section 4.1). -/
def Graph.removeEdge (g : Graph) (fromId toId : NodeId) (type : Option String) : Graph :=
  { g with edges := g.edges.filter (fun e => !(decide (e = (⟨fromId, toId, type⟩ : Edge)))) }

/-- Modelled from the spec: the identifiers `id` has an edge of the given type
to, in edge insertion order (section 4.1, the neighbours of a node). -/
def Graph.idsConnectedFrom (g : Graph) (id : NodeId) (type : Option String) : List NodeId :=
  (g.edges.filter (fun e => decide (e.fromId = id) && decide (e.type = type))).map (fun e => e.toId)

/-- Modelled from the spec: the identifiers that have an edge of the given type
to `id`, in edge insertion order (section 4.1, the neighbours of a node). -/
def Graph.idsConnectedTo (g : Graph) (id : NodeId) (type : Option String) : List NodeId :=
  (g.edges.filter (fun e => decide (e.toId = id) && decide (e.type = type))).map (fun e => e.fromId)

/-- Modelled from the spec: `graph.getNodesConnectedFrom(node, kind?)` (section
4.1): the ordered sequence of neighbour nodes, empty if there is none, an
error if `node` is absent. -/
def Graph.getNodesConnectedFrom (g : Graph) (node : Node) (type : Option String) :
    Except PassError (List Node) :=
  if g.hasNode node.id then .ok ((g.idsConnectedFrom node.id type).filterMap g.getNode)
  else .error (PassError.nodeNotFound node.id)

/-- Modelled from the spec: `graph.getNodesConnectedTo(node, kind?)` (section
4.1): as `getNodesConnectedFrom`, for inbound edges. -/
def Graph.getNodesConnectedTo (g : Graph) (node : Node) (type : Option String) :
    Except PassError (List Node) :=
  if g.hasNode node.id then .ok ((g.idsConnectedTo node.id type).filterMap g.getNode)
  else .error (PassError.nodeNotFound node.id)

/-- Modelled from the spec: one step of `replaceNodesConnectedTo` (section
4.1): a new child that is not yet a neighbour of the parent is added to the
graph and connected from the parent; an existing neighbour is left untouched. -/
def Graph.connectChild (parentId : NodeId) (g : Graph) (child : Node) : Graph :=
  if g.hasEdge parentId child.id none then g
  else (g.addNode child).addEdge parentId child.id none

/-- Modelled from the spec: one step of `replaceNodesConnectedTo` (section
4.1): a child to remove is disconnected from the parent. -/
def Graph.disconnectChild (parentId : NodeId) (g : Graph) (child : Node) : Graph :=
  g.removeEdge parentId child.id none

/-- Modelled from the spec: `graph.replaceNodesConnectedTo(parent, newChildren,
shouldRemove)` (section 4.1): every existing neighbour of `parent` for which
`shouldRemove` holds and which is not among `newChildren` is removed from
`parent`; every node of `newChildren` that is not yet a neighbour is added to
the graph and connected from `parent`; existing neighbours present in
`newChildren` are left untouched. -/
def Graph.replaceNodesConnectedTo (g : Graph) (parent : Node) (newChildren : List Node)
    (shouldRemove : Node → Bool) : Except PassError Graph :=
  match g.getNodesConnectedFrom parent none with
  | .error e => .error e
  | .ok existing =>
    let childrenToRemove := existing.filter (fun child =>
      shouldRemove child && !(newChildren.any (fun n => decide (n.id = child.id))))
    .ok (childrenToRemove.foldl (Graph.disconnectChild parent.id)
      (newChildren.foldl (Graph.connectChild parent.id) g))

/-- Modelled from the spec: `assetGraph.getEntryAssetGroupNodes()` of
`./AssetGraph`, which is not among the sources. The spec (section 4.2, step
2): the current root-adjacent request nodes. -/
def Graph.getEntryAssetGroupNodes (g : Graph) : List Node :=
  match g.getRootNode with
  | none => []
  | some root =>
    ((g.idsConnectedFrom root.id none).filterMap g.getNode).filter Node.isAssetGroup

/-- Modelled from the spec: the loop of the depth-first walk of `traverse`
(section 4.1): `stack` holds the nodes still to enter, the children of the
node entered last in front; `visited` the identifiers entered so far. -/
def Graph.traverseLoop {σ : Type} (g : Graph) (visit : σ → Node → Except PassError (σ × Bool)) :
    Nat → List Node → List NodeId → σ → σ × Option PassError
  | 0, _, _, s => (s, none)
  | _ + 1, [], _, s => (s, none)
  | fuel + 1, node :: stack, visited, s =>
    if node.id ∈ visited then Graph.traverseLoop g visit fuel stack visited s
    else
      match visit s node with
      | .error e => (s, some e)
      | .ok (s1, skipped) =>
        if skipped then Graph.traverseLoop g visit fuel stack (node.id :: visited) s1
        else
          match g.getNodesConnectedFrom node none with
          | .error e => (s1, some e)
          | .ok children =>
            Graph.traverseLoop g visit fuel (children ++ stack) (node.id :: visited) s1

/-- Modelled from the spec: `graph.traverse(visitor, startNode)` (section 4.1):
a depth-first walk along the default edge type in edge insertion order, each
node entered once; the visitor receives the node and may prune the subtree
below it (`actions.skipChildren()`, the `Bool` of its result). The walk
threads the visitor's state `σ` and stops at the first error, returning the
state reached. Every step but the first consumes an edge or a stack entry, so
the loop runs at most `edges.length + 2` times. -/
def Graph.traverse {σ : Type} (g : Graph) (visit : σ → Node → Except PassError (σ × Bool))
    (startNode : Node) (s : σ) : σ × Option PassError :=
  Graph.traverseLoop g visit (g.edges.length + 2) [startNode] [] s

/-! ## The bundle graph of section 4.3 -/

/-- The fields of `InternalBundleGraph` that `applyRuntimes` touches. -/
structure InternalBundleGraph where
  _graph : Graph
  _publicIdByAssetId : JsMap NodeId String
  _assetPublicIds : JsSet String
deriving DecidableEq, Repr

/-- Modelled from the spec: `bundleGraph.getBundles()` of `./BundleGraph`, which
is not among the sources. The spec (section 4.4): every bundle in the graph,
in graph iteration order. -/
def InternalBundleGraph.getBundles (bundleGraph : InternalBundleGraph) : List InternalBundle :=
  (JsMap.values bundleGraph._graph.nodes).filterMap (fun n =>
    match n.value with
    | NodeValue.bundle b => some b
    | _ => none)

/-- Modelled from the spec: `bundleGraph.merge(other)` of `./BundleGraph`, which
is not among the sources. The spec (section 2): merging another bundle graph's
underlying graph into itself: the nodes of `other` that are absent are added,
then every edge of `other`. -/
def InternalBundleGraph.merge (bundleGraph other : InternalBundleGraph) : InternalBundleGraph :=
  let withNodes := (JsMap.values other._graph.nodes).foldl (fun (acc : Graph) n =>
    if acc.hasNode n.id then acc else acc.addNode n) bundleGraph._graph
  { bundleGraph with
    _graph := other._graph.edges.foldl (fun (acc : Graph) e =>
      acc.addEdge e.fromId e.toId e.type) withNodes }

/-- The bundle object of identifier `bundle.id` as the graph holds it now: the
connections refer to bundles by reference, and `entryAssetIds` is mutated
during the pass. -/
def InternalBundleGraph.currentBundle (bundleGraph : InternalBundleGraph)
    (bundle : InternalBundle) : InternalBundle :=
  match (bundleGraph.getBundles.filter (fun b => decide (b.id = bundle.id))).head? with
  | some b => b
  | none => bundle

/-- Line 188: `bundle.entryAssetIds.unshift(id)`, on the bundle object the graph
holds. -/
def InternalBundleGraph.unshiftEntryAssetId (bundleGraph : InternalBundleGraph)
    (bundle : InternalBundle) (id : NodeId) : InternalBundleGraph :=
  { bundleGraph with
    _graph := { bundleGraph._graph with
      nodes := bundleGraph._graph.nodes.map (fun kv =>
        match kv.2.value with
        | NodeValue.bundle b =>
          if b.id = bundle.id then
            (kv.1, { kv.2 with
              value := NodeValue.bundle { b with entryAssetIds := id :: b.entryAssetIds } })
          else kv
        | _ => kv) } }

/-! ## Collaborators -/

/-- A record returned by a runtime provider, destructured at line 67. -/
structure RuntimeAsset where
  code : String
  dependency : Option Dependency
  filePath : String
  isEntry : Option Bool
deriving DecidableEq, Repr

/-- The value `applied` of line 54: absent (`null` or `undefined`), a single
record, or an array of records. -/
inductive Applied where
  | absent
  | single (record : RuntimeAsset)
  | many (records : List RuntimeAsset)
deriving DecidableEq, Repr

/-- A configured runtime provider: its `name` and `plugin.apply`, which is
handed the bundle and the bundle graph and may throw. -/
structure Runtime where
  name : String
  apply : InternalBundle → InternalBundleGraph → Except JsError Applied

/-- The `ParcelConfig` as far as `applyRuntimes` uses it. -/
structure ParcelConfig where
  getRuntimes : String → List Runtime

/-- The `PluginOptions` as far as `applyRuntimes` uses them. -/
structure PluginOptions where
  projectRoot : String
deriving DecidableEq, Repr

/-- The `AssetGraphBuilder` as far as `applyRuntimes` uses it: the asset graph
it holds and `build()`, which rebuilds the graph handed over and may throw. -/
structure AssetGraphBuilder where
  assetGraph : Graph
  build : Graph → Except PassError Graph

/-- The functions `applyRuntimes` imports from modules that are not among the
sources, taken as parameters. -/
structure Externals where
  /-- `md5FromString` of `@parcel/utils`. -/
  md5FromString : String → String
  /-- The hash of a request, used by `nodeFromAssetGroup`. -/
  md5FromObject : AssetGroup → NodeId
  /-- `path.join`. -/
  pathJoin : String → String → String
  /-- `path.dirname`. -/
  pathDirname : String → String
  /-- `SourceMap.generateEmptyMap` of project root, source name and source
  content, followed by `toBuffer()`. -/
  emptyMapBuffer : String → String → String → String
  /-- `errorToDiagnostic` of `@parcel/diagnostic`. -/
  errorToDiagnostic : JsError → String → Diagnostic
  /-- `InternalBundleGraph.fromAssetGraph`. -/
  fromAssetGraph : Graph → JsMap NodeId String → JsSet String → InternalBundleGraph
  /-- `bundleGraph.getDependencyResolution`. -/
  getDependencyResolution : InternalBundleGraph → Dependency → InternalBundle → Option Asset
  /-- `bundleGraph.isAssetReachableFromBundle`. -/
  isAssetReachableFromBundle : InternalBundleGraph → Asset → InternalBundle → Bool

/-! ## `applyRuntimes`, lines 48-113: querying the providers -/

/-- Lines 65-66: an absent `applied` yields no record, a single record a
one-element array. -/
def runtimeAssets : Applied → List RuntimeAsset
  | Applied.absent => []
  | Applied.single record => [record]
  | Applied.many records => records

/-- Lines 68-71: `sourceName`. -/
def sourceName (X : Externals) (bundle : InternalBundle) (record : RuntimeAsset) : String :=
  X.pathJoin (X.pathDirname record.filePath)
    ("runtime-" ++ X.md5FromString record.code ++ "." ++ bundle.type)

/-- Lines 73-97: `assetGroup`. -/
def assetGroupOf (X : Externals) (pluginOptions : PluginOptions) (bundle : InternalBundle)
    (record : RuntimeAsset) : AssetGroup :=
  { code := record.code
    sourcesContent := [(sourceName X bundle record, record.code)]
    mapBuffer := X.emptyMapBuffer pluginOptions.projectRoot (sourceName X bundle record) record.code
    filePath := record.filePath
    env := bundle.env
    isSource := true
    query := [] }

/-- Lines 99-104: the connection pushed for a record. -/
def connectionOf (X : Externals) (pluginOptions : PluginOptions) (bundle : InternalBundle)
    (record : RuntimeAsset) : RuntimeConnection :=
  { bundle := bundle
    assetGroup := assetGroupOf X pluginOptions bundle record
    dependency := record.dependency
    isEntry := record.isEntry }

/-- A call the pass makes, logged in order: `runtime.plugin.apply` for a bundle
(line 54) and `reconcileNewRuntimes` with its connections (line 115). -/
inductive Event where
  | providerApply (bundleId : NodeId) (runtime : String)
  | reconcile (connections : List RuntimeConnection)
deriving DecidableEq, Repr

/-- The state of the loop of lines 50-113: the connections pushed so far, the
log of calls, and the error thrown, if any. -/
structure Collected where
  connections : List RuntimeConnection
  trace : List Event
  error : Option PassError
deriving DecidableEq, Repr

/-- Lines 52-112: the loop over the runtimes of one bundle. -/
def queryRuntimes (X : Externals) (pluginOptions : PluginOptions)
    (bundleGraph : InternalBundleGraph) (bundle : InternalBundle) :
    List Runtime → List RuntimeConnection → List Event → Collected
  | [], connections, trace => { connections := connections, trace := trace, error := none }
  | runtime :: rest, connections, trace =>
    match runtime.apply bundle bundleGraph with
    | .error e =>
      { connections := connections
        trace := trace ++ [Event.providerApply bundle.id runtime.name]
        error := some (PassError.throwableDiagnostic (X.errorToDiagnostic e runtime.name)) }
    | .ok applied =>
      queryRuntimes X pluginOptions bundleGraph bundle rest
        (connections ++ (runtimeAssets applied).map (connectionOf X pluginOptions bundle))
        (trace ++ [Event.providerApply bundle.id runtime.name])

/-- Lines 50-113: the loop over the bundles. -/
def queryBundles (X : Externals) (config : ParcelConfig) (pluginOptions : PluginOptions)
    (bundleGraph : InternalBundleGraph) :
    List InternalBundle → List RuntimeConnection → List Event → Collected
  | [], connections, trace => { connections := connections, trace := trace, error := none }
  | bundle :: rest, connections, trace =>
    let collected := queryRuntimes X pluginOptions bundleGraph bundle
      (config.getRuntimes bundle.env.context) connections trace
    match collected.error with
    | some e => { collected with error := some e }
    | none =>
      queryBundles X config pluginOptions bundleGraph rest collected.connections collected.trace

/-- Lines 48-113: `connections` after the loop over `bundleGraph.getBundles()`. -/
def collectConnections (X : Externals) (config : ParcelConfig) (pluginOptions : PluginOptions)
    (bundleGraph : InternalBundleGraph) : Collected :=
  queryBundles X config pluginOptions bundleGraph bundleGraph.getBundles [] []

/-! ## `reconcileNewRuntimes`, lines 203-235 -/

/-- Lines 207-231: the asset graph after `replaceNodesConnectedTo`. -/
def reconcileReplace (X : Externals) (assetGraph : Graph)
    (connections : List RuntimeConnection) : Except PassError Graph :=
  let entryAssetGroupNodes := assetGraph.getEntryAssetGroupNodes
  match nullthrows assetGraph.getRootNode with
  | .error e => .error e
  | .ok root =>
    match toAddNodes X.md5FromObject connections entryAssetGroupNodes with
    | .error e => .error e
    | .ok nodes =>
      assetGraph.replaceNodesConnectedTo root nodes
        (shouldRemove X.md5FromObject connections entryAssetGroupNodes)

/-- Lines 203-235: `reconcileNewRuntimes`. -/
def reconcileNewRuntimes (X : Externals) (runtimesBuilder : AssetGraphBuilder)
    (connections : List RuntimeConnection) : Except PassError Graph :=
  match reconcileReplace X runtimesBuilder.assetGraph connections with
  | .error e => .error e
  | .ok replaced => runtimesBuilder.build replaced

/-! ## `applyRuntimes`, lines 133-200: applying the connections -/

/-- Lines 134-140: `runtimeNode`, the single asset node connected from the
request node of the connection. -/
def locateRuntimeNode (X : Externals) (runtimesAssetGraph : Graph) (assetGroup : AssetGroup) :
    Except PassError Node :=
  let assetGroupNode := nodeFromAssetGroup X.md5FromObject assetGroup
  match runtimesAssetGraph.getNodesConnectedFrom assetGroupNode none with
  | .error e => .error e
  | .ok assetGroupAssets =>
    match invariant (decide (assetGroupAssets.length = 1)) with
    | .error e => .error e
    | .ok _ =>
      match assetGroupAssets.head? with
      | none => .error (PassError.assertionError none)
      | some runtimeNode =>
        match runtimeNode.value with
        | NodeValue.asset _ => .ok runtimeNode
        | _ => .error (PassError.assertionError none)

/-- Lines 142-147: `resolution`. -/
def resolutionOf (X : Externals) (bundleGraph : InternalBundleGraph)
    (bundle : InternalBundle) : Option Dependency → Option Asset
  | none => none
  | some dependency =>
    X.getDependencyResolution bundleGraph dependency (bundleGraph.currentBundle bundle)

/-- Lines 156-159: the assets a dependency node points to; a neighbour that is
not an asset fails the `invariant`. -/
def assetsOf : List Node → Except PassError (List Asset)
  | [] => .ok []
  | assetNode :: rest =>
    match assetNode.value with
    | NodeValue.asset value =>
      match assetsOf rest with
      | .error e => .error e
      | .ok assets => .ok (value :: assets)
    | _ => .error (PassError.assertionError none)

/-- Lines 161-169: the loop over the assets of one dependency node; the `Bool`
records whether `actions.skipChildren()` was called. -/
def markAssets (X : Externals) (bundleGraph : InternalBundleGraph) (bundle : InternalBundle)
    (resolution : Option Asset) : List Asset → JsSet NodeId × Bool → JsSet NodeId × Bool
  | [], acc => acc
  | asset :: rest, acc =>
    if X.isAssetReachableFromBundle bundleGraph asset (bundleGraph.currentBundle bundle)
        || decide (resolution.map (fun r => r.id) = some asset.id) then
      markAssets X bundleGraph bundle resolution rest (JsSet.add acc.1 asset.id, true)
    else markAssets X bundleGraph bundle resolution rest acc

/-- Lines 149-170: the visitor of the first traversal. -/
def visitDuplicated (X : Externals) (bundleGraph runtimesGraph : InternalBundleGraph)
    (bundle : InternalBundle) (resolution : Option Asset)
    (duplicatedAssetIds : JsSet NodeId) (node : Node) : Except PassError (JsSet NodeId × Bool) :=
  match node.value with
  | NodeValue.dependency _ =>
    match runtimesGraph._graph.getNodesConnectedFrom node none with
    | .error e => .error e
    | .ok assetNodes =>
      match assetsOf assetNodes with
      | .error e => .error e
      | .ok assets =>
        .ok (markAssets X bundleGraph bundle resolution assets (duplicatedAssetIds, false))
  | _ => .ok (duplicatedAssetIds, false)

/-- Lines 172-181: the visitor of the second traversal. -/
def visitContains (bundle : InternalBundle) (duplicatedAssetIds : JsSet NodeId)
    (bundleGraph : InternalBundleGraph) (node : Node) :
    Except PassError (InternalBundleGraph × Bool) :=
  match node.value with
  | NodeValue.asset _ | NodeValue.dependency _ =>
    if JsSet.has duplicatedAssetIds node.id then .ok (bundleGraph, true)
    else
      .ok ({ bundleGraph with
        _graph := bundleGraph._graph.addEdge bundle.id node.id (some "contains") }, false)
  | _ => .ok (bundleGraph, false)

/-- Lines 183-189: the entry step. -/
def entryStep (bundleGraph : InternalBundleGraph) (bundle : InternalBundle) (runtimeNode : Node) :
    Option Bool → InternalBundleGraph × Option PassError
  | some true =>
    match nullthrows (bundleGraph._graph.getNode bundle.id) with
    | .error e => (bundleGraph, some e)
    | .ok bundleNode =>
      (({ bundleGraph with
          _graph := bundleGraph._graph.addEdge bundleNode.id runtimeNode.id none }
        ).unshiftEntryAssetId bundle runtimeNode.id, none)
  | _ => (bundleGraph, none)

/-- Lines 191-199: the island check, or the edge from the dependency. -/
def linkStep (bundleGraph : InternalBundleGraph) (runtimeNode : Node) :
    Option Dependency → InternalBundleGraph × Option PassError
  | none =>
    match bundleGraph._graph.getNodesConnectedTo runtimeNode none with
    | .error e => (bundleGraph, some e)
    | .ok inbound =>
      if inbound.length > 0 then (bundleGraph, none)
      else (bundleGraph, some (PassError.assertionError
        (some "Runtime must have an inbound dependency or be an entry")))
  | some dependency =>
    ({ bundleGraph with
        _graph := bundleGraph._graph.addEdge dependency.id runtimeNode.id none }, none)

/-- Lines 142-199: the body of the loop over the connections once `runtimeNode`
is located. The result is the bundle graph as the body leaves it and the error
thrown, if any. -/
def connectRuntimeNode (X : Externals) (runtimesGraph bundleGraph : InternalBundleGraph)
    (connection : RuntimeConnection) (runtimeNode : Node) :
    InternalBundleGraph × Option PassError :=
  let resolution := resolutionOf X bundleGraph connection.bundle connection.dependency
  match runtimesGraph._graph.traverse
      (visitDuplicated X bundleGraph runtimesGraph connection.bundle resolution)
      runtimeNode [] with
  | (_, some e) => (bundleGraph, some e)
  | (duplicatedAssetIds, none) =>
    match runtimesGraph._graph.traverse
        (visitContains connection.bundle duplicatedAssetIds) runtimeNode bundleGraph with
    | (contained, some e) => (contained, some e)
    | (contained, none) =>
      match entryStep contained connection.bundle runtimeNode connection.isEntry with
      | (entered, some e) => (entered, some e)
      | (entered, none) => linkStep entered runtimeNode connection.dependency

/-- Lines 133-200: the body of the loop over the connections, for one
connection. -/
def applyConnection (X : Externals) (runtimesAssetGraph : Graph)
    (runtimesGraph bundleGraph : InternalBundleGraph) (connection : RuntimeConnection) :
    InternalBundleGraph × Option PassError :=
  match locateRuntimeNode X runtimesAssetGraph connection.assetGroup with
  | .error e => (bundleGraph, some e)
  | .ok runtimeNode => connectRuntimeNode X runtimesGraph bundleGraph connection runtimeNode

/-- Lines 133-200: the loop over the connections, in order, stopping at the
first error. -/
def applyConnections (X : Externals) (runtimesAssetGraph : Graph)
    (runtimesGraph : InternalBundleGraph) :
    InternalBundleGraph → List RuntimeConnection → InternalBundleGraph × Option PassError
  | bundleGraph, [] => (bundleGraph, none)
  | bundleGraph, connection :: rest =>
    match applyConnection X runtimesAssetGraph runtimesGraph bundleGraph connection with
    | (applied, some e) => (applied, some e)
    | (applied, none) => applyConnections X runtimesAssetGraph runtimesGraph applied rest

/-- Lines 126-131: the merge of the runtimes graph and of its public ids. -/
def mergeRuntimesGraph (bundleGraph runtimesGraph : InternalBundleGraph) : InternalBundleGraph :=
  runtimesGraph._publicIdByAssetId.foldl (fun (acc : InternalBundleGraph) entry =>
    { acc with
      _publicIdByAssetId := JsMap.set acc._publicIdByAssetId entry.1 entry.2
      _assetPublicIds := JsSet.add acc._assetPublicIds entry.2 })
    (bundleGraph.merge runtimesGraph)

/-- What a pass leaves behind: the bundle graph, the log of calls, and the error
thrown (`none` when `applyRuntimes` returns). -/
structure PassResult where
  bundleGraph : InternalBundleGraph
  trace : List Event
  error : Option PassError
deriving DecidableEq, Repr

/-- Lines 35-201: `applyRuntimes`. -/
def applyRuntimes (X : Externals) (bundleGraph : InternalBundleGraph) (config : ParcelConfig)
    (pluginOptions : PluginOptions) (runtimesBuilder : AssetGraphBuilder) : PassResult :=
  let collected := collectConnections X config pluginOptions bundleGraph
  match collected.error with
  | some e => { bundleGraph := bundleGraph, trace := collected.trace, error := some e }
  | none =>
    let trace := collected.trace ++ [Event.reconcile collected.connections]
    match reconcileNewRuntimes X runtimesBuilder collected.connections with
    | .error e => { bundleGraph := bundleGraph, trace := trace, error := some e }
    | .ok runtimesAssetGraph =>
      let runtimesGraph := X.fromAssetGraph runtimesAssetGraph
        bundleGraph._publicIdByAssetId bundleGraph._assetPublicIds
      let merged := mergeRuntimesGraph bundleGraph runtimesGraph
      match applyConnections X runtimesAssetGraph runtimesGraph merged collected.connections with
      | (applied, error) => { bundleGraph := applied, trace := trace, error := error }

/-! ## Well-formedness of graphs -/

/-- The map of nodes is keyed by node identifier, as `addNode` keeps it. -/
def Graph.keyedById (g : Graph) : Bool :=
  g.nodes.all (fun kv => decide (kv.1 = kv.2.id))

/-- Every node connected from the root by a default edge is a request node the
graph holds, as in the asset graph of the runtimes builder. -/
def Graph.rootHoldsRequests (g : Graph) : Bool :=
  match g.getRootNode with
  | none => true
  | some root =>
    (g.idsConnectedFrom root.id none).all (fun id =>
      match g.getNode id with
      | some n => n.isAssetGroup
      | none => false)

/-! ## Vocabulary of the specification -/

/-- The provider queries of a pass in the order of the loops of lines 50-52:
bundle by bundle, and for each bundle its runtimes in the order
`config.getRuntimes` lists them. -/
def providerQueries (config : ParcelConfig) (bundles : List InternalBundle) :
    List (InternalBundle × Runtime) :=
  bundles.flatMap (fun bundle =>
    (config.getRuntimes bundle.env.context).map (fun runtime => (bundle, runtime)))

/-- The records a provider returns for a bundle, in the order of its result: an
absent result is the empty sequence, a single record a one-element sequence. A
provider that throws returns no record. -/
def Runtime.records (runtime : Runtime) (bundle : InternalBundle)
    (bundleGraph : InternalBundleGraph) : List RuntimeAsset :=
  match runtime.apply bundle bundleGraph with
  | .ok applied => runtimeAssets applied
  | .error _ => []

/-- The loop of lines 50-113 over an explicit sequence of provider queries. -/
def queryAll (X : Externals) (pluginOptions : PluginOptions) (bundleGraph : InternalBundleGraph) :
    List (InternalBundle × Runtime) → List RuntimeConnection → List Event → Collected
  | [], connections, trace => { connections := connections, trace := trace, error := none }
  | (bundle, runtime) :: rest, connections, trace =>
    match runtime.apply bundle bundleGraph with
    | .error e =>
      { connections := connections
        trace := trace ++ [Event.providerApply bundle.id runtime.name]
        error := some (PassError.throwableDiagnostic (X.errorToDiagnostic e runtime.name)) }
    | .ok applied =>
      queryAll X pluginOptions bundleGraph rest
        (connections ++ (runtimeAssets applied).map (connectionOf X pluginOptions bundle))
        (trace ++ [Event.providerApply bundle.id runtime.name])

/-- The log entry of a provider query. -/
def queryEvent (query : InternalBundle × Runtime) : Event :=
  Event.providerApply query.1.id query.2.name

/-- The connections pushed for a provider query. -/
def queryConnections (X : Externals) (pluginOptions : PluginOptions)
    (bundleGraph : InternalBundleGraph) (query : InternalBundle × Runtime) :
    List RuntimeConnection :=
  (query.2.records query.1 bundleGraph).map (connectionOf X pluginOptions query.1)

/-- The identifiers of the assets that the dependency nodes of a graph point
to: the only identifiers the first traversal can mark as duplicated. -/
def InternalBundleGraph.dependencyTargetIds (runtimesGraph : InternalBundleGraph) :
    List NodeId :=
  ((JsMap.values runtimesGraph._graph.nodes).filter Node.isDependency).flatMap (fun d =>
    ((runtimesGraph._graph.idsConnectedFrom d.id none).filterMap
      runtimesGraph._graph.getNode).filterMap (fun n =>
        match n.value with
        | NodeValue.asset a => some a.id
        | _ => none))

/-- A visitor that also keeps the log of the walk: the nodes entered, in order,
each with the `Bool` of its visit (whether the subtree below it was pruned).
The log is not read by the visitor. -/
def Graph.logged {σ : Type} (visit : σ → Node → Except PassError (σ × Bool)) :
    σ × List (Node × Bool) → Node → Except PassError ((σ × List (Node × Bool)) × Bool) :=
  fun s node =>
    match visit s.1 node with
    | .error e => .error e
    | .ok (s1, skipped) => .ok ((s1, s.2 ++ [(node, skipped)]), skipped)

/-- A node of the log of a walk is entered from the start or from a node of the
log that was not pruned: it is the start node, or one of the nodes connected
from a logged node whose subtree was not skipped. -/
def Graph.EnteredFrom (g : Graph) (start : Node) (log : List (Node × Bool)) (node : Node) :
    Prop :=
  node = start ∨ ∃ p, (p, false) ∈ log ∧
    ∃ children, g.getNodesConnectedFrom p none = .ok children ∧ node ∈ children

/-- The dependency node `node` of the runtimes graph points to an asset of
identifier `x` that is reachable from the bundle in the main graph or has the
identifier of the resolution: what the first traversal marks as duplicated at
`node`. -/
def PointsToDuplicate (X : Externals) (bundleGraph runtimesGraph : InternalBundleGraph)
    (bundle : InternalBundle) (resolution : Option Asset) (node : Node) (x : NodeId) : Prop :=
  node.isDependency = true ∧
  ∃ assetNodes, runtimesGraph._graph.getNodesConnectedFrom node none = .ok assetNodes ∧
    ∃ n ∈ assetNodes, ∃ a, n.value = NodeValue.asset a ∧ a.id = x ∧
      (X.isAssetReachableFromBundle bundleGraph a (bundleGraph.currentBundle bundle) = true ∨
        resolution.map (fun r => r.id) = some a.id)

/-- The first traversal of a connection (lines 149-170) with its log: the
duplicated identifiers, the log of the walk, and the error thrown, if any. -/
def duplicatedWalk (X : Externals) (bundleGraph runtimesGraph : InternalBundleGraph)
    (bundle : InternalBundle) (resolution : Option Asset) (runtimeNode : Node) :
    (JsSet NodeId × List (Node × Bool)) × Option PassError :=
  runtimesGraph._graph.traverse
    (Graph.logged (visitDuplicated X bundleGraph runtimesGraph bundle resolution))
    runtimeNode ([], [])

/-- The second traversal of a connection (lines 172-181) with its log: the
bundle graph it leaves, the log of the walk, and the error thrown, if any. -/
def containsWalk (runtimesGraph : InternalBundleGraph) (bundle : InternalBundle)
    (duplicatedAssetIds : JsSet NodeId) (runtimeNode : Node)
    (bundleGraph : InternalBundleGraph) :
    (InternalBundleGraph × List (Node × Bool)) × Option PassError :=
  runtimesGraph._graph.traverse
    (Graph.logged (visitContains bundle duplicatedAssetIds)) runtimeNode (bundleGraph, [])

/-- The duplicated identifiers of a connection: what the first walk of the body
of the loop leaves in `duplicatedAssetIds` (lines 148-170). -/
def duplicatedIdsOf (X : Externals) (runtimesGraph bundleGraph : InternalBundleGraph)
    (connection : RuntimeConnection) (runtimeNode : Node) : JsSet NodeId :=
  (duplicatedWalk X bundleGraph runtimesGraph connection.bundle
    (resolutionOf X bundleGraph connection.bundle connection.dependency) runtimeNode).1.1

/-- The bundle graph of a connection after the containment walk (lines
172-181). -/
def containedGraph (X : Externals) (runtimesGraph bundleGraph : InternalBundleGraph)
    (connection : RuntimeConnection) (runtimeNode : Node) : InternalBundleGraph :=
  (containsWalk runtimesGraph connection.bundle
    (duplicatedIdsOf X runtimesGraph bundleGraph connection runtimeNode) runtimeNode
    bundleGraph).1.1

/-- The bundle graph of a connection after the entry step (lines 183-189). -/
def enteredGraph (X : Externals) (runtimesGraph bundleGraph : InternalBundleGraph)
    (connection : RuntimeConnection) (runtimeNode : Node) : InternalBundleGraph :=
  (entryStep (containedGraph X runtimesGraph bundleGraph connection runtimeNode)
    connection.bundle runtimeNode connection.isEntry).1

/-- The identifiers of the runtime nodes of the connections of a bundle whose
`isEntry` is true, in the order of the connections. -/
def entryRuntimeIds (X : Externals) (runtimesAssetGraph : Graph) (bundleId : NodeId)
    (connections : List RuntimeConnection) : List NodeId :=
  connections.filterMap (fun connection =>
    if connection.bundle.id = bundleId ∧ connection.isEntry = some true then
      match locateRuntimeNode X runtimesAssetGraph connection.assetGroup with
      | .ok runtimeNode => some runtimeNode.id
      | .error _ => none
    else none)

/-- Every node connected from `runtimeNode` in the runtimes graph is a dependency
node, and every node connected from such a dependency is an asset node, held
under the identifier of its asset, whose asset is reachable from the bundle
in the main graph or has the identifier of the resolution of the connection. -/
def dependenciesResolveToDuplicates (X : Externals)
    (runtimesGraph bundleGraph : InternalBundleGraph) (connection : RuntimeConnection)
    (runtimeNode : Node) : Bool :=
  match runtimesGraph._graph.getNodesConnectedFrom runtimeNode none with
  | .error _ => true
  | .ok children =>
    children.all (fun dependencyNode =>
      dependencyNode.isDependency &&
      match runtimesGraph._graph.getNodesConnectedFrom dependencyNode none with
      | .error _ => true
      | .ok assetNodes =>
        assetNodes.all (fun assetNode =>
          match assetNode.value with
          | NodeValue.asset asset =>
            decide (assetNode.id = asset.id) &&
            (X.isAssetReachableFromBundle bundleGraph asset
                (bundleGraph.currentBundle connection.bundle) ||
              decide ((resolutionOf X bundleGraph connection.bundle
                connection.dependency).map (fun r => r.id) = some asset.id))
          | _ => false))

/-- The error is a structured diagnostic: a `ThrowableDiagnostic`. -/
def PassError.isStructuredDiagnostic : PassError → Bool
  | PassError.throwableDiagnostic _ => true
  | _ => false

/-- The link step as the spec words it (section 4.3, steps 6 and 7): the island
check is made only when the dependency is absent and `isEntry` is not true;
with a dependency the edge from the dependency to `runtimeNode` is added. -/
def specLinkStep (bundleGraph : InternalBundleGraph) (runtimeNode : Node)
    (isEntry : Option Bool) : Option Dependency → InternalBundleGraph × Option PassError
  | none =>
    if isEntry = some true then (bundleGraph, none)
    else
      match bundleGraph._graph.getNodesConnectedTo runtimeNode none with
      | .error e => (bundleGraph, some e)
      | .ok inbound =>
        if inbound.length > 0 then (bundleGraph, none)
        else (bundleGraph, some (PassError.assertionError
          (some "Runtime must have an inbound dependency or be an entry")))
  | some dependency =>
    ({ bundleGraph with
        _graph := bundleGraph._graph.addEdge dependency.id runtimeNode.id none }, none)

/-- Line 188 on one bundle object: `entryAssetIds.unshift(id)` when the object
is the bundle of identifier `bundleId`, and the object as it is otherwise. -/
def unshifted (bundleId id : NodeId) (b : InternalBundle) : InternalBundle :=
  if b.id = bundleId then { b with entryAssetIds := id :: b.entryAssetIds } else b

/-- The number of default edges that leave a node not yet entered: with the
length of the stack, the measure that bounds the steps a walk has left. -/
def Graph.pendingEdges (g : Graph) (visited : List NodeId) : Nat :=
  (g.edges.filter (fun e => decide (e.type = none) && !(decide (e.fromId ∈ visited)))).length

/-! ## A small concrete world, for evaluating the definitions -/

namespace Example

/-- The directory part of a path: the characters before the last `/`. -/
def dirnameChars : List Char → List Char
  | [] => []
  | c :: rest =>
    if rest.contains '/' then c :: dirnameChars rest else []

/-- Stand-ins for the imported functions: hashes that keep their input
readable, `path.join` and `path.dirname` on POSIX paths, a bundle graph made
of the asset and dependency nodes of the asset graph, a dependency resolving
to the first node it points to, and containment as reachability. -/
def externals : Externals where
  md5FromString := fun code => "md5(" ++ code ++ ")"
  md5FromObject := fun g =>
    "request(" ++ g.filePath ++ "," ++ g.code ++ "," ++ g.env.context ++ "," ++ g.mapBuffer ++ ")"
  pathJoin := fun a b => a ++ "/" ++ b
  pathDirname := fun p => String.mk (dirnameChars p.data)
  emptyMapBuffer := fun _ name _ => "map(" ++ name ++ ")"
  errorToDiagnostic := fun e origin => { message := e.message, origin := origin }
  fromAssetGraph := fun g publicIds allocated =>
    { _graph :=
        { nodes := g.nodes.filter (fun kv => !(kv.2.isAssetGroup))
          edges := g.edges.filter (fun e =>
            match g.getNode e.fromId, g.getNode e.toId with
            | some a, some b => !(a.isAssetGroup) && !(b.isAssetGroup)
            | _, _ => false)
          rootNodeId := g.rootNodeId }
      _publicIdByAssetId := publicIds
      _assetPublicIds := allocated }
  getDependencyResolution := fun bg dependency _ =>
    match (bg._graph.idsConnectedFrom dependency.id none).filterMap bg._graph.getNode with
    | { id := _, value := NodeValue.asset a } :: _ => some a
    | _ => none
  isAssetReachableFromBundle := fun bg asset bundle =>
    bg._graph.hasEdge bundle.id asset.id (some "contains")

/-- A builder whose `build()` gives every request node without an asset one
asset, named after the request. -/
def buildGraph (g : Graph) : Except PassError Graph :=
  .ok (g.getEntryAssetGroupNodes.foldl (fun (acc : Graph) request =>
    if (acc.idsConnectedFrom request.id none).isEmpty then
      (acc.addNode { id := "asset(" ++ request.id ++ ")",
                     value := NodeValue.asset { id := "asset(" ++ request.id ++ ")", type := "js" } }
        ).addEdge request.id ("asset(" ++ request.id ++ ")") none
    else acc) g)

def browser : Environment := { context := "browser", outputFormat := "global" }

def worker : Environment := { context := "web-worker", outputFormat := "global" }

def pluginOptions : PluginOptions := { projectRoot := "/project" }

def bundleA : InternalBundle := { id := "bundleA", type := "js", env := browser, entryAssetIds := ["main"] }

def bundleB : InternalBundle := { id := "bundleB", type := "js", env := browser, entryAssetIds := [] }

def bundleW : InternalBundle := { id := "bundleW", type := "js", env := worker, entryAssetIds := [] }

/-- A stylesheet bundle of the browser environment. -/
def bundleC : InternalBundle := { id := "bundleC", type := "css", env := browser, entryAssetIds := [] }

def register : RuntimeAsset :=
  { code := "register()", dependency := none, filePath := "/rt/loader.js", isEntry := some true }

/-- A record with the code of `register`, returned under another file name of
the same directory. -/
def registerCopy : RuntimeAsset :=
  { code := "register()", dependency := none, filePath := "/rt/other.js", isEntry := some true }

def hmr : RuntimeAsset :=
  { code := "hmr()", dependency := none, filePath := "/rt/hmr.js", isEntry := some true }

def preload : RuntimeAsset :=
  { code := "preload()", dependency := none, filePath := "/rt/preload.js", isEntry := some true }

/-- The root of the example graphs. -/
def rootNode : Node := { id := "@@root", value := NodeValue.root }

/-- The request node of a record for `bundleA`. -/
def requestNode (record : RuntimeAsset) : Node :=
  nodeFromAssetGroup externals.md5FromObject (assetGroupOf externals pluginOptions bundleA record)

/-- An asset graph whose root holds the requests of `register` and `hmr`. -/
def oldAssetGraph : Graph :=
  { nodes := [(rootNode.id, rootNode), ((requestNode register).id, requestNode register),
      ((requestNode hmr).id, requestNode hmr)]
    edges := [⟨rootNode.id, (requestNode register).id, none⟩,
      ⟨rootNode.id, (requestNode hmr).id, none⟩]
    rootNodeId := some rootNode.id }

/-- Connections that request `hmr` and `preload`. -/
def newConnections : List RuntimeConnection :=
  [connectionOf externals pluginOptions bundleA hmr,
   connectionOf externals pluginOptions bundleA preload]

/-- Connections that request `register` and `hmr`, the requests
`oldAssetGraph` holds. -/
def sameConnections : List RuntimeConnection :=
  [connectionOf externals pluginOptions bundleA hmr,
   connectionOf externals pluginOptions bundleA register,
   connectionOf externals pluginOptions bundleB hmr]

/-- An asset graph that holds the root only. -/
def emptyAssetGraph : Graph :=
  { nodes := [(rootNode.id, rootNode)], edges := [], rootNodeId := some rootNode.id }

/-- The runtimes builder of the example passes. -/
def runtimesBuilder : AssetGraphBuilder :=
  { assetGraph := emptyAssetGraph, build := buildGraph }

/-- A bundle graph with two browser bundles and a worker bundle; `bundleA`
contains its entry asset `main`. -/
def bundleGraph : InternalBundleGraph :=
  { _graph :=
      { nodes := [(rootNode.id, rootNode),
          ("bundleA", { id := "bundleA", value := NodeValue.bundle bundleA }),
          ("main", { id := "main", value := NodeValue.asset { id := "main", type := "js" } }),
          ("bundleB", { id := "bundleB", value := NodeValue.bundle bundleB }),
          ("bundleW", { id := "bundleW", value := NodeValue.bundle bundleW })]
        edges := [⟨"@@root", "bundleA", none⟩, ⟨"bundleA", "main", none⟩,
          ⟨"bundleA", "main", some "contains"⟩, ⟨"@@root", "bundleB", none⟩,
          ⟨"@@root", "bundleW", none⟩]
        rootNodeId := some rootNode.id }
    _publicIdByAssetId := [("main", "m1")]
    _assetPublicIds := ["m1"] }

/-- A provider that returns the single record `register`. -/
def registerRuntime : Runtime :=
  { name := "runtime-register", apply := fun _ _ => .ok (Applied.single register) }

/-- A provider that returns nothing. -/
def silentRuntime : Runtime :=
  { name := "runtime-silent", apply := fun _ _ => .ok Applied.absent }

/-- A provider that returns the records `hmr` and `preload` for `bundleA` and
an empty array for every other bundle. -/
def hmrRuntime : Runtime :=
  { name := "runtime-hmr"
    apply := fun bundle _ =>
      if bundle.id = "bundleA" then .ok (Applied.many [hmr, preload]) else .ok (Applied.many []) }

/-- A provider that throws for `bundleB`. -/
def failingRuntime : Runtime :=
  { name := "runtime-failing"
    apply := fun bundle _ =>
      if bundle.id = "bundleB" then .error { message := "boom" } else .ok Applied.absent }

/-- A configuration whose providers all succeed. -/
def config : ParcelConfig :=
  { getRuntimes := fun context =>
      if context = "browser" then [registerRuntime, silentRuntime, hmrRuntime]
      else [registerRuntime] }

/-- A configuration one of whose providers throws for `bundleB`. -/
def failingConfig : ParcelConfig :=
  { getRuntimes := fun context =>
      if context = "browser" then [registerRuntime, failingRuntime, hmrRuntime]
      else [registerRuntime] }

/-- A builder whose `build()` returns the graph as it is, leaving the requests
without assets. -/
def idleBuilder : AssetGraphBuilder :=
  { assetGraph := emptyAssetGraph, build := fun g => .ok g }

/-! ### A world with shared assets and dependencies -/

/-- Stand-ins for the imported functions, closer to the bundle graph: the bundle
graph of an asset graph connects a dependency to the assets of the request it
points to, and an asset is reachable from a bundle when another bundle
contains it. -/
def sharedExternals : Externals :=
  { externals with
    fromAssetGraph := fun g publicIds allocated =>
      { _graph :=
          { nodes := g.nodes.filter (fun kv => !(kv.2.isAssetGroup))
            edges := g.edges.flatMap (fun e =>
              match g.getNode e.fromId, g.getNode e.toId with
              | some a, some b =>
                if a.isAssetGroup then []
                else if b.isAssetGroup then
                  (g.idsConnectedFrom b.id none).map (fun id => ⟨e.fromId, id, e.type⟩)
                else [e]
              | _, _ => [])
            rootNodeId := g.rootNodeId }
        _publicIdByAssetId := publicIds
        _assetPublicIds := allocated }
    isAssetReachableFromBundle := fun bg asset bundle =>
      bg._graph.edges.any (fun e =>
        decide (e.type = some "contains") && decide (e.toId = asset.id) &&
          !(decide (e.fromId = bundle.id))) }

def parentBundle : InternalBundle :=
  { id := "parent", type := "js", env := browser, entryAssetIds := ["main"] }

def childBundle : InternalBundle :=
  { id := "child", type := "js", env := browser, entryAssetIds := ["lazy"] }

/-- A dependency of `main` that no asset resolves yet. -/
def loaderDependency : Dependency := { id := "dep:loader", specifier := "./loader" }

def assetNode (id : NodeId) : Node :=
  { id := id, value := NodeValue.asset { id := id, type := "js" } }

def dependencyNode (id : NodeId) (specifier : String) : Node :=
  { id := id, value := NodeValue.dependency { id := id, specifier := specifier } }

/-- A request of the asset graph for a file of the project. -/
def fileRequestNode (id : NodeId) (filePath : String) : Node :=
  { id := id
    value := NodeValue.asset_group
      { code := "", sourcesContent := [], mapBuffer := "", filePath := filePath,
        env := browser, isSource := true, query := [] } }

/-- A bundle graph with a parent bundle that contains `main`, `helperA` and
`helperC`, and a child bundle that contains `lazy`. -/
def sharedBundleGraph : InternalBundleGraph :=
  { _graph :=
      { nodes := [(rootNode.id, rootNode),
          ("parent", { id := "parent", value := NodeValue.bundle parentBundle }),
          ("main", assetNode "main"),
          ("helperA", assetNode "helperA"),
          ("helperC", assetNode "helperC"),
          ("dep:loader", dependencyNode "dep:loader" "./loader"),
          ("child", { id := "child", value := NodeValue.bundle childBundle }),
          ("lazy", assetNode "lazy")]
        edges := [⟨"@@root", "parent", none⟩, ⟨"parent", "main", none⟩,
          ⟨"parent", "main", some "contains"⟩, ⟨"parent", "helperA", some "contains"⟩,
          ⟨"parent", "helperC", some "contains"⟩, ⟨"main", "dep:loader", none⟩,
          ⟨"parent", "dep:loader", some "contains"⟩, ⟨"parent", "child", none⟩,
          ⟨"child", "lazy", none⟩, ⟨"child", "lazy", some "contains"⟩]
        rootNodeId := some rootNode.id }
    _publicIdByAssetId := [("main", "m1")]
    _assetPublicIds := ["m1"] }

/-- The record of a loader that is an entry of its bundle. -/
def loader : RuntimeAsset :=
  { code := "loader()", dependency := none, filePath := "/rt/loader.js", isEntry := some true }

/-- A provider that returns `loader` for the child bundle only. -/
def loaderRuntime : Runtime :=
  { name := "runtime-loader"
    apply := fun bundle _ =>
      if bundle.id = "child" then .ok (Applied.single loader) else .ok Applied.absent }

def loaderConfig : ParcelConfig := { getRuntimes := fun _ => [loaderRuntime] }

/-- A `build()` that gives every request of the root one asset with one
dependency `helpers`, which is resolved by the request of the helper files:
to the asset `helperA`, which the parent bundle contains, and, when
`withHelperB` is set, also to a new asset `helperB`, itself with a dependency
that resolves to `helperC`, which the parent bundle contains too. -/
def buildWithHelpers (withHelperB : Bool) (g : Graph) : Except PassError Graph :=
  .ok (g.getEntryAssetGroupNodes.foldl (fun (acc : Graph) request =>
    let withRuntime :=
      ((((((acc.addNode (assetNode ("asset(" ++ request.id ++ ")"))
        ).addNode (dependencyNode "dep:helpers" "./helpers")
        ).addNode (fileRequestNode "request:helpers" "/src/helpers.js")
        ).addNode (assetNode "helperA")
        ).addEdge request.id ("asset(" ++ request.id ++ ")") none
        ).addEdge ("asset(" ++ request.id ++ ")") "dep:helpers" none
        ).addEdge "dep:helpers" "request:helpers" none
    let withHelperA := withRuntime.addEdge "request:helpers" "helperA" none
    if withHelperB then
      (((((((withHelperA.addNode (assetNode "helperB")
        ).addNode (dependencyNode "dep:helperC" "./helperC")
        ).addNode (fileRequestNode "request:helperC" "/src/helperC.js")
        ).addNode (assetNode "helperC")
        ).addEdge "request:helpers" "helperB" none
        ).addEdge "helperB" "dep:helperC" none
        ).addEdge "dep:helperC" "request:helperC" none
        ).addEdge "request:helperC" "helperC" none
    else withHelperA) g)

/-- A builder whose runtime asset depends on `helperA` only. -/
def helperABuilder : AssetGraphBuilder :=
  { assetGraph := emptyAssetGraph, build := buildWithHelpers false }

/-- A builder whose runtime asset depends on `helperA` and `helperB`, the latter
on `helperC`. -/
def helperABBuilder : AssetGraphBuilder :=
  { assetGraph := emptyAssetGraph, build := buildWithHelpers true }

/-- Two records that both satisfy the dependency `dep:loader`. -/
def load1 : RuntimeAsset :=
  { code := "load1()", dependency := some loaderDependency, filePath := "/rt/load1.js",
    isEntry := none }

def load2 : RuntimeAsset :=
  { code := "load2()", dependency := some loaderDependency, filePath := "/rt/load2.js",
    isEntry := none }

/-- A provider that returns `load1` and `load2` for the parent bundle. -/
def loadRuntime : Runtime :=
  { name := "runtime-load"
    apply := fun bundle _ =>
      if bundle.id = "parent" then .ok (Applied.many [load1, load2]) else .ok Applied.absent }

def loadConfig : ParcelConfig := { getRuntimes := fun _ => [loadRuntime] }

/-- A record without dependency that is not an entry. -/
def island : RuntimeAsset :=
  { code := "island()", dependency := none, filePath := "/rt/island.js", isEntry := some false }

/-- A provider that returns `island` for the child bundle. -/
def islandRuntime : Runtime :=
  { name := "runtime-island"
    apply := fun bundle _ =>
      if bundle.id = "child" then .ok (Applied.single island) else .ok Applied.absent }

def islandConfig : ParcelConfig := { getRuntimes := fun _ => [islandRuntime] }

/-- The asset graph a builder returns for a list of connections; the asset
graph it holds if the reconciliation throws. -/
def reconciled (X : Externals) (builder : AssetGraphBuilder)
    (connections : List RuntimeConnection) : Graph :=
  match reconcileNewRuntimes X builder connections with
  | .ok g => g
  | .error _ => builder.assetGraph

/-- The runtimes graph of a pass on `sharedBundleGraph`. -/
def sharedRuntimesGraph (runtimesAssetGraph : Graph) : InternalBundleGraph :=
  sharedExternals.fromAssetGraph runtimesAssetGraph sharedBundleGraph._publicIdByAssetId
    sharedBundleGraph._assetPublicIds

/-- The connections of the pass with `loadConfig`. -/
def loadConnections : List RuntimeConnection :=
  [connectionOf sharedExternals pluginOptions parentBundle load1,
   connectionOf sharedExternals pluginOptions parentBundle load2]

/-- The reconciled asset graph of the pass with `loadConfig`. -/
def loadAssetGraph : Graph := reconciled sharedExternals runtimesBuilder loadConnections

/-- The bundle graph of the pass with `loadConfig` after the merge. -/
def loadMerged : InternalBundleGraph :=
  mergeRuntimesGraph sharedBundleGraph (sharedRuntimesGraph loadAssetGraph)

/-- The runtime node of `load2`. -/
def load2Node : Node :=
  assetNode "asset(request(/rt/load2.js,load2(),browser,map(/rt/runtime-md5(load2()).js)))"

/-- The connections of the pass with `loaderConfig`. -/
def loaderConnections : List RuntimeConnection :=
  [connectionOf sharedExternals pluginOptions childBundle loader]

/-- The reconciled asset graph of the pass with `loaderConfig` and a builder of
`buildWithHelpers`. -/
def helperAssetGraph (withHelperB : Bool) : Graph :=
  reconciled sharedExternals
    { assetGraph := emptyAssetGraph, build := buildWithHelpers withHelperB } loaderConnections

/-- The bundle graph of that pass after the merge. -/
def helperMerged (withHelperB : Bool) : InternalBundleGraph :=
  mergeRuntimesGraph sharedBundleGraph (sharedRuntimesGraph (helperAssetGraph withHelperB))

/-- The runtime node of `loader`. -/
def loaderNode : Node :=
  assetNode "asset(request(/rt/loader.js,loader(),browser,map(/rt/runtime-md5(loader()).js)))"

/-- The runtime node of `load1`. -/
def load1Node : Node :=
  assetNode "asset(request(/rt/load1.js,load1(),browser,map(/rt/runtime-md5(load1()).js)))"

/-- The connection of the pass with `islandConfig`. -/
def islandConnection : RuntimeConnection :=
  connectionOf externals pluginOptions childBundle island

/-- The reconciled asset graph of the pass with `islandConfig`. -/
def islandAssetGraph : Graph := reconciled externals runtimesBuilder [islandConnection]

/-- The runtimes graph of the pass with `islandConfig`, with the stand-ins of
`externals`. -/
def islandRuntimesGraph : InternalBundleGraph :=
  externals.fromAssetGraph islandAssetGraph sharedBundleGraph._publicIdByAssetId
    sharedBundleGraph._assetPublicIds

/-- The bundle graph of the pass with `islandConfig` after the merge. -/
def islandMerged : InternalBundleGraph :=
  mergeRuntimesGraph sharedBundleGraph islandRuntimesGraph

/-- The runtime node of `island`. -/
def islandNode : Node :=
  assetNode "asset(request(/rt/island.js,island(),browser,map(/rt/runtime-md5(island()).js)))"

/-- Stand-ins whose bundle graph of an asset graph comes with a public-id
mapping that collides with the one of `sharedBundleGraph`: `main` is mapped to
another public id, and the public id of `main` is given to `lazy`. -/
def collidingExternals : Externals :=
  { sharedExternals with
    fromAssetGraph := fun g publicIds allocated =>
      { sharedExternals.fromAssetGraph g publicIds allocated with
        _publicIdByAssetId := [("main", "zz"), ("lazy", "m1")] } }

end Example

/-! # The REPL state reducer

A shallow embedding of `packages/dev/repl/src/utils/state.js`: the state of the
REPL and `reducer`. The class `FS`, `join` and `ASSET_PRESETS` of `./assets`
are not among the sources and are taken as parameters, as are `path.basename`
and `path.dirname`. -/

namespace Repl

/-- What `files.get(name)` returns, as far as the reducer reads it: its `value`;
`none` stands for `undefined`, the `value` of a folder. -/
structure FsItem where
  value : Option String
deriving DecidableEq, Repr

/-- The argument of `files.setMerge(name, ...)`: `{value}` (lines 115 and 129) or
`{isEntry}` (line 205). -/
inductive FsPatch where
  | value (value : String)
  | isEntry (value : Bool)
deriving DecidableEq, Repr

/-- The imports of `state.js` that are not among the sources, over a type `F` of
file systems: the methods of the class `FS` that the reducer calls, `new FS()`,
`join`, `path.basename`, `path.dirname`, and `ASSET_PRESETS.get(name)` with its
file system already built and its options. -/
structure Env (F : Type) where
  get : F → String → Option FsItem
  has : F → String → Bool
  set : F → String → FsItem → F
  setMerge : F → String → FsPatch → F
  delete : F → String → F
  move : F → String → String → F
  empty : F
  join : String → String → String
  basename : String → String
  dirname : String → String
  presets : String → Option (F × JsMap String String)

/-- A view: `{value}` or `{component}` (line 27). The value is `none` when it is
`undefined`, as for a view opened on a folder (line 76). -/
inductive View where
  | text (value : Option String)
  | component (component : String)
deriving DecidableEq, Repr

/-- The field `data.value` of a view; `undefined` for a component. -/
def View.value : View → Option String
  | View.text value => value
  | View.component _ => none

/-- Lines 24-33: `State`. Option values and diagnostics are kept as text. -/
structure State (F : Type) where
  currentView : Int
  files : F
  views : JsMap String View
  browserExpanded : JsSet String
  isEditing : Option String
  options : JsMap String String
  useTabs : Bool
  diagnostics : JsMap String (List String)
deriving DecidableEq, Repr

/-- The actions of `reducer`, by `action.type`, with the fields of `action` that
the case reads; `other` is any type without a case. -/
inductive Action where
  | viewSelect (index : Int)
  | viewOpen (name : String) (component : Option String)
  | viewClose (name : String)
  | viewSetValue (name : String) (value : String)
  | viewSaveCurrent
  | viewCloseCurrent
  | fileMove (name dir : String)
  | fileDelete (name : String)
  | fileAddFile
  | fileAddFolder
  | fileIsEntry (name : String) (value : Bool)
  | browserExpandToggle (name : String)
  | browserSetEditing (name : Option String) (value : String)
  | presetLoad (name : Option String)
  | options (name value : String)
  | toggleView
  | diagnostics (value : Option (JsMap String (List String)))
  | other (type : String)
deriving DecidableEq, Repr

/-- What `reducer` throws; `outOfSteps` is the model's answer when the loop of
lines 184 or 194 has not ended within the steps it was given. -/
inductive ReplError where
  | nullthrows
  | typeError
  | error
  | outOfSteps
deriving DecidableEq, Repr

/-- `nullthrows(x)`. -/
def nullthrows {α : Type} : Option α → Except ReplError α
  | some a => .ok a
  | none => .error ReplError.nullthrows

/-- JS truthiness of `data.value`: `undefined` and the empty string are falsy. -/
def truthy : Option String → Bool
  | some v => !(decide (v = ""))
  | none => false

/-- JS `array.findIndex(p)`: the index of the first element that satisfies `p`,
`-1` if there is none. -/
def findIndex {α : Type} (p : α → Bool) (xs : List α) : Int :=
  if xs.any p then (xs.findIdx p : Int) else -1

/-- JS `array[i]` for a number `i`: `undefined` unless `i` is an index of the
array. -/
def atIndex {α : Type} (xs : List α) (i : Int) : Option α :=
  if 0 ≤ i then xs.get? i.toNat else none

/-- JS `name.startsWith(start)`. -/
def startsWith (name start : String) : Bool :=
  start.data.isPrefixOf name.data

/-- Lines 8-22: `DEFAULT_OPTIONS`. -/
def DEFAULT_OPTIONS : JsMap String String :=
  [("entries", "[]"), ("minify", "false"), ("scopeHoist", "true"), ("sourceMaps", "false"),
   ("publicUrl", "/__repl_dist"), ("targetType", "browsers"), ("targetEnv", "null"),
   ("outputFormat", "null"), ("hmr", "false"), ("mode", "production"),
   ("renderGraphs", "false"), ("viewSourcemaps", "false"), ("dependencies", "[]")]

/-- Lines 35-44: `initialState`. -/
def initialState {F : Type} (env : Env F) : State F :=
  { currentView := 0
    files := env.empty
    views := []
    browserExpanded := []
    isEditing := none
    options := DEFAULT_OPTIONS
    useTabs := true
    diagnostics := [] }

/-- Lines 46-56: `loadPreset(name)`. -/
def loadPreset {F : Type} (env : Env F) (name : String) : Except ReplError (State F) :=
  match nullthrows (env.presets name) with
  | .error e => .error e
  | .ok preset =>
    .ok { initialState env with
      files := preset.1
      options := preset.2.foldl (fun m e => JsMap.set m e.1 e.2) (initialState env).options }

/-- Lines 69-85: `view.open`. -/
def viewOpen {F : Type} (env : Env F) (state : State F) (name : String)
    (component : Option String) : Except ReplError (State F) :=
  let data : Except ReplError View :=
    match component with
    | some c => .ok (View.component c)
    | none =>
      match nullthrows (env.get state.files name) with
      | .error e => .error e
      | .ok file => .ok (View.text file.value)
  match data with
  | .error e => .error e
  | .ok view =>
    let views := JsMap.ofEntries (state.views ++ [(name, view)])
    let viewIndex := findIndex (fun entry => decide (entry.1 = name)) views
    .ok { state with views := views, currentView := viewIndex }

/-- Lines 86-90: `view.close`. -/
def viewClose {F : Type} (state : State F) (name : String) : State F :=
  { state with
    views := JsMap.ofEntries (state.views.filter (fun entry => !(decide (entry.1 = name)))) }

/-- Lines 91-103: `view.setValue`. -/
def viewSetValue {F : Type} (state : State F) (name value : String) :
    Except ReplError (State F) :=
  match nullthrows (JsMap.get state.views name) with
  | .error e => .error e
  | .ok data =>
    if !(truthy data.value) then .ok state
    else
      .ok { state with
        views := JsMap.ofEntries (state.views ++ [(name, View.text (some value))]) }

/-- Lines 105-116: `view.saveCurrent` with tabs. -/
def saveCurrentTab {F : Type} (env : Env F) (state : State F) : Except ReplError (State F) :=
  match atIndex state.views state.currentView with
  | none => .error ReplError.typeError
  | some (name, view) =>
    match view.value with
    | none => .ok state
    | some value =>
      match nullthrows (env.get state.files name) with
      | .error e => .error e
      | .ok file =>
        if file.value = some value then .ok state
        else .ok { state with files := env.setMerge state.files name (FsPatch.value value) }

/-- Lines 118-130: the loop of `view.saveCurrent` without tabs, over the views
that are left, with the files written so far. -/
def saveViews {F : Type} (env : Env F) (state : State F) :
    List (String × View) → F → Except ReplError F
  | [], files => .ok files
  | (name, view) :: rest, files =>
    match view.value with
    | none => saveViews env state rest files
    | some value =>
      match nullthrows (env.get state.files name) with
      | .error e => .error e
      | .ok file =>
        if file.value = some value then saveViews env state rest files
        else saveViews env state rest (env.setMerge files name (FsPatch.value value))

/-- Lines 117-137: `view.saveCurrent` without tabs. -/
def saveCurrentAll {F : Type} (env : Env F) (state : State F) : Except ReplError (State F) :=
  match saveViews env state state.views state.files with
  | .error e => .error e
  | .ok files => .ok { state with files := files }

/-- Lines 139-145: `view.closeCurrent`. -/
def viewCloseCurrent {F : Type} (state : State F) : State F :=
  { state with
    views := JsMap.ofEntries
      ((state.views.enum.filter (fun entry => !(decide ((entry.1 : Int) = state.currentView)))).map
        Prod.snd) }

/-- Lines 158-172 and 220-232: the renaming of a file in the files, in the
expanded folders and in the views. -/
def rename {F : Type} (env : Env F) (state : State F) (oldName newName : String) : State F :=
  { state with
    files := env.move state.files oldName newName
    browserExpanded := JsSet.ofList
      (state.browserExpanded.map (fun f => if f = oldName then newName else f))
    views := JsMap.ofEntries
      (state.views.map (fun entry => (if entry.1 = oldName then newName else entry.1, entry.2))) }

/-- Lines 174-181: `file.delete`. -/
def fileDelete {F : Type} (env : Env F) (state : State F) (name : String) : State F :=
  { state with
    files := env.delete state.files name
    views := JsMap.ofEntries (state.views.filter (fun entry => !(startsWith entry.1 name))) }

/-- Lines 183-186 and 193-196: the loop `while (state.files.has(name(i))) i++`,
for at most `steps` increments. -/
def firstFree (has : String → Bool) (name : Nat → String) : Nat → Nat → Option Nat
  | 0, i => if has (name i) then none else some i
  | steps + 1, i => if has (name i) then firstFree has name steps (i + 1) else some i

/-- Lines 182-191: `file.addFile`. -/
def fileAddFile {F : Type} (env : Env F) (steps : Nat) (state : State F) :
    Except ReplError (State F) :=
  match firstFree (env.has state.files) (fun i => "/file" ++ toString i ++ ".js") steps 1 with
  | none => .error ReplError.outOfSteps
  | some i =>
    .ok { state with
      files := env.set state.files ("/file" ++ toString i ++ ".js") { value := some "" } }

/-- Lines 192-201: `file.addFolder`. -/
def fileAddFolder {F : Type} (env : Env F) (steps : Nat) (state : State F) :
    Except ReplError (State F) :=
  match firstFree (env.has state.files) (fun i => "/folder" ++ toString i) steps 1 with
  | none => .error ReplError.outOfSteps
  | some i =>
    .ok { state with files := env.set state.files ("/folder" ++ toString i) { value := none } }

/-- Lines 208-215: `browser.expandToggle`. -/
def browserExpandToggle {F : Type} (state : State F) (name : String) : State F :=
  { state with
    browserExpanded :=
      if JsSet.has state.browserExpanded name then
        JsSet.ofList (state.browserExpanded.filter (fun n => !(decide (n = name))))
      else JsSet.ofList (state.browserExpanded ++ [name]) }

/-- Lines 216-238: `browser.setEditing`. -/
def browserSetEditing {F : Type} (env : Env F) (state : State F) (name : Option String)
    (value : String) : State F :=
  let renamed :=
    match state.isEditing, name with
    | some oldName, none => rename env state oldName (env.join (env.dirname oldName) value)
    | _, _ => state
  { renamed with isEditing := if truthy name then name else none }

/-- Lines 65-263: `reducer(state, action)`; `steps` bounds the loops of
`file.addFile` and `file.addFolder`. -/
def reducer {F : Type} (env : Env F) (steps : Nat) (state : State F) :
    Action → Except ReplError (State F)
  | Action.viewSelect index => .ok { state with currentView := index }
  | Action.viewOpen name component => viewOpen env state name component
  | Action.viewClose name => .ok (viewClose state name)
  | Action.viewSetValue name value => viewSetValue state name value
  | Action.viewSaveCurrent =>
    if state.useTabs then saveCurrentTab env state else saveCurrentAll env state
  | Action.viewCloseCurrent => .ok (viewCloseCurrent state)
  | Action.fileMove name dir => .ok (rename env state name (env.join dir (env.basename name)))
  | Action.fileDelete name => .ok (fileDelete env state name)
  | Action.fileAddFile => fileAddFile env steps state
  | Action.fileAddFolder => fileAddFolder env steps state
  | Action.fileIsEntry name value =>
    .ok { state with files := env.setMerge state.files name (FsPatch.isEntry value) }
  | Action.browserExpandToggle name => .ok (browserExpandToggle state name)
  | Action.browserSetEditing name value => .ok (browserSetEditing env state name value)
  | Action.presetLoad name => loadPreset env (name.getD "Javascript")
  | Action.options name value => .ok { state with options := JsMap.set state.options name value }
  | Action.toggleView => .ok { state with useTabs := !state.useTabs }
  | Action.diagnostics value => .ok { state with diagnostics := value.getD [] }
  | Action.other _ => .error ReplError.error

/-! ## Vocabulary of the properties of the reducer -/

/-- The invariant on `currentView`: when a view is open, `currentView` is the
index of a view. -/
def ViewIndexed {F : Type} (state : State F) : Prop :=
  state.views ≠ [] → 0 ≤ state.currentView ∧ state.currentView < state.views.length

/-- The view named `name` is the deleted path `path` or lies inside the deleted
folder `path`. -/
def isAtOrInside (name path : String) : Bool :=
  decide (name = path) || startsWith name (path ++ "/")

/-- The data of the view that `view.open` opens (lines 74-76): the component of
the action, or else the value of the file of that name; `none` when there is
neither. -/
def openedView {F : Type} (env : Env F) (state : State F) (name : String) :
    Option String → Option View
  | some component => some (View.component component)
  | none => (env.get state.files name).map (fun file => View.text file.value)

/-- The template literal of lines 184 and 189: the name of the file number
`i`. -/
def fileName (i : Nat) : String := "/file" ++ toString i ++ ".js"

/-- The number that a string of decimal digits writes. -/
def digitsValue (digits : List Char) : Nat :=
  digits.foldl (fun acc c => 10 * acc + (c.toNat - 48)) 0

/-- The actions that change the views without setting `currentView`, or set
`currentView` to an index given from outside. -/
def Action.leavesIndexAlone : Action → Bool
  | Action.viewSelect _ => false
  | Action.viewClose _ => false
  | Action.viewCloseCurrent => false
  | Action.fileMove _ _ => false
  | Action.fileDelete _ => false
  | Action.browserSetEditing _ _ => false
  | _ => true

namespace Example

/-- The last segment of a path: the characters after the last `/`. -/
def basenameChars : List Char → List Char
  | [] => []
  | c :: rest =>
    if rest.contains '/' then basenameChars rest
    else if c = '/' then rest else c :: rest

/-- A file system as a `Map` from paths to items, with stand-ins for the methods
of `FS`, for `join` and for `path.basename` and `path.dirname` on POSIX
paths. -/
def env : Env (JsMap String FsItem) where
  get := fun files name => JsMap.get files name
  has := fun files name => (JsMap.get files name).isSome
  set := fun files name item => JsMap.set files name item
  setMerge := fun files name patch =>
    match patch with
    | FsPatch.value value => JsMap.set files name { value := some value }
    | FsPatch.isEntry _ => files
  delete := fun files name => files.filter (fun entry => !(decide (entry.1 = name)))
  move := fun files oldName newName =>
    files.map (fun entry => (if entry.1 = oldName then newName else entry.1, entry.2))
  empty := []
  join := fun dir name => dir ++ "/" ++ name
  basename := fun name => String.mk (basenameChars name.data)
  dirname := fun name => String.mk (Parcel.Example.dirnameChars name.data)
  presets := fun _ => none

/-- Two files, one the source map of the other, both open, the second one
current. -/
def twoViews : State (JsMap String FsItem) :=
  { initialState env with
    currentView := 1
    files := [("/a.js", { value := some "a" }), ("/a.js.map", { value := some "map" })]
    views := [("/a.js", View.text (some "a")), ("/a.js.map", View.text (some "map"))] }

/-- Two files of the same name, one in a folder, both open, the second one
current. -/
def nestedViews : State (JsMap String FsItem) :=
  { initialState env with
    currentView := 1
    files := [("/a.js", { value := some "a" }), ("/lib/a.js", { value := some "b" })]
    views := [("/a.js", View.text (some "a")), ("/lib/a.js", View.text (some "b"))] }

/-- The state `twoViews` while the second file is being renamed. -/
def beingRenamed : State (JsMap String FsItem) :=
  { twoViews with isEditing := some "/a.js.map" }

/-- An empty file, open. -/
def emptyFile : State (JsMap String FsItem) :=
  { initialState env with
    files := [("/file1.js", { value := some "" })]
    views := [("/file1.js", View.text (some ""))] }

/-- Three files without tabs: the first one open and edited, the second one
open and as in its file, the third one not open. -/
def editedViews : State (JsMap String FsItem) :=
  { initialState env with
    useTabs := false
    files := [("/a.js", { value := some "a" }), ("/a.js.map", { value := some "map" }),
      ("/b.js", { value := some "b" })]
    views := [("/a.js", View.text (some "edited")), ("/a.js.map", View.text (some "map"))] }

/-- Two files without tabs, both open and as in their files. -/
def savedViews : State (JsMap String FsItem) :=
  { twoViews with useTabs := false }

end Example

end Repl

/-! # Theorems -/


/-! ## Lemmas on `JsMap` and `JsSet` -/

theorem JsMap.keys_set {K V : Type} [DecidableEq K] (m : JsMap K V) (k : K) (v : V) :
    JsMap.keys (JsMap.set m k v) = if k ∈ JsMap.keys m then JsMap.keys m else JsMap.keys m ++ [k] := by
  induction m with
  | nil => simp [JsMap.set, JsMap.keys]
  | cons e rest ih =>
    obtain ⟨k0, v0⟩ := e
    by_cases h : k0 = k
    · subst h; simp [JsMap.set, JsMap.keys]
    · have h' : ¬ k = k0 := fun e => h e.symm
      simp only [JsMap.keys] at ih
      simp only [JsMap.set, JsMap.keys, h, if_false, List.map_cons, List.mem_cons, h', false_or, ih]
      split <;> simp

theorem JsMap.keys_set_eq_add {K V : Type} [DecidableEq K] (m : JsMap K V) (k : K) (v : V) :
    JsMap.keys (JsMap.set m k v) = JsSet.add (JsMap.keys m) k := by
  rw [JsMap.keys_set]; rfl

theorem JsMap.get_set {K V : Type} [DecidableEq K] (m : JsMap K V) (k : K) (v : V) (k1 : K) :
    JsMap.get (JsMap.set m k v) k1 = if k = k1 then some v else JsMap.get m k1 := by
  induction m with
  | nil => simp [JsMap.set, JsMap.get]
  | cons e rest ih =>
    obtain ⟨k0, v0⟩ := e
    by_cases h : k0 = k
    · subst h
      by_cases h1 : k0 = k1 <;> simp [JsMap.set, JsMap.get, h1]
    · by_cases h1 : k0 = k1
      · subst h1
        have : ¬ k = k0 := fun e => h e.symm
        simp [JsMap.set, JsMap.get, h, this]
      · simp [JsMap.set, JsMap.get, h, h1, ih]

theorem JsSet.mem_add {K : Type} [DecidableEq K] (s : JsSet K) (k x : K) :
    x ∈ JsSet.add s k ↔ x ∈ s ∨ x = k := by
  unfold JsSet.add
  split
  · constructor
    · exact Or.inl
    · rintro (h | h)
      · exact h
      · subst h; assumption
  · simp

theorem JsSet.nodup_add {K : Type} [DecidableEq K] (s : JsSet K) (k : K) (h : s.Nodup) :
    (JsSet.add s k).Nodup := by
  unfold JsSet.add
  split
  · exact h
  · rename_i hk
    exact List.Nodup.append h (List.nodup_singleton k) (by
      intro a ha hb
      simp at hb
      subst hb
      exact hk ha)

theorem JsSet.foldl_add_spec {K : Type} [DecidableEq K] (xs : List K) (s : JsSet K) :
    (∀ x, x ∈ xs.foldl JsSet.add s ↔ x ∈ s ∨ x ∈ xs) ∧
    (s.Nodup → (xs.foldl JsSet.add s).Nodup) := by
  induction xs generalizing s with
  | nil => simp
  | cons a rest ih =>
    obtain ⟨h1, h2⟩ := ih (JsSet.add s a)
    refine ⟨?_, ?_⟩
    · intro x
      simp only [List.foldl_cons, h1, JsSet.mem_add, List.mem_cons]
      tauto
    · intro hs
      exact h2 (JsSet.nodup_add s a hs)

theorem JsSet.mem_ofList {K : Type} [DecidableEq K] (xs : List K) (x : K) :
    x ∈ JsSet.ofList xs ↔ x ∈ xs := by
  have := (JsSet.foldl_add_spec xs []).1 x
  simpa [JsSet.ofList] using this

theorem JsSet.nodup_ofList {K : Type} [DecidableEq K] (xs : List K) :
    (JsSet.ofList xs).Nodup :=
  (JsSet.foldl_add_spec xs []).2 List.nodup_nil

theorem JsSet.foldl_add_of_nodup {K : Type} [DecidableEq K] (xs : List K) (s : JsSet K)
    (h : (s ++ xs).Nodup) : xs.foldl JsSet.add s = s ++ xs := by
  induction xs generalizing s with
  | nil => simp
  | cons a rest ih =>
    have ha : a ∉ s := by
      intro hmem
      have := List.nodup_append.1 h
      exact this.2.2 hmem (List.mem_cons_self a rest)
    have hadd : JsSet.add s a = s ++ [a] := by simp [JsSet.add, ha]
    simp only [List.foldl_cons, hadd]
    have h2 : (s ++ [a] ++ rest).Nodup := by simpa using h
    simpa using ih (s ++ [a]) h2

theorem JsSet.ofList_of_nodup {K : Type} [DecidableEq K] (xs : List K) (h : xs.Nodup) :
    JsSet.ofList xs = xs := by
  have := JsSet.foldl_add_of_nodup xs [] (by simpa using h)
  simpa [JsSet.ofList] using this

theorem JsSet.has_iff {K : Type} [DecidableEq K] (s : JsSet K) (k : K) :
    JsSet.has s k = true ↔ k ∈ s := by
  simp [JsSet.has]

theorem JsMap.foldl_set_keys {K V : Type} [DecidableEq K] (es : List (K × V)) (m : JsMap K V) :
    JsMap.keys (es.foldl (fun m e => JsMap.set m e.1 e.2) m)
      = (es.map Prod.fst).foldl JsSet.add (JsMap.keys m) := by
  induction es generalizing m with
  | nil => rfl
  | cons e rest ih =>
    simp only [List.foldl_cons, List.map_cons]
    rw [ih, JsMap.keys_set_eq_add]

theorem JsMap.keys_ofEntries {K V : Type} [DecidableEq K] (es : List (K × V)) :
    JsMap.keys (JsMap.ofEntries es) = JsSet.ofList (es.map Prod.fst) := by
  simpa [JsMap.ofEntries, JsSet.ofList, JsMap.keys] using JsMap.foldl_set_keys es []

theorem JsMap.nodup_keys_ofEntries {K V : Type} [DecidableEq K] (es : List (K × V)) :
    (JsMap.keys (JsMap.ofEntries es)).Nodup := by
  rw [JsMap.keys_ofEntries]; exact JsSet.nodup_ofList _

theorem JsMap.mem_keys_ofEntries {K V : Type} [DecidableEq K] (es : List (K × V)) (k : K) :
    k ∈ JsMap.keys (JsMap.ofEntries es) ↔ ∃ e ∈ es, e.1 = k := by
  rw [JsMap.keys_ofEntries, JsSet.mem_ofList]; simp

/-- In a map with pairwise distinct keys, `get` at the key of an entry returns
the value of that entry. -/
theorem JsMap.get_of_mem {K V : Type} [DecidableEq K] (m : JsMap K V) (h : (JsMap.keys m).Nodup)
    (k : K) (v : V) (hm : (k, v) ∈ m) : JsMap.get m k = some v := by
  induction m with
  | nil => cases hm
  | cons e rest ih =>
    obtain ⟨k0, v0⟩ := e
    simp only [JsMap.keys, List.map_cons, List.nodup_cons] at h
    rcases List.mem_cons.1 hm with heq | hrest
    · cases heq; simp [JsMap.get]
    · have hne : k0 ≠ k := by
        intro e; subst e
        exact h.1 (List.mem_map.2 ⟨(k0, v), hrest, rfl⟩)
      simp only [JsMap.get, hne, if_false]
      exact ih h.2 hrest

theorem JsMap.mem_of_get {K V : Type} [DecidableEq K] (m : JsMap K V) (k : K) (v : V)
    (h : JsMap.get m k = some v) : (k, v) ∈ m := by
  induction m with
  | nil => simp [JsMap.get] at h
  | cons e rest ih =>
    obtain ⟨k0, v0⟩ := e
    by_cases hk : k0 = k
    · subst hk
      simp [JsMap.get] at h
      subst h; exact List.mem_cons_self _ _
    · simp only [JsMap.get, hk, if_false] at h
      exact List.mem_cons_of_mem _ (ih h)

/-- Every entry of `new Map(entries)` is one of the given entries. -/
theorem JsMap.foldl_set_subset {K V : Type} [DecidableEq K] (es : List (K × V)) (m : JsMap K V)
    (e : K × V) (h : e ∈ es.foldl (fun m e => JsMap.set m e.1 e.2) m) : e ∈ m ∨ e ∈ es := by
  induction es generalizing m with
  | nil => exact Or.inl h
  | cons a rest ih =>
    rcases ih (JsMap.set m a.1 a.2) h with h1 | h1
    · have key : ∀ (m : JsMap K V), e ∈ JsMap.set m a.1 a.2 → e ∈ m ∨ e = a := by
        intro m
        induction m with
        | nil => intro h; simp [JsMap.set] at h; exact Or.inr h
        | cons b r ihm =>
          obtain ⟨k0, v0⟩ := b
          intro h
          by_cases hk : k0 = a.1
          · simp only [JsMap.set, hk, if_true] at h
            rcases List.mem_cons.1 h with h | h
            · exact Or.inr h
            · exact Or.inl (List.mem_cons_of_mem _ h)
          · simp only [JsMap.set, hk, if_false] at h
            rcases List.mem_cons.1 h with h | h
            · exact Or.inl (h ▸ List.mem_cons_self _ _)
            · rcases ihm h with h | h
              · exact Or.inl (List.mem_cons_of_mem _ h)
              · exact Or.inr h
      rcases key m h1 with h2 | h2
      · exact Or.inl h2
      · exact Or.inr (h2 ▸ List.mem_cons_self _ _)
    · exact Or.inr (List.mem_cons_of_mem _ h1)

theorem JsMap.mem_ofEntries {K V : Type} [DecidableEq K] (es : List (K × V)) (e : K × V)
    (h : e ∈ JsMap.ofEntries es) : e ∈ es := by
  rcases JsMap.foldl_set_subset es [] e h with h | h
  · cases h
  · exact h


theorem mapM_nullthrows_get {K V : Type} [DecidableEq K] (m : JsMap K V) (ks : List K)
    (h : ∀ k ∈ ks, ∃ v, JsMap.get m k = some v) :
    ks.mapM (fun k => nullthrows (JsMap.get m k)) = .ok (ks.filterMap (JsMap.get m)) := by
  induction ks with
  | nil => rfl
  | cons k rest ih =>
    obtain ⟨v, hv⟩ := h k (List.mem_cons_self _ _)
    have ih1 := ih (fun k1 hk1 => h k1 (List.mem_cons_of_mem _ hk1))
    rw [List.mapM_cons, hv, ih1, List.filterMap_cons, hv]
    rfl

theorem JsMap.filterMap_get_of_subset {K V : Type} [DecidableEq K] (m : JsMap K V)
    (h : (JsMap.keys m).Nodup) (l : List (K × V)) (hl : ∀ e ∈ l, e ∈ m) :
    (l.map Prod.fst).filterMap (JsMap.get m) = l.map Prod.snd := by
  induction l with
  | nil => rfl
  | cons e rest ih =>
    obtain ⟨k, v⟩ := e
    have hg := JsMap.get_of_mem m h k v (hl _ (List.mem_cons_self _ _))
    simp only [List.map_cons, List.filterMap_cons, hg]
    rw [ih (fun e he => hl e (List.mem_cons_of_mem _ he))]

/-- Each entry of `assetRequestNodesById` is keyed by the identifier of its
node, and the node is the request node of one of the connections. -/
theorem assetRequestNodesById_entry (md5FromObject : AssetGroup → NodeId)
    (connections : List RuntimeConnection) (e : NodeId × Node)
    (h : e ∈ assetRequestNodesById md5FromObject connections) :
    e.1 = e.2.id ∧ ∃ c ∈ connections, e.2 = nodeFromAssetGroup md5FromObject c.assetGroup := by
  have := JsMap.mem_ofEntries _ e h
  simp only [List.map_map, List.mem_map, Function.comp] at this
  obtain ⟨c, hc, rfl⟩ := this
  exact ⟨rfl, c, hc, rfl⟩

theorem nodup_keys_assetRequestNodesById (md5FromObject : AssetGroup → NodeId)
    (connections : List RuntimeConnection) :
    (JsMap.keys (assetRequestNodesById md5FromObject connections)).Nodup :=
  JsMap.nodup_keys_ofEntries _

theorem mem_keys_assetRequestNodesById (md5FromObject : AssetGroup → NodeId)
    (connections : List RuntimeConnection) (id : NodeId) :
    id ∈ JsMap.keys (assetRequestNodesById md5FromObject connections) ↔
      ∃ c ∈ connections, (nodeFromAssetGroup md5FromObject c.assetGroup).id = id := by
  unfold assetRequestNodesById
  rw [JsMap.mem_keys_ofEntries]
  simp only [List.map_map, List.mem_map, Function.comp]
  constructor
  · rintro ⟨e, ⟨c, hc, rfl⟩, rfl⟩; exact ⟨c, hc, rfl⟩
  · rintro ⟨c, hc, rfl⟩; exact ⟨_, ⟨c, hc, rfl⟩, rfl⟩

theorem newRequestIds_eq (md5FromObject : AssetGroup → NodeId)
    (connections : List RuntimeConnection) :
    newRequestIds md5FromObject connections
      = JsMap.keys (assetRequestNodesById md5FromObject connections) :=
  JsSet.ofList_of_nodup _ (nodup_keys_assetRequestNodesById md5FromObject connections)

theorem mem_oldRequestIds (entryAssetGroupNodes : List Node) (id : NodeId) :
    id ∈ oldRequestIds entryAssetGroupNodes ↔ ∃ o ∈ entryAssetGroupNodes, o.id = id := by
  simp [oldRequestIds, JsSet.mem_ofList]

/-- The nodes handed to the replace step, in closed form: the values of
`assetRequestNodesById`, in map order, whose key is not an old identifier. -/
theorem toAddNodes_eq (md5FromObject : AssetGroup → NodeId)
    (connections : List RuntimeConnection) (entryAssetGroupNodes : List Node) :
    toAddNodes md5FromObject connections entryAssetGroupNodes
      = .ok (((assetRequestNodesById md5FromObject connections).filter
          (fun e => !(JsSet.has (oldRequestIds entryAssetGroupNodes) e.1))).map Prod.snd) := by
  unfold toAddNodes toAdd setDifference
  rw [newRequestIds_eq]
  have hnd := nodup_keys_assetRequestNodesById md5FromObject connections
  rw [mapM_nullthrows_get]
  · congr 1
    have := JsMap.filterMap_get_of_subset (assetRequestNodesById md5FromObject connections) hnd
      ((assetRequestNodesById md5FromObject connections).filter
          (fun e => !(JsSet.has (oldRequestIds entryAssetGroupNodes) e.1)))
      (fun e he => (List.mem_filter.1 he).1)
    rw [← this]
    congr 1
    simp only [JsMap.keys, List.filter_map]
    rfl
  · intro k hk
    have hk1 := (List.mem_filter.1 hk).1
    simp only [JsMap.keys, List.mem_map] at hk1
    obtain ⟨⟨k0, v⟩, he, rfl⟩ := hk1
    exact ⟨v, JsMap.get_of_mem _ hnd _ _ he⟩


/-! ## The arguments of the replace step -/

/-- The arguments of the replace step: the nodes handed over are the values of
`assetRequestNodesById` whose identifier is new and not old, and the removal
predicate holds of the nodes whose identifier is old and not new. -/
theorem reconcileNewRuntimes_args (md5FromObject : AssetGroup → NodeId)
    (connections : List RuntimeConnection) (entryAssetGroupNodes : List Node) :
    (∃ nodes, toAddNodes md5FromObject connections entryAssetGroupNodes = .ok nodes ∧
      (∀ n, n ∈ nodes ↔
        n ∈ JsMap.values (assetRequestNodesById md5FromObject connections) ∧
        ¬ ∃ o ∈ entryAssetGroupNodes, o.id = n.id) ∧
      (∀ id, id ∈ nodes.map (fun n => n.id) ↔
        (∃ c ∈ connections, (nodeFromAssetGroup md5FromObject c.assetGroup).id = id) ∧
        ¬ ∃ o ∈ entryAssetGroupNodes, o.id = id) ∧
      (∀ n ∈ nodes, ∃ c ∈ connections, n = nodeFromAssetGroup md5FromObject c.assetGroup) ∧
      (nodes.map (fun n => n.id)).Nodup ∧
      nodes.map (fun n => n.id) = toAdd md5FromObject connections entryAssetGroupNodes) ∧
    (∀ id, id ∈ toAdd md5FromObject connections entryAssetGroupNodes ↔
        id ∈ newRequestIds md5FromObject connections ∧
        id ∉ oldRequestIds entryAssetGroupNodes) ∧
    (∀ id, id ∈ toRemove md5FromObject connections entryAssetGroupNodes ↔
        id ∈ oldRequestIds entryAssetGroupNodes ∧
        id ∉ newRequestIds md5FromObject connections) ∧
    (∀ node, shouldRemove md5FromObject connections entryAssetGroupNodes node = true ↔
        (∃ o ∈ entryAssetGroupNodes, o.id = node.id) ∧
        ¬ ∃ c ∈ connections, (nodeFromAssetGroup md5FromObject c.assetGroup).id = node.id) := by
  have hids : ∀ e ∈ assetRequestNodesById md5FromObject connections, e.1 = e.2.id :=
    fun e he => (assetRequestNodesById_entry md5FromObject connections e he).1
  have hmap : (((assetRequestNodesById md5FromObject connections).filter
      (fun e => !(JsSet.has (oldRequestIds entryAssetGroupNodes) e.1))).map Prod.snd).map
        (fun n => n.id)
      = toAdd md5FromObject connections entryAssetGroupNodes := by
    unfold toAdd setDifference
    rw [newRequestIds_eq]
    simp only [JsMap.keys, List.filter_map, List.map_map]
    apply List.map_congr_left
    intro e he
    exact (hids e (List.mem_filter.1 he).1).symm
  have hadd : ∀ id, id ∈ toAdd md5FromObject connections entryAssetGroupNodes ↔
        id ∈ newRequestIds md5FromObject connections ∧
        id ∉ oldRequestIds entryAssetGroupNodes := by
    intro id
    simp [toAdd, setDifference, List.mem_filter, JsSet.has]
  have hrem : ∀ id, id ∈ toRemove md5FromObject connections entryAssetGroupNodes ↔
        id ∈ oldRequestIds entryAssetGroupNodes ∧
        id ∉ newRequestIds md5FromObject connections := by
    intro id
    simp [toRemove, setDifference, List.mem_filter, JsSet.has]
  refine ⟨⟨_, toAddNodes_eq md5FromObject connections entryAssetGroupNodes, ?_, ?_, ?_, ?_, hmap⟩,
    hadd, hrem, ?_⟩
  · intro n
    simp only [List.mem_map, List.mem_filter, JsMap.values, Bool.not_eq_true', JsSet.has,
      decide_eq_false_iff_not, mem_oldRequestIds]
    constructor
    · rintro ⟨e, ⟨he, hold⟩, rfl⟩
      refine ⟨⟨e, he, rfl⟩, ?_⟩
      rw [← hids e he]; exact hold
    · rintro ⟨⟨e, he, rfl⟩, hold⟩
      refine ⟨e, ⟨he, ?_⟩, rfl⟩
      rw [hids e he]; exact hold
  · intro id
    rw [hmap, hadd, newRequestIds_eq, mem_keys_assetRequestNodesById, mem_oldRequestIds]
  · intro n hn
    simp only [List.mem_map, List.mem_filter] at hn
    obtain ⟨e, ⟨he, -⟩, rfl⟩ := hn
    exact (assetRequestNodesById_entry md5FromObject connections e he).2
  · rw [hmap]
    unfold toAdd setDifference
    exact List.Nodup.filter _ (JsSet.nodup_ofList _)
  · intro node
    unfold shouldRemove
    rw [JsSet.has_iff, hrem, newRequestIds_eq, mem_keys_assetRequestNodesById, mem_oldRequestIds]

/-! ## Lemmas on the graph operations -/

theorem Graph.mem_idsConnectedFrom (g : Graph) (p id : NodeId) (t : Option String) :
    id ∈ g.idsConnectedFrom p t ↔ (⟨p, id, t⟩ : Edge) ∈ g.edges := by
  simp only [Graph.idsConnectedFrom, List.mem_map, List.mem_filter, Bool.and_eq_true,
    decide_eq_true_eq]
  constructor
  · rintro ⟨e, ⟨he, h1, h2⟩, h3⟩
    obtain ⟨a, b, c⟩ := e
    simp only at h1 h2 h3
    subst h1; subst h2; subst h3
    exact he
  · intro h
    exact ⟨_, ⟨h, rfl, rfl⟩, rfl⟩

theorem Graph.mem_idsConnectedTo (g : Graph) (c id : NodeId) (t : Option String) :
    id ∈ g.idsConnectedTo c t ↔ (⟨id, c, t⟩ : Edge) ∈ g.edges := by
  simp only [Graph.idsConnectedTo, List.mem_map, List.mem_filter, Bool.and_eq_true,
    decide_eq_true_eq]
  constructor
  · rintro ⟨e, ⟨he, h1, h2⟩, h3⟩
    obtain ⟨a, b, d⟩ := e
    simp only at h1 h2 h3
    subst h1; subst h2; subst h3
    exact he
  · intro h
    exact ⟨_, ⟨h, rfl, rfl⟩, rfl⟩

theorem Graph.mem_edges_addEdge (g : Graph) (a b : NodeId) (t : Option String) (e : Edge) :
    e ∈ (g.addEdge a b t).edges ↔ e ∈ g.edges ∨ e = ⟨a, b, t⟩ := by
  unfold Graph.addEdge Graph.hasEdge
  split
  · rename_i h
    simp only [decide_eq_true_eq] at h
    constructor
    · exact Or.inl
    · rintro (h1 | h1)
      · exact h1
      · subst h1; exact h
  · simp

theorem Graph.nodes_addEdge (g : Graph) (a b : NodeId) (t : Option String) :
    (g.addEdge a b t).nodes = g.nodes := by
  unfold Graph.addEdge; split <;> rfl

theorem Graph.rootNodeId_addEdge (g : Graph) (a b : NodeId) (t : Option String) :
    (g.addEdge a b t).rootNodeId = g.rootNodeId := by
  unfold Graph.addEdge; split <;> rfl

theorem Graph.mem_edges_removeEdge (g : Graph) (a b : NodeId) (t : Option String) (e : Edge) :
    e ∈ (g.removeEdge a b t).edges ↔ e ∈ g.edges ∧ e ≠ ⟨a, b, t⟩ := by
  simp [Graph.removeEdge, List.mem_filter]

theorem Graph.getNode_addNode (g : Graph) (n : Node) (id : NodeId) :
    (g.addNode n).getNode id = if n.id = id then some n else g.getNode id := by
  simp [Graph.addNode, Graph.getNode, JsMap.get_set]

theorem Graph.getNode_addEdge (g : Graph) (a b : NodeId) (t : Option String) (id : NodeId) :
    (g.addEdge a b t).getNode id = g.getNode id := by
  simp [Graph.getNode, Graph.nodes_addEdge]

theorem Graph.mem_edges_connectChild (p : NodeId) (g : Graph) (n : Node) (e : Edge) :
    e ∈ (Graph.connectChild p g n).edges ↔ e ∈ g.edges ∨ e = ⟨p, n.id, none⟩ := by
  unfold Graph.connectChild
  split
  · rename_i h
    have hmem : (⟨p, n.id, none⟩ : Edge) ∈ g.edges := by simpa [Graph.hasEdge] using h
    constructor
    · exact Or.inl
    · rintro (h1 | rfl)
      · exact h1
      · exact hmem
  · rw [Graph.mem_edges_addEdge]; rfl

theorem Graph.getNode_connectChild (p : NodeId) (g : Graph) (n : Node) (id : NodeId) :
    (Graph.connectChild p g n).getNode id =
      if n.id = id ∧ (⟨p, n.id, none⟩ : Edge) ∉ g.edges then some n else g.getNode id := by
  unfold Graph.connectChild
  by_cases h : (⟨p, n.id, none⟩ : Edge) ∈ g.edges
  · simp [Graph.hasEdge, h]
  · simp only [Graph.hasEdge, h, decide_False, Bool.false_eq_true, if_false,
      Graph.getNode_addEdge, Graph.getNode_addNode, not_false_eq_true, and_true]

theorem Graph.rootNodeId_connectChild (p : NodeId) (g : Graph) (n : Node) :
    (Graph.connectChild p g n).rootNodeId = g.rootNodeId := by
  unfold Graph.connectChild
  split
  · rfl
  · rw [Graph.rootNodeId_addEdge]; rfl

theorem Graph.mem_edges_connectChildren (p : NodeId) (ns : List Node) (g : Graph) (e : Edge) :
    e ∈ (ns.foldl (Graph.connectChild p) g).edges ↔
      e ∈ g.edges ∨ ∃ n ∈ ns, e = ⟨p, n.id, none⟩ := by
  induction ns generalizing g with
  | nil => simp
  | cons a rest ih =>
    rw [List.foldl_cons, ih, Graph.mem_edges_connectChild]
    simp only [List.mem_cons, exists_eq_or_imp]
    tauto

theorem Graph.rootNodeId_connectChildren (p : NodeId) (ns : List Node) (g : Graph) :
    (ns.foldl (Graph.connectChild p) g).rootNodeId = g.rootNodeId := by
  induction ns generalizing g with
  | nil => rfl
  | cons a rest ih => rw [List.foldl_cons, ih, Graph.rootNodeId_connectChild]

theorem Graph.getNode_connectChildren_of_not_mem (p : NodeId) (ns : List Node) (g : Graph)
    (id : NodeId) (h : ∀ n ∈ ns, n.id ≠ id) :
    (ns.foldl (Graph.connectChild p) g).getNode id = g.getNode id := by
  induction ns generalizing g with
  | nil => rfl
  | cons a rest ih =>
    rw [List.foldl_cons, ih _ (fun n hn => h n (List.mem_cons_of_mem _ hn)),
      Graph.getNode_connectChild]
    have := h a (List.mem_cons_self _ _)
    simp [this]

theorem Graph.getNode_connectChildren_of_mem (p : NodeId) (ns : List Node) (g : Graph)
    (hnd : (ns.map (fun n => n.id)).Nodup) (n : Node) (hn : n ∈ ns)
    (hedge : (⟨p, n.id, none⟩ : Edge) ∉ g.edges) :
    (ns.foldl (Graph.connectChild p) g).getNode n.id = some n := by
  induction ns generalizing g with
  | nil => cases hn
  | cons a rest ih =>
    simp only [List.map_cons, List.nodup_cons, List.mem_map, not_exists, not_and] at hnd
    rw [List.foldl_cons]
    rcases List.mem_cons.1 hn with rfl | hn
    · rw [Graph.getNode_connectChildren_of_not_mem p rest _ n.id
        (fun m hm hmid => hnd.1 m hm hmid), Graph.getNode_connectChild]
      simp [hedge]
    · apply ih _ hnd.2 hn
      rw [Graph.mem_edges_connectChild]
      rintro (h | h)
      · exact hedge h
      · injection h with _ h2 _
        exact hnd.1 n hn h2

theorem Graph.mem_edges_disconnectChildren (p : NodeId) (cs : List Node) (g : Graph) (e : Edge) :
    e ∈ (cs.foldl (Graph.disconnectChild p) g).edges ↔
      e ∈ g.edges ∧ ∀ c ∈ cs, e ≠ ⟨p, c.id, none⟩ := by
  induction cs generalizing g with
  | nil => simp
  | cons a rest ih =>
    rw [List.foldl_cons, ih, Graph.disconnectChild, Graph.mem_edges_removeEdge]
    simp only [List.mem_cons, forall_eq_or_imp]
    tauto

theorem Graph.nodes_disconnectChildren (p : NodeId) (cs : List Node) (g : Graph) :
    (cs.foldl (Graph.disconnectChild p) g).nodes = g.nodes ∧
    (cs.foldl (Graph.disconnectChild p) g).rootNodeId = g.rootNodeId := by
  induction cs generalizing g with
  | nil => exact ⟨rfl, rfl⟩
  | cons a rest ih =>
    rw [List.foldl_cons]
    exact ⟨(ih _).1, (ih _).2⟩

theorem JsMap.mem_set {K V : Type} [DecidableEq K] (m : JsMap K V) (k : K) (v : V) (e : K × V)
    (h : e ∈ JsMap.set m k v) : e ∈ m ∨ e = (k, v) := by
  induction m with
  | nil => simp [JsMap.set] at h; exact Or.inr h
  | cons b r ih =>
    obtain ⟨k0, v0⟩ := b
    by_cases hk : k0 = k
    · simp only [JsMap.set, hk, if_true] at h
      rcases List.mem_cons.1 h with h | h
      · exact Or.inr h
      · exact Or.inl (List.mem_cons_of_mem _ h)
    · simp only [JsMap.set, hk, if_false] at h
      rcases List.mem_cons.1 h with h | h
      · exact Or.inl (h ▸ List.mem_cons_self _ _)
      · rcases ih h with h | h
        · exact Or.inl (List.mem_cons_of_mem _ h)
        · exact Or.inr h

theorem Graph.keyedById_iff (g : Graph) :
    g.keyedById = true ↔ ∀ e ∈ g.nodes, e.1 = e.2.id := by
  simp [Graph.keyedById, List.all_eq_true]

theorem Graph.keyedById_addNode (g : Graph) (n : Node) (h : g.keyedById = true) :
    (g.addNode n).keyedById = true := by
  rw [Graph.keyedById_iff] at h ⊢
  intro e he
  rcases JsMap.mem_set g.nodes n.id n e he with h1 | h1
  · exact h e h1
  · subst h1; rfl

theorem Graph.keyedById_of_nodes (g1 g2 : Graph) (hn : g1.nodes = g2.nodes)
    (h : g2.keyedById = true) : g1.keyedById = true := by
  simp only [Graph.keyedById, hn] at h ⊢; exact h

theorem Graph.keyedById_connectChild (p : NodeId) (g : Graph) (n : Node)
    (h : g.keyedById = true) : (Graph.connectChild p g n).keyedById = true := by
  unfold Graph.connectChild
  split
  · exact h
  · exact Graph.keyedById_of_nodes _ _ (Graph.nodes_addEdge _ _ _ _) (Graph.keyedById_addNode g n h)

theorem Graph.keyedById_connectChildren (p : NodeId) (ns : List Node) (g : Graph)
    (h : g.keyedById = true) : (ns.foldl (Graph.connectChild p) g).keyedById = true := by
  induction ns generalizing g with
  | nil => exact h
  | cons a rest ih => rw [List.foldl_cons]; exact ih _ (Graph.keyedById_connectChild p g a h)

/-! ## The replace step of `reconcileNewRuntimes` -/

theorem Graph.id_of_getNode (g : Graph) (hk : g.keyedById = true) (id : NodeId) (n : Node)
    (h : g.getNode id = some n) : n.id = id := by
  have hm := JsMap.mem_of_get g.nodes id n h
  simp only [Graph.keyedById, List.all_eq_true, decide_eq_true_eq] at hk
  exact (hk _ hm).symm

theorem Graph.getNode_congr (g1 g2 : Graph) (h : g1.nodes = g2.nodes) (id : NodeId) :
    g1.getNode id = g2.getNode id := by
  simp only [Graph.getNode, h]

theorem Graph.root_id (g : Graph) (hk : g.keyedById = true) (root : Node)
    (h : g.getRootNode = some root) : g.rootNodeId = some root.id ∧ g.getNode root.id = some root := by
  unfold Graph.getRootNode at h
  split at h
  · rename_i id hid
    have := Graph.id_of_getNode g hk id root h
    subst this
    exact ⟨hid, h⟩
  · cases h

theorem Graph.mem_getEntryAssetGroupNodes (g : Graph) (root : Node)
    (hroot : g.getRootNode = some root) (n : Node) :
    n ∈ g.getEntryAssetGroupNodes ↔
      ∃ id, (⟨root.id, id, none⟩ : Edge) ∈ g.edges ∧ g.getNode id = some n ∧
        n.isAssetGroup = true := by
  unfold Graph.getEntryAssetGroupNodes
  simp only [hroot, List.mem_filter, List.mem_filterMap, Graph.mem_idsConnectedFrom]
  constructor
  · rintro ⟨⟨id, h1, h2⟩, h3⟩; exact ⟨id, h1, h2, h3⟩
  · rintro ⟨id, h1, h2, h3⟩; exact ⟨⟨id, h1, h2⟩, h3⟩

theorem Graph.mem_oldRequestIds_entry (g : Graph) (hk : g.keyedById = true) (root : Node)
    (hroot : g.getRootNode = some root) (id : NodeId) :
    id ∈ oldRequestIds g.getEntryAssetGroupNodes ↔
      (⟨root.id, id, none⟩ : Edge) ∈ g.edges ∧ ∃ n, g.getNode id = some n ∧
        n.isAssetGroup = true := by
  rw [mem_oldRequestIds]
  constructor
  · rintro ⟨o, ho, rfl⟩
    obtain ⟨id, h1, h2, h3⟩ := (Graph.mem_getEntryAssetGroupNodes g root hroot o).1 ho
    have := Graph.id_of_getNode g hk id o h2
    subst this
    exact ⟨h1, o, h2, h3⟩
  · rintro ⟨h1, n, h2, h3⟩
    exact ⟨n, (Graph.mem_getEntryAssetGroupNodes g root hroot n).2 ⟨id, h1, h2, h3⟩,
      Graph.id_of_getNode g hk id n h2⟩

/-- What the replace step does to the asset graph: it returns a graph whose
edges are the old ones and the edges from the root to the identifiers of
`toAdd`, less the edges from the root to the identifiers of `toRemove`; the
node of every identifier outside `toAdd` is the one held before. -/
theorem reconcileReplace_spec (X : Externals) (g : Graph) (connections : List RuntimeConnection)
    (root : Node) (hroot : g.getRootNode = some root) (hk : g.keyedById = true) :
    ∃ g1 nodes,
      reconcileReplace X g connections = .ok g1 ∧
      toAddNodes X.md5FromObject connections g.getEntryAssetGroupNodes = .ok nodes ∧
      (∀ e, e ∈ g1.edges ↔
        (e ∈ g.edges ∨
          ∃ id ∈ toAdd X.md5FromObject connections g.getEntryAssetGroupNodes,
            e = ⟨root.id, id, none⟩) ∧
        ¬ ∃ id ∈ toRemove X.md5FromObject connections g.getEntryAssetGroupNodes,
            e = ⟨root.id, id, none⟩) ∧
      (∀ id, id ∉ toAdd X.md5FromObject connections g.getEntryAssetGroupNodes →
        g1.getNode id = g.getNode id) ∧
      (∀ n ∈ nodes, (⟨root.id, n.id, none⟩ : Edge) ∉ g.edges → g1.getNode n.id = some n) ∧
      g1.rootNodeId = g.rootNodeId ∧ g1.keyedById = true := by
  obtain ⟨⟨nodes, hnodes, -, -, -, hnd, hids⟩, hadd, hrem, hsr⟩ :=
    reconcileNewRuntimes_args X.md5FromObject connections g.getEntryAssetGroupNodes
  obtain ⟨hrid, hrn⟩ := Graph.root_id g hk root hroot
  have hhas : g.hasNode root.id = true := by simp [Graph.hasNode, hrn]
  have hres : reconcileReplace X g connections = .ok
      ((((g.idsConnectedFrom root.id none).filterMap g.getNode).filter (fun child =>
        shouldRemove X.md5FromObject connections g.getEntryAssetGroupNodes child &&
          !(nodes.any (fun n => decide (n.id = child.id))))).foldl
        (Graph.disconnectChild root.id) (nodes.foldl (Graph.connectChild root.id) g)) := by
    simp only [reconcileReplace, hroot, nullthrows, hnodes, Graph.replaceNodesConnectedTo,
      Graph.getNodesConnectedFrom, hhas, if_true]
  have hnodesEq := (Graph.nodes_disconnectChildren root.id
      ((((g.idsConnectedFrom root.id none).filterMap g.getNode)).filter (fun child =>
        shouldRemove X.md5FromObject connections g.getEntryAssetGroupNodes child &&
          !(nodes.any (fun n => decide (n.id = child.id)))))
      (nodes.foldl (Graph.connectChild root.id) g))
  refine ⟨_, nodes, hres, hnodes, ?_, ?_, ?_, ?_,
    Graph.keyedById_of_nodes _ _ hnodesEq.1 (Graph.keyedById_connectChildren _ _ _ hk)⟩
  · intro e
    rw [Graph.mem_edges_disconnectChildren, Graph.mem_edges_connectChildren]
    have h1 : (∃ n ∈ nodes, e = ⟨root.id, n.id, none⟩) ↔
        ∃ id ∈ toAdd X.md5FromObject connections g.getEntryAssetGroupNodes,
            e = ⟨root.id, id, none⟩ := by
      rw [← hids]
      simp only [List.mem_map, exists_exists_and_eq_and]
    rw [h1]
    apply and_congr_right
    intro _
    constructor
    · rintro h ⟨id, hid, rfl⟩
      have hid1 := (hrem id).1 hid
      obtain ⟨hedge, n, hn, hag⟩ := (Graph.mem_oldRequestIds_entry g hk root hroot id).1 hid1.1
      have hnid := Graph.id_of_getNode g hk id n hn
      refine h n ?_ (by rw [hnid])
      simp only [List.mem_filter, List.mem_filterMap, Graph.mem_idsConnectedFrom,
        Bool.and_eq_true, Bool.not_eq_true', List.any_eq_false, decide_eq_true_eq]
      refine ⟨⟨id, hedge, hn⟩, ?_, ?_⟩
      · rw [hsr]
        rw [mem_oldRequestIds] at hid1
        rw [hnid]
        refine ⟨hid1.1, ?_⟩
        rw [← mem_keys_assetRequestNodesById, ← newRequestIds_eq]
        exact hid1.2
      · intro m hm hmid
        have : id ∈ toAdd X.md5FromObject connections g.getEntryAssetGroupNodes := by
          rw [← hids]
          exact List.mem_map.2 ⟨m, hm, hmid.trans hnid⟩
        exact ((hadd id).1 this).2 hid1.1
    · intro h c hc heq
      simp only [List.mem_filter, Bool.and_eq_true] at hc
      have hc2 := hc.2.1
      unfold shouldRemove at hc2
      rw [JsSet.has_iff] at hc2
      exact h ⟨c.id, hc2, heq⟩
  · intro id hid
    rw [Graph.getNode_congr _ _ hnodesEq.1]
    apply Graph.getNode_connectChildren_of_not_mem
    intro n hn hnid
    apply hid
    rw [← hids]
    exact List.mem_map.2 ⟨n, hn, hnid⟩
  · intro n hn hedge
    rw [Graph.getNode_congr _ _ hnodesEq.1]
    exact Graph.getNode_connectChildren_of_mem root.id nodes g hnd n hn hedge
  · rw [hnodesEq.2, Graph.rootNodeId_connectChildren]

theorem Graph.before_iff_old (g : Graph) (root : Node) (hroot : g.getRootNode = some root)
    (hk : g.keyedById = true) (hreq : g.rootHoldsRequests = true) (id : NodeId) :
    (⟨root.id, id, none⟩ : Edge) ∈ g.edges ↔ id ∈ oldRequestIds g.getEntryAssetGroupNodes := by
  rw [Graph.mem_oldRequestIds_entry g hk root hroot]
  constructor
  · intro h
    refine ⟨h, ?_⟩
    simp only [Graph.rootHoldsRequests, hroot, List.all_eq_true] at hreq
    have := hreq id ((Graph.mem_idsConnectedFrom g root.id id none).2 h)
    split at this
    · rename_i n hn; exact ⟨n, hn, this⟩
    · cases this
  · exact fun h => h.1

/-- The minimal diff of the replace step on a graph whose root holds requests
only. -/
theorem reconcileReplace_diff (X : Externals) (g : Graph) (connections : List RuntimeConnection)
    (root : Node) (hroot : g.getRootNode = some root) (hk : g.keyedById = true)
    (hreq : g.rootHoldsRequests = true) :
    ∃ g1 nodes, reconcileReplace X g connections = .ok g1 ∧
      toAddNodes X.md5FromObject connections g.getEntryAssetGroupNodes = .ok nodes ∧
      (∀ id, id ∈ g.idsConnectedFrom root.id none ↔
        id ∈ oldRequestIds g.getEntryAssetGroupNodes) ∧
      (∀ id, id ∈ g1.idsConnectedFrom root.id none ↔
        id ∈ newRequestIds X.md5FromObject connections) ∧
      (∀ id, id ∉ toAdd X.md5FromObject connections g.getEntryAssetGroupNodes →
        g1.getNode id = g.getNode id) ∧
      (∀ n ∈ nodes, g1.getNode n.id = some n) ∧
      (∀ e : Edge, e.fromId ≠ root.id ∨ e.type ≠ none → (e ∈ g1.edges ↔ e ∈ g.edges)) ∧
      g1.rootNodeId = g.rootNodeId ∧ g1.keyedById = true := by
  obtain ⟨g1, nodes, hres, hnodes, hedges, hkeep, hnew, hrootId, hk1⟩ :=
    reconcileReplace_spec X g connections root hroot hk
  obtain ⟨⟨nodes1, hnodes1, -, -, -, -, hids⟩, hadd, hrem, -⟩ :=
    reconcileNewRuntimes_args X.md5FromObject connections g.getEntryAssetGroupNodes
  have hnn : nodes1 = nodes := by
    rw [hnodes] at hnodes1; injection hnodes1 with h; exact h.symm
  subst hnn
  have hbefore := Graph.before_iff_old g root hroot hk hreq
  refine ⟨g1, nodes1, hres, hnodes, ?_, ?_, hkeep, ?_, ?_, hrootId, hk1⟩
  · intro id
    rw [Graph.mem_idsConnectedFrom]; exact hbefore id
  · intro id
    rw [Graph.mem_idsConnectedFrom, hedges, hbefore]
    have e1 : (∃ id1 ∈ toAdd X.md5FromObject connections g.getEntryAssetGroupNodes,
        (⟨root.id, id, none⟩ : Edge) = ⟨root.id, id1, none⟩) ↔
        id ∈ toAdd X.md5FromObject connections g.getEntryAssetGroupNodes := by
      constructor
      · rintro ⟨id1, h1, h2⟩
        injection h2 with _ h3 _
        rw [h3]; exact h1
      · intro h; exact ⟨id, h, rfl⟩
    have e2 : (∃ id1 ∈ toRemove X.md5FromObject connections g.getEntryAssetGroupNodes,
        (⟨root.id, id, none⟩ : Edge) = ⟨root.id, id1, none⟩) ↔
        id ∈ toRemove X.md5FromObject connections g.getEntryAssetGroupNodes := by
      constructor
      · rintro ⟨id1, h1, h2⟩
        injection h2 with _ h3 _
        rw [h3]; exact h1
      · intro h; exact ⟨id, h, rfl⟩
    rw [e1, e2, hadd, hrem]
    tauto
  · intro n hn
    apply hnew n hn
    rw [hbefore]
    have : n.id ∈ toAdd X.md5FromObject connections g.getEntryAssetGroupNodes := by
      rw [← hids]; exact List.mem_map.2 ⟨n, hn, rfl⟩
    exact ((hadd n.id).1 this).2
  · intro e he
    rw [hedges]
    constructor
    · rintro ⟨h1 | ⟨id, -, rfl⟩, -⟩
      · exact h1
      · rcases he with he | he <;> exact absurd rfl he
    · intro h
      refine ⟨Or.inl h, ?_⟩
      rintro ⟨id, -, rfl⟩
      rcases he with he | he <;> exact absurd rfl he

/-- When the new and the old identifiers coincide, the replace step changes
nothing. -/
theorem reconcileReplace_same (X : Externals) (g : Graph) (connections : List RuntimeConnection)
    (root : Node) (hroot : g.getRootNode = some root) (hk : g.keyedById = true)
    (hsame : ∀ id, id ∈ newRequestIds X.md5FromObject connections ↔
      id ∈ oldRequestIds g.getEntryAssetGroupNodes) :
    toAdd X.md5FromObject connections g.getEntryAssetGroupNodes = [] ∧
    toRemove X.md5FromObject connections g.getEntryAssetGroupNodes = [] ∧
    toAddNodes X.md5FromObject connections g.getEntryAssetGroupNodes = .ok [] ∧
    (∀ n, shouldRemove X.md5FromObject connections g.getEntryAssetGroupNodes n = false) ∧
    reconcileReplace X g connections = .ok g := by
  have hA : toAdd X.md5FromObject connections g.getEntryAssetGroupNodes = [] := by
    unfold toAdd setDifference
    rw [List.filter_eq_nil_iff]
    intro id hid
    simp [JsSet.has, (hsame id).1 hid]
  have hR : toRemove X.md5FromObject connections g.getEntryAssetGroupNodes = [] := by
    unfold toRemove setDifference
    rw [List.filter_eq_nil_iff]
    intro id hid
    simp [JsSet.has, (hsame id).2 hid]
  have hN : toAddNodes X.md5FromObject connections g.getEntryAssetGroupNodes = .ok [] := by
    unfold toAddNodes
    rw [hA]; rfl
  have hS : ∀ n, shouldRemove X.md5FromObject connections g.getEntryAssetGroupNodes n = false := by
    intro n
    unfold shouldRemove
    rw [hR]; rfl
  obtain ⟨-, hrn⟩ := Graph.root_id g hk root hroot
  have hhas : g.hasNode root.id = true := by simp [Graph.hasNode, hrn]
  refine ⟨hA, hR, hN, hS, ?_⟩
  simp only [reconcileReplace, hroot, nullthrows, hN, Graph.replaceNodesConnectedTo,
    Graph.getNodesConnectedFrom, hhas, if_true, hS, Bool.false_and, List.filter_false,
    List.foldl_nil]

/-- Reconciling a second time with the same connections: the replace step
applied to its own result returns that result. -/
theorem reconcileReplace_twice (X : Externals) (g : Graph) (connections : List RuntimeConnection)
    (root : Node) (hroot : g.getRootNode = some root) (hk : g.keyedById = true)
    (hreq : g.rootHoldsRequests = true) :
    ∃ g1, reconcileReplace X g connections = .ok g1 ∧
      reconcileReplace X g1 connections = .ok g1 := by
  obtain ⟨g1, nodes, hres, hnodes, hbefore, hafter, hkeep, hnew, -, hrootId, hk1⟩ :=
    reconcileReplace_diff X g connections root hroot hk hreq
  obtain ⟨⟨nodes1, hnodes1, -, -, hconn, -, hids⟩, hadd, -, -⟩ :=
    reconcileNewRuntimes_args X.md5FromObject connections g.getEntryAssetGroupNodes
  have hnn : nodes1 = nodes := by
    rw [hnodes] at hnodes1; injection hnodes1 with h; exact h.symm
  subst hnn
  obtain ⟨hrid, hrn⟩ := Graph.root_id g hk root hroot
  -- the node held for an identifier of the new set
  have hnode : ∀ id, id ∈ newRequestIds X.md5FromObject connections →
      ∃ n, g1.getNode id = some n ∧ n.isAssetGroup = true := by
    intro id hid
    by_cases hold : id ∈ oldRequestIds g.getEntryAssetGroupNodes
    · have hna : id ∉ toAdd X.md5FromObject connections g.getEntryAssetGroupNodes :=
        fun h => ((hadd id).1 h).2 hold
      rw [hkeep id hna]
      exact ((Graph.mem_oldRequestIds_entry g hk root hroot id).1 hold).2
    · have hin : id ∈ toAdd X.md5FromObject connections g.getEntryAssetGroupNodes :=
        (hadd id).2 ⟨hid, hold⟩
      rw [← hids] at hin
      obtain ⟨n, hn, rfl⟩ := List.mem_map.1 hin
      refine ⟨n, hnew n hn, ?_⟩
      obtain ⟨c, -, rfl⟩ := hconn n hn
      rfl
  -- the root of the result
  have hroot1 : ∃ root1, g1.getRootNode = some root1 ∧ root1.id = root.id := by
    unfold Graph.getRootNode
    rw [hrootId, hrid]
    show ∃ root1, g1.getNode root.id = some root1 ∧ root1.id = root.id
    by_cases hin : root.id ∈ toAdd X.md5FromObject connections g.getEntryAssetGroupNodes
    · rw [← hids] at hin
      obtain ⟨n, hn, hnid⟩ := List.mem_map.1 hin
      refine ⟨n, ?_, hnid⟩
      have := hnew n hn
      rw [hnid] at this
      exact this
    · exact ⟨root, by rw [hkeep _ hin]; exact hrn, rfl⟩
  obtain ⟨root1, hr1, hr1id⟩ := hroot1
  refine ⟨g1, hres, ?_⟩
  apply (reconcileReplace_same X g1 connections root1 hr1 hk1 ?_).2.2.2.2
  intro id
  rw [Graph.mem_oldRequestIds_entry g1 hk1 root1 hr1, hr1id, ← Graph.mem_idsConnectedFrom,
    hafter]
  constructor
  · intro h; exact ⟨h, hnode id h⟩
  · exact fun h => h.1

/-! ## The provider loop -/

theorem queryRuntimes_eq_queryAll (X : Externals) (pluginOptions : PluginOptions)
    (bundleGraph : InternalBundleGraph) (bundle : InternalBundle) (runtimes : List Runtime)
    (connections : List RuntimeConnection) (trace : List Event) :
    queryRuntimes X pluginOptions bundleGraph bundle runtimes connections trace
      = queryAll X pluginOptions bundleGraph (runtimes.map (fun r => (bundle, r)))
          connections trace := by
  induction runtimes generalizing connections trace with
  | nil => rfl
  | cons r rest ih =>
    simp only [queryRuntimes, List.map_cons, queryAll]
    cases h : r.apply bundle bundleGraph with
    | error e => rfl
    | ok applied => exact ih _ _

theorem queryAll_append (X : Externals) (pluginOptions : PluginOptions)
    (bundleGraph : InternalBundleGraph) (qs1 qs2 : List (InternalBundle × Runtime))
    (connections : List RuntimeConnection) (trace : List Event) :
    queryAll X pluginOptions bundleGraph (qs1 ++ qs2) connections trace
      = match (queryAll X pluginOptions bundleGraph qs1 connections trace).error with
        | some _ => queryAll X pluginOptions bundleGraph qs1 connections trace
        | none =>
          queryAll X pluginOptions bundleGraph qs2
            (queryAll X pluginOptions bundleGraph qs1 connections trace).connections
            (queryAll X pluginOptions bundleGraph qs1 connections trace).trace := by
  induction qs1 generalizing connections trace with
  | nil => rfl
  | cons q rest ih =>
    obtain ⟨b, r⟩ := q
    simp only [List.cons_append, queryAll]
    cases h : r.apply b bundleGraph with
    | error e => rfl
    | ok applied => exact ih _ _

theorem queryBundles_eq_queryAll (X : Externals) (config : ParcelConfig)
    (pluginOptions : PluginOptions) (bundleGraph : InternalBundleGraph)
    (bundles : List InternalBundle) (connections : List RuntimeConnection) (trace : List Event) :
    queryBundles X config pluginOptions bundleGraph bundles connections trace
      = queryAll X pluginOptions bundleGraph (providerQueries config bundles)
          connections trace := by
  induction bundles generalizing connections trace with
  | nil => rfl
  | cons b rest ih =>
    simp only [queryBundles, providerQueries, List.flatMap_cons]
    rw [queryAll_append, queryRuntimes_eq_queryAll]
    cases h : (queryAll X pluginOptions bundleGraph
        ((config.getRuntimes b.env.context).map (fun r => (b, r))) connections trace).error with
    | some e =>
      simp only
      cases hq : queryAll X pluginOptions bundleGraph
        ((config.getRuntimes b.env.context).map (fun r => (b, r))) connections trace
      rw [hq] at h
      simp only at h
      subst h
      rfl
    | none => exact ih _ _

theorem collectConnections_eq_queryAll (X : Externals) (config : ParcelConfig)
    (pluginOptions : PluginOptions) (bundleGraph : InternalBundleGraph) :
    collectConnections X config pluginOptions bundleGraph
      = queryAll X pluginOptions bundleGraph (providerQueries config bundleGraph.getBundles)
          [] [] :=
  queryBundles_eq_queryAll X config pluginOptions bundleGraph _ [] []

/-- When every query succeeds, the loop pushes the connections of every query
in order and logs every query. -/
theorem queryAll_ok (X : Externals) (pluginOptions : PluginOptions)
    (bundleGraph : InternalBundleGraph) (qs : List (InternalBundle × Runtime))
    (hok : ∀ q ∈ qs, ∃ applied, q.2.apply q.1 bundleGraph = .ok applied)
    (connections : List RuntimeConnection) (trace : List Event) :
    queryAll X pluginOptions bundleGraph qs connections trace
      = { connections := connections ++ qs.flatMap (queryConnections X pluginOptions bundleGraph)
          trace := trace ++ qs.map queryEvent
          error := none } := by
  induction qs generalizing connections trace with
  | nil => simp [queryAll]
  | cons q rest ih =>
    obtain ⟨b, r⟩ := q
    obtain ⟨applied, happ⟩ := hok (b, r) (List.mem_cons_self _ _)
    simp only at happ
    simp only [queryAll, happ]
    rw [ih (fun q hq => hok q (List.mem_cons_of_mem _ hq))]
    simp [queryConnections, Runtime.records, happ, queryEvent, List.append_assoc]

/-- When a query throws after successful ones, the loop stops there: it holds
the connections of the earlier queries, has logged the queries up to the
failing one, and throws the diagnostic of the failing provider. -/
theorem queryAll_error (X : Externals) (pluginOptions : PluginOptions)
    (bundleGraph : InternalBundleGraph) (pre post : List (InternalBundle × Runtime))
    (bundle : InternalBundle) (runtime : Runtime) (e : JsError)
    (hok : ∀ q ∈ pre, ∃ applied, q.2.apply q.1 bundleGraph = .ok applied)
    (herr : runtime.apply bundle bundleGraph = .error e)
    (connections : List RuntimeConnection) (trace : List Event) :
    queryAll X pluginOptions bundleGraph (pre ++ (bundle, runtime) :: post) connections trace
      = { connections := connections ++ pre.flatMap (queryConnections X pluginOptions bundleGraph)
          trace := trace ++ pre.map queryEvent ++ [Event.providerApply bundle.id runtime.name]
          error := some (PassError.throwableDiagnostic
            (X.errorToDiagnostic e runtime.name)) } := by
  rw [queryAll_append, queryAll_ok X pluginOptions bundleGraph pre hok]
  simp only [queryAll, herr]

/-- Every connection the loop holds was pushed for a record some provider
returned for some bundle. -/
theorem queryAll_sound (X : Externals) (pluginOptions : PluginOptions)
    (bundleGraph : InternalBundleGraph) (qs : List (InternalBundle × Runtime))
    (connections : List RuntimeConnection) (trace : List Event) (c : RuntimeConnection)
    (hc : c ∈ (queryAll X pluginOptions bundleGraph qs connections trace).connections) :
    c ∈ connections ∨ ∃ q ∈ qs, ∃ applied, q.2.apply q.1 bundleGraph = .ok applied ∧
      ∃ record ∈ runtimeAssets applied, c = connectionOf X pluginOptions q.1 record := by
  induction qs generalizing connections trace with
  | nil => exact Or.inl hc
  | cons q rest ih =>
    obtain ⟨b, r⟩ := q
    simp only [queryAll] at hc
    cases happ : r.apply b bundleGraph with
    | error e =>
      rw [happ] at hc
      exact Or.inl hc
    | ok applied =>
      rw [happ] at hc
      rcases ih _ _ hc with h | ⟨q, hq, a, ha, rec, hrec, hceq⟩
      · rcases List.mem_append.1 h with h | h
        · exact Or.inl h
        · obtain ⟨rec, hrec, rfl⟩ := List.mem_map.1 h
          exact Or.inr ⟨(b, r), List.mem_cons_self _ _, applied, happ, rec, hrec, rfl⟩
      · exact Or.inr ⟨q, List.mem_cons_of_mem _ hq, a, ha, rec, hrec, hceq⟩

/-- The loop throws exactly when some query throws. -/
theorem queryAll_error_iff (X : Externals) (pluginOptions : PluginOptions)
    (bundleGraph : InternalBundleGraph) (qs : List (InternalBundle × Runtime))
    (connections : List RuntimeConnection) (trace : List Event) :
    (queryAll X pluginOptions bundleGraph qs connections trace).error = none ↔
      ∀ q ∈ qs, ∃ applied, q.2.apply q.1 bundleGraph = .ok applied := by
  induction qs generalizing connections trace with
  | nil => simp [queryAll]
  | cons q rest ih =>
    obtain ⟨b, r⟩ := q
    simp only [queryAll]
    cases happ : r.apply b bundleGraph with
    | error e =>
      simp only [List.mem_cons, forall_eq_or_imp, happ, exists_false, false_and]
      simp
    | ok applied =>
      simp only [List.mem_cons, forall_eq_or_imp, happ]
      rw [ih]
      simp

/-- The log of the loop extends the given log by the log entries of a prefix of
the queries. -/
theorem queryAll_trace (X : Externals) (pluginOptions : PluginOptions)
    (bundleGraph : InternalBundleGraph) (qs : List (InternalBundle × Runtime))
    (connections : List RuntimeConnection) (trace : List Event) :
    ∃ k, (queryAll X pluginOptions bundleGraph qs connections trace).trace
      = trace ++ (qs.take k).map queryEvent := by
  induction qs generalizing connections trace with
  | nil => exact ⟨0, by simp [queryAll]⟩
  | cons q rest ih =>
    obtain ⟨b, r⟩ := q
    simp only [queryAll]
    cases happ : r.apply b bundleGraph with
    | error e => exact ⟨1, by simp [queryEvent]⟩
    | ok applied =>
      obtain ⟨k, hk⟩ := ih
        (connections ++ (runtimeAssets applied).map (connectionOf X pluginOptions b))
        (trace ++ [Event.providerApply b.id r.name])
      exact ⟨k + 1, by simp [hk, queryEvent, List.append_assoc]⟩

theorem applyRuntimes_of_error (X : Externals) (bundleGraph : InternalBundleGraph)
    (config : ParcelConfig) (pluginOptions : PluginOptions) (runtimesBuilder : AssetGraphBuilder)
    (e : PassError)
    (h : (collectConnections X config pluginOptions bundleGraph).error = some e) :
    applyRuntimes X bundleGraph config pluginOptions runtimesBuilder
      = { bundleGraph := bundleGraph
          trace := (collectConnections X config pluginOptions bundleGraph).trace
          error := some e } := by
  simp only [applyRuntimes, h]

theorem applyRuntimes_trace_of_ok (X : Externals) (bundleGraph : InternalBundleGraph)
    (config : ParcelConfig) (pluginOptions : PluginOptions) (runtimesBuilder : AssetGraphBuilder)
    (h : (collectConnections X config pluginOptions bundleGraph).error = none) :
    (applyRuntimes X bundleGraph config pluginOptions runtimesBuilder).trace
      = (collectConnections X config pluginOptions bundleGraph).trace
        ++ [Event.reconcile (collectConnections X config pluginOptions bundleGraph).connections] := by
  simp only [applyRuntimes, h]
  cases reconcileNewRuntimes X runtimesBuilder
    (collectConnections X config pluginOptions bundleGraph).connections <;> rfl

/-- The pass after a successful reconciliation: the connections are applied to
the merged graph. -/
theorem applyRuntimes_of_reconciled (X : Externals) (bundleGraph : InternalBundleGraph)
    (config : ParcelConfig) (pluginOptions : PluginOptions) (runtimesBuilder : AssetGraphBuilder)
    (runtimesAssetGraph : Graph)
    (h : (collectConnections X config pluginOptions bundleGraph).error = none)
    (hrec : reconcileNewRuntimes X runtimesBuilder
      (collectConnections X config pluginOptions bundleGraph).connections
        = .ok runtimesAssetGraph) :
    (applyRuntimes X bundleGraph config pluginOptions runtimesBuilder).bundleGraph
      = (applyConnections X runtimesAssetGraph
          (X.fromAssetGraph runtimesAssetGraph bundleGraph._publicIdByAssetId
            bundleGraph._assetPublicIds)
          (mergeRuntimesGraph bundleGraph
            (X.fromAssetGraph runtimesAssetGraph bundleGraph._publicIdByAssetId
              bundleGraph._assetPublicIds))
          (collectConnections X config pluginOptions bundleGraph).connections).1 ∧
    (applyRuntimes X bundleGraph config pluginOptions runtimesBuilder).error
      = (applyConnections X runtimesAssetGraph
          (X.fromAssetGraph runtimesAssetGraph bundleGraph._publicIdByAssetId
            bundleGraph._assetPublicIds)
          (mergeRuntimesGraph bundleGraph
            (X.fromAssetGraph runtimesAssetGraph bundleGraph._publicIdByAssetId
              bundleGraph._assetPublicIds))
          (collectConnections X config pluginOptions bundleGraph).connections).2 := by
  simp only [applyRuntimes, h, hrec]
  trivial

/-- The request nodes of a pass are keyed by identity: one entry per distinct
identity. -/
theorem assetRequestNodesById_keyed (md5FromObject : AssetGroup → NodeId)
    (connections : List RuntimeConnection) :
    (assetRequestNodesById md5FromObject connections).length
      = (connections.map
          (fun c => (nodeFromAssetGroup md5FromObject c.assetGroup).id)).toFinset.card ∧
    ∀ c ∈ connections,
      (JsMap.keys (assetRequestNodesById md5FromObject connections)).count
        (nodeFromAssetGroup md5FromObject c.assetGroup).id = 1 ∧
      ∃ n, JsMap.get (assetRequestNodesById md5FromObject connections)
          (nodeFromAssetGroup md5FromObject c.assetGroup).id = some n ∧
        n.id = (nodeFromAssetGroup md5FromObject c.assetGroup).id ∧
        ∃ c1 ∈ connections, n = nodeFromAssetGroup md5FromObject c1.assetGroup := by
  have hnd := nodup_keys_assetRequestNodesById md5FromObject connections
  refine ⟨?_, ?_⟩
  · have h1 : (assetRequestNodesById md5FromObject connections).length
        = (JsMap.keys (assetRequestNodesById md5FromObject connections)).length := by
      simp [JsMap.keys]
    rw [h1, ← List.toFinset_card_of_nodup hnd]
    congr 1
    apply List.toFinset.ext
    intro id
    rw [mem_keys_assetRequestNodesById]
    simp only [List.mem_map]
  · intro c hc
    have hmem : (nodeFromAssetGroup md5FromObject c.assetGroup).id ∈
        JsMap.keys (assetRequestNodesById md5FromObject connections) :=
      (mem_keys_assetRequestNodesById md5FromObject connections _).2 ⟨c, hc, rfl⟩
    refine ⟨List.count_eq_one_of_mem hnd hmem, ?_⟩
    simp only [JsMap.keys, List.mem_map] at hmem
    obtain ⟨⟨k, n⟩, he, hk⟩ := hmem
    simp only at hk
    have hentry := assetRequestNodesById_entry md5FromObject connections (k, n) he
    rw [← hk]
    exact ⟨n, JsMap.get_of_mem _ hnd _ _ he, hentry.1.symm, hentry.2⟩

/-! ## The example pass -/

theorem Example.providerQueries_config :
    providerQueries Example.config Example.bundleGraph.getBundles
      = [(Example.bundleA, Example.registerRuntime), (Example.bundleA, Example.silentRuntime),
         (Example.bundleA, Example.hmrRuntime), (Example.bundleB, Example.registerRuntime),
         (Example.bundleB, Example.silentRuntime), (Example.bundleB, Example.hmrRuntime),
         (Example.bundleW, Example.registerRuntime)] := rfl

/-- No provider of the example configuration throws. -/
theorem Example.config_ok :
    ∀ q ∈ providerQueries Example.config Example.bundleGraph.getBundles,
      ∃ applied, q.2.apply q.1 Example.bundleGraph = .ok applied := by
  intro q hq
  rw [Example.providerQueries_config] at hq
  simp only [List.mem_cons, List.mem_singleton, List.not_mem_nil, or_false] at hq
  rcases hq with rfl | rfl | rfl | rfl | rfl | rfl | rfl <;> exact ⟨_, rfl⟩

theorem Example.providerQueries_failingConfig :
    providerQueries Example.failingConfig Example.bundleGraph.getBundles
      = [(Example.bundleA, Example.registerRuntime), (Example.bundleA, Example.failingRuntime),
         (Example.bundleA, Example.hmrRuntime), (Example.bundleB, Example.registerRuntime)]
        ++ (Example.bundleB, Example.failingRuntime) ::
          [(Example.bundleB, Example.hmrRuntime), (Example.bundleW, Example.registerRuntime)] :=
  rfl

/-- The providers of the failing configuration return up to the query of
`failingRuntime` for `bundleB`. -/
theorem Example.failingConfig_ok_before :
    ∀ q ∈ [(Example.bundleA, Example.registerRuntime), (Example.bundleA, Example.failingRuntime),
         (Example.bundleA, Example.hmrRuntime), (Example.bundleB, Example.registerRuntime)],
      ∃ applied, q.2.apply q.1 Example.bundleGraph = .ok applied := by
  intro q hq
  simp only [List.mem_cons, List.mem_singleton, List.not_mem_nil, or_false] at hq
  rcases hq with rfl | rfl | rfl | rfl <;> exact ⟨_, rfl⟩

/-! ## The traversal -/

/-- A property of the visitor state that every visit preserves holds of the
state the walk returns, also when the walk stops at an error. The visits may
rely on a property of the nodes that the start nodes have and that the
neighbours returned by the graph have. -/
theorem Graph.traverseLoop_invariant {σ : Type} (g : Graph)
    (visit : σ → Node → Except PassError (σ × Bool)) (P : σ → Prop) (Q : Node → Prop)
    (hchildren : ∀ n children, g.getNodesConnectedFrom n none = .ok children →
      ∀ c ∈ children, Q c)
    (hvisit : ∀ s n s1 skipped, P s → Q n → visit s n = .ok (s1, skipped) → P s1) :
    ∀ (fuel : Nat) (stack : List Node) (visited : List NodeId) (s : σ),
      (∀ n ∈ stack, Q n) → P s → P (g.traverseLoop visit fuel stack visited s).1 := by
  intro fuel
  induction fuel with
  | zero => intro stack visited s _ hs; simpa [Graph.traverseLoop] using hs
  | succ fuel ih =>
    intro stack visited s hstack hs
    cases stack with
    | nil => simpa [Graph.traverseLoop] using hs
    | cons node rest =>
      have hrest : ∀ n ∈ rest, Q n := fun n hn => hstack n (List.mem_cons_of_mem _ hn)
      simp only [Graph.traverseLoop]
      split
      · exact ih rest visited s hrest hs
      · cases hv : visit s node with
        | error e => simpa using hs
        | ok r =>
          obtain ⟨s1, skipped⟩ := r
          have hs1 : P s1 := hvisit s node s1 skipped hs (hstack node (List.mem_cons_self _ _)) hv
          simp only
          cases skipped with
          | true => simpa using ih rest (node.id :: visited) s1 hrest hs1
          | false =>
            simp only [Bool.false_eq_true, if_false]
            cases hc : g.getNodesConnectedFrom node none with
            | error e => simpa using hs1
            | ok children =>
              simp only
              apply ih (children ++ rest) (node.id :: visited) s1 _ hs1
              intro n hn
              rcases List.mem_append.1 hn with h | h
              · exact hchildren node children hc n h
              · exact hrest n h

/-- The walk enters its start node first: a property that holds after the visit
of the start node and that every visit preserves holds of the state the walk
returns. -/
theorem Graph.traverse_start {σ : Type} (g : Graph)
    (visit : σ → Node → Except PassError (σ × Bool)) (P : σ → Prop)
    (hvisit : ∀ s n s1 skipped, P s → visit s n = .ok (s1, skipped) → P s1)
    (start : Node) (s s1 : σ) (skipped : Bool) (hstart : visit s start = .ok (s1, skipped))
    (hs1 : P s1) : P (g.traverse visit start s).1 := by
  have hinv := Graph.traverseLoop_invariant g visit P (fun _ => True)
    (fun _ _ _ _ _ => trivial) (fun s n s1 skipped hs _ hv => hvisit s n s1 skipped hs hv)
  simp only [Graph.traverse, Graph.traverseLoop, List.not_mem_nil, if_false, hstart]
  cases skipped with
  | true => simpa using hs1
  | false =>
    simp only [Bool.false_eq_true, if_false]
    cases hc : g.getNodesConnectedFrom start none with
    | error e => simpa using hs1
    | ok children =>
      simp only
      exact hinv _ _ _ s1 (fun _ _ => trivial) hs1

/-- When the walk returns without error, the visit of its start node
succeeded. -/
theorem Graph.traverse_visits_start {σ : Type} (g : Graph)
    (visit : σ → Node → Except PassError (σ × Bool)) (start : Node) (s : σ)
    (h : (g.traverse visit start s).2 = none) : ∃ r, visit s start = .ok r := by
  simp only [Graph.traverse, Graph.traverseLoop, List.not_mem_nil, if_false] at h
  cases hv : visit s start with
  | error e => rw [hv] at h; simp at h
  | ok r => exact ⟨r, rfl⟩

/-! ## Locating the runtime node -/

theorem locateRuntimeNode_ok_iff (X : Externals) (runtimesAssetGraph : Graph)
    (assetGroup : AssetGroup) (n : Node) :
    locateRuntimeNode X runtimesAssetGraph assetGroup = .ok n ↔
      runtimesAssetGraph.getNodesConnectedFrom
          (nodeFromAssetGroup X.md5FromObject assetGroup) none = .ok [n] ∧
        n.isAsset = true := by
  cases h : runtimesAssetGraph.getNodesConnectedFrom
      (nodeFromAssetGroup X.md5FromObject assetGroup) none with
  | error e => simp [locateRuntimeNode, h]
  | ok ns =>
    match ns with
    | [] => simp [locateRuntimeNode, h, invariant]
    | [a] =>
      obtain ⟨aid, av⟩ := a
      cases av <;> simp [locateRuntimeNode, h, invariant, Node.isAsset]
      all_goals (intro h1; subst h1; simp)
    | a :: b :: rest => simp [locateRuntimeNode, h, invariant]

theorem locateRuntimeNode_error_of_count (X : Externals) (runtimesAssetGraph : Graph)
    (assetGroup : AssetGroup) (ns : List Node)
    (h : runtimesAssetGraph.getNodesConnectedFrom
      (nodeFromAssetGroup X.md5FromObject assetGroup) none = .ok ns)
    (hbad : ns.length ≠ 1 ∨ ∃ n, ns = [n] ∧ n.isAsset = false) :
    locateRuntimeNode X runtimesAssetGraph assetGroup
      = .error (PassError.assertionError none) := by
  match ns, h, hbad with
  | [], h, _ => simp [locateRuntimeNode, h, invariant]
  | [a], h, hbad =>
    rcases hbad with hbad | ⟨n, hn, hna⟩
    · simp at hbad
    · injection hn with hn _
      subst hn
      obtain ⟨aid, av⟩ := a
      cases av <;> simp [locateRuntimeNode, h, invariant, Node.isAsset] at hna ⊢
  | a :: b :: rest, h, _ => simp [locateRuntimeNode, h, invariant]

theorem locateRuntimeNode_error_of_absent (X : Externals) (runtimesAssetGraph : Graph)
    (assetGroup : AssetGroup) (e : PassError)
    (h : runtimesAssetGraph.getNodesConnectedFrom
      (nodeFromAssetGroup X.md5FromObject assetGroup) none = .error e) :
    locateRuntimeNode X runtimesAssetGraph assetGroup = .error e := by
  simp [locateRuntimeNode, h]

/-! ## Applying the connections -/

theorem applyConnections_append (X : Externals) (runtimesAssetGraph : Graph)
    (runtimesGraph : InternalBundleGraph) (pre post : List RuntimeConnection)
    (start : InternalBundleGraph) :
    applyConnections X runtimesAssetGraph runtimesGraph start (pre ++ post)
      = match applyConnections X runtimesAssetGraph runtimesGraph start pre with
        | (applied, some e) => (applied, some e)
        | (applied, none) =>
          applyConnections X runtimesAssetGraph runtimesGraph applied post := by
  induction pre generalizing start with
  | nil => rfl
  | cons c rest ih =>
    simp only [List.cons_append, applyConnections]
    rcases h : applyConnection X runtimesAssetGraph runtimesGraph start c with ⟨applied, _ | e⟩
    · exact ih applied
    · rfl

theorem visitContains_edges (bundle : InternalBundle) (duplicatedAssetIds : JsSet NodeId)
    (bundleGraph bundleGraph1 : InternalBundleGraph) (node : Node) (skipped : Bool)
    (h : visitContains bundle duplicatedAssetIds bundleGraph node = .ok (bundleGraph1, skipped))
    (e : Edge) (he : e ∈ bundleGraph._graph.edges) : e ∈ bundleGraph1._graph.edges := by
  unfold visitContains at h
  split at h
  · split at h
    · cases h; exact he
    · cases h; exact (Graph.mem_edges_addEdge _ _ _ _ _).2 (Or.inl he)
  · split at h
    · cases h; exact he
    · cases h; exact (Graph.mem_edges_addEdge _ _ _ _ _).2 (Or.inl he)
  · cases h; exact he

theorem visitContains_asset (bundle : InternalBundle) (duplicatedAssetIds : JsSet NodeId)
    (bundleGraph : InternalBundleGraph) (node : Node) (hasset : node.isAsset = true)
    (hdup : node.id ∉ duplicatedAssetIds) :
    visitContains bundle duplicatedAssetIds bundleGraph node
      = .ok ({ bundleGraph with
          _graph := bundleGraph._graph.addEdge bundle.id node.id (some "contains") }, false) := by
  obtain ⟨nid, nv⟩ := node
  cases nv <;> simp [Node.isAsset] at hasset
  simp [visitContains, JsSet.has, hdup]

theorem entryStep_edges (bundleGraph : InternalBundleGraph) (bundle : InternalBundle)
    (runtimeNode : Node) (isEntry : Option Bool) (e : Edge)
    (he : e ∈ bundleGraph._graph.edges) :
    e ∈ (entryStep bundleGraph bundle runtimeNode isEntry).1._graph.edges := by
  unfold entryStep
  split
  · cases hn : nullthrows (bundleGraph._graph.getNode bundle.id) with
    | error err => exact he
    | ok bundleNode =>
      exact (Graph.mem_edges_addEdge _ _ _ _ _).2 (Or.inl he)
  · exact he

theorem linkStep_edges (bundleGraph : InternalBundleGraph) (runtimeNode : Node)
    (dependency : Option Dependency) (e : Edge) (he : e ∈ bundleGraph._graph.edges) :
    e ∈ (linkStep bundleGraph runtimeNode dependency).1._graph.edges := by
  unfold linkStep
  split
  · cases bundleGraph._graph.getNodesConnectedTo runtimeNode none with
    | error err => exact he
    | ok inbound =>
      simp only
      split <;> exact he
  · exact (Graph.mem_edges_addEdge _ _ _ _ _).2 (Or.inl he)

/-- The second traversal keeps every edge of the bundle graph. -/
theorem traverse_visitContains_edges (g : Graph) (bundle : InternalBundle)
    (duplicatedAssetIds : JsSet NodeId) (start : Node) (bundleGraph : InternalBundleGraph)
    (e : Edge) (he : e ∈ bundleGraph._graph.edges) :
    e ∈ (g.traverse (visitContains bundle duplicatedAssetIds) start
      bundleGraph).1._graph.edges := by
  unfold Graph.traverse
  exact Graph.traverseLoop_invariant g (visitContains bundle duplicatedAssetIds)
    (fun s => e ∈ s._graph.edges) (fun _ => True) (fun _ _ _ _ _ => trivial)
    (fun s n s1 skipped hs _ hv => visitContains_edges bundle duplicatedAssetIds s s1 n skipped
      hv e hs) _ _ _ _ (fun _ _ => trivial) he

/-- The second traversal connects the bundle to the start node when this is an
asset that is not marked duplicated. -/
theorem traverse_visitContains_start (g : Graph) (bundle : InternalBundle)
    (duplicatedAssetIds : JsSet NodeId) (start : Node) (bundleGraph : InternalBundleGraph)
    (hasset : start.isAsset = true) (hdup : start.id ∉ duplicatedAssetIds) :
    (⟨bundle.id, start.id, some "contains"⟩ : Edge) ∈
      (g.traverse (visitContains bundle duplicatedAssetIds) start
        bundleGraph).1._graph.edges := by
  apply Graph.traverse_start g (visitContains bundle duplicatedAssetIds)
    (fun s => (⟨bundle.id, start.id, some "contains"⟩ : Edge) ∈ s._graph.edges)
    (fun s n s1 skipped hs hv => visitContains_edges bundle duplicatedAssetIds s s1 n skipped
      hv _ hs) start bundleGraph _ false
    (visitContains_asset bundle duplicatedAssetIds bundleGraph start hasset hdup)
  exact (Graph.mem_edges_addEdge _ _ _ _ _).2 (Or.inr rfl)

theorem connectRuntimeNode_edges (X : Externals) (runtimesGraph bundleGraph : InternalBundleGraph)
    (connection : RuntimeConnection) (runtimeNode : Node) (e : Edge)
    (he : e ∈ bundleGraph._graph.edges) :
    e ∈ (connectRuntimeNode X runtimesGraph bundleGraph connection runtimeNode).1._graph.edges := by
  unfold connectRuntimeNode
  simp only
  rcases h1 : runtimesGraph._graph.traverse
      (visitDuplicated X bundleGraph runtimesGraph connection.bundle
        (resolutionOf X bundleGraph connection.bundle connection.dependency))
      runtimeNode [] with ⟨dup, _ | err⟩
  · simp only
    have hc := traverse_visitContains_edges runtimesGraph._graph connection.bundle dup
      runtimeNode bundleGraph e he
    rcases h2 : runtimesGraph._graph.traverse (visitContains connection.bundle dup)
        runtimeNode bundleGraph with ⟨contained, _ | err⟩
    · rw [h2] at hc
      simp only
      have hen := entryStep_edges contained connection.bundle runtimeNode connection.isEntry e hc
      rcases h3 : entryStep contained connection.bundle runtimeNode connection.isEntry
        with ⟨entered, _ | err⟩
      · rw [h3] at hen
        exact linkStep_edges entered runtimeNode connection.dependency e hen
      · rw [h3] at hen
        exact hen
    · rw [h2] at hc
      exact hc
  · exact he

theorem applyConnection_edges (X : Externals) (runtimesAssetGraph : Graph)
    (runtimesGraph bundleGraph : InternalBundleGraph) (connection : RuntimeConnection)
    (e : Edge) (he : e ∈ bundleGraph._graph.edges) :
    e ∈ (applyConnection X runtimesAssetGraph runtimesGraph bundleGraph
      connection).1._graph.edges := by
  unfold applyConnection
  cases locateRuntimeNode X runtimesAssetGraph connection.assetGroup with
  | error err => exact he
  | ok runtimeNode =>
    exact connectRuntimeNode_edges X runtimesGraph bundleGraph connection runtimeNode e he

/-- Applying connections never removes an edge of the bundle graph. -/
theorem applyConnections_edges (X : Externals) (runtimesAssetGraph : Graph)
    (runtimesGraph : InternalBundleGraph) (connections : List RuntimeConnection)
    (bundleGraph : InternalBundleGraph) (e : Edge) (he : e ∈ bundleGraph._graph.edges) :
    e ∈ (applyConnections X runtimesAssetGraph runtimesGraph bundleGraph
      connections).1._graph.edges := by
  induction connections generalizing bundleGraph with
  | nil => exact he
  | cons c rest ih =>
    simp only [applyConnections]
    have hc := applyConnection_edges X runtimesAssetGraph runtimesGraph bundleGraph c e he
    rcases h : applyConnection X runtimesAssetGraph runtimesGraph bundleGraph c
      with ⟨applied, _ | err⟩
    · rw [h] at hc
      exact ih applied hc
    · rw [h] at hc
      exact hc

/-! ## The first traversal marks targets of dependencies only -/

theorem assetsOf_mem (ns : List Node) (assets : List Asset) (h : assetsOf ns = .ok assets)
    (a : Asset) (ha : a ∈ assets) : ∃ n ∈ ns, n.value = NodeValue.asset a := by
  induction ns generalizing assets with
  | nil =>
    simp only [assetsOf] at h
    cases h
    cases ha
  | cons n rest ih =>
    obtain ⟨nid, nv⟩ := n
    cases nv with
    | asset value =>
      simp only [assetsOf] at h
      cases hr : assetsOf rest with
      | error e => rw [hr] at h; cases h
      | ok as =>
        rw [hr] at h
        cases h
        rcases List.mem_cons.1 ha with rfl | ha
        · exact ⟨_, List.mem_cons_self _ _, rfl⟩
        · obtain ⟨m, hm, hmv⟩ := ih as hr ha
          exact ⟨m, List.mem_cons_of_mem _ hm, hmv⟩
    | _ => simp [assetsOf] at h

theorem markAssets_mem (X : Externals) (bundleGraph : InternalBundleGraph)
    (bundle : InternalBundle) (resolution : Option Asset) (assets : List Asset)
    (acc : JsSet NodeId × Bool) (x : NodeId)
    (hx : x ∈ (markAssets X bundleGraph bundle resolution assets acc).1) :
    x ∈ acc.1 ∨ ∃ a ∈ assets, x = a.id := by
  induction assets generalizing acc with
  | nil => exact Or.inl hx
  | cons a rest ih =>
    simp only [markAssets] at hx
    split at hx
    · rcases ih _ hx with h | ⟨b, hb, hxb⟩
      · rcases (JsSet.mem_add _ _ _).1 h with h | h
        · exact Or.inl h
        · exact Or.inr ⟨a, List.mem_cons_self _ _, h⟩
      · exact Or.inr ⟨b, List.mem_cons_of_mem _ hb, hxb⟩
    · rcases ih _ hx with h | ⟨b, hb, hxb⟩
      · exact Or.inl h
      · exact Or.inr ⟨b, List.mem_cons_of_mem _ hb, hxb⟩

theorem visitDuplicated_subset (X : Externals) (bundleGraph runtimesGraph : InternalBundleGraph)
    (bundle : InternalBundle) (resolution : Option Asset) (dup dup1 : JsSet NodeId)
    (node : Node) (skipped : Bool)
    (hdup : ∀ x ∈ dup, x ∈ runtimesGraph.dependencyTargetIds)
    (hnode : node.isDependency = true → node ∈ JsMap.values runtimesGraph._graph.nodes)
    (h : visitDuplicated X bundleGraph runtimesGraph bundle resolution dup node
      = .ok (dup1, skipped)) :
    ∀ x ∈ dup1, x ∈ runtimesGraph.dependencyTargetIds := by
  obtain ⟨nid, nv⟩ := node
  cases nv with
  | dependency d =>
    simp only [visitDuplicated] at h
    cases hc : runtimesGraph._graph.getNodesConnectedFrom
        { id := nid, value := NodeValue.dependency d } none with
    | error e => rw [hc] at h; cases h
    | ok assetNodes =>
      rw [hc] at h
      simp only at h
      cases ha : assetsOf assetNodes with
      | error e => rw [ha] at h; cases h
      | ok assets =>
        rw [ha] at h
        simp only [Except.ok.injEq, Prod.mk.injEq] at h
        intro x hx
        have hm : x ∈ (markAssets X bundleGraph bundle resolution assets (dup, false)).1 := by
          have h1 := h
          cases hmk : markAssets X bundleGraph bundle resolution assets (dup, false)
          rw [hmk] at h1
          simp only [Prod.mk.injEq] at h1
          rw [h1.1]; exact hx
        rcases markAssets_mem X bundleGraph bundle resolution assets (dup, false) x hm
          with h1 | ⟨a, ha1, rfl⟩
        · exact hdup x h1
        · obtain ⟨m, hm1, hmv⟩ := assetsOf_mem assetNodes assets ha a ha1
          have hnodes : assetNodes =
              (runtimesGraph._graph.idsConnectedFrom nid none).filterMap
                runtimesGraph._graph.getNode := by
            unfold Graph.getNodesConnectedFrom at hc
            split at hc
            · cases hc; rfl
            · cases hc
          unfold InternalBundleGraph.dependencyTargetIds
          rw [List.mem_flatMap]
          refine ⟨{ id := nid, value := NodeValue.dependency d }, ?_, ?_⟩
          · exact List.mem_filter.2 ⟨hnode rfl, rfl⟩
          · rw [List.mem_filterMap]
            refine ⟨m, ?_, ?_⟩
            · rw [← hnodes]; exact hm1
            · rw [hmv]
  | root => simp only [visitDuplicated] at h; cases h; exact hdup
  | asset_group v => simp only [visitDuplicated] at h; cases h; exact hdup
  | asset v => simp only [visitDuplicated] at h; cases h; exact hdup
  | bundle v => simp only [visitDuplicated] at h; cases h; exact hdup
  | bundle_group => simp only [visitDuplicated] at h; cases h; exact hdup

theorem Graph.getNodesConnectedFrom_mem_values (g : Graph) (n : Node) (t : Option String)
    (children : List Node) (h : g.getNodesConnectedFrom n t = .ok children) (c : Node)
    (hc : c ∈ children) : c ∈ JsMap.values g.nodes := by
  unfold Graph.getNodesConnectedFrom at h
  split at h
  · cases h
    obtain ⟨id, -, hid⟩ := List.mem_filterMap.1 hc
    exact List.mem_map.2 ⟨(id, c), JsMap.mem_of_get g.nodes id c hid, rfl⟩
  · cases h

/-- Every identifier the first traversal marks as duplicated is the identifier
of an asset that a dependency node of the runtimes graph points to. -/
theorem traverse_visitDuplicated_subset (X : Externals)
    (bundleGraph runtimesGraph : InternalBundleGraph) (bundle : InternalBundle)
    (resolution : Option Asset) (start : Node) (hstart : start.isAsset = true) :
    ∀ x ∈ (runtimesGraph._graph.traverse
        (visitDuplicated X bundleGraph runtimesGraph bundle resolution) start []).1,
      x ∈ runtimesGraph.dependencyTargetIds := by
  unfold Graph.traverse
  apply Graph.traverseLoop_invariant runtimesGraph._graph
    (visitDuplicated X bundleGraph runtimesGraph bundle resolution)
    (fun dup => ∀ x ∈ dup, x ∈ runtimesGraph.dependencyTargetIds)
    (fun n => n.isDependency = true → n ∈ JsMap.values runtimesGraph._graph.nodes)
  · intro n children h c hc _
    exact Graph.getNodesConnectedFrom_mem_values _ n none children h c hc
  · intro s n s1 skipped hs hn hv
    exact visitDuplicated_subset X bundleGraph runtimesGraph bundle resolution s s1 n skipped
      hs hn hv
  · intro n hn hdep
    simp only [List.mem_singleton] at hn
    subst hn
    obtain ⟨nid, nv⟩ := n
    cases nv <;> simp [Node.isAsset, Node.isDependency] at hstart hdep
  · intro x hx; cases hx

/-- A connection that is applied without error connects its bundle to its
runtime node by a `contains` edge, unless a dependency of the runtimes graph
points to an asset with the identifier of the runtime node. -/
theorem connectRuntimeNode_contains (X : Externals)
    (runtimesGraph bundleGraph : InternalBundleGraph) (connection : RuntimeConnection)
    (runtimeNode : Node) (hasset : runtimeNode.isAsset = true)
    (hfree : runtimeNode.id ∉ runtimesGraph.dependencyTargetIds)
    (hok : (connectRuntimeNode X runtimesGraph bundleGraph connection runtimeNode).2 = none) :
    (⟨connection.bundle.id, runtimeNode.id, some "contains"⟩ : Edge) ∈
      (connectRuntimeNode X runtimesGraph bundleGraph connection
        runtimeNode).1._graph.edges := by
  have hsub := traverse_visitDuplicated_subset X bundleGraph runtimesGraph connection.bundle
    (resolutionOf X bundleGraph connection.bundle connection.dependency) runtimeNode hasset
  unfold connectRuntimeNode at hok ⊢
  simp only at hok ⊢
  rcases h1 : runtimesGraph._graph.traverse
      (visitDuplicated X bundleGraph runtimesGraph connection.bundle
        (resolutionOf X bundleGraph connection.bundle connection.dependency))
      runtimeNode [] with ⟨dup, _ | err⟩
  · rw [h1] at hok hsub
    simp only at hok hsub ⊢
    have hc := traverse_visitContains_start runtimesGraph._graph connection.bundle dup
      runtimeNode bundleGraph hasset (fun h => hfree (hsub _ h))
    rcases h2 : runtimesGraph._graph.traverse (visitContains connection.bundle dup)
        runtimeNode bundleGraph with ⟨contained, _ | err⟩
    · rw [h2] at hc hok
      simp only at hok ⊢
      have hen := entryStep_edges contained connection.bundle runtimeNode connection.isEntry _ hc
      rcases h3 : entryStep contained connection.bundle runtimeNode connection.isEntry
        with ⟨entered, _ | err⟩
      · rw [h3] at hen
        exact linkStep_edges entered runtimeNode connection.dependency _ hen
      · rw [h3] at hen
        exact hen
    · rw [h2] at hc
      exact hc
  · rw [h1] at hok
    simp at hok

/-- After a loop over the connections that ends without error, every
connection has a runtime node, an asset, and its bundle is connected to it by
a `contains` edge, unless a dependency of the runtimes graph points to an
asset with the identifier of the runtime node. -/
theorem applyConnections_contains (X : Externals) (runtimesAssetGraph : Graph)
    (runtimesGraph : InternalBundleGraph) (connections : List RuntimeConnection)
    (bundleGraph : InternalBundleGraph)
    (hok : (applyConnections X runtimesAssetGraph runtimesGraph bundleGraph connections).2
      = none)
    (c : RuntimeConnection) (hc : c ∈ connections) :
    ∃ runtimeNode, locateRuntimeNode X runtimesAssetGraph c.assetGroup = .ok runtimeNode ∧
      runtimeNode.isAsset = true ∧
      (runtimeNode.id ∉ runtimesGraph.dependencyTargetIds →
        (⟨c.bundle.id, runtimeNode.id, some "contains"⟩ : Edge) ∈
          (applyConnections X runtimesAssetGraph runtimesGraph bundleGraph
            connections).1._graph.edges) := by
  induction connections generalizing bundleGraph with
  | nil => cases hc
  | cons c0 rest ih =>
    simp only [applyConnections] at hok ⊢
    rcases h : applyConnection X runtimesAssetGraph runtimesGraph bundleGraph c0
      with ⟨applied, _ | err⟩
    · rw [h] at hok
      simp only at hok ⊢
      rcases List.mem_cons.1 hc with rfl | hc
      · unfold applyConnection at h
        cases hl : locateRuntimeNode X runtimesAssetGraph c.assetGroup with
        | error err => rw [hl] at h; simp at h
        | ok runtimeNode =>
          rw [hl] at h
          simp only at h
          have hasset := ((locateRuntimeNode_ok_iff X runtimesAssetGraph c.assetGroup
            runtimeNode).1 hl).2
          refine ⟨runtimeNode, rfl, hasset, ?_⟩
          intro hfree
          have := connectRuntimeNode_contains X runtimesGraph bundleGraph c runtimeNode hasset
            hfree (by rw [h])
          rw [h] at this
          exact applyConnections_edges X runtimesAssetGraph runtimesGraph rest applied _ this
      · exact ih applied hok hc
    · rw [h] at hok
      simp at hok

/-- A pass that returns has queried its providers without error and has
reconciled. -/
theorem applyRuntimes_ok (X : Externals) (bundleGraph : InternalBundleGraph)
    (config : ParcelConfig) (pluginOptions : PluginOptions) (runtimesBuilder : AssetGraphBuilder)
    (h : (applyRuntimes X bundleGraph config pluginOptions runtimesBuilder).error = none) :
    (collectConnections X config pluginOptions bundleGraph).error = none ∧
    ∃ runtimesAssetGraph, reconcileNewRuntimes X runtimesBuilder
      (collectConnections X config pluginOptions bundleGraph).connections
        = .ok runtimesAssetGraph := by
  cases hc : (collectConnections X config pluginOptions bundleGraph).error with
  | some e =>
    rw [applyRuntimes_of_error X bundleGraph config pluginOptions runtimesBuilder e hc] at h
    cases h
  | none =>
    refine ⟨rfl, ?_⟩
    cases hr : reconcileNewRuntimes X runtimesBuilder
        (collectConnections X config pluginOptions bundleGraph).connections with
    | error e =>
      simp only [applyRuntimes, hc, hr] at h
      cases h
    | ok rag => exact ⟨rag, rfl⟩

/-! ## The walk never runs out of steps -/

theorem List.length_filter_split {α : Type} (l : List α) (p q r : α → Bool)
    (h : ∀ x, p x = (q x || r x) ∧ (q x && r x) = false) :
    (l.filter q).length + (l.filter r).length = (l.filter p).length := by
  induction l with
  | nil => rfl
  | cons x rest ih =>
    obtain ⟨h1, h2⟩ := h x
    simp only [List.filter_cons, h1]
    cases hq : q x <;> cases hr : r x <;> simp [hq, hr] at h2 ⊢ <;> omega

theorem Graph.pendingEdges_enter (g : Graph) (visited : List NodeId) (id : NodeId)
    (hid : id ∉ visited) :
    g.pendingEdges (id :: visited) + (g.idsConnectedFrom id none).length
      = g.pendingEdges visited := by
  unfold Graph.pendingEdges Graph.idsConnectedFrom
  rw [List.length_map]
  apply List.length_filter_split
  intro e
  by_cases ht : e.type = none
  · by_cases he : e.fromId = id
    · have hv : e.fromId ∉ visited := he ▸ hid
      simp [ht, he, hv, hid]
    · by_cases hv : e.fromId ∈ visited <;> simp [ht, he, hv]
  · simp [ht]

theorem Graph.length_getNodesConnectedFrom (g : Graph) (n : Node) (t : Option String)
    (children : List Node) (h : g.getNodesConnectedFrom n t = .ok children) :
    children.length ≤ (g.idsConnectedFrom n.id t).length := by
  unfold Graph.getNodesConnectedFrom at h
  split at h
  · cases h
    exact List.length_filterMap_le _ _
  · cases h

/-- Enough fuel gives the result: once the fuel covers the stack and the
pending edges, more fuel does not change what the walk returns. -/
theorem Graph.traverseLoop_fuel {σ : Type} (g : Graph)
    (visit : σ → Node → Except PassError (σ × Bool)) :
    ∀ (fuel : Nat) (stack : List Node) (visited : List NodeId) (s : σ),
      stack.length + g.pendingEdges visited ≤ fuel →
      ∀ k, g.traverseLoop visit (fuel + k) stack visited s
        = g.traverseLoop visit fuel stack visited s := by
  intro fuel
  induction fuel with
  | zero =>
    intro stack visited s h k
    have hs : stack = [] := by
      cases stack with
      | nil => rfl
      | cons a r => simp at h
    subst hs
    cases k <;> simp [Graph.traverseLoop]
  | succ fuel ih =>
    intro stack visited s h k
    have hk : fuel + 1 + k = (fuel + k) + 1 := by omega
    rw [hk]
    cases stack with
    | nil => simp [Graph.traverseLoop]
    | cons node rest =>
      simp only [List.length_cons] at h
      simp only [Graph.traverseLoop]
      by_cases hv : node.id ∈ visited
      · simp only [hv, if_true]
        exact ih rest visited s (by omega) k
      · simp only [hv, if_false]
        have hp := Graph.pendingEdges_enter g visited node.id hv
        cases hvis : visit s node with
        | error e => rfl
        | ok r =>
          obtain ⟨s1, skipped⟩ := r
          simp only
          cases skipped with
          | true =>
            simp only [if_true]
            exact ih rest (node.id :: visited) s1 (by omega) k
          | false =>
            simp only [Bool.false_eq_true, if_false]
            cases hc : g.getNodesConnectedFrom node none with
            | error e => rfl
            | ok children =>
              simp only
              have hl := Graph.length_getNodesConnectedFrom g node none children hc
              exact ih (children ++ rest) (node.id :: visited) s1
                (by rw [List.length_append]; omega) k

theorem Graph.pendingEdges_le (g : Graph) (visited : List NodeId) :
    g.pendingEdges visited ≤ g.edges.length :=
  List.length_filter_le _ _

/-- The fuel of `traverse` is enough: with any larger fuel the walk returns the
same state and the same error. -/
theorem Graph.traverse_fuel {σ : Type} (g : Graph)
    (visit : σ → Node → Except PassError (σ × Bool)) (startNode : Node) (s : σ) (k : Nat) :
    g.traverseLoop visit (g.edges.length + 2 + k) [startNode] [] s
      = g.traverse visit startNode s := by
  unfold Graph.traverse
  apply Graph.traverseLoop_fuel
  have := Graph.pendingEdges_le g []
  simp only [List.length_singleton]
  omega

/-! ## The log of a walk -/

/-- Keeping the log does not change the walk: the state and the error are those
of the walk without the log. -/
theorem Graph.traverseLoop_logged {σ : Type} (g : Graph)
    (visit : σ → Node → Except PassError (σ × Bool)) :
    ∀ (fuel : Nat) (stack : List Node) (visited : List NodeId) (s : σ)
      (log : List (Node × Bool)),
      (g.traverseLoop (Graph.logged visit) fuel stack visited (s, log)).1.1
        = (g.traverseLoop visit fuel stack visited s).1 ∧
      (g.traverseLoop (Graph.logged visit) fuel stack visited (s, log)).2
        = (g.traverseLoop visit fuel stack visited s).2 := by
  intro fuel
  induction fuel with
  | zero => intro stack visited s log; simp [Graph.traverseLoop]
  | succ fuel ih =>
    intro stack visited s log
    cases stack with
    | nil => simp [Graph.traverseLoop]
    | cons node rest =>
      simp only [Graph.traverseLoop]
      by_cases hv : node.id ∈ visited
      · simp only [hv, if_true]; exact ih rest visited s log
      · simp only [hv, if_false, Graph.logged]
        cases hvis : visit s node with
        | error e => simp
        | ok r =>
          obtain ⟨s1, skipped⟩ := r
          simp only
          cases skipped with
          | true => simp only [if_true]; exact ih rest _ s1 _
          | false =>
            simp only [Bool.false_eq_true, if_false]
            cases hc : g.getNodesConnectedFrom node none with
            | error e => simp
            | ok children => simp only; exact ih _ _ s1 _

theorem Graph.traverse_logged {σ : Type} (g : Graph)
    (visit : σ → Node → Except PassError (σ × Bool)) (start : Node) (s : σ) :
    (g.traverse (Graph.logged visit) start (s, [])).1.1 = (g.traverse visit start s).1 ∧
    (g.traverse (Graph.logged visit) start (s, [])).2 = (g.traverse visit start s).2 :=
  Graph.traverseLoop_logged g visit _ _ _ s []

/-- Induction over the steps of a walk, with an invariant that may speak of
the stack and of the identifiers entered. -/
theorem Graph.traverseLoop_induct {σ : Type} (g : Graph)
    (visit : σ → Node → Except PassError (σ × Bool))
    (I : List Node → List NodeId → σ → Prop) (J : σ → Prop)
    (hfinal : ∀ stack visited s, I stack visited s → J s)
    (hseen : ∀ n stack visited s, I (n :: stack) visited s → n.id ∈ visited →
      I stack visited s)
    (hskip : ∀ n stack visited s s1, I (n :: stack) visited s → n.id ∉ visited →
      visit s n = .ok (s1, true) → I stack (n.id :: visited) s1)
    (hdesc : ∀ n stack visited s s1 children, I (n :: stack) visited s → n.id ∉ visited →
      visit s n = .ok (s1, false) → g.getNodesConnectedFrom n none = .ok children →
      I (children ++ stack) (n.id :: visited) s1)
    (hfail : ∀ n stack visited s s1 e, I (n :: stack) visited s → n.id ∉ visited →
      visit s n = .ok (s1, false) → g.getNodesConnectedFrom n none = .error e → J s1) :
    ∀ (fuel : Nat) (stack : List Node) (visited : List NodeId) (s : σ),
      I stack visited s → J (g.traverseLoop visit fuel stack visited s).1 := by
  intro fuel
  induction fuel with
  | zero =>
    intro stack visited s h
    simpa [Graph.traverseLoop] using hfinal stack visited s h
  | succ fuel ih =>
    intro stack visited s h
    cases stack with
    | nil => simpa [Graph.traverseLoop] using hfinal [] visited s h
    | cons node rest =>
      simp only [Graph.traverseLoop]
      by_cases hv : node.id ∈ visited
      · simp only [hv, if_true]
        exact ih rest visited s (hseen node rest visited s h hv)
      · simp only [hv, if_false]
        cases hvis : visit s node with
        | error e => simpa using hfinal _ _ s h
        | ok r =>
          obtain ⟨s1, skipped⟩ := r
          simp only
          cases skipped with
          | true =>
            simp only [if_true]
            exact ih rest _ s1 (hskip node rest visited s s1 h hv hvis)
          | false =>
            simp only [Bool.false_eq_true, if_false]
            cases hc : g.getNodesConnectedFrom node none with
            | error e => simpa using hfail node rest visited s s1 e h hv hvis hc
            | ok children =>
              simp only
              exact ih _ _ s1 (hdesc node rest visited s s1 children h hv hvis hc)

theorem Graph.logged_ok {σ : Type} (visit : σ → Node → Except PassError (σ × Bool))
    (sl sl1 : σ × List (Node × Bool)) (n : Node) (b : Bool)
    (h : Graph.logged visit sl n = .ok (sl1, b)) :
    ∃ s1, visit sl.1 n = .ok (s1, b) ∧ sl1 = (s1, sl.2 ++ [(n, b)]) := by
  unfold Graph.logged at h
  cases hv : visit sl.1 n with
  | error e => rw [hv] at h; cases h
  | ok r =>
    obtain ⟨s1, b1⟩ := r
    rw [hv] at h
    simp only [Except.ok.injEq, Prod.mk.injEq] at h
    obtain ⟨h1, h2⟩ := h
    subst h2
    exact ⟨s1, rfl, h1.symm⟩

theorem Graph.EnteredFrom.mono (g : Graph) (start : Node) (log : List (Node × Bool))
    (extra : List (Node × Bool)) (node : Node) (h : g.EnteredFrom start log node) :
    g.EnteredFrom start (log ++ extra) node := by
  rcases h with h | ⟨p, hp, children, hc, hn⟩
  · exact Or.inl h
  · exact Or.inr ⟨p, List.mem_append_left _ hp, children, hc, hn⟩

/-- The walk does not descend below a pruned node: every node of the log is the
start node or is connected from a logged node that was not pruned. -/
theorem Graph.traverse_logged_enteredFrom {σ : Type} (g : Graph)
    (visit : σ → Node → Except PassError (σ × Bool)) (start : Node) (s : σ) :
    ∀ entry ∈ (g.traverse (Graph.logged visit) start (s, [])).1.2,
      g.EnteredFrom start (g.traverse (Graph.logged visit) start (s, [])).1.2 entry.1 := by
  unfold Graph.traverse
  apply Graph.traverseLoop_induct g (Graph.logged visit)
    (fun stack _ sl => (∀ n ∈ stack, g.EnteredFrom start sl.2 n) ∧
      (∀ entry ∈ sl.2, g.EnteredFrom start sl.2 entry.1))
    (fun sl => ∀ entry ∈ sl.2, g.EnteredFrom start sl.2 entry.1)
  · intro stack visited sl h; exact h.2
  · intro n stack visited sl h _
    exact ⟨fun m hm => h.1 m (List.mem_cons_of_mem _ hm), h.2⟩
  · intro n stack visited sl sl1 h _ hv
    obtain ⟨s1, -, rfl⟩ := Graph.logged_ok visit sl sl1 n true hv
    refine ⟨fun m hm => Graph.EnteredFrom.mono g start _ _ m
      (h.1 m (List.mem_cons_of_mem _ hm)), ?_⟩
    intro entry he
    rcases List.mem_append.1 he with he | he
    · exact Graph.EnteredFrom.mono g start _ _ _ (h.2 entry he)
    · simp only [List.mem_singleton] at he
      subst he
      exact Graph.EnteredFrom.mono g start _ _ _ (h.1 n (List.mem_cons_self _ _))
  · intro n stack visited sl sl1 children h _ hv hc
    obtain ⟨s1, -, rfl⟩ := Graph.logged_ok visit sl sl1 n false hv
    refine ⟨?_, ?_⟩
    · intro m hm
      rcases List.mem_append.1 hm with hm | hm
      · exact Or.inr ⟨n, List.mem_append_right _ (List.mem_singleton.2 rfl), children, hc, hm⟩
      · exact Graph.EnteredFrom.mono g start _ _ m (h.1 m (List.mem_cons_of_mem _ hm))
    · intro entry he
      rcases List.mem_append.1 he with he | he
      · exact Graph.EnteredFrom.mono g start _ _ _ (h.2 entry he)
      · simp only [List.mem_singleton] at he
        subst he
        exact Graph.EnteredFrom.mono g start _ _ _ (h.1 n (List.mem_cons_self _ _))
  · intro n stack visited sl sl1 e h _ hv _
    obtain ⟨s1, -, rfl⟩ := Graph.logged_ok visit sl sl1 n false hv
    intro entry he
    rcases List.mem_append.1 he with he | he
    · exact Graph.EnteredFrom.mono g start _ _ _ (h.2 entry he)
    · simp only [List.mem_singleton] at he
      subst he
      exact Graph.EnteredFrom.mono g start _ _ _ (h.1 n (List.mem_cons_self _ _))
  · refine ⟨?_, ?_⟩
    · intro n hn
      simp only [List.mem_singleton] at hn
      exact Or.inl hn
    · intro entry he; cases he

/-- Every entry of the log records a visit that returned: the `Bool` of the
entry is the `Bool` of a visit of its node. -/
theorem Graph.traverse_logged_visit {σ : Type} (g : Graph)
    (visit : σ → Node → Except PassError (σ × Bool)) (start : Node) (s : σ) :
    ∀ entry ∈ (g.traverse (Graph.logged visit) start (s, [])).1.2,
      ∃ s0 s1, visit s0 entry.1 = .ok (s1, entry.2) := by
  unfold Graph.traverse
  apply Graph.traverseLoop_invariant g (Graph.logged visit)
    (fun sl => ∀ entry ∈ sl.2, ∃ s0 s1, visit s0 entry.1 = .ok (s1, entry.2)) (fun _ => True)
    (fun _ _ _ _ _ => trivial)
  · intro sl n sl1 skipped h _ hv
    obtain ⟨s1, hs1, rfl⟩ := Graph.logged_ok visit sl sl1 n skipped hv
    intro entry he
    rcases List.mem_append.1 he with he | he
    · exact h entry he
    · simp only [List.mem_singleton] at he
      subst he
      exact ⟨sl.1, s1, hs1⟩
  · intro _ _; trivial
  · intro entry he; cases he

/-! ## What the first traversal marks -/

theorem assetsOf_mem_iff (ns : List Node) (assets : List Asset) (h : assetsOf ns = .ok assets)
    (a : Asset) : a ∈ assets ↔ ∃ n ∈ ns, n.value = NodeValue.asset a := by
  refine ⟨assetsOf_mem ns assets h a, ?_⟩
  induction ns generalizing assets with
  | nil => rintro ⟨n, hn, -⟩; cases hn
  | cons n rest ih =>
    obtain ⟨nid, nv⟩ := n
    cases nv with
    | asset value =>
      simp only [assetsOf] at h
      cases hr : assetsOf rest with
      | error e => rw [hr] at h; cases h
      | ok as =>
        rw [hr] at h
        cases h
        rintro ⟨m, hm, hmv⟩
        rcases List.mem_cons.1 hm with rfl | hm
        · simp only [NodeValue.asset.injEq] at hmv
          subst hmv
          exact List.mem_cons_self _ _
        · exact List.mem_cons_of_mem _ (ih as hr ⟨m, hm, hmv⟩)
    | _ => simp [assetsOf] at h

theorem markAssets_spec (X : Externals) (bundleGraph : InternalBundleGraph)
    (bundle : InternalBundle) (resolution : Option Asset) (assets : List Asset)
    (acc : JsSet NodeId × Bool) :
    (∀ x, x ∈ (markAssets X bundleGraph bundle resolution assets acc).1 ↔
      x ∈ acc.1 ∨ ∃ a ∈ assets, a.id = x ∧
        (X.isAssetReachableFromBundle bundleGraph a (bundleGraph.currentBundle bundle) = true ∨
          resolution.map (fun r => r.id) = some a.id)) ∧
    ((markAssets X bundleGraph bundle resolution assets acc).2 = true ↔
      acc.2 = true ∨ ∃ a ∈ assets,
        (X.isAssetReachableFromBundle bundleGraph a (bundleGraph.currentBundle bundle) = true ∨
          resolution.map (fun r => r.id) = some a.id)) := by
  induction assets generalizing acc with
  | nil => simp [markAssets]
  | cons a rest ih =>
    simp only [markAssets]
    by_cases hc : (X.isAssetReachableFromBundle bundleGraph a (bundleGraph.currentBundle bundle)
        || decide (resolution.map (fun r => r.id) = some a.id)) = true
    · rw [if_pos hc]
      obtain ⟨h1, h2⟩ := ih (JsSet.add acc.1 a.id, true)
      have hc1 : X.isAssetReachableFromBundle bundleGraph a
          (bundleGraph.currentBundle bundle) = true ∨
          resolution.map (fun r => r.id) = some a.id := by
        simpa using hc
      refine ⟨?_, ?_⟩
      · intro x
        rw [h1 x]
        simp only [JsSet.mem_add, List.mem_cons, exists_eq_or_imp]
        constructor
        · rintro ((h | h) | h)
          · exact Or.inl h
          · exact Or.inr (Or.inl ⟨h.symm, hc1⟩)
          · exact Or.inr (Or.inr h)
        · rintro (h | ⟨h, -⟩ | h)
          · exact Or.inl (Or.inl h)
          · exact Or.inl (Or.inr h.symm)
          · exact Or.inr h
      · rw [h2]
        simp only [List.mem_cons, exists_eq_or_imp, true_or, true_iff]
        exact Or.inr (Or.inl hc1)
    · rw [if_neg hc]
      obtain ⟨h1, h2⟩ := ih acc
      have hc1 : ¬ (X.isAssetReachableFromBundle bundleGraph a
          (bundleGraph.currentBundle bundle) = true ∨
          resolution.map (fun r => r.id) = some a.id) := by
        simpa using hc
      refine ⟨?_, ?_⟩
      · intro x
        rw [h1 x]
        simp only [List.mem_cons, exists_eq_or_imp]
        constructor
        · rintro (h | h)
          · exact Or.inl h
          · exact Or.inr (Or.inr h)
        · rintro (h | ⟨-, h⟩ | h)
          · exact Or.inl h
          · exact absurd h hc1
          · exact Or.inr h
      · rw [h2]
        simp only [List.mem_cons, exists_eq_or_imp]
        constructor
        · rintro (h | h)
          · exact Or.inl h
          · exact Or.inr (Or.inr h)
        · rintro (h | h | h)
          · exact Or.inl h
          · exact absurd h hc1
          · exact Or.inr h

/-- A visit of the first traversal adds to the duplicated identifiers exactly
those the node points to, and prunes exactly when there is one. -/
theorem visitDuplicated_spec (X : Externals) (bundleGraph runtimesGraph : InternalBundleGraph)
    (bundle : InternalBundle) (resolution : Option Asset) (dup dup1 : JsSet NodeId)
    (node : Node) (skipped : Bool)
    (h : visitDuplicated X bundleGraph runtimesGraph bundle resolution dup node
      = .ok (dup1, skipped)) :
    (∀ x, x ∈ dup1 ↔ x ∈ dup ∨
      PointsToDuplicate X bundleGraph runtimesGraph bundle resolution node x) ∧
    (skipped = true ↔
      ∃ x, PointsToDuplicate X bundleGraph runtimesGraph bundle resolution node x) := by
  obtain ⟨nid, nv⟩ := node
  cases nv with
  | dependency d =>
    simp only [visitDuplicated] at h
    cases hc : runtimesGraph._graph.getNodesConnectedFrom
        { id := nid, value := NodeValue.dependency d } none with
    | error e => rw [hc] at h; cases h
    | ok assetNodes =>
      rw [hc] at h
      simp only at h
      cases ha : assetsOf assetNodes with
      | error e => rw [ha] at h; cases h
      | ok assets =>
        rw [ha] at h
        simp only [Except.ok.injEq] at h
        obtain ⟨h1, h2⟩ := markAssets_spec X bundleGraph bundle resolution assets (dup, false)
        rw [h] at h1 h2
        simp only at h1 h2
        have hpt : ∀ x, PointsToDuplicate X bundleGraph runtimesGraph bundle resolution
            { id := nid, value := NodeValue.dependency d } x ↔
            ∃ a ∈ assets, a.id = x ∧
              (X.isAssetReachableFromBundle bundleGraph a
                  (bundleGraph.currentBundle bundle) = true ∨
                resolution.map (fun r => r.id) = some a.id) := by
          intro x
          unfold PointsToDuplicate
          rw [hc]
          constructor
          · rintro ⟨-, ns, hns, n, hn, a, hna, hax, hcond⟩
            injection hns with hns
            subst hns
            exact ⟨a, (assetsOf_mem_iff _ assets ha a).2 ⟨n, hn, hna⟩, hax, hcond⟩
          · rintro ⟨a, ha1, hax, hcond⟩
            obtain ⟨n, hn, hna⟩ := (assetsOf_mem_iff _ assets ha a).1 ha1
            exact ⟨rfl, assetNodes, rfl, n, hn, a, hna, hax, hcond⟩
        refine ⟨?_, ?_⟩
        · intro x; rw [h1 x, hpt x]
        · rw [h2]
          simp only [Bool.false_eq_true, false_or]
          constructor
          · rintro ⟨a, ha1, hcond⟩
            exact ⟨a.id, (hpt a.id).2 ⟨a, ha1, rfl, hcond⟩⟩
          · rintro ⟨x, hx⟩
            obtain ⟨a, ha1, -, hcond⟩ := (hpt x).1 hx
            exact ⟨a, ha1, hcond⟩
  | root =>
    simp only [visitDuplicated, Except.ok.injEq, Prod.mk.injEq] at h
    obtain ⟨rfl, rfl⟩ := h
    simp [PointsToDuplicate, Node.isDependency]
  | asset_group v =>
    simp only [visitDuplicated, Except.ok.injEq, Prod.mk.injEq] at h
    obtain ⟨rfl, rfl⟩ := h
    simp [PointsToDuplicate, Node.isDependency]
  | asset v =>
    simp only [visitDuplicated, Except.ok.injEq, Prod.mk.injEq] at h
    obtain ⟨rfl, rfl⟩ := h
    simp [PointsToDuplicate, Node.isDependency]
  | bundle v =>
    simp only [visitDuplicated, Except.ok.injEq, Prod.mk.injEq] at h
    obtain ⟨rfl, rfl⟩ := h
    simp [PointsToDuplicate, Node.isDependency]
  | bundle_group =>
    simp only [visitDuplicated, Except.ok.injEq, Prod.mk.injEq] at h
    obtain ⟨rfl, rfl⟩ := h
    simp [PointsToDuplicate, Node.isDependency]

/-- The duplicated identifiers of the first traversal are exactly those that the
nodes of its log point to. -/
theorem traverse_visitDuplicated_exact (X : Externals)
    (bundleGraph runtimesGraph : InternalBundleGraph) (bundle : InternalBundle)
    (resolution : Option Asset) (start : Node) :
    ∀ x, x ∈ (runtimesGraph._graph.traverse
        (Graph.logged (visitDuplicated X bundleGraph runtimesGraph bundle resolution))
        start ([], [])).1.1 ↔
      ∃ entry ∈ (runtimesGraph._graph.traverse
        (Graph.logged (visitDuplicated X bundleGraph runtimesGraph bundle resolution))
        start ([], [])).1.2,
        PointsToDuplicate X bundleGraph runtimesGraph bundle resolution entry.1 x := by
  unfold Graph.traverse
  apply Graph.traverseLoop_invariant runtimesGraph._graph
    (Graph.logged (visitDuplicated X bundleGraph runtimesGraph bundle resolution))
    (fun sl => ∀ x, x ∈ sl.1 ↔ ∃ entry ∈ sl.2,
      PointsToDuplicate X bundleGraph runtimesGraph bundle resolution entry.1 x)
    (fun _ => True) (fun _ _ _ _ _ => trivial)
  · intro sl n sl1 skipped h _ hv
    obtain ⟨s1, hs1, rfl⟩ := Graph.logged_ok _ sl sl1 n skipped hv
    obtain ⟨h1, -⟩ := visitDuplicated_spec X bundleGraph runtimesGraph bundle resolution
      sl.1 s1 n skipped hs1
    intro x
    simp only
    rw [h1 x, h x]
    simp only [List.mem_append, List.mem_singleton]
    constructor
    · rintro (⟨entry, he, hp⟩ | hp)
      · exact ⟨entry, Or.inl he, hp⟩
      · exact ⟨(n, skipped), Or.inr rfl, hp⟩
    · rintro ⟨entry, he | he, hp⟩
      · exact Or.inl ⟨entry, he, hp⟩
      · subst he; exact Or.inr hp
  · intro _ _; trivial
  · intro x; simp

/-! ## What the second traversal connects -/

/-- A visit of the second traversal: a node that is an asset or a dependency
and is not marked duplicated gets a `contains` edge from the bundle, and the
walk goes on below it; one that is marked is pruned and the graph left as it
is; any other node leaves the graph as it is. -/
theorem visitContains_spec (bundle : InternalBundle) (duplicatedAssetIds : JsSet NodeId)
    (bundleGraph bundleGraph1 : InternalBundleGraph) (node : Node) (skipped : Bool)
    (h : visitContains bundle duplicatedAssetIds bundleGraph node = .ok (bundleGraph1, skipped)) :
    (skipped = true ↔
      (node.isAsset = true ∨ node.isDependency = true) ∧ node.id ∈ duplicatedAssetIds) ∧
    bundleGraph1._graph.nodes = bundleGraph._graph.nodes ∧
    bundleGraph1._graph.rootNodeId = bundleGraph._graph.rootNodeId ∧
    bundleGraph1._publicIdByAssetId = bundleGraph._publicIdByAssetId ∧
    bundleGraph1._assetPublicIds = bundleGraph._assetPublicIds ∧
    (∀ e, e ∈ bundleGraph1._graph.edges ↔ e ∈ bundleGraph._graph.edges ∨
      ((node.isAsset = true ∨ node.isDependency = true) ∧ node.id ∉ duplicatedAssetIds ∧
        e = ⟨bundle.id, node.id, some "contains"⟩)) := by
  obtain ⟨nid, nv⟩ := node
  by_cases hd : nid ∈ duplicatedAssetIds
  · cases nv <;>
      simp only [visitContains, JsSet.has, hd, decide_True, if_true, Except.ok.injEq,
        Prod.mk.injEq] at h <;>
      obtain ⟨rfl, rfl⟩ := h <;>
      simp [Node.isAsset, Node.isDependency, hd]
  · cases nv <;>
      simp only [visitContains, JsSet.has, hd, decide_False, Bool.false_eq_true, if_false,
        Except.ok.injEq, Prod.mk.injEq] at h <;>
      obtain ⟨rfl, rfl⟩ := h <;>
      simp [Node.isAsset, Node.isDependency, hd, Graph.nodes_addEdge, Graph.rootNodeId_addEdge,
        Graph.mem_edges_addEdge]

/-- The second traversal changes nothing but the edges of the bundle graph, and
the edges it adds are the `contains` edges from the bundle to the nodes of its
log that are assets or dependencies and are not marked duplicated. -/
theorem containsWalk_exact (runtimesGraph : InternalBundleGraph) (bundle : InternalBundle)
    (duplicatedAssetIds : JsSet NodeId) (start : Node) (bundleGraph : InternalBundleGraph) :
    (containsWalk runtimesGraph bundle duplicatedAssetIds start
        bundleGraph).1.1._graph.nodes = bundleGraph._graph.nodes ∧
    (containsWalk runtimesGraph bundle duplicatedAssetIds start
        bundleGraph).1.1._graph.rootNodeId = bundleGraph._graph.rootNodeId ∧
    (containsWalk runtimesGraph bundle duplicatedAssetIds start
        bundleGraph).1.1._publicIdByAssetId = bundleGraph._publicIdByAssetId ∧
    (containsWalk runtimesGraph bundle duplicatedAssetIds start
        bundleGraph).1.1._assetPublicIds = bundleGraph._assetPublicIds ∧
    (∀ e, e ∈ (containsWalk runtimesGraph bundle duplicatedAssetIds start
        bundleGraph).1.1._graph.edges ↔
      e ∈ bundleGraph._graph.edges ∨
      ∃ entry ∈ (containsWalk runtimesGraph bundle duplicatedAssetIds start bundleGraph).1.2,
        (entry.1.isAsset = true ∨ entry.1.isDependency = true) ∧
        entry.1.id ∉ duplicatedAssetIds ∧
        e = ⟨bundle.id, entry.1.id, some "contains"⟩) := by
  unfold containsWalk Graph.traverse
  apply Graph.traverseLoop_invariant runtimesGraph._graph
    (Graph.logged (visitContains bundle duplicatedAssetIds))
    (fun sl => sl.1._graph.nodes = bundleGraph._graph.nodes ∧
      sl.1._graph.rootNodeId = bundleGraph._graph.rootNodeId ∧
      sl.1._publicIdByAssetId = bundleGraph._publicIdByAssetId ∧
      sl.1._assetPublicIds = bundleGraph._assetPublicIds ∧
      (∀ e, e ∈ sl.1._graph.edges ↔ e ∈ bundleGraph._graph.edges ∨
        ∃ entry ∈ sl.2, (entry.1.isAsset = true ∨ entry.1.isDependency = true) ∧
          entry.1.id ∉ duplicatedAssetIds ∧ e = ⟨bundle.id, entry.1.id, some "contains"⟩))
    (fun _ => True) (fun _ _ _ _ _ => trivial)
  · intro sl n sl1 skipped h _ hv
    obtain ⟨s1, hs1, rfl⟩ := Graph.logged_ok _ sl sl1 n skipped hv
    obtain ⟨-, hn, hr, hp, ha, he⟩ := visitContains_spec bundle duplicatedAssetIds sl.1 s1 n
      skipped hs1
    obtain ⟨h1, h2, h3, h4, h5⟩ := h
    refine ⟨hn.trans h1, hr.trans h2, hp.trans h3, ha.trans h4, ?_⟩
    intro e
    simp only
    rw [he e, h5 e]
    simp only [List.mem_append, List.mem_singleton]
    constructor
    · rintro ((h | ⟨entry, hentry, hrest⟩) | hnew)
      · exact Or.inl h
      · exact Or.inr ⟨entry, Or.inl hentry, hrest⟩
      · exact Or.inr ⟨(n, skipped), Or.inr rfl, hnew⟩
    · rintro (h | ⟨entry, hentry | hentry, hrest⟩)
      · exact Or.inl (Or.inl h)
      · exact Or.inl (Or.inr ⟨entry, hentry, hrest⟩)
      · subst hentry; exact Or.inr hrest
  · intro _ _; trivial
  · exact ⟨rfl, rfl, rfl, rfl, fun e => by simp⟩

/-! ## The body of the loop in terms of its two walks -/

theorem duplicatedWalk_eq (X : Externals) (bundleGraph runtimesGraph : InternalBundleGraph)
    (bundle : InternalBundle) (resolution : Option Asset) (runtimeNode : Node) :
    runtimesGraph._graph.traverse
        (visitDuplicated X bundleGraph runtimesGraph bundle resolution) runtimeNode []
      = ((duplicatedWalk X bundleGraph runtimesGraph bundle resolution runtimeNode).1.1,
          (duplicatedWalk X bundleGraph runtimesGraph bundle resolution runtimeNode).2) := by
  obtain ⟨h1, h2⟩ := Graph.traverse_logged runtimesGraph._graph
    (visitDuplicated X bundleGraph runtimesGraph bundle resolution) runtimeNode []
  unfold duplicatedWalk
  rw [h1, h2]

theorem containsWalk_eq (runtimesGraph : InternalBundleGraph) (bundle : InternalBundle)
    (duplicatedAssetIds : JsSet NodeId) (runtimeNode : Node)
    (bundleGraph : InternalBundleGraph) :
    runtimesGraph._graph.traverse (visitContains bundle duplicatedAssetIds) runtimeNode
        bundleGraph
      = ((containsWalk runtimesGraph bundle duplicatedAssetIds runtimeNode bundleGraph).1.1,
          (containsWalk runtimesGraph bundle duplicatedAssetIds runtimeNode bundleGraph).2) := by
  obtain ⟨h1, h2⟩ := Graph.traverse_logged runtimesGraph._graph
    (visitContains bundle duplicatedAssetIds) runtimeNode bundleGraph
  unfold containsWalk
  rw [h1, h2]

/-- The body of the loop, once `runtimeNode` is located: the first walk on the
bundle graph as it is, the second walk with the duplicated identifiers of the
first, the entry step and the link step, each stopping the body when it
throws. -/
theorem connectRuntimeNode_eq (X : Externals) (runtimesGraph bundleGraph : InternalBundleGraph)
    (connection : RuntimeConnection) (runtimeNode : Node) :
    connectRuntimeNode X runtimesGraph bundleGraph connection runtimeNode
      = match (duplicatedWalk X bundleGraph runtimesGraph connection.bundle
          (resolutionOf X bundleGraph connection.bundle connection.dependency) runtimeNode).2 with
        | some e => (bundleGraph, some e)
        | none =>
          match (containsWalk runtimesGraph connection.bundle
              (duplicatedWalk X bundleGraph runtimesGraph connection.bundle
                (resolutionOf X bundleGraph connection.bundle connection.dependency)
                runtimeNode).1.1 runtimeNode bundleGraph).2 with
          | some e =>
            ((containsWalk runtimesGraph connection.bundle
              (duplicatedWalk X bundleGraph runtimesGraph connection.bundle
                (resolutionOf X bundleGraph connection.bundle connection.dependency)
                runtimeNode).1.1 runtimeNode bundleGraph).1.1, some e)
          | none =>
            match entryStep (containsWalk runtimesGraph connection.bundle
                (duplicatedWalk X bundleGraph runtimesGraph connection.bundle
                  (resolutionOf X bundleGraph connection.bundle connection.dependency)
                  runtimeNode).1.1 runtimeNode bundleGraph).1.1
                connection.bundle runtimeNode connection.isEntry with
            | (entered, some e) => (entered, some e)
            | (entered, none) => linkStep entered runtimeNode connection.dependency := by
  unfold connectRuntimeNode
  simp only
  rw [duplicatedWalk_eq]
  cases h1 : (duplicatedWalk X bundleGraph runtimesGraph connection.bundle
      (resolutionOf X bundleGraph connection.bundle connection.dependency) runtimeNode).2 with
  | some e => rfl
  | none =>
    simp only
    rw [containsWalk_eq]
    cases h2 : (containsWalk runtimesGraph connection.bundle
        (duplicatedWalk X bundleGraph runtimesGraph connection.bundle
          (resolutionOf X bundleGraph connection.bundle connection.dependency)
          runtimeNode).1.1 runtimeNode bundleGraph).2 with
    | some e => rfl
    | none => rfl

/-- The loop over the connections reaches a connection with the graph the
earlier connections produced. -/
theorem applyConnections_at (X : Externals) (runtimesAssetGraph : Graph)
    (runtimesGraph start reached : InternalBundleGraph) (pre post : List RuntimeConnection)
    (connection : RuntimeConnection) (runtimeNode : Node)
    (hpre : applyConnections X runtimesAssetGraph runtimesGraph start pre = (reached, none))
    (hloc : locateRuntimeNode X runtimesAssetGraph connection.assetGroup = .ok runtimeNode) :
    applyConnections X runtimesAssetGraph runtimesGraph start (pre ++ connection :: post)
      = match connectRuntimeNode X runtimesGraph reached connection runtimeNode with
        | (applied, some e) => (applied, some e)
        | (applied, none) =>
          applyConnections X runtimesAssetGraph runtimesGraph applied post := by
  rw [applyConnections_append, hpre]
  simp only [applyConnections, applyConnection, hloc]

/-! ## A walk that returns has entered everything below the nodes it did not prune -/

/-- Induction over the steps of a walk that returns without error: with enough
fuel the walk ends on an empty stack, so the invariant may be used there. -/
theorem Graph.traverseLoop_induct_fuel {σ : Type} (g : Graph)
    (visit : σ → Node → Except PassError (σ × Bool))
    (I : List Node → List NodeId → σ → Prop) (J : σ → Prop)
    (hfinal : ∀ visited s, I [] visited s → J s)
    (hseen : ∀ n stack visited s, I (n :: stack) visited s → n.id ∈ visited →
      I stack visited s)
    (hskip : ∀ n stack visited s s1, I (n :: stack) visited s → n.id ∉ visited →
      visit s n = .ok (s1, true) → I stack (n.id :: visited) s1)
    (hdesc : ∀ n stack visited s s1 children, I (n :: stack) visited s → n.id ∉ visited →
      visit s n = .ok (s1, false) → g.getNodesConnectedFrom n none = .ok children →
      I (children ++ stack) (n.id :: visited) s1) :
    ∀ (fuel : Nat) (stack : List Node) (visited : List NodeId) (s : σ),
      stack.length + g.pendingEdges visited ≤ fuel → I stack visited s →
      (g.traverseLoop visit fuel stack visited s).2 = none →
      J (g.traverseLoop visit fuel stack visited s).1 := by
  intro fuel
  induction fuel with
  | zero =>
    intro stack visited s hf h _
    have hs : stack = [] := by
      cases stack with
      | nil => rfl
      | cons a r => simp at hf
    subst hs
    simpa [Graph.traverseLoop] using hfinal visited s h
  | succ fuel ih =>
    intro stack visited s hf h hnone
    cases stack with
    | nil => simpa [Graph.traverseLoop] using hfinal visited s h
    | cons node rest =>
      simp only [List.length_cons] at hf
      simp only [Graph.traverseLoop] at hnone ⊢
      by_cases hv : node.id ∈ visited
      · simp only [hv, if_true] at hnone ⊢
        exact ih rest visited s (by omega) (hseen node rest visited s h hv) hnone
      · simp only [hv, if_false] at hnone ⊢
        have hp := Graph.pendingEdges_enter g visited node.id hv
        cases hvis : visit s node with
        | error e => rw [hvis] at hnone; simp at hnone
        | ok r =>
          obtain ⟨s1, skipped⟩ := r
          rw [hvis] at hnone
          simp only at hnone ⊢
          cases skipped with
          | true =>
            simp only [if_true] at hnone ⊢
            exact ih rest _ s1 (by omega) (hskip node rest visited s s1 h hv hvis) hnone
          | false =>
            simp only [Bool.false_eq_true, if_false] at hnone ⊢
            cases hc : g.getNodesConnectedFrom node none with
            | error e => rw [hc] at hnone; simp at hnone
            | ok children =>
              rw [hc] at hnone
              simp only at hnone ⊢
              have hl := Graph.length_getNodesConnectedFrom g node none children hc
              exact ih _ _ s1 (by rw [List.length_append]; omega)
                (hdesc node rest visited s s1 children h hv hvis hc) hnone

/-- A walk that returns without error has entered, for every node it did not
prune, a node of the identifier of each node connected from it. -/
theorem Graph.traverse_logged_closed {σ : Type} (g : Graph)
    (visit : σ → Node → Except PassError (σ × Bool)) (start : Node) (s : σ)
    (hnone : (g.traverse (Graph.logged visit) start (s, [])).2 = none) :
    ∀ p, (p, false) ∈ (g.traverse (Graph.logged visit) start (s, [])).1.2 →
      ∀ children, g.getNodesConnectedFrom p none = .ok children → ∀ n ∈ children,
        ∃ entry ∈ (g.traverse (Graph.logged visit) start (s, [])).1.2, entry.1.id = n.id := by
  unfold Graph.traverse at hnone ⊢
  refine Graph.traverseLoop_induct_fuel g (Graph.logged visit)
    (fun stack visited sl =>
      (∀ p, (p, false) ∈ sl.2 → ∀ children, g.getNodesConnectedFrom p none = .ok children →
        ∀ n ∈ children, n ∈ stack ∨ n.id ∈ visited) ∧
      (∀ id ∈ visited, ∃ entry ∈ sl.2, entry.1.id = id))
    (fun sl => ∀ p, (p, false) ∈ sl.2 → ∀ children,
      g.getNodesConnectedFrom p none = .ok children → ∀ n ∈ children,
        ∃ entry ∈ sl.2, entry.1.id = n.id)
    ?_ ?_ ?_ ?_ _ _ _ _ ?_ ?_ hnone
  · intro visited sl h p hp children hc n hn
    rcases h.1 p hp children hc n hn with h1 | h1
    · cases h1
    · exact h.2 n.id h1
  · intro n stack visited sl h hv
    refine ⟨?_, h.2⟩
    intro p hp children hc m hm
    rcases h.1 p hp children hc m hm with h1 | h1
    · rcases List.mem_cons.1 h1 with rfl | h1
      · exact Or.inr hv
      · exact Or.inl h1
    · exact Or.inr h1
  · intro n stack visited sl sl1 h _ hvis
    obtain ⟨s1, -, rfl⟩ := Graph.logged_ok visit sl sl1 n true hvis
    refine ⟨?_, ?_⟩
    · intro p hp children hc m hm
      simp only [List.mem_append, List.mem_singleton, Prod.mk.injEq, Bool.false_eq_true,
        and_false, or_false] at hp
      rcases h.1 p hp children hc m hm with h1 | h1
      · rcases List.mem_cons.1 h1 with rfl | h1
        · exact Or.inr (List.mem_cons_self _ _)
        · exact Or.inl h1
      · exact Or.inr (List.mem_cons_of_mem _ h1)
    · intro id hid
      rcases List.mem_cons.1 hid with rfl | hid
      · exact ⟨(n, true), List.mem_append_right _ (List.mem_singleton.2 rfl), rfl⟩
      · obtain ⟨entry, he, hid1⟩ := h.2 id hid
        exact ⟨entry, List.mem_append_left _ he, hid1⟩
  · intro n stack visited sl sl1 children h _ hvis hc
    obtain ⟨s1, -, rfl⟩ := Graph.logged_ok visit sl sl1 n false hvis
    refine ⟨?_, ?_⟩
    · intro p hp ch hch m hm
      simp only [List.mem_append, List.mem_singleton, Prod.mk.injEq, and_true] at hp
      rcases hp with hp | rfl
      · rcases h.1 p hp ch hch m hm with h1 | h1
        · rcases List.mem_cons.1 h1 with rfl | h1
          · exact Or.inr (List.mem_cons_self _ _)
          · exact Or.inl (List.mem_append_right _ h1)
        · exact Or.inr (List.mem_cons_of_mem _ h1)
      · rw [hc] at hch
        injection hch with hch
        subst hch
        exact Or.inl (List.mem_append_left _ hm)
    · intro id hid
      rcases List.mem_cons.1 hid with rfl | hid
      · exact ⟨(n, false), List.mem_append_right _ (List.mem_singleton.2 rfl), rfl⟩
      · obtain ⟨entry, he, hid1⟩ := h.2 id hid
        exact ⟨entry, List.mem_append_left _ he, hid1⟩
  · have := Graph.pendingEdges_le g []
    simp only [List.length_singleton]
    omega
  · refine ⟨?_, ?_⟩
    · intro p hp; cases hp
    · intro id hid; cases hid

/-- In a graph keyed by node identifier that holds the start node, every node a
walk enters is the node the graph holds under its identifier. -/
theorem Graph.traverse_logged_held {σ : Type} (g : Graph) (hk : g.keyedById = true)
    (visit : σ → Node → Except PassError (σ × Bool)) (start : Node) (s : σ)
    (hstart : g.getNode start.id = some start) :
    ∀ entry ∈ (g.traverse (Graph.logged visit) start (s, [])).1.2,
      g.getNode entry.1.id = some entry.1 := by
  unfold Graph.traverse
  apply Graph.traverseLoop_invariant g (Graph.logged visit)
    (fun sl => ∀ entry ∈ sl.2, g.getNode entry.1.id = some entry.1)
    (fun n => g.getNode n.id = some n)
  · intro n children hc c hcm
    unfold Graph.getNodesConnectedFrom at hc
    split at hc
    · cases hc
      obtain ⟨id, -, hid⟩ := List.mem_filterMap.1 hcm
      have := Graph.id_of_getNode g hk id c hid
      rw [this]; exact hid
    · cases hc
  · intro sl n sl1 skipped h hn hv
    obtain ⟨s1, -, rfl⟩ := Graph.logged_ok visit sl sl1 n skipped hv
    intro entry he
    rcases List.mem_append.1 he with he | he
    · exact h entry he
    · simp only [List.mem_singleton] at he
      subst he
      exact hn
  · intro n hn
    simp only [List.mem_singleton] at hn
    subst hn
    exact hstart
  · intro entry he; cases he

/-- The log of a walk holds the start node with the `Bool` of its visit. -/
theorem Graph.traverse_logged_start {σ : Type} (g : Graph)
    (visit : σ → Node → Except PassError (σ × Bool)) (start : Node) (s s1 : σ) (b : Bool)
    (hv : visit s start = .ok (s1, b)) :
    (start, b) ∈ (g.traverse (Graph.logged visit) start (s, [])).1.2 := by
  apply Graph.traverse_start g (Graph.logged visit) (fun sl => (start, b) ∈ sl.2)
    (fun sl n sl1 skipped h hvis => by
      obtain ⟨s2, -, rfl⟩ := Graph.logged_ok visit sl sl1 n skipped hvis
      exact List.mem_append_left _ h)
    start (s, []) (s1, [(start, b)]) b
  · simp [Graph.logged, hv]
  · simp

/-! ## The entry step and the link step -/

/-- The bundles of a graph are read from its nodes. -/
theorem InternalBundleGraph.getBundles_congr (g1 g2 : InternalBundleGraph)
    (h : g1._graph.nodes = g2._graph.nodes) : g1.getBundles = g2.getBundles := by
  unfold InternalBundleGraph.getBundles
  rw [h]

theorem InternalBundleGraph.currentBundle_congr (g1 g2 : InternalBundleGraph)
    (h : g1._graph.nodes = g2._graph.nodes) (bundle : InternalBundle) :
    g1.currentBundle bundle = g2.currentBundle bundle := by
  unfold InternalBundleGraph.currentBundle
  rw [InternalBundleGraph.getBundles_congr g1 g2 h]

theorem unshifted_id (bundleId id : NodeId) (b : InternalBundle) :
    (unshifted bundleId id b).id = b.id := by
  unfold unshifted
  split <;> rfl

/-- After `unshift` the graph holds the same bundles, those of the identifier
with the new entry in front. -/
theorem InternalBundleGraph.getBundles_unshiftEntryAssetId (bundleGraph : InternalBundleGraph)
    (bundle : InternalBundle) (id : NodeId) :
    (bundleGraph.unshiftEntryAssetId bundle id).getBundles
      = bundleGraph.getBundles.map (unshifted bundle.id id) := by
  unfold InternalBundleGraph.getBundles InternalBundleGraph.unshiftEntryAssetId JsMap.values
  simp only
  generalize bundleGraph._graph.nodes = nodes
  induction nodes with
  | nil => rfl
  | cons kv rest ih =>
    obtain ⟨k, nid, nv⟩ := kv
    simp only [List.map_cons, List.filterMap_cons]
    cases nv with
    | bundle b =>
      simp only
      by_cases hb : b.id = bundle.id
      · simp only [hb, if_true, List.map_cons, unshifted]
        rw [ih]
      · simp only [hb, if_false, List.map_cons, unshifted]
        rw [ih]
    | _ => simp only; rw [ih]

/-- The bundle object of an identifier after a map over the bundles that keeps
their identifiers. -/
theorem head_filter_map_id (f : InternalBundle → InternalBundle) (hf : ∀ b, (f b).id = b.id)
    (bundles : List InternalBundle) (bundleId : NodeId) :
    ((bundles.map f).filter (fun b => decide (b.id = bundleId))).head?
      = ((bundles.filter (fun b => decide (b.id = bundleId))).head?).map f := by
  induction bundles with
  | nil => rfl
  | cons b rest ih =>
    simp only [List.map_cons, List.filter_cons, hf]
    by_cases hb : b.id = bundleId
    · simp [hb]
    · simp only [hb, decide_False, Bool.false_eq_true, if_false]
      exact ih

/-- What the entry step does: nothing unless `isEntry` is true; otherwise it
throws when the graph holds no node of the bundle's identifier, and else adds
the edge of the default kind from that node to `runtimeNode` and puts the
identifier of `runtimeNode` in front of the entry list of the bundle. -/
theorem entryStep_spec (bundleGraph : InternalBundleGraph) (bundle : InternalBundle)
    (runtimeNode : Node) (isEntry : Option Bool) :
    (isEntry ≠ some true →
      entryStep bundleGraph bundle runtimeNode isEntry = (bundleGraph, none)) ∧
    (isEntry = some true → bundleGraph._graph.getNode bundle.id = none →
      entryStep bundleGraph bundle runtimeNode isEntry
        = (bundleGraph, some PassError.nullthrows)) ∧
    (isEntry = some true → ∀ bundleNode, bundleGraph._graph.getNode bundle.id = some bundleNode →
      entryStep bundleGraph bundle runtimeNode isEntry
        = (({ bundleGraph with
              _graph := bundleGraph._graph.addEdge bundleNode.id runtimeNode.id none }
            ).unshiftEntryAssetId bundle runtimeNode.id, none)) := by
  refine ⟨?_, ?_, ?_⟩
  · intro h
    cases isEntry with
    | none => rfl
    | some b =>
      cases b with
      | true => exact absurd rfl h
      | false => rfl
  · intro h hn
    subst h
    simp [entryStep, hn, nullthrows]
  · intro h bundleNode hn
    subst h
    simp [entryStep, hn, nullthrows]

/-- The entry step never changes the public ids, and changes the edges only by
adding one of the default kind to `runtimeNode`. -/
theorem entryStep_frame (bundleGraph : InternalBundleGraph) (bundle : InternalBundle)
    (runtimeNode : Node) (isEntry : Option Bool) :
    (entryStep bundleGraph bundle runtimeNode isEntry).1._publicIdByAssetId
      = bundleGraph._publicIdByAssetId ∧
    (entryStep bundleGraph bundle runtimeNode isEntry).1._assetPublicIds
      = bundleGraph._assetPublicIds ∧
    (∀ e ∈ (entryStep bundleGraph bundle runtimeNode isEntry).1._graph.edges,
      e ∈ bundleGraph._graph.edges ∨
        (isEntry = some true ∧ ∃ bundleNode,
          bundleGraph._graph.getNode bundle.id = some bundleNode ∧
          e = ⟨bundleNode.id, runtimeNode.id, none⟩)) := by
  obtain ⟨h1, h2, h3⟩ := entryStep_spec bundleGraph bundle runtimeNode isEntry
  by_cases h : isEntry = some true
  · cases hn : bundleGraph._graph.getNode bundle.id with
    | none =>
      rw [h2 h hn]
      exact ⟨rfl, rfl, fun e he => Or.inl he⟩
    | some bundleNode =>
      rw [h3 h bundleNode hn]
      refine ⟨rfl, rfl, ?_⟩
      intro e he
      have he1 : e ∈ (bundleGraph._graph.addEdge bundleNode.id runtimeNode.id none).edges := he
      rcases (Graph.mem_edges_addEdge _ _ _ _ _).1 he1 with h4 | h4
      · exact Or.inl h4
      · exact Or.inr ⟨h, bundleNode, rfl, h4⟩
  · rw [h1 h]
    exact ⟨rfl, rfl, fun e he => Or.inl he⟩

/-- The bundles after the entry step. -/
theorem entryStep_getBundles (bundleGraph : InternalBundleGraph) (bundle : InternalBundle)
    (runtimeNode : Node) (isEntry : Option Bool)
    (hok : (entryStep bundleGraph bundle runtimeNode isEntry).2 = none) :
    (entryStep bundleGraph bundle runtimeNode isEntry).1.getBundles
      = if isEntry = some true then bundleGraph.getBundles.map (unshifted bundle.id runtimeNode.id)
        else bundleGraph.getBundles := by
  obtain ⟨h1, h2, h3⟩ := entryStep_spec bundleGraph bundle runtimeNode isEntry
  by_cases h : isEntry = some true
  · simp only [h, if_true]
    cases hn : bundleGraph._graph.getNode bundle.id with
    | none =>
      rw [h] at hok h2
      rw [h2 rfl hn] at hok
      cases hok
    | some bundleNode =>
      rw [h] at h3
      rw [h3 rfl bundleNode hn, InternalBundleGraph.getBundles_unshiftEntryAssetId]
      congr 1
      apply InternalBundleGraph.getBundles_congr
      exact Graph.nodes_addEdge _ _ _ _
  · simp only [h, if_false]
    rw [h1 h]

/-- What the link step does. -/
theorem linkStep_spec (bundleGraph : InternalBundleGraph) (runtimeNode : Node)
    (dependency : Option Dependency) :
    (linkStep bundleGraph runtimeNode dependency).1._graph.nodes = bundleGraph._graph.nodes ∧
    (linkStep bundleGraph runtimeNode dependency).1._publicIdByAssetId
      = bundleGraph._publicIdByAssetId ∧
    (linkStep bundleGraph runtimeNode dependency).1._assetPublicIds
      = bundleGraph._assetPublicIds ∧
    (∀ e, e ∈ (linkStep bundleGraph runtimeNode dependency).1._graph.edges ↔
      e ∈ bundleGraph._graph.edges ∨
        ∃ d, dependency = some d ∧ e = ⟨d.id, runtimeNode.id, none⟩) ∧
    (∀ d, dependency = some d → (linkStep bundleGraph runtimeNode dependency).2 = none) ∧
    (dependency = none →
      ((linkStep bundleGraph runtimeNode dependency).2
          = some (PassError.assertionError
              (some "Runtime must have an inbound dependency or be an entry")) ↔
        bundleGraph._graph.getNodesConnectedTo runtimeNode none = .ok []) ∧
      ((linkStep bundleGraph runtimeNode dependency).2 = none ↔
        ∃ inbound, bundleGraph._graph.getNodesConnectedTo runtimeNode none = .ok inbound ∧
          0 < inbound.length)) := by
  cases dependency with
  | some d =>
    refine ⟨Graph.nodes_addEdge _ _ _ _, rfl, rfl, ?_, fun _ _ => rfl, fun h => by cases h⟩
    intro e
    simp only [linkStep, Graph.mem_edges_addEdge, Option.some.injEq, exists_eq_left']
  | none =>
    simp only [linkStep]
    cases hc : bundleGraph._graph.getNodesConnectedTo runtimeNode none with
    | error err =>
      refine ⟨rfl, rfl, rfl, by simp, by simp, fun _ => ⟨?_, ?_⟩⟩
      · simp only [Option.some.injEq, reduceCtorEq, iff_false]
        intro h
        unfold Graph.getNodesConnectedTo at hc
        split at hc
        · cases hc
        · injection hc with hc
          rw [← hc] at h
          cases h
      · simp
    | ok inbound =>
      simp only
      cases inbound with
      | nil =>
        refine ⟨rfl, rfl, rfl, by simp, by simp, fun _ => ⟨?_, ?_⟩⟩ <;> simp
      | cons a rest =>
        simp

/-! ## The four steps of the body of the loop -/

/-- A body that returns went through its four steps without error, and leaves
the graph of the link step. -/
theorem connectRuntimeNode_none (X : Externals) (runtimesGraph bundleGraph : InternalBundleGraph)
    (connection : RuntimeConnection) (runtimeNode : Node)
    (h : (connectRuntimeNode X runtimesGraph bundleGraph connection runtimeNode).2 = none) :
    (duplicatedWalk X bundleGraph runtimesGraph connection.bundle
      (resolutionOf X bundleGraph connection.bundle connection.dependency) runtimeNode).2
        = none ∧
    (containsWalk runtimesGraph connection.bundle
      (duplicatedIdsOf X runtimesGraph bundleGraph connection runtimeNode) runtimeNode
      bundleGraph).2 = none ∧
    (entryStep (containedGraph X runtimesGraph bundleGraph connection runtimeNode)
      connection.bundle runtimeNode connection.isEntry).2 = none ∧
    (linkStep (enteredGraph X runtimesGraph bundleGraph connection runtimeNode) runtimeNode
      connection.dependency).2 = none ∧
    (connectRuntimeNode X runtimesGraph bundleGraph connection runtimeNode).1
      = (linkStep (enteredGraph X runtimesGraph bundleGraph connection runtimeNode) runtimeNode
          connection.dependency).1 := by
  rw [connectRuntimeNode_eq] at h ⊢
  unfold enteredGraph containedGraph duplicatedIdsOf
  cases h1 : (duplicatedWalk X bundleGraph runtimesGraph connection.bundle
      (resolutionOf X bundleGraph connection.bundle connection.dependency) runtimeNode).2 with
  | some e => rw [h1] at h; simp at h
  | none =>
    rw [h1] at h
    simp only at h ⊢
    cases h2 : (containsWalk runtimesGraph connection.bundle
        (duplicatedWalk X bundleGraph runtimesGraph connection.bundle
          (resolutionOf X bundleGraph connection.bundle connection.dependency)
          runtimeNode).1.1 runtimeNode bundleGraph).2 with
    | some e => rw [h2] at h; simp at h
    | none =>
      rw [h2] at h
      simp only at h ⊢
      cases h3 : entryStep (containsWalk runtimesGraph connection.bundle
          (duplicatedWalk X bundleGraph runtimesGraph connection.bundle
            (resolutionOf X bundleGraph connection.bundle connection.dependency)
            runtimeNode).1.1 runtimeNode bundleGraph).1.1
          connection.bundle runtimeNode connection.isEntry with
      | mk entered err =>
        rw [h3] at h
        cases err with
        | some e => simp at h
        | none =>
          simp only at h ⊢
          exact ⟨trivial, trivial, trivial, h, trivial⟩

/-- Whatever happens, the body of the loop leaves the graph it was given or the
graph of one of its steps. -/
theorem connectRuntimeNode_result (X : Externals)
    (runtimesGraph bundleGraph : InternalBundleGraph)
    (connection : RuntimeConnection) (runtimeNode : Node) :
    (connectRuntimeNode X runtimesGraph bundleGraph connection runtimeNode).1 = bundleGraph ∨
    (connectRuntimeNode X runtimesGraph bundleGraph connection runtimeNode).1
      = containedGraph X runtimesGraph bundleGraph connection runtimeNode ∨
    (connectRuntimeNode X runtimesGraph bundleGraph connection runtimeNode).1
      = enteredGraph X runtimesGraph bundleGraph connection runtimeNode ∨
    (connectRuntimeNode X runtimesGraph bundleGraph connection runtimeNode).1
      = (linkStep (enteredGraph X runtimesGraph bundleGraph connection runtimeNode) runtimeNode
          connection.dependency).1 := by
  rw [connectRuntimeNode_eq]
  unfold enteredGraph containedGraph duplicatedIdsOf
  cases h1 : (duplicatedWalk X bundleGraph runtimesGraph connection.bundle
      (resolutionOf X bundleGraph connection.bundle connection.dependency) runtimeNode).2 with
  | some e => exact Or.inl rfl
  | none =>
    simp only
    cases h2 : (containsWalk runtimesGraph connection.bundle
        (duplicatedWalk X bundleGraph runtimesGraph connection.bundle
          (resolutionOf X bundleGraph connection.bundle connection.dependency)
          runtimeNode).1.1 runtimeNode bundleGraph).2 with
    | some e => exact Or.inr (Or.inl rfl)
    | none =>
      simp only
      cases h3 : entryStep (containsWalk runtimesGraph connection.bundle
          (duplicatedWalk X bundleGraph runtimesGraph connection.bundle
            (resolutionOf X bundleGraph connection.bundle connection.dependency)
            runtimeNode).1.1 runtimeNode bundleGraph).1.1
          connection.bundle runtimeNode connection.isEntry with
      | mk entered err =>
        cases err with
        | some e => exact Or.inr (Or.inr (Or.inl rfl))
        | none => exact Or.inr (Or.inr (Or.inr rfl))

/-- A body whose steps before the link step pass ends with the link step. -/
theorem connectRuntimeNode_link (X : Externals) (runtimesGraph bundleGraph : InternalBundleGraph)
    (connection : RuntimeConnection) (runtimeNode : Node)
    (h1 : (duplicatedWalk X bundleGraph runtimesGraph connection.bundle
      (resolutionOf X bundleGraph connection.bundle connection.dependency) runtimeNode).2
        = none)
    (h2 : (containsWalk runtimesGraph connection.bundle
      (duplicatedIdsOf X runtimesGraph bundleGraph connection runtimeNode) runtimeNode
      bundleGraph).2 = none)
    (h3 : (entryStep (containedGraph X runtimesGraph bundleGraph connection runtimeNode)
      connection.bundle runtimeNode connection.isEntry).2 = none) :
    connectRuntimeNode X runtimesGraph bundleGraph connection runtimeNode
      = linkStep (enteredGraph X runtimesGraph bundleGraph connection runtimeNode) runtimeNode
          connection.dependency := by
  rw [connectRuntimeNode_eq]
  unfold enteredGraph containedGraph duplicatedIdsOf at *
  rw [h1]
  simp only
  rw [h2]
  simp only
  cases h4 : entryStep (containsWalk runtimesGraph connection.bundle
      (duplicatedWalk X bundleGraph runtimesGraph connection.bundle
        (resolutionOf X bundleGraph connection.bundle connection.dependency)
        runtimeNode).1.1 runtimeNode bundleGraph).1.1
      connection.bundle runtimeNode connection.isEntry with
  | mk entered err =>
    rw [h4] at h3
    simp only at h3
    subst h3
    rfl

/-- The containment walk changes nothing but the edges. -/
theorem containedGraph_frame (X : Externals) (runtimesGraph bundleGraph : InternalBundleGraph)
    (connection : RuntimeConnection) (runtimeNode : Node) :
    (containedGraph X runtimesGraph bundleGraph connection runtimeNode)._graph.nodes
      = bundleGraph._graph.nodes ∧
    (containedGraph X runtimesGraph bundleGraph connection runtimeNode)._publicIdByAssetId
      = bundleGraph._publicIdByAssetId ∧
    (containedGraph X runtimesGraph bundleGraph connection runtimeNode)._assetPublicIds
      = bundleGraph._assetPublicIds := by
  obtain ⟨h1, -, h3, h4, -⟩ := containsWalk_exact runtimesGraph connection.bundle
    (duplicatedIdsOf X runtimesGraph bundleGraph connection runtimeNode) runtimeNode bundleGraph
  exact ⟨h1, h3, h4⟩

/-! ## Neighbours of a node -/

/-- A node the graph holds is among the nodes connected from a node the graph
holds when there is an edge of the kind between the two. -/
theorem Graph.mem_getNodesConnectedFrom (g : Graph) (n m : Node) (t : Option String)
    (hn : g.hasNode n.id = true) (hm : g.getNode m.id = some m)
    (he : (⟨n.id, m.id, t⟩ : Edge) ∈ g.edges) :
    ∃ children, g.getNodesConnectedFrom n t = .ok children ∧ m ∈ children := by
  refine ⟨(g.idsConnectedFrom n.id t).filterMap g.getNode, ?_, ?_⟩
  · simp [Graph.getNodesConnectedFrom, hn]
  · exact List.mem_filterMap.2 ⟨m.id, (Graph.mem_idsConnectedFrom g n.id m.id t).2 he, hm⟩

/-- A node the graph holds has no node connected to it by the kind exactly when
every edge of the kind to it comes from an identifier the graph does not
hold. -/
theorem Graph.getNodesConnectedTo_nil_iff (g : Graph) (n : Node) (t : Option String)
    (hn : g.hasNode n.id = true) :
    g.getNodesConnectedTo n t = .ok [] ↔
      ∀ e ∈ g.edges, e.toId = n.id → e.type = t → g.getNode e.fromId = none := by
  simp only [Graph.getNodesConnectedTo, hn, if_true, Except.ok.injEq, List.filterMap_eq_nil_iff]
  constructor
  · intro h e he h1 h2
    apply h e.fromId
    apply (Graph.mem_idsConnectedTo g n.id e.fromId t).2
    obtain ⟨a, b, c⟩ := e
    simp only at h1 h2
    subst h1 h2
    exact he
  · intro h id hid
    have := (Graph.mem_idsConnectedTo g n.id id t).1 hid
    exact h _ this rfl rfl

/-- A node the graph does not hold: `getNodesConnectedTo` throws. -/
theorem Graph.getNodesConnectedTo_absent (g : Graph) (n : Node) (t : Option String)
    (hn : g.hasNode n.id = false) :
    g.getNodesConnectedTo n t = .error (PassError.nodeNotFound n.id) := by
  simp [Graph.getNodesConnectedTo, hn]

/-! ## The public ids -/

theorem JsMap.get_of_not_mem_keys {K V : Type} [DecidableEq K] (m : JsMap K V) (k : K)
    (h : k ∉ JsMap.keys m) : JsMap.get m k = none := by
  induction m with
  | nil => rfl
  | cons e rest ih =>
    obtain ⟨k0, v0⟩ := e
    simp only [JsMap.keys, List.map_cons, List.mem_cons, not_or] at h
    have h0 : ¬ k0 = k := fun e => h.1 e.symm
    simp only [JsMap.get, h0, if_false]
    exact ih h.2

/-- Setting the entries of a `Map` one after the other: a key of the entries
takes its value there, any other key keeps its value. -/
theorem JsMap.get_foldl_set {K V : Type} [DecidableEq K] (es : List (K × V))
    (h : (JsMap.keys es).Nodup) (m : JsMap K V) (k : K) :
    JsMap.get (es.foldl (fun m e => JsMap.set m e.1 e.2) m) k
      = match JsMap.get es k with
        | some v => some v
        | none => JsMap.get m k := by
  induction es generalizing m with
  | nil => rfl
  | cons e rest ih =>
    obtain ⟨k0, v0⟩ := e
    simp only [JsMap.keys, List.map_cons, List.nodup_cons] at h
    simp only [List.foldl_cons]
    rw [ih h.2]
    by_cases hk : k0 = k
    · subst hk
      rw [JsMap.get_of_not_mem_keys rest k0 h.1]
      simp [JsMap.get, JsMap.get_set]
    · simp only [JsMap.get, hk, if_false, JsMap.get_set]

theorem foldl_publicIds (es : List (NodeId × String)) (start : InternalBundleGraph) :
    (es.foldl (fun (acc : InternalBundleGraph) entry =>
      { acc with
        _publicIdByAssetId := JsMap.set acc._publicIdByAssetId entry.1 entry.2
        _assetPublicIds := JsSet.add acc._assetPublicIds entry.2 }) start)._graph
      = start._graph ∧
    (es.foldl (fun (acc : InternalBundleGraph) entry =>
      { acc with
        _publicIdByAssetId := JsMap.set acc._publicIdByAssetId entry.1 entry.2
        _assetPublicIds := JsSet.add acc._assetPublicIds entry.2 }) start)._publicIdByAssetId
      = es.foldl (fun m e => JsMap.set m e.1 e.2) start._publicIdByAssetId ∧
    (es.foldl (fun (acc : InternalBundleGraph) entry =>
      { acc with
        _publicIdByAssetId := JsMap.set acc._publicIdByAssetId entry.1 entry.2
        _assetPublicIds := JsSet.add acc._assetPublicIds entry.2 }) start)._assetPublicIds
      = (JsMap.values es).foldl JsSet.add start._assetPublicIds := by
  induction es generalizing start with
  | nil => exact ⟨rfl, rfl, rfl⟩
  | cons e rest ih =>
    simp only [List.foldl_cons, JsMap.values, List.map_cons]
    obtain ⟨i1, i2, i3⟩ := ih
      { start with
        _publicIdByAssetId := JsMap.set start._publicIdByAssetId e.1 e.2
        _assetPublicIds := JsSet.add start._assetPublicIds e.2 }
    exact ⟨i1, i2, i3⟩

/-- Lines 128-131 on the three parts of the bundle graph: the graph is the one
`merge` left, the entries of the runtime mapping are `set` one after the other
in the mapping, and their public ids are added to the allocated set. -/
theorem mergeRuntimesGraph_parts (bundleGraph runtimesGraph : InternalBundleGraph) :
    (mergeRuntimesGraph bundleGraph runtimesGraph)._graph
      = (bundleGraph.merge runtimesGraph)._graph ∧
    (mergeRuntimesGraph bundleGraph runtimesGraph)._publicIdByAssetId
      = runtimesGraph._publicIdByAssetId.foldl (fun m e => JsMap.set m e.1 e.2)
          bundleGraph._publicIdByAssetId ∧
    (mergeRuntimesGraph bundleGraph runtimesGraph)._assetPublicIds
      = (JsMap.values runtimesGraph._publicIdByAssetId).foldl JsSet.add
          bundleGraph._assetPublicIds :=
  foldl_publicIds runtimesGraph._publicIdByAssetId (bundleGraph.merge runtimesGraph)

/-- The public ids after the merge of lines 126-131: the mapping holds every
entry of the runtime mapping and is unchanged on any other asset id, and the
allocated set holds what it held and the public ids of the runtime mapping. -/
theorem mergeRuntimesGraph_publicIds (bundleGraph runtimesGraph : InternalBundleGraph)
    (h : (JsMap.keys runtimesGraph._publicIdByAssetId).Nodup) :
    (∀ assetId publicId, (assetId, publicId) ∈ runtimesGraph._publicIdByAssetId →
      JsMap.get (mergeRuntimesGraph bundleGraph runtimesGraph)._publicIdByAssetId assetId
        = some publicId) ∧
    (∀ assetId, assetId ∉ JsMap.keys runtimesGraph._publicIdByAssetId →
      JsMap.get (mergeRuntimesGraph bundleGraph runtimesGraph)._publicIdByAssetId assetId
        = JsMap.get bundleGraph._publicIdByAssetId assetId) ∧
    (∀ publicId, publicId ∈ (mergeRuntimesGraph bundleGraph runtimesGraph)._assetPublicIds ↔
      publicId ∈ bundleGraph._assetPublicIds ∨
        publicId ∈ JsMap.values runtimesGraph._publicIdByAssetId) := by
  obtain ⟨-, h2, h3⟩ := mergeRuntimesGraph_parts bundleGraph runtimesGraph
  rw [h2, h3]
  refine ⟨?_, ?_, ?_⟩
  · intro assetId publicId hmem
    rw [JsMap.get_foldl_set _ h, JsMap.get_of_mem _ h _ _ hmem]
  · intro assetId hmem
    rw [JsMap.get_foldl_set _ h, JsMap.get_of_not_mem_keys _ _ hmem]
  · intro publicId
    exact (JsSet.foldl_add_spec _ _).1 publicId

/-- The body of the loop over the connections never touches the public ids. -/
theorem connectRuntimeNode_publicIds (X : Externals)
    (runtimesGraph bundleGraph : InternalBundleGraph)
    (connection : RuntimeConnection) (runtimeNode : Node) :
    (connectRuntimeNode X runtimesGraph bundleGraph connection runtimeNode).1._publicIdByAssetId
      = bundleGraph._publicIdByAssetId ∧
    (connectRuntimeNode X runtimesGraph bundleGraph connection runtimeNode).1._assetPublicIds
      = bundleGraph._assetPublicIds := by
  obtain ⟨-, c2, c3⟩ := containedGraph_frame X runtimesGraph bundleGraph connection runtimeNode
  obtain ⟨e1, e2, -⟩ := entryStep_frame
    (containedGraph X runtimesGraph bundleGraph connection runtimeNode) connection.bundle
    runtimeNode connection.isEntry
  obtain ⟨-, l2, l3, -⟩ := linkStep_spec
    (enteredGraph X runtimesGraph bundleGraph connection runtimeNode) runtimeNode
    connection.dependency
  have he1 : (enteredGraph X runtimesGraph bundleGraph connection runtimeNode)._publicIdByAssetId
      = bundleGraph._publicIdByAssetId := e1.trans c2
  have he2 : (enteredGraph X runtimesGraph bundleGraph connection runtimeNode)._assetPublicIds
      = bundleGraph._assetPublicIds := e2.trans c3
  rcases connectRuntimeNode_result X runtimesGraph bundleGraph connection runtimeNode
    with h | h | h | h <;> rw [h]
  · exact ⟨rfl, rfl⟩
  · exact ⟨c2, c3⟩
  · exact ⟨he1, he2⟩
  · exact ⟨l2.trans he1, l3.trans he2⟩

/-- The loop over the connections never touches the public ids. -/
theorem applyConnections_publicIds (X : Externals) (runtimesAssetGraph : Graph)
    (runtimesGraph : InternalBundleGraph) (connections : List RuntimeConnection)
    (bundleGraph : InternalBundleGraph) :
    (applyConnections X runtimesAssetGraph runtimesGraph bundleGraph
        connections).1._publicIdByAssetId = bundleGraph._publicIdByAssetId ∧
    (applyConnections X runtimesAssetGraph runtimesGraph bundleGraph
        connections).1._assetPublicIds = bundleGraph._assetPublicIds := by
  induction connections generalizing bundleGraph with
  | nil => exact ⟨rfl, rfl⟩
  | cons c rest ih =>
    simp only [applyConnections]
    have hstep : (applyConnection X runtimesAssetGraph runtimesGraph bundleGraph
          c).1._publicIdByAssetId = bundleGraph._publicIdByAssetId ∧
        (applyConnection X runtimesAssetGraph runtimesGraph bundleGraph
          c).1._assetPublicIds = bundleGraph._assetPublicIds := by
      unfold applyConnection
      cases locateRuntimeNode X runtimesAssetGraph c.assetGroup with
      | error e => exact ⟨rfl, rfl⟩
      | ok runtimeNode =>
        exact connectRuntimeNode_publicIds X runtimesGraph bundleGraph c runtimeNode
    cases hc : applyConnection X runtimesAssetGraph runtimesGraph bundleGraph c with
    | mk applied err =>
      rw [hc] at hstep
      cases err with
      | some e => exact hstep
      | none =>
        simp only
        obtain ⟨i1, i2⟩ := ih applied
        exact ⟨i1.trans hstep.1, i2.trans hstep.2⟩

/-! ## Entry lists -/

theorem InternalBundleGraph.currentBundle_id (bundleGraph : InternalBundleGraph)
    (bundle : InternalBundle) : (bundleGraph.currentBundle bundle).id = bundle.id := by
  unfold InternalBundleGraph.currentBundle
  cases h : (bundleGraph.getBundles.filter (fun b => decide (b.id = bundle.id))).head? with
  | none => rfl
  | some b =>
    have hm := List.mem_of_mem_head? h
    simpa using (List.mem_filter.1 hm).2

/-- The bundle object of an identifier in a graph whose bundles are those of
another graph after an `unshift`. -/
theorem InternalBundleGraph.currentBundle_of_map (g1 g0 : InternalBundleGraph)
    (bundleId id : NodeId) (h : g1.getBundles = g0.getBundles.map (unshifted bundleId id))
    (bundle : InternalBundle) :
    (bundle.id ≠ bundleId → g1.currentBundle bundle = g0.currentBundle bundle) ∧
    ((∃ held ∈ g0.getBundles, held.id = bundle.id) → bundle.id = bundleId →
      (g1.currentBundle bundle).entryAssetIds = id :: (g0.currentBundle bundle).entryAssetIds) := by
  unfold InternalBundleGraph.currentBundle
  rw [h, head_filter_map_id (unshifted bundleId id) (unshifted_id bundleId id)]
  cases hh : (g0.getBundles.filter (fun b => decide (b.id = bundle.id))).head? with
  | none =>
    refine ⟨fun _ => rfl, ?_⟩
    rintro ⟨held, hmem, hid⟩ -
    have : held ∈ g0.getBundles.filter (fun b => decide (b.id = bundle.id)) :=
      List.mem_filter.2 ⟨hmem, by simpa using hid⟩
    rw [List.head?_eq_none_iff.1 hh] at this
    cases this
  | some b =>
    have hb : b.id = bundle.id := by
      have hm := List.mem_of_mem_head? hh
      simpa using (List.mem_filter.1 hm).2
    simp only [Option.map_some']
    refine ⟨?_, ?_⟩
    · intro hne
      have : ¬ b.id = bundleId := fun e => hne (hb ▸ e)
      simp [unshifted, this]
    · intro _ heq
      have : b.id = bundleId := hb.trans heq
      simp [unshifted, this]

/-- The bundles after the body of the loop: those of the graph it was given, the
bundle of the connection with the runtime node in front of its entry list when
`isEntry` is true and the body returns. -/
theorem connectRuntimeNode_getBundles (X : Externals)
    (runtimesGraph bundleGraph : InternalBundleGraph)
    (connection : RuntimeConnection) (runtimeNode : Node) :
    (connection.isEntry ≠ some true →
      (connectRuntimeNode X runtimesGraph bundleGraph connection runtimeNode).1.getBundles
        = bundleGraph.getBundles) ∧
    (connection.isEntry = some true →
      (connectRuntimeNode X runtimesGraph bundleGraph connection runtimeNode).2 = none →
      (connectRuntimeNode X runtimesGraph bundleGraph connection runtimeNode).1.getBundles
        = bundleGraph.getBundles.map (unshifted connection.bundle.id runtimeNode.id)) := by
  obtain ⟨c1, -, -⟩ := containedGraph_frame X runtimesGraph bundleGraph connection runtimeNode
  have hcb := InternalBundleGraph.getBundles_congr _ _ c1
  have hl := (linkStep_spec (enteredGraph X runtimesGraph bundleGraph connection runtimeNode)
    runtimeNode connection.dependency).1
  have hlb := InternalBundleGraph.getBundles_congr _ _ hl
  refine ⟨?_, ?_⟩
  · intro he
    have hent := (entryStep_spec
      (containedGraph X runtimesGraph bundleGraph connection runtimeNode)
      connection.bundle runtimeNode connection.isEntry).1 he
    have hentered : enteredGraph X runtimesGraph bundleGraph connection runtimeNode
        = containedGraph X runtimesGraph bundleGraph connection runtimeNode := by
      unfold enteredGraph
      rw [hent]
    rcases connectRuntimeNode_result X runtimesGraph bundleGraph connection runtimeNode
      with h | h | h | h <;> rw [h]
    · exact hcb
    · rw [hentered]; exact hcb
    · rw [hlb, hentered]; exact hcb
  · intro he hok
    obtain ⟨-, -, h3, -, h5⟩ := connectRuntimeNode_none X runtimesGraph bundleGraph connection
      runtimeNode hok
    rw [h5, hlb]
    unfold enteredGraph
    rw [entryStep_getBundles _ _ _ _ h3]
    simp only [he, if_true]
    rw [hcb]

/-- The entry lists after the body of the loop, when it returns and the graph
holds the bundle of the connection. -/
theorem connectRuntimeNode_entryAssetIds (X : Externals)
    (runtimesGraph bundleGraph : InternalBundleGraph)
    (connection : RuntimeConnection) (runtimeNode : Node)
    (hok : (connectRuntimeNode X runtimesGraph bundleGraph connection runtimeNode).2 = none)
    (hheld : ∃ held ∈ bundleGraph.getBundles, held.id = connection.bundle.id)
    (bundle : InternalBundle) :
    ((connectRuntimeNode X runtimesGraph bundleGraph connection
        runtimeNode).1.currentBundle bundle).entryAssetIds
      = if bundle.id = connection.bundle.id ∧ connection.isEntry = some true then
          runtimeNode.id :: (bundleGraph.currentBundle bundle).entryAssetIds
        else (bundleGraph.currentBundle bundle).entryAssetIds := by
  obtain ⟨h1, h2⟩ := connectRuntimeNode_getBundles X runtimesGraph bundleGraph connection
    runtimeNode
  by_cases he : connection.isEntry = some true
  · obtain ⟨m1, m2⟩ := InternalBundleGraph.currentBundle_of_map _ bundleGraph
      connection.bundle.id runtimeNode.id (h2 he hok) bundle
    by_cases hb : bundle.id = connection.bundle.id
    · simp only [hb, he, and_self, if_true]
      obtain ⟨held, hmem, hid⟩ := hheld
      exact m2 ⟨held, hmem, hid.trans hb.symm⟩ hb
    · simp only [hb, false_and, if_false]
      rw [m1 hb]
  · simp only [he, and_false, if_false]
    unfold InternalBundleGraph.currentBundle
    rw [h1 he]

/-- The body of the loop keeps the identifiers of the bundles the graph holds. -/
theorem connectRuntimeNode_held (X : Externals)
    (runtimesGraph bundleGraph : InternalBundleGraph)
    (connection : RuntimeConnection) (runtimeNode : Node)
    (hok : (connectRuntimeNode X runtimesGraph bundleGraph connection runtimeNode).2 = none)
    (bundleId : NodeId) (hheld : ∃ held ∈ bundleGraph.getBundles, held.id = bundleId) :
    ∃ held ∈ (connectRuntimeNode X runtimesGraph bundleGraph connection
      runtimeNode).1.getBundles, held.id = bundleId := by
  obtain ⟨h1, h2⟩ := connectRuntimeNode_getBundles X runtimesGraph bundleGraph connection
    runtimeNode
  by_cases he : connection.isEntry = some true
  · rw [h2 he hok]
    obtain ⟨held, hmem, hid⟩ := hheld
    exact ⟨unshifted connection.bundle.id runtimeNode.id held, List.mem_map.2 ⟨held, hmem, rfl⟩,
      (unshifted_id _ _ held).trans hid⟩
  · rw [h1 he]
    exact hheld

/-- The entry lists after the loop over the connections, when it returns: each
connection of a bundle whose `isEntry` is true puts the identifier of its
runtime node in front of the list. -/
theorem applyConnections_entryAssetIds (X : Externals) (runtimesAssetGraph : Graph)
    (runtimesGraph : InternalBundleGraph) (connections : List RuntimeConnection)
    (start final : InternalBundleGraph)
    (hok : applyConnections X runtimesAssetGraph runtimesGraph start connections
      = (final, none))
    (hheld : ∀ c ∈ connections, ∃ held ∈ start.getBundles, held.id = c.bundle.id)
    (bundle : InternalBundle) :
    (final.currentBundle bundle).entryAssetIds
      = (entryRuntimeIds X runtimesAssetGraph bundle.id connections).reverse
          ++ (start.currentBundle bundle).entryAssetIds := by
  induction connections generalizing start with
  | nil =>
    simp only [applyConnections, Prod.mk.injEq, and_true] at hok
    subst hok
    rfl
  | cons c rest ih =>
    simp only [applyConnections] at hok
    rcases hc : applyConnection X runtimesAssetGraph runtimesGraph start c with ⟨applied, _ | e⟩
    · rw [hc] at hok
      simp only at hok
      cases hloc : locateRuntimeNode X runtimesAssetGraph c.assetGroup with
      | error e =>
        simp only [applyConnection, hloc] at hc
        cases hc
      | ok runtimeNode =>
        simp only [applyConnection, hloc] at hc
        have hcok : (connectRuntimeNode X runtimesGraph start c runtimeNode).2 = none := by
          rw [hc]
        have hstep := connectRuntimeNode_entryAssetIds X runtimesGraph start c runtimeNode hcok
          (hheld c (List.mem_cons_self _ _)) bundle
        rw [hc] at hstep
        have hrest : ∀ c1 ∈ rest, ∃ held ∈ applied.getBundles, held.id = c1.bundle.id := by
          intro c1 hc1
          have := connectRuntimeNode_held X runtimesGraph start c runtimeNode hcok
            c1.bundle.id (hheld c1 (List.mem_cons_of_mem _ hc1))
          rw [hc] at this
          exact this
        rw [ih applied hok hrest, hstep]
        simp only [entryRuntimeIds, List.filterMap_cons, hloc]
        by_cases hcond : c.bundle.id = bundle.id ∧ c.isEntry = some true
        · have hcond1 : bundle.id = c.bundle.id ∧ c.isEntry = some true :=
            ⟨hcond.1.symm, hcond.2⟩
          rw [if_pos hcond, if_pos hcond1]
          simp only [List.reverse_cons, List.append_assoc, List.singleton_append]
        · have hcond1 : ¬ (bundle.id = c.bundle.id ∧ c.isEntry = some true) :=
            fun h => hcond ⟨h.1.symm, h.2⟩
          rw [if_neg hcond, if_neg hcond1]
    · rw [hc] at hok
      cases hok

/-! ## The bundles after the merge -/

theorem JsMap.set_of_get_none {K V : Type} [DecidableEq K] (m : JsMap K V) (k : K) (v : V)
    (h : JsMap.get m k = none) : JsMap.set m k v = m ++ [(k, v)] := by
  induction m with
  | nil => rfl
  | cons e rest ih =>
    obtain ⟨k0, v0⟩ := e
    by_cases hk : k0 = k
    · simp [JsMap.get, hk] at h
    · simp only [JsMap.get, hk, if_false] at h
      simp only [JsMap.set, hk, if_false, List.cons_append, ih h]

/-- Modelled `merge`: the nodes of the graph come first, as they were. -/
theorem InternalBundleGraph.merge_nodes (bundleGraph other : InternalBundleGraph) :
    ∃ added, (bundleGraph.merge other)._graph.nodes = bundleGraph._graph.nodes ++ added := by
  unfold InternalBundleGraph.merge
  simp only
  have hedges : ∀ (es : List Edge) (g : Graph),
      (es.foldl (fun (acc : Graph) e => acc.addEdge e.fromId e.toId e.type) g).nodes
        = g.nodes := by
    intro es
    induction es with
    | nil => intro g; rfl
    | cons e rest ih =>
      intro g
      simp only [List.foldl_cons]
      rw [ih, Graph.nodes_addEdge]
  rw [hedges]
  have hnodes : ∀ (ns : List Node) (g : Graph), ∃ added,
      (ns.foldl (fun (acc : Graph) n => if acc.hasNode n.id then acc else acc.addNode n)
        g).nodes = g.nodes ++ added := by
    intro ns
    induction ns with
    | nil => intro g; exact ⟨[], by simp⟩
    | cons n rest ih =>
      intro g
      simp only [List.foldl_cons]
      by_cases hn : g.hasNode n.id = true
      · simp only [hn, if_true]
        exact ih g
      · simp only [hn, Bool.false_eq_true, if_false]
        obtain ⟨added, hadd⟩ := ih (g.addNode n)
        have hget : JsMap.get g.nodes n.id = none := by
          simp only [Graph.hasNode, Graph.getNode, Bool.not_eq_true] at hn
          cases hg : JsMap.get g.nodes n.id with
          | none => rfl
          | some v => rw [hg] at hn; cases hn
        refine ⟨(n.id, n) :: added, ?_⟩
        rw [hadd]
        simp only [Graph.addNode, JsMap.set_of_get_none _ _ _ hget, List.append_assoc,
          List.singleton_append]
  exact hnodes _ _

/-- The merge keeps the bundle object of every bundle the graph holds. -/
theorem mergeRuntimesGraph_currentBundle (bundleGraph runtimesGraph : InternalBundleGraph)
    (bundle : InternalBundle)
    (hheld : ∃ held ∈ bundleGraph.getBundles, held.id = bundle.id) :
    (mergeRuntimesGraph bundleGraph runtimesGraph).currentBundle bundle
      = bundleGraph.currentBundle bundle ∧
    ∃ held ∈ (mergeRuntimesGraph bundleGraph runtimesGraph).getBundles,
      held.id = bundle.id := by
  obtain ⟨added, hadd⟩ := InternalBundleGraph.merge_nodes bundleGraph runtimesGraph
  have hb : (mergeRuntimesGraph bundleGraph runtimesGraph).getBundles
      = bundleGraph.getBundles ++
        (JsMap.values added).filterMap (fun n =>
          match n.value with
          | NodeValue.bundle b => some b
          | _ => none) := by
    unfold InternalBundleGraph.getBundles
    rw [(mergeRuntimesGraph_parts bundleGraph runtimesGraph).1, hadd]
    simp only [JsMap.values, List.map_append, List.filterMap_append]
  obtain ⟨held, hmem, hid⟩ := hheld
  refine ⟨?_, held, ?_, hid⟩
  · unfold InternalBundleGraph.currentBundle
    rw [hb, List.filter_append]
    have hne : bundleGraph.getBundles.filter (fun b => decide (b.id = bundle.id)) ≠ [] := by
      intro h
      have : held ∈ bundleGraph.getBundles.filter (fun b => decide (b.id = bundle.id)) :=
        List.mem_filter.2 ⟨hmem, by simpa using hid⟩
      rw [h] at this
      cases this
    cases hf : bundleGraph.getBundles.filter (fun b => decide (b.id = bundle.id)) with
    | nil => exact absurd hf hne
    | cons b rest => rfl
  · rw [hb]
    exact List.mem_append_left _ hmem

/-- The bundle of every connection of the pass is a bundle the graph holds. -/
theorem collectConnections_bundle (X : Externals) (config : ParcelConfig)
    (pluginOptions : PluginOptions) (bundleGraph : InternalBundleGraph)
    (c : RuntimeConnection)
    (hc : c ∈ (collectConnections X config pluginOptions bundleGraph).connections) :
    c.bundle ∈ bundleGraph.getBundles := by
  rw [collectConnections_eq_queryAll] at hc
  rcases queryAll_sound X pluginOptions bundleGraph _ [] [] c hc with h | h
  · cases h
  · obtain ⟨q, hq, applied, -, record, -, rfl⟩ := h
    unfold providerQueries at hq
    obtain ⟨b, hb, hq1⟩ := List.mem_flatMap.1 hq
    obtain ⟨r, -, rfl⟩ := List.mem_map.1 hq1
    exact hb

/-- The entry lists after a pass that returns. -/
theorem applyRuntimes_entryAssetIds (X : Externals) (bundleGraph : InternalBundleGraph)
    (config : ParcelConfig) (pluginOptions : PluginOptions) (runtimesBuilder : AssetGraphBuilder)
    (hok : (applyRuntimes X bundleGraph config pluginOptions runtimesBuilder).error = none) :
    ∃ runtimesAssetGraph,
      reconcileNewRuntimes X runtimesBuilder
        (collectConnections X config pluginOptions bundleGraph).connections
          = .ok runtimesAssetGraph ∧
      ∀ bundle ∈ bundleGraph.getBundles,
        ((applyRuntimes X bundleGraph config pluginOptions
            runtimesBuilder).bundleGraph.currentBundle bundle).entryAssetIds
          = (entryRuntimeIds X runtimesAssetGraph bundle.id
              (collectConnections X config pluginOptions bundleGraph).connections).reverse
            ++ (bundleGraph.currentBundle bundle).entryAssetIds := by
  obtain ⟨hc, rag, hrec⟩ := applyRuntimes_ok X bundleGraph config pluginOptions runtimesBuilder
    hok
  refine ⟨rag, hrec, ?_⟩
  intro bundle hb
  obtain ⟨hg, herr⟩ := applyRuntimes_of_reconciled X bundleGraph config pluginOptions
    runtimesBuilder rag hc hrec
  rw [herr] at hok
  have hfinal : applyConnections X rag
      (X.fromAssetGraph rag bundleGraph._publicIdByAssetId bundleGraph._assetPublicIds)
      (mergeRuntimesGraph bundleGraph
        (X.fromAssetGraph rag bundleGraph._publicIdByAssetId bundleGraph._assetPublicIds))
      (collectConnections X config pluginOptions bundleGraph).connections
      = ((applyRuntimes X bundleGraph config pluginOptions runtimesBuilder).bundleGraph,
          none) := by
    rw [hg]
    exact Prod.ext rfl hok
  rw [applyConnections_entryAssetIds X rag _ _ _ _ hfinal ?_ bundle,
    (mergeRuntimesGraph_currentBundle bundleGraph _ bundle ⟨bundle, hb, rfl⟩).1]
  intro c hcm
  exact (mergeRuntimesGraph_currentBundle bundleGraph _ c.bundle
    ⟨c.bundle, collectConnections_bundle X config pluginOptions bundleGraph c hcm, rfl⟩).2

/-! ## A runtime asset whose dependencies resolve to duplicates -/

/-- In a graph keyed by node identifier, a node connected from another is the
node the graph holds under its identifier. -/
theorem Graph.getNodesConnectedFrom_held (g : Graph) (hk : g.keyedById = true) (n : Node)
    (t : Option String) (children : List Node)
    (h : g.getNodesConnectedFrom n t = .ok children) (c : Node) (hc : c ∈ children) :
    g.getNode c.id = some c := by
  unfold Graph.getNodesConnectedFrom at h
  split at h
  · cases h
    obtain ⟨id, -, hid⟩ := List.mem_filterMap.1 hc
    have := Graph.id_of_getNode g hk id c hid
    rw [this]; exact hid
  · cases h

/-- What `dependenciesResolveToDuplicates` says of a node connected from a
dependency connected from `runtimeNode`. -/
theorem dependenciesResolveToDuplicates_spec (X : Externals)
    (runtimesGraph bundleGraph : InternalBundleGraph) (connection : RuntimeConnection)
    (runtimeNode : Node)
    (h : dependenciesResolveToDuplicates X runtimesGraph bundleGraph connection runtimeNode
      = true)
    (children : List Node)
    (hc : runtimesGraph._graph.getNodesConnectedFrom runtimeNode none = .ok children)
    (d : Node) (hd : d ∈ children) :
    d.isDependency = true ∧
    ∀ assetNodes, runtimesGraph._graph.getNodesConnectedFrom d none = .ok assetNodes →
      ∀ n ∈ assetNodes, ∃ a, n.value = NodeValue.asset a ∧ n.id = a.id ∧
        (X.isAssetReachableFromBundle bundleGraph a
            (bundleGraph.currentBundle connection.bundle) = true ∨
          (resolutionOf X bundleGraph connection.bundle connection.dependency).map
            (fun r => r.id) = some a.id) := by
  unfold dependenciesResolveToDuplicates at h
  rw [hc] at h
  simp only [List.all_eq_true, Bool.and_eq_true] at h
  obtain ⟨h1, h2⟩ := h d hd
  refine ⟨h1, ?_⟩
  intro assetNodes ha n hn
  rw [ha] at h2
  simp only [List.all_eq_true] at h2
  have h3 := h2 n hn
  cases hv : n.value with
  | asset a =>
    rw [hv] at h3
    simp only [Bool.and_eq_true, decide_eq_true_eq, Bool.or_eq_true] at h3
    exact ⟨a, rfl, h3.1, h3.2⟩
  | root => rw [hv] at h3; cases h3
  | asset_group v => rw [hv] at h3; cases h3
  | dependency v => rw [hv] at h3; cases h3
  | bundle v => rw [hv] at h3; cases h3
  | bundle_group => rw [hv] at h3; cases h3

/-- The first walk, when it returns, has marked every identifier that a node
connected from an asset `runtimeNode` points to. -/
theorem duplicatedWalk_marks_children (X : Externals)
    (bundleGraph runtimesGraph : InternalBundleGraph) (bundle : InternalBundle)
    (resolution : Option Asset) (runtimeNode : Node)
    (hk : runtimesGraph._graph.keyedById = true)
    (hrt : runtimesGraph._graph.getNode runtimeNode.id = some runtimeNode)
    (hasset : runtimeNode.isAsset = true)
    (hok : (duplicatedWalk X bundleGraph runtimesGraph bundle resolution runtimeNode).2 = none)
    (children : List Node)
    (hc : runtimesGraph._graph.getNodesConnectedFrom runtimeNode none = .ok children)
    (d : Node) (hd : d ∈ children) (x : NodeId)
    (hx : PointsToDuplicate X bundleGraph runtimesGraph bundle resolution d x) :
    x ∈ (duplicatedWalk X bundleGraph runtimesGraph bundle resolution runtimeNode).1.1 := by
  unfold duplicatedWalk at hok ⊢
  have hvisit : visitDuplicated X bundleGraph runtimesGraph bundle resolution [] runtimeNode
      = .ok ([], false) := by
    obtain ⟨nid, nv⟩ := runtimeNode
    cases nv <;> simp [Node.isAsset] at hasset
    rfl
  have hstart := Graph.traverse_logged_start runtimesGraph._graph
    (visitDuplicated X bundleGraph runtimesGraph bundle resolution) runtimeNode [] [] false
    hvisit
  obtain ⟨entry, hentry, hid⟩ := Graph.traverse_logged_closed runtimesGraph._graph
    (visitDuplicated X bundleGraph runtimesGraph bundle resolution) runtimeNode [] hok
    runtimeNode hstart children hc d hd
  have hheld := Graph.traverse_logged_held runtimesGraph._graph hk
    (visitDuplicated X bundleGraph runtimesGraph bundle resolution) runtimeNode [] hrt
    entry hentry
  have hdheld := Graph.getNodesConnectedFrom_held runtimesGraph._graph hk runtimeNode none
    children hc d hd
  have heq : entry.1 = d := by
    rw [hid, hdheld] at hheld
    injection hheld with hheld
    exact hheld.symm
  apply (traverse_visitDuplicated_exact X bundleGraph runtimesGraph bundle resolution
    runtimeNode x).2
  exact ⟨entry, hentry, heq ▸ hx⟩

/-- The containment walk of a connection whose dependencies resolve to
duplicates enters `runtimeNode`, nodes connected from it, and assets that are
marked duplicated, and no other node. -/
theorem containsWalk_flat (X : Externals) (runtimesGraph bundleGraph : InternalBundleGraph)
    (connection : RuntimeConnection) (runtimeNode : Node)
    (hk : runtimesGraph._graph.keyedById = true)
    (hrt : runtimesGraph._graph.getNode runtimeNode.id = some runtimeNode)
    (hasset : runtimeNode.isAsset = true)
    (hdup : dependenciesResolveToDuplicates X runtimesGraph bundleGraph connection runtimeNode
      = true)
    (hok : (duplicatedWalk X bundleGraph runtimesGraph connection.bundle
      (resolutionOf X bundleGraph connection.bundle connection.dependency) runtimeNode).2
        = none) :
    ∀ entry ∈ (containsWalk runtimesGraph connection.bundle
        (duplicatedIdsOf X runtimesGraph bundleGraph connection runtimeNode) runtimeNode
        bundleGraph).1.2,
      entry.1 = runtimeNode ∨
      (∃ children, runtimesGraph._graph.getNodesConnectedFrom runtimeNode none = .ok children ∧
        entry.1 ∈ children) ∨
      (entry.1.isAsset = true ∧
        entry.1.id ∈ duplicatedIdsOf X runtimesGraph bundleGraph connection runtimeNode) := by
  unfold containsWalk Graph.traverse
  apply Graph.traverseLoop_induct runtimesGraph._graph
    (Graph.logged (visitContains connection.bundle
      (duplicatedIdsOf X runtimesGraph bundleGraph connection runtimeNode)))
    (fun stack _ sl =>
      (∀ n ∈ stack, n = runtimeNode ∨
        (∃ children,
          runtimesGraph._graph.getNodesConnectedFrom runtimeNode none = .ok children ∧
          n ∈ children) ∨
        (n.isAsset = true ∧
          n.id ∈ duplicatedIdsOf X runtimesGraph bundleGraph connection runtimeNode)) ∧
      (∀ entry ∈ sl.2, entry.1 = runtimeNode ∨
        (∃ children,
          runtimesGraph._graph.getNodesConnectedFrom runtimeNode none = .ok children ∧
          entry.1 ∈ children) ∨
        (entry.1.isAsset = true ∧
          entry.1.id ∈ duplicatedIdsOf X runtimesGraph bundleGraph connection runtimeNode)))
    (fun sl => ∀ entry ∈ sl.2, entry.1 = runtimeNode ∨
      (∃ children,
        runtimesGraph._graph.getNodesConnectedFrom runtimeNode none = .ok children ∧
        entry.1 ∈ children) ∨
      (entry.1.isAsset = true ∧
        entry.1.id ∈ duplicatedIdsOf X runtimesGraph bundleGraph connection runtimeNode))
  · intro stack visited sl h
    exact h.2
  · intro n stack visited sl h _
    exact ⟨fun m hm => h.1 m (List.mem_cons_of_mem _ hm), h.2⟩
  · intro n stack visited sl sl1 h _ hvis
    obtain ⟨s1, -, rfl⟩ := Graph.logged_ok _ sl sl1 n true hvis
    refine ⟨fun m hm => h.1 m (List.mem_cons_of_mem _ hm), ?_⟩
    intro entry he
    rcases List.mem_append.1 he with he | he
    · exact h.2 entry he
    · simp only [List.mem_singleton] at he
      subst he
      exact h.1 n (List.mem_cons_self _ _)
  · intro n stack visited sl sl1 children h _ hvis hc
    obtain ⟨s1, hs1, rfl⟩ := Graph.logged_ok _ sl sl1 n false hvis
    have hskip := (visitContains_spec connection.bundle
      (duplicatedIdsOf X runtimesGraph bundleGraph connection runtimeNode) sl.1 s1 n false
      hs1).1
    refine ⟨?_, ?_⟩
    · intro m hm
      rcases List.mem_append.1 hm with hm | hm
      · rcases h.1 n (List.mem_cons_self _ _) with hn | ⟨ch, hch, hn⟩ | ⟨hn1, hn2⟩
        · subst hn
          exact Or.inr (Or.inl ⟨children, hc, hm⟩)
        · obtain ⟨-, hassets⟩ := dependenciesResolveToDuplicates_spec X runtimesGraph
            bundleGraph connection runtimeNode hdup ch hch n hn
          obtain ⟨a, hv, hid, hreach⟩ := hassets children hc m hm
          have hdep := (dependenciesResolveToDuplicates_spec X runtimesGraph
            bundleGraph connection runtimeNode hdup ch hch n hn).1
          refine Or.inr (Or.inr ⟨by simp [Node.isAsset, hv], ?_⟩)
          rw [hid]
          unfold duplicatedIdsOf
          exact duplicatedWalk_marks_children X bundleGraph runtimesGraph connection.bundle _
            runtimeNode hk hrt hasset hok ch hch n hn a.id
            ⟨hdep, children, hc, m, hm, a, hv, rfl, hreach⟩
        · have := hskip.2 ⟨Or.inl hn1, hn2⟩
          cases this
      · exact h.1 m (List.mem_cons_of_mem _ hm)
    · intro entry he
      rcases List.mem_append.1 he with he | he
      · exact h.2 entry he
      · simp only [List.mem_singleton] at he
        subst he
        exact h.1 n (List.mem_cons_self _ _)
  · intro n stack visited sl sl1 e h _ hvis _
    obtain ⟨s1, -, rfl⟩ := Graph.logged_ok _ sl sl1 n false hvis
    intro entry he
    rcases List.mem_append.1 he with he | he
    · exact h.2 entry he
    · simp only [List.mem_singleton] at he
      subst he
      exact h.1 n (List.mem_cons_self _ _)
  · refine ⟨?_, ?_⟩
    · intro n hn
      simp only [List.mem_singleton] at hn
      exact Or.inl hn
    · intro entry he
      cases he

/-! ## The kind of error a pass ends with -/

/-- An error of the provider loop is the diagnostic of a provider that threw. -/
theorem queryAll_error_kind (X : Externals) (pluginOptions : PluginOptions)
    (bundleGraph : InternalBundleGraph) (qs : List (InternalBundle × Runtime))
    (connections : List RuntimeConnection) (trace : List Event) (err : PassError)
    (h : (queryAll X pluginOptions bundleGraph qs connections trace).error = some err) :
    ∃ q ∈ qs, ∃ e, q.2.apply q.1 bundleGraph = .error e ∧
      err = PassError.throwableDiagnostic (X.errorToDiagnostic e q.2.name) := by
  induction qs generalizing connections trace with
  | nil => simp [queryAll] at h
  | cons q rest ih =>
    obtain ⟨b, r⟩ := q
    simp only [queryAll] at h
    cases happ : r.apply b bundleGraph with
    | error e =>
      rw [happ] at h
      simp only [Option.some.injEq] at h
      exact ⟨(b, r), List.mem_cons_self _ _, e, happ, h.symm⟩
    | ok applied =>
      rw [happ] at h
      obtain ⟨q, hq, e, he, herr⟩ := ih _ _ h
      exact ⟨q, List.mem_cons_of_mem _ hq, e, he, herr⟩

/-- The pass ends with the error of the connection at which the loop over the
connections stops, and with the graph that connection leaves. -/
theorem applyRuntimes_error_at (X : Externals) (bundleGraph : InternalBundleGraph)
    (config : ParcelConfig) (pluginOptions : PluginOptions) (runtimesBuilder : AssetGraphBuilder)
    (runtimesAssetGraph : Graph) (pre post : List RuntimeConnection)
    (connection : RuntimeConnection) (reached left : InternalBundleGraph) (err : PassError)
    (hnone : (collectConnections X config pluginOptions bundleGraph).error = none)
    (hconn : (collectConnections X config pluginOptions bundleGraph).connections
      = pre ++ connection :: post)
    (hrec : reconcileNewRuntimes X runtimesBuilder
      (collectConnections X config pluginOptions bundleGraph).connections
        = .ok runtimesAssetGraph)
    (hpre : applyConnections X runtimesAssetGraph
      (X.fromAssetGraph runtimesAssetGraph bundleGraph._publicIdByAssetId
        bundleGraph._assetPublicIds)
      (mergeRuntimesGraph bundleGraph
        (X.fromAssetGraph runtimesAssetGraph bundleGraph._publicIdByAssetId
          bundleGraph._assetPublicIds)) pre = (reached, none))
    (hfail : applyConnection X runtimesAssetGraph
      (X.fromAssetGraph runtimesAssetGraph bundleGraph._publicIdByAssetId
        bundleGraph._assetPublicIds) reached connection = (left, some err)) :
    (applyRuntimes X bundleGraph config pluginOptions runtimesBuilder).error = some err ∧
    (applyRuntimes X bundleGraph config pluginOptions runtimesBuilder).bundleGraph = left := by
  obtain ⟨hbg, herr⟩ := applyRuntimes_of_reconciled X bundleGraph config pluginOptions
    runtimesBuilder runtimesAssetGraph hnone hrec
  rw [hbg, herr, hconn, applyConnections_append, hpre]
  simp only [applyConnections, hfail]
  exact ⟨trivial, trivial⟩

/-! ## The island check after the entry step -/

theorem JsMap.get_map_isSome {K V : Type} [DecidableEq K] (m : JsMap K V) (f : K × V → K × V)
    (hf : ∀ kv, (f kv).1 = kv.1) (k : K) :
    (JsMap.get (m.map f) k).isSome = (JsMap.get m k).isSome := by
  induction m with
  | nil => rfl
  | cons kv rest ih =>
    have h1 := hf kv
    obtain ⟨k0, v0⟩ := kv
    cases hfk : f (k0, v0) with
    | mk k1 v1 =>
      rw [hfk] at h1
      simp only at h1
      subst h1
      simp only [List.map_cons, hfk, JsMap.get]
      by_cases hk : k1 = k
      · simp [hk]
      · simp only [hk, if_false]
        exact ih

/-- The `unshift` on a bundle keeps the identifiers the graph holds a node of. -/
theorem InternalBundleGraph.hasNode_unshiftEntryAssetId (bundleGraph : InternalBundleGraph)
    (bundle : InternalBundle) (id key : NodeId) :
    (bundleGraph.unshiftEntryAssetId bundle id)._graph.hasNode key
      = bundleGraph._graph.hasNode key := by
  unfold InternalBundleGraph.unshiftEntryAssetId Graph.hasNode Graph.getNode
  simp only
  apply JsMap.get_map_isSome
  intro kv
  split
  · split <;> rfl
  · rfl

/-- A node has a node connected to it by an edge of the kind when the graph
holds it, has an edge of the kind to it, and holds a node of the identifier the
edge comes from. -/
theorem Graph.getNodesConnectedTo_pos (g : Graph) (n : Node) (t : Option String)
    (fromId : NodeId) (hn : g.hasNode n.id = true) (hf : g.hasNode fromId = true)
    (he : (⟨fromId, n.id, t⟩ : Edge) ∈ g.edges) :
    ∃ inbound, g.getNodesConnectedTo n t = .ok inbound ∧ 0 < inbound.length := by
  refine ⟨(g.idsConnectedTo n.id t).filterMap g.getNode, by simp [Graph.getNodesConnectedTo, hn],
    ?_⟩
  cases hg : g.getNode fromId with
  | none => simp [Graph.hasNode, hg] at hf
  | some m =>
    apply List.length_pos_of_mem
    exact List.mem_filterMap.2 ⟨fromId, (Graph.mem_idsConnectedTo g n.id fromId t).2 he, hg⟩

/-- After an entry step that passes for `isEntry` true, in a graph keyed by node
identifier that holds `runtimeNode`, the bundle's node is connected to
`runtimeNode` by an edge of the default kind. -/
theorem entryStep_inbound (bundleGraph : InternalBundleGraph) (bundle : InternalBundle)
    (runtimeNode : Node) (isEntry : Option Bool)
    (hk : bundleGraph._graph.keyedById = true)
    (hrt : bundleGraph._graph.hasNode runtimeNode.id = true)
    (he : isEntry = some true)
    (hok : (entryStep bundleGraph bundle runtimeNode isEntry).2 = none) :
    ∃ inbound, (entryStep bundleGraph bundle runtimeNode isEntry).1._graph.getNodesConnectedTo
        runtimeNode none = .ok inbound ∧ 0 < inbound.length := by
  obtain ⟨-, s2, s3⟩ := entryStep_spec bundleGraph bundle runtimeNode isEntry
  cases hn : bundleGraph._graph.getNode bundle.id with
  | none =>
    rw [s2 he hn] at hok
    cases hok
  | some bundleNode =>
    rw [s3 he bundleNode hn]
    have hid := Graph.id_of_getNode bundleGraph._graph hk bundle.id bundleNode hn
    apply Graph.getNodesConnectedTo_pos _ runtimeNode none bundleNode.id
    · rw [InternalBundleGraph.hasNode_unshiftEntryAssetId]
      simp only [Graph.hasNode, Graph.getNode_addEdge]
      exact hrt
    · rw [InternalBundleGraph.hasNode_unshiftEntryAssetId]
      simp only [Graph.hasNode, Graph.getNode_addEdge, hid, hn, Option.isSome_some]
    · exact (Graph.mem_edges_addEdge _ _ _ _ _).2 (Or.inr rfl)

/-- After an entry step that passes for `isEntry` true the graph holds
`runtimeNode` when it held it before. -/
theorem entryStep_hasNode (bundleGraph : InternalBundleGraph) (bundle : InternalBundle)
    (runtimeNode : Node) (isEntry : Option Bool) (key : NodeId) :
    (entryStep bundleGraph bundle runtimeNode isEntry).1._graph.hasNode key
      = bundleGraph._graph.hasNode key := by
  obtain ⟨s1, s2, s3⟩ := entryStep_spec bundleGraph bundle runtimeNode isEntry
  by_cases he : isEntry = some true
  · cases hn : bundleGraph._graph.getNode bundle.id with
    | none => rw [s2 he hn]
    | some bundleNode =>
      rw [s3 he bundleNode hn, InternalBundleGraph.hasNode_unshiftEntryAssetId]
      simp only [Graph.hasNode, Graph.getNode_addEdge]
  · rw [s1 he]

/-! ## Where the nodes that a connection contains hang -/

/-- In a graph keyed by node identifier there is an edge of the kind to every
node connected from a node. -/
theorem Graph.getNodesConnectedFrom_edge (g : Graph) (hk : g.keyedById = true) (p : Node)
    (t : Option String) (children : List Node)
    (h : g.getNodesConnectedFrom p t = .ok children) (m : Node) (hm : m ∈ children) :
    (⟨p.id, m.id, t⟩ : Edge) ∈ g.edges := by
  unfold Graph.getNodesConnectedFrom at h
  split at h
  · cases h
    obtain ⟨id, hid, hget⟩ := List.mem_filterMap.1 hm
    rw [Graph.id_of_getNode g hk id m hget]
    exact (Graph.mem_idsConnectedFrom g p.id id t).1 hid
  · cases h

/-- Without a dependency the link step leaves the graph as it is. -/
theorem linkStep_none_graph (bundleGraph : InternalBundleGraph) (runtimeNode : Node) :
    (linkStep bundleGraph runtimeNode none).1 = bundleGraph := by
  simp only [linkStep]
  cases bundleGraph._graph.getNodesConnectedTo runtimeNode none with
  | error e => rfl
  | ok inbound =>
    simp only
    split <;> rfl

/-- A `contains` edge that the body of the loop leaves is an edge of the graph
it was given or of the graph of the containment walk. -/
theorem connectRuntimeNode_contains_edge (X : Externals)
    (runtimesGraph bundleGraph : InternalBundleGraph)
    (connection : RuntimeConnection) (runtimeNode : Node) (e : Edge)
    (hmem : e ∈ (connectRuntimeNode X runtimesGraph bundleGraph connection
      runtimeNode).1._graph.edges)
    (htype : e.type = some "contains") :
    e ∈ bundleGraph._graph.edges ∨
    e ∈ (containedGraph X runtimesGraph bundleGraph connection runtimeNode)._graph.edges := by
  have hentered : e ∈ (enteredGraph X runtimesGraph bundleGraph connection
      runtimeNode)._graph.edges →
      e ∈ (containedGraph X runtimesGraph bundleGraph connection runtimeNode)._graph.edges := by
    intro h
    rcases (entryStep_frame _ _ _ _).2.2 e h with h1 | ⟨-, bundleNode, -, h1⟩
    · exact h1
    · rw [h1] at htype
      cases htype
  rcases connectRuntimeNode_result X runtimesGraph bundleGraph connection runtimeNode
    with h | h | h | h <;> rw [h] at hmem
  · exact Or.inl hmem
  · exact Or.inr hmem
  · exact Or.inr (hentered hmem)
  · rcases ((linkStep_spec _ _ _).2.2.2.1 e).1 hmem with h1 | ⟨d, -, h1⟩
    · exact Or.inr (hentered h1)
    · rw [h1] at htype
      cases htype

/-- A body that returns keeps the edges of the containment walk. -/
theorem connectRuntimeNode_keeps_contained (X : Externals)
    (runtimesGraph bundleGraph : InternalBundleGraph)
    (connection : RuntimeConnection) (runtimeNode : Node)
    (hok : (connectRuntimeNode X runtimesGraph bundleGraph connection runtimeNode).2 = none)
    (e : Edge)
    (he : e ∈ (containedGraph X runtimesGraph bundleGraph connection
      runtimeNode)._graph.edges) :
    e ∈ (connectRuntimeNode X runtimesGraph bundleGraph connection
      runtimeNode).1._graph.edges := by
  rw [(connectRuntimeNode_none X runtimesGraph bundleGraph connection runtimeNode hok).2.2.2.2]
  apply linkStep_edges
  unfold enteredGraph
  exact entryStep_edges _ _ _ _ e he

/-- How the runtime node of a connection hangs in the graph when the body of the
loop returns. -/
theorem connectRuntimeNode_runtimeNode (X : Externals)
    (runtimesGraph bundleGraph : InternalBundleGraph)
    (connection : RuntimeConnection) (runtimeNode : Node)
    (hok : (connectRuntimeNode X runtimesGraph bundleGraph connection runtimeNode).2 = none) :
    (∀ d, connection.dependency = some d →
      (⟨d.id, runtimeNode.id, none⟩ : Edge) ∈
        (connectRuntimeNode X runtimesGraph bundleGraph connection
          runtimeNode).1._graph.edges) ∧
    (connection.dependency = none →
      ∃ inbound, (connectRuntimeNode X runtimesGraph bundleGraph connection
          runtimeNode).1._graph.getNodesConnectedTo runtimeNode none = .ok inbound ∧
        0 < inbound.length) := by
  obtain ⟨-, -, -, h4, h5⟩ := connectRuntimeNode_none X runtimesGraph bundleGraph connection
    runtimeNode hok
  rw [h5]
  obtain ⟨-, -, -, hedges, -, hisland⟩ := linkStep_spec
    (enteredGraph X runtimesGraph bundleGraph connection runtimeNode) runtimeNode
    connection.dependency
  refine ⟨fun d hd => (hedges _).2 (Or.inr ⟨d, hd, rfl⟩), ?_⟩
  intro hd
  obtain ⟨inbound, hin, hlen⟩ := (hisland hd).2.1 h4
  rw [hd, linkStep_none_graph]
  exact ⟨inbound, hin, hlen⟩

/-! ## The REPL reducer -/

namespace Repl

/-- Setting entries with new, pairwise distinct keys one after the other appends
them. -/
theorem foldl_set_append {K V : Type} [DecidableEq K] (es : List (K × V)) (m : JsMap K V)
    (h : (JsMap.keys (m ++ es)).Nodup) :
    es.foldl (fun m e => JsMap.set m e.1 e.2) m = m ++ es := by
  induction es generalizing m with
  | nil => simp
  | cons e rest ih =>
    obtain ⟨k, v⟩ := e
    have hk : k ∉ JsMap.keys m := by
      intro hmem
      simp only [JsMap.keys, List.map_append, List.map_cons] at h hmem
      have := (List.nodup_append.1 h).2.2 hmem (List.mem_cons_self _ _)
      exact this
    have hset : JsMap.set m k v = m ++ [(k, v)] :=
      JsMap.set_of_get_none m k v (JsMap.get_of_not_mem_keys m k hk)
    simp only [List.foldl_cons, hset]
    rw [ih (m ++ [(k, v)]) (by simpa using h)]
    simp

/-- The `Map` built from the entries of a `Map`, whose keys are pairwise
distinct, is that `Map`. -/
theorem ofEntries_of_nodup {K V : Type} [DecidableEq K] (m : JsMap K V)
    (h : (JsMap.keys m).Nodup) : JsMap.ofEntries m = m := by
  have := foldl_set_append m [] (by simpa using h)
  simpa [JsMap.ofEntries] using this

/-- The `Map` built from the entries of a `Map` and one more entry is the `Map`
after `set`. -/
theorem ofEntries_append_one {K V : Type} [DecidableEq K] (m : JsMap K V)
    (h : (JsMap.keys m).Nodup) (k : K) (v : V) :
    JsMap.ofEntries (m ++ [(k, v)]) = JsMap.set m k v := by
  unfold JsMap.ofEntries
  rw [List.foldl_append]
  have := ofEntries_of_nodup m h
  unfold JsMap.ofEntries at this
  rw [this]
  rfl

/-- A sublist of the entries of a `Map` is a `Map`. -/
theorem ofEntries_filter {K V : Type} [DecidableEq K] (m : JsMap K V)
    (h : (JsMap.keys m).Nodup) (p : K × V → Bool) :
    JsMap.ofEntries (m.filter p) = m.filter p := by
  apply ofEntries_of_nodup
  exact List.Nodup.sublist (List.Sublist.map _ (List.filter_sublist m)) h

theorem length_set {K V : Type} [DecidableEq K] (m : JsMap K V) (k : K) (v : V) :
    (JsMap.set m k v).length = if k ∈ JsMap.keys m then m.length else m.length + 1 := by
  have := congrArg List.length (JsMap.keys_set m k v)
  simp only [JsMap.keys, List.length_map] at this
  rw [this]
  by_cases hk : k ∈ List.map Prod.fst m
  · simp [JsMap.keys, hk]
  · simp [JsMap.keys, hk]

theorem nodup_keys_set {K V : Type} [DecidableEq K] (m : JsMap K V) (k : K) (v : V)
    (h : (JsMap.keys m).Nodup) : (JsMap.keys (JsMap.set m k v)).Nodup := by
  rw [JsMap.keys_set_eq_add]
  exact JsSet.nodup_add _ _ h

/-- JS `findIndex` for the key of a `Map` that holds the key: the index of the
entry of that key. -/
theorem findIndex_key {V : Type} (m : JsMap String V) (h : (JsMap.keys m).Nodup) (name : String)
    (v : V) (hget : JsMap.get m name = some v) :
    0 ≤ findIndex (fun entry => decide (entry.1 = name)) m ∧
    findIndex (fun entry => decide (entry.1 = name)) m < m.length ∧
    atIndex m (findIndex (fun entry => decide (entry.1 = name)) m) = some (name, v) := by
  have hmem := JsMap.mem_of_get m name v hget
  have hex : ∃ x ∈ m, (fun entry : String × V => decide (entry.1 = name)) x = true :=
    ⟨(name, v), hmem, by simp⟩
  have hany : m.any (fun entry => decide (entry.1 = name)) = true :=
    List.any_eq_true.2 hex
  have hlt := List.findIdx_lt_length_of_exists hex
  have hp := List.findIdx_getElem (w := hlt)
  simp only [findIndex, hany, if_true]
  refine ⟨Int.ofNat_nonneg _, by exact_mod_cast hlt, ?_⟩
  simp only [atIndex, Int.ofNat_nonneg, if_true, Int.toNat_ofNat]
  rw [List.get?_eq_getElem? , List.getElem?_eq_getElem hlt]
  congr 1
  simp only [decide_eq_true_eq] at hp
  have hin : m[List.findIdx (fun entry => decide (entry.1 = name)) m] ∈ m :=
    List.getElem_mem _
  generalize m[List.findIdx (fun entry => decide (entry.1 = name)) m] = found at hp hin ⊢
  obtain ⟨k1, v1⟩ := found
  simp only at hp
  subst hp
  have hval := JsMap.get_of_mem m h _ _ hin
  rw [hget] at hval
  injection hval with hval
  rw [hval]

end Repl

namespace Repl

/-- `view.open` on a state whose views are a `Map`: it throws when there is
neither a component nor a file, and else sets the view and makes it current. -/
theorem viewOpen_eq {F : Type} (env : Env F) (state : State F) (name : String)
    (component : Option String) (hnodup : (JsMap.keys state.views).Nodup) :
    viewOpen env state name component
      = match openedView env state name component with
        | none => .error ReplError.nullthrows
        | some view =>
          .ok { state with
            views := JsMap.set state.views name view
            currentView :=
              findIndex (fun entry => decide (entry.1 = name))
                (JsMap.set state.views name view) } := by
  cases component with
  | some c =>
    simp only [viewOpen, openedView, ofEntries_append_one state.views hnodup]
  | none =>
    cases hget : env.get state.files name with
    | none => simp [viewOpen, openedView, hget, nullthrows]
    | some file =>
      simp only [viewOpen, openedView, hget, nullthrows, Option.map_some',
        ofEntries_append_one state.views hnodup]

/-- `view.setValue` on a state whose views are a `Map`. -/
theorem viewSetValue_eq {F : Type} (state : State F) (name value : String)
    (hnodup : (JsMap.keys state.views).Nodup) :
    viewSetValue state name value
      = match JsMap.get state.views name with
        | none => .error ReplError.nullthrows
        | some data =>
          if truthy data.value then
            .ok { state with views := JsMap.set state.views name (View.text (some value)) }
          else .ok state := by
  cases hget : JsMap.get state.views name with
  | none => simp [viewSetValue, hget, nullthrows]
  | some data =>
    cases ht : truthy data.value <;>
      simp [viewSetValue, hget, nullthrows, ht, ofEntries_append_one state.views hnodup]

end Repl

namespace Repl

theorem ViewIndexed.congr {F : Type} (state result : State F)
    (hv : result.views = state.views) (hc : result.currentView = state.currentView)
    (h : ViewIndexed state) : ViewIndexed result := by
  unfold ViewIndexed at h ⊢
  rw [hv, hc]
  exact h

/-- `view.saveCurrent` leaves the views and `currentView` as they are. -/
theorem saveCurrent_views {F : Type} (env : Env F) (state result : State F)
    (h : (if state.useTabs then saveCurrentTab env state else saveCurrentAll env state)
      = .ok result) :
    result.views = state.views ∧ result.currentView = state.currentView := by
  cases hu : state.useTabs with
  | true =>
    rw [hu] at h
    simp only [if_true, saveCurrentTab] at h
    cases hat : atIndex state.views state.currentView with
    | none => rw [hat] at h; cases h
    | some entry =>
      obtain ⟨name, view⟩ := entry
      rw [hat] at h
      simp only at h
      cases hval : view.value with
      | none => rw [hval] at h; cases h; exact ⟨rfl, rfl⟩
      | some value =>
        rw [hval] at h
        simp only at h
        cases hget : env.get state.files name with
        | none => simp [hget, nullthrows] at h
        | some file =>
          simp only [hget, nullthrows] at h
          split at h <;> cases h <;> exact ⟨rfl, rfl⟩
  | false =>
    rw [hu] at h
    simp only [Bool.false_eq_true, if_false, saveCurrentAll] at h
    cases hs : saveViews env state state.views state.files with
    | error e => rw [hs] at h; cases h
    | ok files => rw [hs] at h; cases h; exact ⟨rfl, rfl⟩

/-- `file.addFile` and `file.addFolder` leave the views and `currentView` as they
are. -/
theorem fileAdd_views {F : Type} (env : Env F) (steps : Nat) (state result : State F)
    (h : fileAddFile env steps state = .ok result ∨ fileAddFolder env steps state = .ok result) :
    result.views = state.views ∧ result.currentView = state.currentView := by
  rcases h with h | h
  · simp only [fileAddFile] at h
    split at h
    · cases h
    · cases h; exact ⟨rfl, rfl⟩
  · simp only [fileAddFolder] at h
    split at h
    · cases h
    · cases h; exact ⟨rfl, rfl⟩

/-- A preset is loaded without views. -/
theorem loadPreset_views {F : Type} (env : Env F) (name : String) (result : State F)
    (h : loadPreset env name = .ok result) : result.views = [] := by
  simp only [loadPreset] at h
  cases hp : env.presets name with
  | none => simp [hp, nullthrows] at h
  | some preset =>
    simp only [hp, nullthrows] at h
    cases h
    rfl

end Repl

namespace Repl

/-! ### The names of new files -/

theorem digitChar_value (m : Nat) (h : m < 10) : (Nat.digitChar m).toNat - 48 = m := by
  interval_cases m <;> rfl

theorem foldl_toDigitsCore (fuel n : Nat) (ds : List Char) (h : n < fuel) :
    (Nat.toDigitsCore 10 fuel n ds).foldl (fun acc c => 10 * acc + (c.toNat - 48)) 0
      = ds.foldl (fun acc c => 10 * acc + (c.toNat - 48)) n := by
  induction fuel generalizing n ds with
  | zero => omega
  | succ fuel ih =>
    simp only [Nat.toDigitsCore]
    by_cases h0 : n / 10 = 0
    · simp only [h0, if_true, List.foldl_cons, Nat.mul_zero, Nat.zero_add]
      rw [digitChar_value _ (Nat.mod_lt _ (by decide))]
      have : n % 10 = n := Nat.mod_eq_of_lt (by omega)
      rw [this]
    · simp only [h0, if_false]
      rw [ih (n / 10) _ (by omega)]
      simp only [List.foldl_cons]
      rw [digitChar_value _ (Nat.mod_lt _ (by decide))]
      have : 10 * (n / 10) + n % 10 = n := Nat.div_add_mod n 10
      rw [this]

/-- The decimal numeral of a number writes that number. -/
theorem digitsValue_toString (n : Nat) : digitsValue (toString n).data = n := by
  show digitsValue (Nat.toDigits 10 n) = n
  unfold digitsValue Nat.toDigits
  rw [foldl_toDigitsCore (n + 1) n [] (by omega)]
  rfl

/-- Different numbers give different file names. -/
theorem fileName_injective : Function.Injective fileName := by
  intro i j h
  have hdata := congrArg String.data h
  simp only [fileName, String.data_append] at hdata
  have h1 := List.append_cancel_right hdata
  have h2 := List.append_cancel_left h1
  have := congrArg digitsValue h2
  rwa [digitsValue_toString, digitsValue_toString] at this

/-! ### The loop of `file.addFile` -/

/-- What the loop returns is free, and every name before it is taken. -/
theorem firstFree_some (has : String → Bool) (name : Nat → String) (steps start i : Nat)
    (h : firstFree has name steps start = some i) :
    start ≤ i ∧ i ≤ start + steps ∧ has (name i) = false ∧
    ∀ j, start ≤ j → j < i → has (name j) = true := by
  induction steps generalizing start with
  | zero =>
    simp only [firstFree] at h
    split at h
    · cases h
    · rename_i hfree
      cases h
      exact ⟨Nat.le_refl _, by omega, by simpa using hfree, fun j h1 h2 => by omega⟩
  | succ steps ih =>
    simp only [firstFree] at h
    split at h
    · rename_i htaken
      obtain ⟨h1, h2, h3, h4⟩ := ih (start + 1) h
      refine ⟨by omega, by omega, h3, ?_⟩
      intro j hj1 hj2
      by_cases hj : j = start
      · rw [hj]; exact htaken
      · exact h4 j (by omega) hj2
    · rename_i hfree
      cases h
      exact ⟨Nat.le_refl _, by omega, by simpa using hfree, fun j h1 h2 => by omega⟩

/-- With enough steps the loop returns the first free name. -/
theorem firstFree_of_free (has : String → Bool) (name : Nat → String) (steps start i : Nat)
    (hstart : start ≤ i) (hsteps : i ≤ start + steps) (hfree : has (name i) = false)
    (htaken : ∀ j, start ≤ j → j < i → has (name j) = true) :
    firstFree has name steps start = some i := by
  induction steps generalizing start with
  | zero =>
    have : i = start := by omega
    subst this
    simp [firstFree, hfree]
  | succ steps ih =>
    simp only [firstFree]
    by_cases hi : i = start
    · subst hi
      simp [hfree]
    · have := htaken start (Nat.le_refl _) (by omega)
      simp only [this, if_true]
      exact ih (start + 1) (by omega) (by omega) (fun j h1 h2 => htaken j (by omega) h2)

/-- When the names that are taken are among finitely many, one of the first
file names is free. -/
theorem exists_free (has : String → Bool) (names : List String)
    (hfinite : ∀ n, has n = true → n ∈ names) :
    ∃ i, 1 ≤ i ∧ i ≤ names.length + 1 ∧ has (fileName i) = false := by
  by_contra hno
  have hall : ∀ i, 1 ≤ i → i ≤ names.length + 1 → fileName i ∈ names := by
    intro i h1 h2
    apply hfinite
    by_contra hfree
    exact hno ⟨i, h1, h2, by simpa using hfree⟩
  have hsub : (Finset.Icc 1 (names.length + 1)).image fileName ⊆ names.toFinset := by
    intro x hx
    obtain ⟨i, hi, rfl⟩ := Finset.mem_image.1 hx
    rw [Finset.mem_Icc] at hi
    exact List.mem_toFinset.2 (hall i hi.1 hi.2)
  have hcard := Finset.card_le_card hsub
  rw [Finset.card_image_of_injective _ fileName_injective, Nat.card_Icc] at hcard
  have := List.toFinset_card_le names
  omega

end Repl

namespace Repl

/-- The stand-in file system holds a name only if it is a key of the `Map`. -/
theorem Example.env_has (files : JsMap String FsItem) (n : String)
    (h : Example.env.has files n = true) : n ∈ JsMap.keys files := by
  simp only [Example.env] at h
  cases hget : JsMap.get files n with
  | none => rw [hget] at h; cases h
  | some item => exact List.mem_map.2 ⟨(n, item), JsMap.mem_of_get files n item hget, rfl⟩

/-- The stand-in `setMerge` of a value and the stand-in `set` behave as on a
`Map`. -/
theorem Example.env_laws :
    (∀ (files : JsMap String FsItem) name item,
      Example.env.get (Example.env.set files name item) name = some item) ∧
    (∀ (files : JsMap String FsItem) name item other, other ≠ name →
      Example.env.get (Example.env.set files name item) other = Example.env.get files other) ∧
    (∀ (files : JsMap String FsItem) name value,
      Example.env.get (Example.env.setMerge files name (FsPatch.value value)) name
        = some { value := some value }) ∧
    (∀ (files : JsMap String FsItem) name value other, other ≠ name →
      Example.env.get (Example.env.setMerge files name (FsPatch.value value)) other
        = Example.env.get files other) := by
  refine ⟨?_, ?_, ?_, ?_⟩
  · intro files name item
    simp [Example.env, JsMap.get_set]
  · intro files name item other hne
    simp [Example.env, JsMap.get_set, hne.symm]
  · intro files name value
    simp [Example.env, JsMap.get_set]
  · intro files name value other hne
    simp [Example.env, JsMap.get_set, hne.symm]

end Repl

namespace Repl

/-! ### The loop of `view.saveCurrent` without tabs -/

/-- The loop returns when every view with a value has a file. -/
theorem saveViews_ok {F : Type} (env : Env F) (state : State F) (views : List (String × View))
    (hfiles : ∀ entry ∈ views, ∀ value, entry.2.value = some value →
      ∃ file, env.get state.files entry.1 = some file) (files : F) :
    ∃ saved, saveViews env state views files = .ok saved := by
  induction views generalizing files with
  | nil => exact ⟨files, rfl⟩
  | cons entry rest ih =>
    obtain ⟨name, view⟩ := entry
    have hrest : ∀ entry ∈ rest, ∀ value, entry.2.value = some value →
        ∃ file, env.get state.files entry.1 = some file :=
      fun entry he => hfiles entry (List.mem_cons_of_mem _ he)
    simp only [saveViews]
    cases hv : view.value with
    | none => exact ih hrest files
    | some value =>
      obtain ⟨file, hfile⟩ := hfiles (name, view) (List.mem_cons_self _ _) value hv
      simp only [hfile, nullthrows]
      split
      · exact ih hrest files
      · exact ih hrest _

/-- The loop writes nothing when every view with a value has a file of that
value. -/
theorem saveViews_same {F : Type} (env : Env F) (state : State F)
    (views : List (String × View))
    (hsame : ∀ entry ∈ views, ∀ value, entry.2.value = some value →
      ∃ file, env.get state.files entry.1 = some file ∧ file.value = some value) (files : F) :
    saveViews env state views files = .ok files := by
  induction views generalizing files with
  | nil => rfl
  | cons entry rest ih =>
    obtain ⟨name, view⟩ := entry
    have hrest : ∀ entry ∈ rest, ∀ value, entry.2.value = some value →
        ∃ file, env.get state.files entry.1 = some file ∧ file.value = some value :=
      fun entry he => hsame entry (List.mem_cons_of_mem _ he)
    simp only [saveViews]
    cases hv : view.value with
    | none => exact ih hrest files
    | some value =>
      obtain ⟨file, hfile, hvalue⟩ := hsame (name, view) (List.mem_cons_self _ _) value hv
      simp only [hfile, nullthrows, hvalue, if_true]
      exact ih hrest files

/-- What the loop leaves in the files, when `setMerge` of a value and `get`
behave as on a `Map`, the views have pairwise distinct names, and the files
written so far still hold what the files of the state hold for the views that
are left: every view with a value has a file of that value, and a name
without such a view keeps its file. -/
theorem saveViews_spec {F : Type} (env : Env F) (state : State F)
    (hwrite : ∀ files name value file, env.get files name = some file →
      ∃ written, env.get (env.setMerge files name (FsPatch.value value)) name = some written ∧
        written.value = some value)
    (hother : ∀ files name value other, other ≠ name →
      env.get (env.setMerge files name (FsPatch.value value)) other = env.get files other)
    (views : List (String × View)) (hnodup : (JsMap.keys views).Nodup) (files saved : F)
    (hagree : ∀ entry ∈ views, env.get files entry.1 = env.get state.files entry.1)
    (hsaved : saveViews env state views files = .ok saved) :
    (∀ entry ∈ views, ∀ value, entry.2.value = some value →
      ∃ file, env.get saved entry.1 = some file ∧ file.value = some value) ∧
    (∀ other, (∀ entry ∈ views, entry.1 = other → entry.2.value = none) →
      env.get saved other = env.get files other) := by
  induction views generalizing files with
  | nil =>
    simp only [saveViews, Except.ok.injEq] at hsaved
    subst hsaved
    exact ⟨fun entry he => (by cases he), fun _ _ => rfl⟩
  | cons entry rest ih =>
    obtain ⟨name, view⟩ := entry
    simp only [JsMap.keys, List.map_cons, List.nodup_cons] at hnodup
    obtain ⟨hfresh, hnodup1⟩ := hnodup
    have hnotin : ∀ entry ∈ rest, entry.1 = name → entry.2.value = none := by
      intro entry he hname
      exact absurd (List.mem_map.2 ⟨entry, he, hname⟩) hfresh
    have hagree1 : ∀ entry ∈ rest, env.get files entry.1 = env.get state.files entry.1 :=
      fun entry he => hagree entry (List.mem_cons_of_mem _ he)
    simp only [saveViews] at hsaved
    have hkeep : saveViews env state rest files = .ok saved →
        (∀ value, view.value = some value →
          ∃ file, env.get state.files name = some file ∧ file.value = some value) →
        (∀ entry ∈ (name, view) :: rest, ∀ value, entry.2.value = some value →
          ∃ file, env.get saved entry.1 = some file ∧ file.value = some value) ∧
        (∀ other, (∀ entry ∈ (name, view) :: rest, entry.1 = other → entry.2.value = none) →
          env.get saved other = env.get files other) := by
      intro hs hhead
      obtain ⟨i1, i2⟩ := ih hnodup1 files hagree1 hs
      refine ⟨?_, fun other hno => i2 other
        (fun entry he => hno entry (List.mem_cons_of_mem _ he))⟩
      intro entry he value hval
      rcases List.mem_cons.1 he with rfl | he
      · rw [i2 name hnotin, hagree (name, view) (List.mem_cons_self _ _)]
        exact hhead value hval
      · exact i1 entry he value hval
    cases hv : view.value with
    | none =>
      rw [hv] at hsaved
      exact hkeep hsaved (fun value h => by rw [hv] at h; cases h)
    | some value =>
      rw [hv] at hsaved
      simp only at hsaved
      cases hfile : env.get state.files name with
      | none => simp [hfile, nullthrows] at hsaved
      | some file =>
        simp only [hfile, nullthrows] at hsaved
        by_cases hsame : file.value = some value
        · simp only [hsame, if_true] at hsaved
          apply hkeep hsaved
          intro value1 h1
          rw [hv] at h1
          injection h1 with h1
          subst h1
          exact ⟨file, hfile, hsame⟩
        · simp only [hsame, if_false] at hsaved
          have hagree2 : ∀ entry ∈ rest,
              env.get (env.setMerge files name (FsPatch.value value)) entry.1
                = env.get state.files entry.1 := by
            intro entry he
            have hne : entry.1 ≠ name :=
              fun h => hfresh (List.mem_map.2 ⟨entry, he, h⟩)
            rw [hother files name value entry.1 hne]
            exact hagree1 entry he
          obtain ⟨i1, i2⟩ := ih hnodup1 _ hagree2 hsaved
          refine ⟨?_, ?_⟩
          · intro entry he value1 hval
            rcases List.mem_cons.1 he with rfl | he
            · rw [i2 name hnotin]
              simp only at hval
              rw [hv] at hval
              injection hval with hval
              subst hval
              have hhas : env.get files name = some file := by
                rw [hagree (name, view) (List.mem_cons_self _ _)]
                exact hfile
              exact hwrite files name value file hhas
            · exact i1 entry he value1 hval
          · intro other hno
            have hne : other ≠ name := by
              intro h
              have := hno (name, view) (List.mem_cons_self _ _) h.symm
              simp only at this
              rw [hv] at this
              cases this
            rw [i2 other (fun entry he => hno entry (List.mem_cons_of_mem _ he))]
            exact hother files name value other hne

end Repl

/-! # The claims -/

/-- C1: in `reconcileNewRuntimes`, for every list of connections and every list
of current root-adjacent request nodes, the nodes handed to
`replaceNodesConnectedTo` are computed without error and are exactly the
candidate request nodes whose identifier is a new request identifier and not
an old one (`toAdd = newIds − oldIds`), one node per identifier, each the
request node of some connection; and the removal predicate holds of a node
exactly when its identifier is an old one and not a new one
(`toRemove = oldIds − newIds`). -/
theorem reconcileNewRuntimes_toAdd_toRemove (md5FromObject : AssetGroup → NodeId)
    (connections : List RuntimeConnection) (entryAssetGroupNodes : List Node) :
    (∃ nodes, toAddNodes md5FromObject connections entryAssetGroupNodes = .ok nodes ∧
      (∀ n, n ∈ nodes ↔
        n ∈ JsMap.values (assetRequestNodesById md5FromObject connections) ∧
        ¬ ∃ o ∈ entryAssetGroupNodes, o.id = n.id) ∧
      (∀ id, id ∈ nodes.map (fun n => n.id) ↔
        (∃ c ∈ connections, (nodeFromAssetGroup md5FromObject c.assetGroup).id = id) ∧
        ¬ ∃ o ∈ entryAssetGroupNodes, o.id = id) ∧
      (∀ n ∈ nodes, ∃ c ∈ connections, n = nodeFromAssetGroup md5FromObject c.assetGroup) ∧
      (nodes.map (fun n => n.id)).Nodup ∧
      nodes.map (fun n => n.id) = toAdd md5FromObject connections entryAssetGroupNodes) ∧
    (∀ id, id ∈ toAdd md5FromObject connections entryAssetGroupNodes ↔
        id ∈ newRequestIds md5FromObject connections ∧
        id ∉ oldRequestIds entryAssetGroupNodes) ∧
    (∀ id, id ∈ toRemove md5FromObject connections entryAssetGroupNodes ↔
        id ∈ oldRequestIds entryAssetGroupNodes ∧
        id ∉ newRequestIds md5FromObject connections) ∧
    (∀ node, shouldRemove md5FromObject connections entryAssetGroupNodes node = true ↔
        (∃ o ∈ entryAssetGroupNodes, o.id = node.id) ∧
        ¬ ∃ c ∈ connections, (nodeFromAssetGroup md5FromObject c.assetGroup).id = node.id) :=
  reconcileNewRuntimes_args md5FromObject connections entryAssetGroupNodes

/-- C2: for the current root-adjacent requests R1 and the new requests R2 of a
well-formed asset graph whose root holds requests only, the replace step of
`reconcileNewRuntimes` succeeds; the children of the root are R1 before and
exactly R2 afterwards; the identities removed from the root are exactly
R1 − R2 and those added exactly R2 − R1, each added identity holding the
request node handed over; every identity in R1 ∩ R2 stays a child and keeps
the node object it had; and every node outside R2 − R1 and every edge that
does not leave the root by a default edge is untouched, so the subgraphs
below the kept requests survive unchanged. -/
theorem reconcile_minimal_diff (X : Externals) (g : Graph)
    (connections : List RuntimeConnection) (root : Node)
    (hroot : g.getRootNode = some root) (hk : g.keyedById = true)
    (hreq : g.rootHoldsRequests = true) :
    ∃ g1 nodes, reconcileReplace X g connections = .ok g1 ∧
      toAddNodes X.md5FromObject connections g.getEntryAssetGroupNodes = .ok nodes ∧
      (∀ id, id ∈ g.idsConnectedFrom root.id none ↔
        id ∈ oldRequestIds g.getEntryAssetGroupNodes) ∧
      (∀ id, id ∈ g1.idsConnectedFrom root.id none ↔
        id ∈ newRequestIds X.md5FromObject connections) ∧
      (∀ id, (id ∈ g.idsConnectedFrom root.id none ∧ id ∉ g1.idsConnectedFrom root.id none) ↔
        (id ∈ oldRequestIds g.getEntryAssetGroupNodes ∧
          id ∉ newRequestIds X.md5FromObject connections)) ∧
      (∀ id, (id ∉ g.idsConnectedFrom root.id none ∧ id ∈ g1.idsConnectedFrom root.id none) ↔
        (id ∈ newRequestIds X.md5FromObject connections ∧
          id ∉ oldRequestIds g.getEntryAssetGroupNodes)) ∧
      (∀ n ∈ nodes, g1.getNode n.id = some n) ∧
      (∀ id, id ∈ oldRequestIds g.getEntryAssetGroupNodes →
        id ∈ newRequestIds X.md5FromObject connections →
        id ∈ g.idsConnectedFrom root.id none ∧ id ∈ g1.idsConnectedFrom root.id none ∧
          g1.getNode id = g.getNode id) ∧
      (∀ id, ¬ (id ∈ newRequestIds X.md5FromObject connections ∧
          id ∉ oldRequestIds g.getEntryAssetGroupNodes) → g1.getNode id = g.getNode id) ∧
      (∀ e : Edge, e.fromId ≠ root.id ∨ e.type ≠ none → (e ∈ g1.edges ↔ e ∈ g.edges)) := by
  obtain ⟨g1, nodes, hres, hnodes, hbefore, hafter, hkeep, hnew, hframe, -, -⟩ :=
    reconcileReplace_diff X g connections root hroot hk hreq
  obtain ⟨-, hadd, -, -⟩ :=
    reconcileNewRuntimes_args X.md5FromObject connections g.getEntryAssetGroupNodes
  have hkeep1 : ∀ id, ¬ (id ∈ newRequestIds X.md5FromObject connections ∧
      id ∉ oldRequestIds g.getEntryAssetGroupNodes) → g1.getNode id = g.getNode id :=
    fun id h => hkeep id (fun hin => h ((hadd id).1 hin))
  refine ⟨g1, nodes, hres, hnodes, hbefore, hafter, ?_, ?_, hnew, ?_, hkeep1, hframe⟩
  · intro id; rw [hbefore, hafter]
  · intro id; rw [hbefore, hafter]; tauto
  · intro id hold hnw
    exact ⟨(hbefore id).2 hold, (hafter id).2 hnw, hkeep1 id (fun h => h.2 hold)⟩

/-- Witness of C2: the example asset graph holds the requests of `register`
and `hmr`, and `hmr` and `preload` are requested. -/
theorem reconcile_minimal_diff_witness :
    ∃ g1 nodes, reconcileReplace Example.externals Example.oldAssetGraph
        Example.newConnections = .ok g1 ∧
      toAddNodes Example.externals.md5FromObject Example.newConnections
        Example.oldAssetGraph.getEntryAssetGroupNodes = .ok nodes ∧
      (∀ id, id ∈ Example.oldAssetGraph.idsConnectedFrom Example.rootNode.id none ↔
        id ∈ oldRequestIds Example.oldAssetGraph.getEntryAssetGroupNodes) ∧
      (∀ id, id ∈ g1.idsConnectedFrom Example.rootNode.id none ↔
        id ∈ newRequestIds Example.externals.md5FromObject Example.newConnections) ∧
      (∀ id, (id ∈ Example.oldAssetGraph.idsConnectedFrom Example.rootNode.id none ∧
          id ∉ g1.idsConnectedFrom Example.rootNode.id none) ↔
        (id ∈ oldRequestIds Example.oldAssetGraph.getEntryAssetGroupNodes ∧
          id ∉ newRequestIds Example.externals.md5FromObject Example.newConnections)) ∧
      (∀ id, (id ∉ Example.oldAssetGraph.idsConnectedFrom Example.rootNode.id none ∧
          id ∈ g1.idsConnectedFrom Example.rootNode.id none) ↔
        (id ∈ newRequestIds Example.externals.md5FromObject Example.newConnections ∧
          id ∉ oldRequestIds Example.oldAssetGraph.getEntryAssetGroupNodes)) ∧
      (∀ n ∈ nodes, g1.getNode n.id = some n) ∧
      (∀ id, id ∈ oldRequestIds Example.oldAssetGraph.getEntryAssetGroupNodes →
        id ∈ newRequestIds Example.externals.md5FromObject Example.newConnections →
        id ∈ Example.oldAssetGraph.idsConnectedFrom Example.rootNode.id none ∧
          id ∈ g1.idsConnectedFrom Example.rootNode.id none ∧
          g1.getNode id = Example.oldAssetGraph.getNode id) ∧
      (∀ id, ¬ (id ∈ newRequestIds Example.externals.md5FromObject Example.newConnections ∧
          id ∉ oldRequestIds Example.oldAssetGraph.getEntryAssetGroupNodes) →
        g1.getNode id = Example.oldAssetGraph.getNode id) ∧
      (∀ e : Edge, e.fromId ≠ Example.rootNode.id ∨ e.type ≠ none →
        (e ∈ g1.edges ↔ e ∈ Example.oldAssetGraph.edges)) :=
  reconcile_minimal_diff Example.externals Example.oldAssetGraph Example.newConnections
    Example.rootNode (by decide) (by decide) (by decide)

/-- C3: reconciliation is idempotent. On a well-formed asset graph, if the
identities of the new requests are the identities of the current
root-adjacent request nodes, then `toAdd` and `toRemove` are empty, no node is
handed over for adding, the removal predicate holds of no node, and the
replace step returns the very same graph; and when the root holds requests
only, the replace step applied a second time with the same connections returns
the graph the first application produced. -/
theorem reconcile_idempotent (X : Externals) (g : Graph)
    (connections : List RuntimeConnection) (root : Node)
    (hroot : g.getRootNode = some root) (hk : g.keyedById = true) :
    ((∀ id, id ∈ newRequestIds X.md5FromObject connections ↔
        id ∈ oldRequestIds g.getEntryAssetGroupNodes) →
      toAdd X.md5FromObject connections g.getEntryAssetGroupNodes = [] ∧
      toRemove X.md5FromObject connections g.getEntryAssetGroupNodes = [] ∧
      toAddNodes X.md5FromObject connections g.getEntryAssetGroupNodes = .ok [] ∧
      (∀ n, shouldRemove X.md5FromObject connections g.getEntryAssetGroupNodes n = false) ∧
      reconcileReplace X g connections = .ok g) ∧
    (g.rootHoldsRequests = true →
      ∃ g1, reconcileReplace X g connections = .ok g1 ∧
        reconcileReplace X g1 connections = .ok g1) :=
  ⟨reconcileReplace_same X g connections root hroot hk,
   reconcileReplace_twice X g connections root hroot hk⟩

/-- Witness of C3: the example asset graph holds the requests of `register`
and `hmr`, and exactly these are requested again, `hmr` by two bundles. -/
theorem reconcile_idempotent_witness :
    (toAdd Example.externals.md5FromObject Example.sameConnections
        Example.oldAssetGraph.getEntryAssetGroupNodes = [] ∧
      toRemove Example.externals.md5FromObject Example.sameConnections
        Example.oldAssetGraph.getEntryAssetGroupNodes = [] ∧
      toAddNodes Example.externals.md5FromObject Example.sameConnections
        Example.oldAssetGraph.getEntryAssetGroupNodes = .ok [] ∧
      (∀ n, shouldRemove Example.externals.md5FromObject Example.sameConnections
        Example.oldAssetGraph.getEntryAssetGroupNodes n = false) ∧
      reconcileReplace Example.externals Example.oldAssetGraph Example.sameConnections
        = .ok Example.oldAssetGraph) ∧
    (∃ g1, reconcileReplace Example.externals Example.oldAssetGraph Example.newConnections
        = .ok g1 ∧
      reconcileReplace Example.externals g1 Example.newConnections = .ok g1) :=
  ⟨(reconcile_idempotent Example.externals Example.oldAssetGraph Example.sameConnections
      Example.rootNode (by decide) (by decide)).1
      (by
        have h1 : ∀ id ∈ newRequestIds Example.externals.md5FromObject Example.sameConnections,
            id ∈ oldRequestIds Example.oldAssetGraph.getEntryAssetGroupNodes := by decide
        have h2 : ∀ id ∈ oldRequestIds Example.oldAssetGraph.getEntryAssetGroupNodes,
            id ∈ newRequestIds Example.externals.md5FromObject Example.sameConnections := by
          decide
        exact fun id => ⟨h1 id, h2 id⟩),
   (reconcile_idempotent Example.externals Example.oldAssetGraph Example.newConnections
      Example.rootNode (by decide) (by decide)).2 (by decide)⟩

/-- C4: `applyRuntimes` reconciles once per pass, after the providers of every
bundle have been queried and over all connections together, stated on what
the pass returns. When a provider throws, the pass ends there: the bundle
graph is the one given, the error is the one of the provider loop, and the
result is the same for every runtimes builder, so nothing was reconciled.
When the providers all return, the connections are those of every bundle, in
order, and `reconcileNewRuntimes` is handed this one list: if it throws, the
pass throws its error and the bundle graph is the one given; if it returns a
graph, the result of the pass is the loop over the same list of connections
on the merge of the runtimes graph made from that one graph. The log of the
pass is then the provider queries followed by one call of
`reconcileNewRuntimes`. The request nodes of the reconciliation are keyed by
identity: for every list of connections the number of candidate request nodes
is the number of distinct request identities, and the identity of each
connection has exactly one entry, whose node every connection of that
identity shares. -/
theorem applyRuntimes_single_reconciliation (X : Externals) (bundleGraph : InternalBundleGraph)
    (config : ParcelConfig) (pluginOptions : PluginOptions)
    (runtimesBuilder : AssetGraphBuilder) :
    ((collectConnections X config pluginOptions bundleGraph).error ≠ none →
      (applyRuntimes X bundleGraph config pluginOptions runtimesBuilder).bundleGraph
        = bundleGraph ∧
      (applyRuntimes X bundleGraph config pluginOptions runtimesBuilder).error
        = (collectConnections X config pluginOptions bundleGraph).error ∧
      (∀ other : AssetGraphBuilder,
        applyRuntimes X bundleGraph config pluginOptions other
          = applyRuntimes X bundleGraph config pluginOptions runtimesBuilder) ∧
      (applyRuntimes X bundleGraph config pluginOptions runtimesBuilder).trace
        = (collectConnections X config pluginOptions bundleGraph).trace ∧
      ∀ ev ∈ (applyRuntimes X bundleGraph config pluginOptions runtimesBuilder).trace,
        ∃ bundleId runtime, ev = Event.providerApply bundleId runtime) ∧
    ((collectConnections X config pluginOptions bundleGraph).error = none →
      (collectConnections X config pluginOptions bundleGraph).connections
        = bundleGraph.getBundles.flatMap (fun bundle =>
            (config.getRuntimes bundle.env.context).flatMap (fun runtime =>
              (runtime.records bundle bundleGraph).map
                (connectionOf X pluginOptions bundle))) ∧
      (∀ e, reconcileNewRuntimes X runtimesBuilder
          (collectConnections X config pluginOptions bundleGraph).connections = .error e →
        (applyRuntimes X bundleGraph config pluginOptions runtimesBuilder).bundleGraph
          = bundleGraph ∧
        (applyRuntimes X bundleGraph config pluginOptions runtimesBuilder).error = some e) ∧
      (∀ runtimesAssetGraph, reconcileNewRuntimes X runtimesBuilder
          (collectConnections X config pluginOptions bundleGraph).connections
            = .ok runtimesAssetGraph →
        ((applyRuntimes X bundleGraph config pluginOptions runtimesBuilder).bundleGraph,
          (applyRuntimes X bundleGraph config pluginOptions runtimesBuilder).error)
          = applyConnections X runtimesAssetGraph
              (X.fromAssetGraph runtimesAssetGraph bundleGraph._publicIdByAssetId
                bundleGraph._assetPublicIds)
              (mergeRuntimesGraph bundleGraph
                (X.fromAssetGraph runtimesAssetGraph bundleGraph._publicIdByAssetId
                  bundleGraph._assetPublicIds))
              (collectConnections X config pluginOptions bundleGraph).connections) ∧
      (applyRuntimes X bundleGraph config pluginOptions runtimesBuilder).trace
        = (providerQueries config bundleGraph.getBundles).map queryEvent ++
          [Event.reconcile (collectConnections X config pluginOptions bundleGraph).connections]) ∧
    (∀ connections : List RuntimeConnection,
      (assetRequestNodesById X.md5FromObject connections).length
        = (connections.map
            (fun c => (nodeFromAssetGroup X.md5FromObject c.assetGroup).id)).toFinset.card ∧
      ∀ c ∈ connections,
        (JsMap.keys (assetRequestNodesById X.md5FromObject connections)).count
          (nodeFromAssetGroup X.md5FromObject c.assetGroup).id = 1 ∧
        ∃ n, JsMap.get (assetRequestNodesById X.md5FromObject connections)
            (nodeFromAssetGroup X.md5FromObject c.assetGroup).id = some n ∧
          n.id = (nodeFromAssetGroup X.md5FromObject c.assetGroup).id ∧
          ∃ c1 ∈ connections, n = nodeFromAssetGroup X.md5FromObject c1.assetGroup) := by
  refine ⟨?_, ?_, fun connections => assetRequestNodesById_keyed X.md5FromObject connections⟩
  · intro herr
    cases h : (collectConnections X config pluginOptions bundleGraph).error with
    | none => exact absurd h herr
    | some e =>
      have hall : ∀ builder : AssetGraphBuilder,
          applyRuntimes X bundleGraph config pluginOptions builder
            = { bundleGraph := bundleGraph
                trace := (collectConnections X config pluginOptions bundleGraph).trace
                error := some e } :=
        fun builder => applyRuntimes_of_error X bundleGraph config pluginOptions builder e h
      refine ⟨by rw [hall], by rw [hall], fun other => by rw [hall other, hall], by rw [hall],
        ?_⟩
      intro ev hev
      rw [hall] at hev
      simp only at hev
      rw [collectConnections_eq_queryAll] at hev
      obtain ⟨k, hk⟩ := queryAll_trace X pluginOptions bundleGraph
        (providerQueries config bundleGraph.getBundles) [] []
      rw [hk, List.nil_append] at hev
      obtain ⟨q, -, rfl⟩ := List.mem_map.1 hev
      exact ⟨q.1.id, q.2.name, rfl⟩
  · intro hnone
    have hok := hnone
    rw [collectConnections_eq_queryAll, queryAll_error_iff] at hok
    have hcoll := queryAll_ok X pluginOptions bundleGraph _ hok [] []
    rw [← collectConnections_eq_queryAll] at hcoll
    have htrace : (collectConnections X config pluginOptions bundleGraph).trace
        = (providerQueries config bundleGraph.getBundles).map queryEvent := by
      rw [hcoll]
      rfl
    refine ⟨?_, ?_, ?_, ?_⟩
    · rw [hcoll]
      simp only [List.nil_append, providerQueries, List.flatMap_assoc, List.flatMap_map,
        queryConnections]
    · intro e hrec
      simp only [applyRuntimes, hnone, hrec]
      exact ⟨trivial, trivial⟩
    · intro runtimesAssetGraph hrec
      obtain ⟨h1, h2⟩ := applyRuntimes_of_reconciled X bundleGraph config pluginOptions
        runtimesBuilder runtimesAssetGraph hnone hrec
      rw [h1, h2]
    · rw [applyRuntimes_trace_of_ok X bundleGraph config pluginOptions runtimesBuilder hnone,
        htrace]

/-- Witness of C4: in the example pass the seven providers return; the one
reconciliation over the five connections they produced returns a graph, the
pass is the loop over these five connections on the merge made from that
graph, and it returns without error. -/
theorem applyRuntimes_single_reconciliation_witness :
    (collectConnections Example.externals Example.config Example.pluginOptions
        Example.bundleGraph).connections
      = [connectionOf Example.externals Example.pluginOptions Example.bundleA Example.register,
         connectionOf Example.externals Example.pluginOptions Example.bundleA Example.hmr,
         connectionOf Example.externals Example.pluginOptions Example.bundleA Example.preload,
         connectionOf Example.externals Example.pluginOptions Example.bundleB Example.register,
         connectionOf Example.externals Example.pluginOptions Example.bundleW
          Example.register] ∧
    (applyRuntimes Example.externals Example.bundleGraph Example.config Example.pluginOptions
        Example.runtimesBuilder).error = none ∧
    ∃ runtimesAssetGraph,
      reconcileNewRuntimes Example.externals Example.runtimesBuilder
        (collectConnections Example.externals Example.config Example.pluginOptions
          Example.bundleGraph).connections = .ok runtimesAssetGraph ∧
      ((applyRuntimes Example.externals Example.bundleGraph Example.config
          Example.pluginOptions Example.runtimesBuilder).bundleGraph,
        (applyRuntimes Example.externals Example.bundleGraph Example.config
          Example.pluginOptions Example.runtimesBuilder).error)
        = applyConnections Example.externals runtimesAssetGraph
            (Example.externals.fromAssetGraph runtimesAssetGraph
              Example.bundleGraph._publicIdByAssetId Example.bundleGraph._assetPublicIds)
            (mergeRuntimesGraph Example.bundleGraph
              (Example.externals.fromAssetGraph runtimesAssetGraph
                Example.bundleGraph._publicIdByAssetId Example.bundleGraph._assetPublicIds))
            (collectConnections Example.externals Example.config Example.pluginOptions
              Example.bundleGraph).connections := by
  obtain ⟨-, herror, hgraph, -⟩ := (applyRuntimes_single_reconciliation Example.externals
    Example.bundleGraph Example.config Example.pluginOptions Example.runtimesBuilder).2.1
    (by decide)
  have hnone : (applyRuntimes Example.externals Example.bundleGraph Example.config
      Example.pluginOptions Example.runtimesBuilder).error = none := by decide
  refine ⟨by decide, hnone, ?_⟩
  cases hrec : reconcileNewRuntimes Example.externals Example.runtimesBuilder
      (collectConnections Example.externals Example.config Example.pluginOptions
        Example.bundleGraph).connections with
  | error e =>
    have := (herror e hrec).2
    rw [hnone] at this
    cases this
  | ok runtimesAssetGraph => exact ⟨runtimesAssetGraph, rfl, hgraph runtimesAssetGraph hrec⟩

/-- C5, counterexample: in the example pass the provider `runtime-register`
returns the record `register`, with identical code, for the browser bundle
`bundleA` and for the worker bundle `bundleW`; the two requests differ in
their environment, their identities differ under a hash that tells them
apart, and two request nodes are created, not one. Identical code does not
give one request either when the file paths of the records differ
(`registerCopy` for `bundleB`) or when the types of the bundles differ (the
stylesheet bundle `bundleC`). -/
theorem shared_runtime_counterexample :
    Example.bundleA ≠ Example.bundleW ∧
    connectionOf Example.externals Example.pluginOptions Example.bundleA Example.register ∈
      (collectConnections Example.externals Example.config Example.pluginOptions
        Example.bundleGraph).connections ∧
    connectionOf Example.externals Example.pluginOptions Example.bundleW Example.register ∈
      (collectConnections Example.externals Example.config Example.pluginOptions
        Example.bundleGraph).connections ∧
    (assetGroupOf Example.externals Example.pluginOptions Example.bundleA Example.register).code
      = (assetGroupOf Example.externals Example.pluginOptions Example.bundleW
          Example.register).code ∧
    assetGroupOf Example.externals Example.pluginOptions Example.bundleA Example.register
      ≠ assetGroupOf Example.externals Example.pluginOptions Example.bundleW Example.register ∧
    (nodeFromAssetGroup Example.externals.md5FromObject
        (assetGroupOf Example.externals Example.pluginOptions Example.bundleA
          Example.register)).id
      ≠ (nodeFromAssetGroup Example.externals.md5FromObject
          (assetGroupOf Example.externals Example.pluginOptions Example.bundleW
            Example.register)).id ∧
    (assetRequestNodesById Example.externals.md5FromObject
      [connectionOf Example.externals Example.pluginOptions Example.bundleA Example.register,
       connectionOf Example.externals Example.pluginOptions Example.bundleW
        Example.register]).length = 2 ∧
    (Example.register.code = Example.registerCopy.code ∧
      (nodeFromAssetGroup Example.externals.md5FromObject
          (assetGroupOf Example.externals Example.pluginOptions Example.bundleA
            Example.register)).id
        ≠ (nodeFromAssetGroup Example.externals.md5FromObject
            (assetGroupOf Example.externals Example.pluginOptions Example.bundleB
              Example.registerCopy)).id) ∧
    (Example.bundleA.env = Example.bundleC.env ∧
      (nodeFromAssetGroup Example.externals.md5FromObject
          (assetGroupOf Example.externals Example.pluginOptions Example.bundleA
            Example.register)).id
        ≠ (nodeFromAssetGroup Example.externals.md5FromObject
            (assetGroupOf Example.externals Example.pluginOptions Example.bundleC
              Example.register)).id) := by
  decide

/-- C5, amended: for every two bundles of the same type and environment whose
providers each return a runtime record with identical code and identical file
path, the requests of the two connections are equal and so have the same
identity, for which a single request node is created; and when the pass
returns, that request has a single asset, the runtime node of both
connections, which has a `contains` edge from each of the two bundles in the
resulting bundle graph, unless a dependency of the runtimes graph points to an
asset with the identifier of the runtime node (the only way it can be marked
duplicated). -/
theorem shared_runtime_two_bundles (X : Externals) (bundleGraph : InternalBundleGraph)
    (config : ParcelConfig) (pluginOptions : PluginOptions) (runtimesBuilder : AssetGraphBuilder)
    (bundle1 bundle2 : InternalBundle) (record1 record2 : RuntimeAsset)
    (hcode : record1.code = record2.code) (hpath : record1.filePath = record2.filePath)
    (htype : bundle1.type = bundle2.type) (henv : bundle1.env = bundle2.env)
    (h1 : connectionOf X pluginOptions bundle1 record1 ∈
      (collectConnections X config pluginOptions bundleGraph).connections)
    (h2 : connectionOf X pluginOptions bundle2 record2 ∈
      (collectConnections X config pluginOptions bundleGraph).connections)
    (hpass : (applyRuntimes X bundleGraph config pluginOptions runtimesBuilder).error = none) :
    assetGroupOf X pluginOptions bundle1 record1 = assetGroupOf X pluginOptions bundle2 record2 ∧
    (nodeFromAssetGroup X.md5FromObject (assetGroupOf X pluginOptions bundle1 record1)).id
      = (nodeFromAssetGroup X.md5FromObject (assetGroupOf X pluginOptions bundle2 record2)).id ∧
    (JsMap.keys (assetRequestNodesById X.md5FromObject
        (collectConnections X config pluginOptions bundleGraph).connections)).count
      (nodeFromAssetGroup X.md5FromObject (assetGroupOf X pluginOptions bundle1 record1)).id
        = 1 ∧
    ∃ runtimesAssetGraph runtimeNode,
      reconcileNewRuntimes X runtimesBuilder
        (collectConnections X config pluginOptions bundleGraph).connections
          = .ok runtimesAssetGraph ∧
      locateRuntimeNode X runtimesAssetGraph (assetGroupOf X pluginOptions bundle1 record1)
        = .ok runtimeNode ∧
      locateRuntimeNode X runtimesAssetGraph (assetGroupOf X pluginOptions bundle2 record2)
        = .ok runtimeNode ∧
      runtimeNode.isAsset = true ∧
      (runtimeNode.id ∉ (X.fromAssetGraph runtimesAssetGraph bundleGraph._publicIdByAssetId
          bundleGraph._assetPublicIds).dependencyTargetIds →
        (⟨bundle1.id, runtimeNode.id, some "contains"⟩ : Edge) ∈
          (applyRuntimes X bundleGraph config pluginOptions
            runtimesBuilder).bundleGraph._graph.edges ∧
        (⟨bundle2.id, runtimeNode.id, some "contains"⟩ : Edge) ∈
          (applyRuntimes X bundleGraph config pluginOptions
            runtimesBuilder).bundleGraph._graph.edges) := by
  have hsame : assetGroupOf X pluginOptions bundle1 record1
      = assetGroupOf X pluginOptions bundle2 record2 := by
    simp only [assetGroupOf, sourceName, hcode, hpath, htype, henv]
  obtain ⟨hnone, rag, hrec⟩ := applyRuntimes_ok X bundleGraph config pluginOptions
    runtimesBuilder hpass
  obtain ⟨hbg, herr⟩ := applyRuntimes_of_reconciled X bundleGraph config pluginOptions
    runtimesBuilder rag hnone hrec
  rw [herr] at hpass
  obtain ⟨n1, hl1, hasset, hedge1⟩ := applyConnections_contains X rag _ _ _ hpass _ h1
  obtain ⟨n2, hl2, -, hedge2⟩ := applyConnections_contains X rag _ _ _ hpass _ h2
  have hl1a : locateRuntimeNode X rag (assetGroupOf X pluginOptions bundle1 record1)
      = .ok n1 := hl1
  have hl2a : locateRuntimeNode X rag (assetGroupOf X pluginOptions bundle2 record2)
      = .ok n2 := hl2
  have hn : n2 = n1 := by
    rw [← hsame, hl1a] at hl2a
    injection hl2a with h
    exact h.symm
  subst hn
  refine ⟨hsame, by rw [hsame], ?_, rag, n2, hrec, hl1a, hl2a, hasset, ?_⟩
  · exact ((assetRequestNodesById_keyed X.md5FromObject
      (collectConnections X config pluginOptions bundleGraph).connections).2 _ h1).1
  · intro hfree
    rw [hbg]
    exact ⟨hedge1 hfree, hedge2 hfree⟩

/-- Witness of C5 as amended: in the example pass `register` is returned for
the two browser bundles `bundleA` and `bundleB`, the pass returns, and the one
asset built for `register` is contained in both bundles. -/
theorem shared_runtime_two_bundles_witness :
    (assetGroupOf Example.externals Example.pluginOptions Example.bundleA Example.register
      = assetGroupOf Example.externals Example.pluginOptions Example.bundleB Example.register ∧
    (nodeFromAssetGroup Example.externals.md5FromObject
        (assetGroupOf Example.externals Example.pluginOptions Example.bundleA
          Example.register)).id
      = (nodeFromAssetGroup Example.externals.md5FromObject
          (assetGroupOf Example.externals Example.pluginOptions Example.bundleB
            Example.register)).id ∧
    (JsMap.keys (assetRequestNodesById Example.externals.md5FromObject
        (collectConnections Example.externals Example.config Example.pluginOptions
          Example.bundleGraph).connections)).count
      (nodeFromAssetGroup Example.externals.md5FromObject
        (assetGroupOf Example.externals Example.pluginOptions Example.bundleA
          Example.register)).id = 1 ∧
    ∃ runtimesAssetGraph runtimeNode,
      reconcileNewRuntimes Example.externals Example.runtimesBuilder
        (collectConnections Example.externals Example.config Example.pluginOptions
          Example.bundleGraph).connections = .ok runtimesAssetGraph ∧
      locateRuntimeNode Example.externals runtimesAssetGraph
        (assetGroupOf Example.externals Example.pluginOptions Example.bundleA Example.register)
          = .ok runtimeNode ∧
      locateRuntimeNode Example.externals runtimesAssetGraph
        (assetGroupOf Example.externals Example.pluginOptions Example.bundleB Example.register)
          = .ok runtimeNode ∧
      runtimeNode.isAsset = true ∧
      (runtimeNode.id ∉ (Example.externals.fromAssetGraph runtimesAssetGraph
          Example.bundleGraph._publicIdByAssetId
          Example.bundleGraph._assetPublicIds).dependencyTargetIds →
        (⟨Example.bundleA.id, runtimeNode.id, some "contains"⟩ : Edge) ∈
          (applyRuntimes Example.externals Example.bundleGraph Example.config
            Example.pluginOptions Example.runtimesBuilder).bundleGraph._graph.edges ∧
        (⟨Example.bundleB.id, runtimeNode.id, some "contains"⟩ : Edge) ∈
          (applyRuntimes Example.externals Example.bundleGraph Example.config
            Example.pluginOptions Example.runtimesBuilder).bundleGraph._graph.edges)) ∧
    (⟨"bundleA",
        "asset(request(/rt/loader.js,register(),browser,map(/rt/runtime-md5(register()).js)))",
        some "contains"⟩ : Edge) ∈
      (applyRuntimes Example.externals Example.bundleGraph Example.config
        Example.pluginOptions Example.runtimesBuilder).bundleGraph._graph.edges ∧
    (⟨"bundleB",
        "asset(request(/rt/loader.js,register(),browser,map(/rt/runtime-md5(register()).js)))",
        some "contains"⟩ : Edge) ∈
      (applyRuntimes Example.externals Example.bundleGraph Example.config
        Example.pluginOptions Example.runtimesBuilder).bundleGraph._graph.edges :=
  ⟨shared_runtime_two_bundles Example.externals Example.bundleGraph Example.config
      Example.pluginOptions Example.runtimesBuilder Example.bundleA Example.bundleB
      Example.register Example.register rfl rfl (by decide) (by decide) (by decide) (by decide)
      (by decide),
    by decide, by decide⟩

/-- C6, counterexample: the request built for the record `register` of
`bundleA` has the file path `/rt/loader.js` of the record, not the synthetic
path `/rt/runtime-md5(register()).js`; and the record `registerCopy`, which
has the same code and the same synthetic path, yields a request with another
file path and, under a hash that tells the two requests apart, another
identity. -/
theorem request_filePath_counterexample :
    (assetGroupOf Example.externals Example.pluginOptions Example.bundleA
        Example.register).filePath
      ≠ sourceName Example.externals Example.bundleA Example.register ∧
    Example.register.code = Example.registerCopy.code ∧
    sourceName Example.externals Example.bundleA Example.register
      = sourceName Example.externals Example.bundleA Example.registerCopy ∧
    (assetGroupOf Example.externals Example.pluginOptions Example.bundleA
        Example.register).filePath
      ≠ (assetGroupOf Example.externals Example.pluginOptions Example.bundleA
        Example.registerCopy).filePath ∧
    (nodeFromAssetGroup Example.externals.md5FromObject
        (assetGroupOf Example.externals Example.pluginOptions Example.bundleA
          Example.register)).id
      ≠ (nodeFromAssetGroup Example.externals.md5FromObject
        (assetGroupOf Example.externals Example.pluginOptions Example.bundleA
          Example.registerCopy)).id := by
  decide

/-- C6, amended: the file path of the request built for a runtime record is the
file path of the record, unchanged; the synthetic path, `runtime-<hash of
code>.<bundle type>` in the directory of the record's file path, is the single
key of the request's `sourcesContent`, under which the code is registered, and
the source name of its empty source map; and two records with identical code
and identical file path, for bundles of the same type and environment, yield
the same request, hence the same file path and the same identity. -/
theorem request_filePath (X : Externals) (pluginOptions : PluginOptions) :
    (∀ (bundle : InternalBundle) (record : RuntimeAsset),
      (assetGroupOf X pluginOptions bundle record).filePath = record.filePath ∧
      sourceName X bundle record
        = X.pathJoin (X.pathDirname record.filePath)
            ("runtime-" ++ X.md5FromString record.code ++ "." ++ bundle.type) ∧
      (assetGroupOf X pluginOptions bundle record).sourcesContent
        = [(sourceName X bundle record, record.code)] ∧
      (assetGroupOf X pluginOptions bundle record).mapBuffer
        = X.emptyMapBuffer pluginOptions.projectRoot (sourceName X bundle record) record.code) ∧
    (∀ (bundle1 bundle2 : InternalBundle) (record1 record2 : RuntimeAsset),
      record1.code = record2.code → record1.filePath = record2.filePath →
      bundle1.type = bundle2.type → bundle1.env = bundle2.env →
      assetGroupOf X pluginOptions bundle1 record1 = assetGroupOf X pluginOptions bundle2 record2 ∧
      (nodeFromAssetGroup X.md5FromObject (assetGroupOf X pluginOptions bundle1 record1)).id
        = (nodeFromAssetGroup X.md5FromObject
            (assetGroupOf X pluginOptions bundle2 record2)).id) := by
  refine ⟨fun _ _ => ⟨rfl, rfl, rfl, rfl⟩, ?_⟩
  intro b1 b2 r1 r2 hcode hpath htype henv
  have h : assetGroupOf X pluginOptions b1 r1 = assetGroupOf X pluginOptions b2 r2 := by
    simp only [assetGroupOf, sourceName, hcode, hpath, htype, henv]
  exact ⟨h, by rw [h]⟩

/-- Witness of C6 as amended: `register` returned for the two browser bundles
`bundleA` and `bundleB`. -/
theorem request_filePath_witness :
    assetGroupOf Example.externals Example.pluginOptions Example.bundleA Example.register
      = assetGroupOf Example.externals Example.pluginOptions Example.bundleB Example.register ∧
    (nodeFromAssetGroup Example.externals.md5FromObject
        (assetGroupOf Example.externals Example.pluginOptions Example.bundleA
          Example.register)).id
      = (nodeFromAssetGroup Example.externals.md5FromObject
          (assetGroupOf Example.externals Example.pluginOptions Example.bundleB
            Example.register)).id :=
  (request_filePath Example.externals Example.pluginOptions).2 Example.bundleA Example.bundleB
    Example.register Example.register rfl rfl (by decide) (by decide)

/-- C7: the request built for a runtime record carries the code of the record
unchanged, `isSource = true`, an empty query and the environment of the
bundle; every connection the provider loop holds was built in this way from a
record that a provider returned for a bundle of the graph; and when no
provider throws, every returned record has its connection. -/
theorem request_carries_record (X : Externals) (bundleGraph : InternalBundleGraph)
    (config : ParcelConfig) (pluginOptions : PluginOptions) :
    (∀ (bundle : InternalBundle) (record : RuntimeAsset),
      (assetGroupOf X pluginOptions bundle record).code = record.code ∧
      (assetGroupOf X pluginOptions bundle record).isSource = true ∧
      (assetGroupOf X pluginOptions bundle record).query = [] ∧
      (assetGroupOf X pluginOptions bundle record).env = bundle.env) ∧
    (∀ c ∈ (collectConnections X config pluginOptions bundleGraph).connections,
      ∃ q ∈ providerQueries config bundleGraph.getBundles,
        ∃ applied, q.2.apply q.1 bundleGraph = .ok applied ∧
        ∃ record ∈ runtimeAssets applied,
          c.bundle = q.1 ∧ c.assetGroup = assetGroupOf X pluginOptions q.1 record ∧
          c.assetGroup.code = record.code ∧ c.assetGroup.isSource = true ∧
          c.assetGroup.query = [] ∧ c.assetGroup.env = q.1.env) ∧
    ((∀ q ∈ providerQueries config bundleGraph.getBundles,
        ∃ applied, q.2.apply q.1 bundleGraph = .ok applied) →
      ∀ q ∈ providerQueries config bundleGraph.getBundles,
        ∀ record ∈ q.2.records q.1 bundleGraph,
          connectionOf X pluginOptions q.1 record ∈
            (collectConnections X config pluginOptions bundleGraph).connections) := by
  refine ⟨fun _ _ => ⟨rfl, rfl, rfl, rfl⟩, ?_, ?_⟩
  · intro c hc
    rw [collectConnections_eq_queryAll] at hc
    rcases queryAll_sound X pluginOptions bundleGraph _ [] [] c hc with h | h
    · cases h
    · obtain ⟨q, hq, applied, happ, record, hrec, rfl⟩ := h
      exact ⟨q, hq, applied, happ, record, hrec, rfl, rfl, rfl, rfl, rfl, rfl⟩
  · intro hok q hq record hrec
    rw [collectConnections_eq_queryAll, queryAll_ok X pluginOptions bundleGraph _ hok]
    simp only [List.nil_append, List.mem_flatMap]
    exact ⟨q, hq, List.mem_map.2 ⟨record, hrec, rfl⟩⟩

/-- Witness of C7: in the example pass no provider throws, and the record
`preload` that `hmrRuntime` returns for `bundleA` has its connection. -/
theorem request_carries_record_witness :
    connectionOf Example.externals Example.pluginOptions Example.bundleA Example.preload ∈
      (collectConnections Example.externals Example.config Example.pluginOptions
        Example.bundleGraph).connections :=
  (request_carries_record Example.externals Example.bundleGraph Example.config
    Example.pluginOptions).2.2 Example.config_ok
    (Example.bundleA, Example.hmrRuntime)
    (by rw [Example.providerQueries_config]; simp)
    Example.preload
    (by
      have : Example.hmrRuntime.records Example.bundleA Example.bundleGraph
          = [Example.hmr, Example.preload] := rfl
      rw [this]
      simp)

/-- C8: when no provider throws, the provider loop ends without error and its
connections are the concatenation, in the order the bundles are enumerated,
then in the order of the runtimes of a bundle, then in the order of the
records of a result, of one connection per returned record, an absent result
counting as the empty sequence and a single record as a one-element sequence;
after a successful reconciliation the pass is the loop over exactly this list
on the merged graph, and that loop applies the connections one after the
other in list order, stopping at the first error. -/
theorem connections_in_enumeration_order (X : Externals) (bundleGraph : InternalBundleGraph)
    (config : ParcelConfig) (pluginOptions : PluginOptions)
    (hok : ∀ q ∈ providerQueries config bundleGraph.getBundles,
      ∃ applied, q.2.apply q.1 bundleGraph = .ok applied) :
    (collectConnections X config pluginOptions bundleGraph).error = none ∧
    (collectConnections X config pluginOptions bundleGraph).connections
      = bundleGraph.getBundles.flatMap (fun bundle =>
          (config.getRuntimes bundle.env.context).flatMap (fun runtime =>
            (runtime.records bundle bundleGraph).map (connectionOf X pluginOptions bundle))) ∧
    (runtimeAssets Applied.absent = [] ∧
      (∀ record, runtimeAssets (Applied.single record) = [record]) ∧
      (∀ records, runtimeAssets (Applied.many records) = records)) ∧
    (∀ (runtimesBuilder : AssetGraphBuilder) (runtimesAssetGraph : Graph),
      reconcileNewRuntimes X runtimesBuilder
        (collectConnections X config pluginOptions bundleGraph).connections
          = .ok runtimesAssetGraph →
      ((applyRuntimes X bundleGraph config pluginOptions runtimesBuilder).bundleGraph,
        (applyRuntimes X bundleGraph config pluginOptions runtimesBuilder).error)
        = applyConnections X runtimesAssetGraph
            (X.fromAssetGraph runtimesAssetGraph bundleGraph._publicIdByAssetId
              bundleGraph._assetPublicIds)
            (mergeRuntimesGraph bundleGraph
              (X.fromAssetGraph runtimesAssetGraph bundleGraph._publicIdByAssetId
                bundleGraph._assetPublicIds))
            (bundleGraph.getBundles.flatMap (fun bundle =>
              (config.getRuntimes bundle.env.context).flatMap (fun runtime =>
                (runtime.records bundle bundleGraph).map
                  (connectionOf X pluginOptions bundle))))) ∧
    (∀ (runtimesAssetGraph : Graph) (runtimesGraph start : InternalBundleGraph)
        (first : RuntimeConnection) (rest : List RuntimeConnection),
      applyConnections X runtimesAssetGraph runtimesGraph start (first :: rest)
        = match applyConnection X runtimesAssetGraph runtimesGraph start first with
          | (applied, some e) => (applied, some e)
          | (applied, none) =>
            applyConnections X runtimesAssetGraph runtimesGraph applied rest) := by
  have hcoll := queryAll_ok X pluginOptions bundleGraph _ hok [] []
  rw [← collectConnections_eq_queryAll] at hcoll
  have hconn : (collectConnections X config pluginOptions bundleGraph).connections
      = bundleGraph.getBundles.flatMap (fun bundle =>
          (config.getRuntimes bundle.env.context).flatMap (fun runtime =>
            (runtime.records bundle bundleGraph).map (connectionOf X pluginOptions bundle))) := by
    rw [hcoll]
    simp only [List.nil_append, providerQueries, List.flatMap_assoc, List.flatMap_map,
      queryConnections]
  have herr : (collectConnections X config pluginOptions bundleGraph).error = none := by
    rw [hcoll]
  refine ⟨herr, hconn, ⟨rfl, fun _ => rfl, fun _ => rfl⟩, ?_, ?_⟩
  · intro runtimesBuilder runtimesAssetGraph hrec
    obtain ⟨h1, h2⟩ := applyRuntimes_of_reconciled X bundleGraph config pluginOptions
      runtimesBuilder runtimesAssetGraph herr hrec
    rw [h1, h2, hconn]
  · intro runtimesAssetGraph runtimesGraph start first rest
    rfl

/-- Witness of C8: the providers of the example configuration all return. -/
theorem connections_in_enumeration_order_witness :
    (collectConnections Example.externals Example.config Example.pluginOptions
        Example.bundleGraph).error = none ∧
    (collectConnections Example.externals Example.config Example.pluginOptions
        Example.bundleGraph).connections
      = Example.bundleGraph.getBundles.flatMap (fun bundle =>
          (Example.config.getRuntimes bundle.env.context).flatMap (fun runtime =>
            (runtime.records bundle Example.bundleGraph).map
              (connectionOf Example.externals Example.pluginOptions bundle))) :=
  ⟨(connections_in_enumeration_order Example.externals Example.bundleGraph Example.config
      Example.pluginOptions Example.config_ok).1,
   (connections_in_enumeration_order Example.externals Example.bundleGraph Example.config
      Example.pluginOptions Example.config_ok).2.1⟩

/-- C9: if the provider `runtime` throws `e` for `bundle`, every earlier query
of the pass having returned, then `applyRuntimes` fails with the diagnostic
built from `e` and the name of that provider; the log ends with the failing
query, so that no later provider is queried and `reconcileNewRuntimes` is not
called; and the bundle graph is the one handed in, no merge being performed.
In general a pass fails as soon as some provider throws, and it then leaves
the bundle graph as it was and does not reconcile. -/
theorem provider_failure_is_fatal (X : Externals) (bundleGraph : InternalBundleGraph)
    (config : ParcelConfig) (pluginOptions : PluginOptions) (runtimesBuilder : AssetGraphBuilder)
    (pre post : List (InternalBundle × Runtime)) (bundle : InternalBundle) (runtime : Runtime)
    (e : JsError)
    (hqueries : providerQueries config bundleGraph.getBundles = pre ++ (bundle, runtime) :: post)
    (hok : ∀ q ∈ pre, ∃ applied, q.2.apply q.1 bundleGraph = .ok applied)
    (herr : runtime.apply bundle bundleGraph = .error e) :
    applyRuntimes X bundleGraph config pluginOptions runtimesBuilder
      = { bundleGraph := bundleGraph
          trace := pre.map queryEvent ++ [Event.providerApply bundle.id runtime.name]
          error := some (PassError.throwableDiagnostic (X.errorToDiagnostic e runtime.name)) } ∧
    (∀ connections, Event.reconcile connections ∉
      (applyRuntimes X bundleGraph config pluginOptions runtimesBuilder).trace) ∧
    (∀ q ∈ post, queryEvent q ∉ pre.map queryEvent → queryEvent q ≠ queryEvent (bundle, runtime) →
      queryEvent q ∉ (applyRuntimes X bundleGraph config pluginOptions runtimesBuilder).trace) ∧
    (∀ (config1 : ParcelConfig),
      (∃ q ∈ providerQueries config1 bundleGraph.getBundles,
        ∃ e1, q.2.apply q.1 bundleGraph = .error e1) →
      (applyRuntimes X bundleGraph config1 pluginOptions runtimesBuilder).error ≠ none ∧
      (applyRuntimes X bundleGraph config1 pluginOptions runtimesBuilder).bundleGraph
        = bundleGraph ∧
      ∀ connections, Event.reconcile connections ∉
        (applyRuntimes X bundleGraph config1 pluginOptions runtimesBuilder).trace) := by
  have hcoll := queryAll_error X pluginOptions bundleGraph pre post bundle runtime e hok herr [] []
  rw [← hqueries, ← collectConnections_eq_queryAll] at hcoll
  have hres := applyRuntimes_of_error X bundleGraph config pluginOptions runtimesBuilder
    (PassError.throwableDiagnostic (X.errorToDiagnostic e runtime.name)) (by rw [hcoll])
  have hres1 : applyRuntimes X bundleGraph config pluginOptions runtimesBuilder
      = { bundleGraph := bundleGraph
          trace := pre.map queryEvent ++ [Event.providerApply bundle.id runtime.name]
          error := some (PassError.throwableDiagnostic
            (X.errorToDiagnostic e runtime.name)) } := by
    rw [hres, hcoll]; rfl
  refine ⟨hres1, ?_, ?_, ?_⟩
  · intro connections hmem
    rw [hres1] at hmem
    simp only [List.mem_append, List.mem_map, List.mem_singleton] at hmem
    rcases hmem with ⟨q, -, hq⟩ | hq
    · cases hq
    · cases hq
  · intro q _ h1 h2 hmem
    rw [hres1] at hmem
    simp only [List.mem_append, List.mem_singleton] at hmem
    rcases hmem with h | h
    · exact h1 h
    · exact h2 h
  · rintro config1 ⟨q, hq, e1, he1⟩
    have hne : (collectConnections X config1 pluginOptions bundleGraph).error ≠ none := by
      intro hnone
      rw [collectConnections_eq_queryAll, queryAll_error_iff] at hnone
      obtain ⟨applied, happ⟩ := hnone q hq
      rw [he1] at happ
      cases happ
    cases h : (collectConnections X config1 pluginOptions bundleGraph).error with
    | none => exact absurd h hne
    | some e2 =>
      rw [applyRuntimes_of_error X bundleGraph config1 pluginOptions runtimesBuilder e2 h]
      refine ⟨by simp, rfl, ?_⟩
      intro connections hmem
      simp only at hmem
      rw [collectConnections_eq_queryAll] at hmem
      obtain ⟨k, hk⟩ := queryAll_trace X pluginOptions bundleGraph
        (providerQueries config1 bundleGraph.getBundles) [] []
      rw [hk, List.nil_append] at hmem
      obtain ⟨q1, -, hq1⟩ := List.mem_map.1 hmem
      cases hq1

/-- Witness of C9: in the example pass with the failing configuration,
`runtime-failing` throws for `bundleB` after four queries that return; the two
later queries are not made. -/
theorem provider_failure_is_fatal_witness :
    applyRuntimes Example.externals Example.bundleGraph Example.failingConfig
        Example.pluginOptions Example.runtimesBuilder
      = { bundleGraph := Example.bundleGraph
          trace := [Event.providerApply "bundleA" "runtime-register",
            Event.providerApply "bundleA" "runtime-failing",
            Event.providerApply "bundleA" "runtime-hmr",
            Event.providerApply "bundleB" "runtime-register",
            Event.providerApply "bundleB" "runtime-failing"]
          error := some (PassError.throwableDiagnostic
            { message := "boom", origin := "runtime-failing" }) } :=
  (provider_failure_is_fatal Example.externals Example.bundleGraph Example.failingConfig
    Example.pluginOptions Example.runtimesBuilder _ _ Example.bundleB Example.failingRuntime
    { message := "boom" } Example.providerQueries_failingConfig
    Example.failingConfig_ok_before rfl).1

/-- C10: for every connection, the body of the loop locates `runtimeNode`
exactly when the request node of the connection has exactly one node connected
from it in the reconciled runtime asset graph and that node is an asset, and
that single asset is then the `runtimeNode` the rest of the body works with;
if the number of connected nodes is not one (zero, or two or more), or the
single node is not an asset, the `invariant` fails with an assertion error;
and whenever `runtimeNode` cannot be located the pass fails at that
connection: the body throws without touching the bundle graph, the loop over
the connections stops there with the graph the earlier connections produced,
and `applyRuntimes` ends with that error and that graph. -/
theorem runtimeNode_single_asset (X : Externals) (runtimesAssetGraph : Graph)
    (connection : RuntimeConnection) :
    (∀ n, locateRuntimeNode X runtimesAssetGraph connection.assetGroup = .ok n ↔
      runtimesAssetGraph.getNodesConnectedFrom
          (nodeFromAssetGroup X.md5FromObject connection.assetGroup) none = .ok [n] ∧
        n.isAsset = true) ∧
    (∀ n runtimesGraph bundleGraph,
      locateRuntimeNode X runtimesAssetGraph connection.assetGroup = .ok n →
      applyConnection X runtimesAssetGraph runtimesGraph bundleGraph connection
        = connectRuntimeNode X runtimesGraph bundleGraph connection n) ∧
    (∀ ns, runtimesAssetGraph.getNodesConnectedFrom
        (nodeFromAssetGroup X.md5FromObject connection.assetGroup) none = .ok ns →
      (ns.length ≠ 1 ∨ ∃ n, ns = [n] ∧ n.isAsset = false) →
      locateRuntimeNode X runtimesAssetGraph connection.assetGroup
        = .error (PassError.assertionError none)) ∧
    (∀ e, locateRuntimeNode X runtimesAssetGraph connection.assetGroup = .error e →
      (∀ runtimesGraph bundleGraph,
        applyConnection X runtimesAssetGraph runtimesGraph bundleGraph connection
          = (bundleGraph, some e)) ∧
      (∀ runtimesGraph start reached pre post,
        applyConnections X runtimesAssetGraph runtimesGraph start pre = (reached, none) →
        applyConnections X runtimesAssetGraph runtimesGraph start (pre ++ connection :: post)
          = (reached, some e)) ∧
      (∀ (bundleGraph reached : InternalBundleGraph) (config : ParcelConfig)
          (pluginOptions : PluginOptions) (runtimesBuilder : AssetGraphBuilder)
          (pre post : List RuntimeConnection),
        (collectConnections X config pluginOptions bundleGraph).error = none →
        (collectConnections X config pluginOptions bundleGraph).connections
          = pre ++ connection :: post →
        reconcileNewRuntimes X runtimesBuilder
          (collectConnections X config pluginOptions bundleGraph).connections
            = .ok runtimesAssetGraph →
        applyConnections X runtimesAssetGraph
          (X.fromAssetGraph runtimesAssetGraph bundleGraph._publicIdByAssetId
            bundleGraph._assetPublicIds)
          (mergeRuntimesGraph bundleGraph
            (X.fromAssetGraph runtimesAssetGraph bundleGraph._publicIdByAssetId
              bundleGraph._assetPublicIds)) pre = (reached, none) →
        (applyRuntimes X bundleGraph config pluginOptions runtimesBuilder).error = some e ∧
        (applyRuntimes X bundleGraph config pluginOptions runtimesBuilder).bundleGraph
          = reached)) := by
  have hbody : ∀ e, locateRuntimeNode X runtimesAssetGraph connection.assetGroup = .error e →
      ∀ runtimesGraph bundleGraph,
        applyConnection X runtimesAssetGraph runtimesGraph bundleGraph connection
          = (bundleGraph, some e) := by
    intro e he runtimesGraph bundleGraph
    simp only [applyConnection, he]
  have hloop : ∀ e, locateRuntimeNode X runtimesAssetGraph connection.assetGroup = .error e →
      ∀ runtimesGraph start reached pre post,
        applyConnections X runtimesAssetGraph runtimesGraph start pre = (reached, none) →
        applyConnections X runtimesAssetGraph runtimesGraph start (pre ++ connection :: post)
          = (reached, some e) := by
    intro e he runtimesGraph start reached pre post hpre
    rw [applyConnections_append, hpre]
    simp only [applyConnections, hbody e he]
  refine ⟨fun n => locateRuntimeNode_ok_iff X runtimesAssetGraph connection.assetGroup n, ?_,
    fun ns h hbad => locateRuntimeNode_error_of_count X runtimesAssetGraph
      connection.assetGroup ns h hbad, ?_⟩
  · intro n runtimesGraph bundleGraph hn
    simp only [applyConnection, hn]
  · intro e he
    refine ⟨hbody e he, hloop e he, ?_⟩
    intro bundleGraph reached config pluginOptions runtimesBuilder pre post hnone hconn hrec hpre
    obtain ⟨hbg, herr⟩ := applyRuntimes_of_reconciled X bundleGraph config pluginOptions
      runtimesBuilder runtimesAssetGraph hnone hrec
    rw [hbg, herr, hconn, hloop e he _ _ reached pre post hpre]
    exact ⟨rfl, rfl⟩

/-- Witness of C10: with a builder that builds no asset, the request of the
first connection of the example pass has no node connected from it, and the
pass fails there with the assertion error of the `invariant`, leaving the
merged graph without a `contains` edge to a runtime asset. -/
theorem runtimeNode_single_asset_witness :
    (applyRuntimes Example.externals Example.bundleGraph Example.config Example.pluginOptions
        Example.idleBuilder).error = some (PassError.assertionError none) ∧
    (applyRuntimes Example.externals Example.bundleGraph Example.config Example.pluginOptions
        Example.idleBuilder).bundleGraph._graph.edges = Example.bundleGraph._graph.edges := by
  obtain ⟨rag, hrag⟩ : ∃ rag, reconcileNewRuntimes Example.externals Example.idleBuilder
      (collectConnections Example.externals Example.config Example.pluginOptions
        Example.bundleGraph).connections = .ok rag := ⟨_, rfl⟩
  have hloc : locateRuntimeNode Example.externals rag
      (connectionOf Example.externals Example.pluginOptions Example.bundleA
        Example.register).assetGroup = .error (PassError.assertionError none) := by
    injection hrag with hrag
    subst hrag
    rfl
  have h := ((runtimeNode_single_asset Example.externals rag
    (connectionOf Example.externals Example.pluginOptions Example.bundleA Example.register)).2.2.2
      (PassError.assertionError none) hloc).2.2
    Example.bundleGraph _ Example.config Example.pluginOptions Example.idleBuilder []
    [connectionOf Example.externals Example.pluginOptions Example.bundleA Example.hmr,
     connectionOf Example.externals Example.pluginOptions Example.bundleA Example.preload,
     connectionOf Example.externals Example.pluginOptions Example.bundleB Example.register,
     connectionOf Example.externals Example.pluginOptions Example.bundleW Example.register]
    (by decide) (by decide) hrag rfl
  refine ⟨h.1, ?_⟩
  rw [h.2]
  injection hrag with hrag
  subst hrag
  decide

/-- C11, counterexample: in the example pass the provider returns `load1` and
`load2` for the parent bundle, both for the dependency `dep:loader`. Before
the merge, and still after it, the dependency resolves to no asset; the first
connection links it to the asset of `load1`, and the resolution that the
second connection uses is that asset, not the one of the graph as it was
before the merge. -/
theorem resolution_counterexample :
    (collectConnections Example.sharedExternals Example.loadConfig Example.pluginOptions
        Example.sharedBundleGraph).connections
      = [connectionOf Example.sharedExternals Example.pluginOptions Example.parentBundle
          Example.load1,
         connectionOf Example.sharedExternals Example.pluginOptions Example.parentBundle
          Example.load2] ∧
    ∃ rag, reconcileNewRuntimes Example.sharedExternals Example.runtimesBuilder
        (collectConnections Example.sharedExternals Example.loadConfig Example.pluginOptions
          Example.sharedBundleGraph).connections = .ok rag ∧
      resolutionOf Example.sharedExternals Example.sharedBundleGraph Example.parentBundle
        (some Example.loaderDependency) = none ∧
      resolutionOf Example.sharedExternals
        (mergeRuntimesGraph Example.sharedBundleGraph
          (Example.sharedExternals.fromAssetGraph rag
            Example.sharedBundleGraph._publicIdByAssetId
            Example.sharedBundleGraph._assetPublicIds))
        Example.parentBundle (some Example.loaderDependency) = none ∧
      (applyConnection Example.sharedExternals rag
        (Example.sharedExternals.fromAssetGraph rag
          Example.sharedBundleGraph._publicIdByAssetId
          Example.sharedBundleGraph._assetPublicIds)
        (mergeRuntimesGraph Example.sharedBundleGraph
          (Example.sharedExternals.fromAssetGraph rag
            Example.sharedBundleGraph._publicIdByAssetId
            Example.sharedBundleGraph._assetPublicIds))
        (connectionOf Example.sharedExternals Example.pluginOptions Example.parentBundle
          Example.load1)).2 = none ∧
      resolutionOf Example.sharedExternals
        (applyConnection Example.sharedExternals rag
          (Example.sharedExternals.fromAssetGraph rag
            Example.sharedBundleGraph._publicIdByAssetId
            Example.sharedBundleGraph._assetPublicIds)
          (mergeRuntimesGraph Example.sharedBundleGraph
            (Example.sharedExternals.fromAssetGraph rag
              Example.sharedBundleGraph._publicIdByAssetId
              Example.sharedBundleGraph._assetPublicIds))
          (connectionOf Example.sharedExternals Example.pluginOptions Example.parentBundle
            Example.load1)).1
        Example.parentBundle (some Example.loaderDependency)
        = some { id :=
                  "asset(request(/rt/load1.js,load1(),browser,map(/rt/runtime-md5(load1()).js)))",
                 type := "js" } := by
  refine ⟨by decide, _, rfl, ?_, ?_, ?_, ?_⟩ <;> decide

/-- C11, amended: the resolution used by duplicate suppression for a connection
with a dependency is what `getDependencyResolution` returns for the dependency
and the bundle in the bundle graph as it is when the connection is processed,
that is after the runtime graph was merged into it and after the earlier
connections were applied; for a connection without a dependency the resolution
is absent. The loop reaches the connection with the graph the earlier
connections produced, and the first walk of its body runs with that
resolution. -/
theorem resolution_on_current_graph (X : Externals) (runtimesAssetGraph : Graph)
    (runtimesGraph start reached : InternalBundleGraph) (pre post : List RuntimeConnection)
    (connection : RuntimeConnection) (runtimeNode : Node)
    (hpre : applyConnections X runtimesAssetGraph runtimesGraph start pre = (reached, none))
    (hloc : locateRuntimeNode X runtimesAssetGraph connection.assetGroup = .ok runtimeNode) :
    applyConnections X runtimesAssetGraph runtimesGraph start (pre ++ connection :: post)
      = (match connectRuntimeNode X runtimesGraph reached connection runtimeNode with
        | (applied, some e) => (applied, some e)
        | (applied, none) =>
          applyConnections X runtimesAssetGraph runtimesGraph applied post) ∧
    (∀ e, (duplicatedWalk X reached runtimesGraph connection.bundle
        (resolutionOf X reached connection.bundle connection.dependency) runtimeNode).2
          = some e →
      connectRuntimeNode X runtimesGraph reached connection runtimeNode = (reached, some e)) ∧
    (∀ contained,
      connectRuntimeNode X runtimesGraph reached connection runtimeNode = (contained, none) →
      (duplicatedWalk X reached runtimesGraph connection.bundle
        (resolutionOf X reached connection.bundle connection.dependency) runtimeNode).2
          = none ∧
      (containsWalk runtimesGraph connection.bundle
        (duplicatedWalk X reached runtimesGraph connection.bundle
          (resolutionOf X reached connection.bundle connection.dependency) runtimeNode).1.1
        runtimeNode reached).2 = none) ∧
    (connection.dependency = none →
      resolutionOf X reached connection.bundle connection.dependency = none) ∧
    (∀ dependency, connection.dependency = some dependency →
      resolutionOf X reached connection.bundle connection.dependency
        = X.getDependencyResolution reached dependency
            (reached.currentBundle connection.bundle)) := by
  refine ⟨applyConnections_at X runtimesAssetGraph runtimesGraph start reached pre post
    connection runtimeNode hpre hloc, ?_, ?_, ?_, ?_⟩
  · intro e he
    rw [connectRuntimeNode_eq, he]
  · intro contained hc
    rw [connectRuntimeNode_eq] at hc
    cases h1 : (duplicatedWalk X reached runtimesGraph connection.bundle
        (resolutionOf X reached connection.bundle connection.dependency) runtimeNode).2 with
    | some e => rw [h1] at hc; simp at hc
    | none =>
      rw [h1] at hc
      simp only at hc
      refine ⟨rfl, ?_⟩
      cases h2 : (containsWalk runtimesGraph connection.bundle
          (duplicatedWalk X reached runtimesGraph connection.bundle
            (resolutionOf X reached connection.bundle connection.dependency) runtimeNode).1.1
          runtimeNode reached).2 with
      | some e => rw [h2] at hc; simp at hc
      | none => rfl
  · intro h
    rw [h]
    rfl
  · intro dependency h
    rw [h]
    rfl

/-- Witness of C11 as amended: in the example pass the second connection is
reached with the graph the first connection left, and its resolution is what
`getDependencyResolution` returns in that graph. -/
theorem resolution_on_current_graph_witness :
    resolutionOf Example.sharedExternals
        (applyConnections Example.sharedExternals Example.loadAssetGraph
          (Example.sharedRuntimesGraph Example.loadAssetGraph) Example.loadMerged
          [connectionOf Example.sharedExternals Example.pluginOptions Example.parentBundle
            Example.load1]).1
        Example.parentBundle (some Example.loaderDependency)
      = Example.sharedExternals.getDependencyResolution
          (applyConnections Example.sharedExternals Example.loadAssetGraph
            (Example.sharedRuntimesGraph Example.loadAssetGraph) Example.loadMerged
            [connectionOf Example.sharedExternals Example.pluginOptions Example.parentBundle
              Example.load1]).1
          Example.loaderDependency
          ((applyConnections Example.sharedExternals Example.loadAssetGraph
            (Example.sharedRuntimesGraph Example.loadAssetGraph) Example.loadMerged
            [connectionOf Example.sharedExternals Example.pluginOptions Example.parentBundle
              Example.load1]).1.currentBundle Example.parentBundle) :=
  (resolution_on_current_graph Example.sharedExternals Example.loadAssetGraph
    (Example.sharedRuntimesGraph Example.loadAssetGraph) Example.loadMerged _
    [connectionOf Example.sharedExternals Example.pluginOptions Example.parentBundle
      Example.load1] []
    (connectionOf Example.sharedExternals Example.pluginOptions Example.parentBundle
      Example.load2) Example.load2Node
    (Prod.ext rfl (by decide)) rfl).2.2.2.2 Example.loaderDependency rfl

/-- C12: for every connection, the duplicated identifiers that the first
traversal from `runtimeNode` produces are exactly the identifiers of the assets
that a dependency node entered by the traversal points to and that are
reachable from the bundle in the main graph or have the identifier of the
resolution; the traversal prunes the subtree below a dependency exactly when
it points to such an asset, and it does not descend below a pruned node: every
node it enters is `runtimeNode` or is connected from an entered node that was
not pruned. -/
theorem duplicated_ids_exact (X : Externals) (bundleGraph runtimesGraph : InternalBundleGraph)
    (bundle : InternalBundle) (resolution : Option Asset) (runtimeNode : Node) :
    runtimesGraph._graph.traverse
        (visitDuplicated X bundleGraph runtimesGraph bundle resolution) runtimeNode []
      = ((duplicatedWalk X bundleGraph runtimesGraph bundle resolution runtimeNode).1.1,
          (duplicatedWalk X bundleGraph runtimesGraph bundle resolution runtimeNode).2) ∧
    (∀ x, x ∈ (duplicatedWalk X bundleGraph runtimesGraph bundle resolution runtimeNode).1.1 ↔
      ∃ entry ∈ (duplicatedWalk X bundleGraph runtimesGraph bundle resolution
          runtimeNode).1.2,
        PointsToDuplicate X bundleGraph runtimesGraph bundle resolution entry.1 x) ∧
    (∀ entry ∈ (duplicatedWalk X bundleGraph runtimesGraph bundle resolution runtimeNode).1.2,
      (entry.2 = true ↔
        ∃ x, PointsToDuplicate X bundleGraph runtimesGraph bundle resolution entry.1 x)) ∧
    (∀ entry ∈ (duplicatedWalk X bundleGraph runtimesGraph bundle resolution runtimeNode).1.2,
      runtimesGraph._graph.EnteredFrom runtimeNode
        (duplicatedWalk X bundleGraph runtimesGraph bundle resolution runtimeNode).1.2
        entry.1) := by
  refine ⟨duplicatedWalk_eq X bundleGraph runtimesGraph bundle resolution runtimeNode,
    traverse_visitDuplicated_exact X bundleGraph runtimesGraph bundle resolution runtimeNode,
    ?_, ?_⟩
  · intro entry he
    obtain ⟨s0, s1, hv⟩ := Graph.traverse_logged_visit runtimesGraph._graph
      (visitDuplicated X bundleGraph runtimesGraph bundle resolution) runtimeNode [] entry he
    exact (visitDuplicated_spec X bundleGraph runtimesGraph bundle resolution s0 s1 entry.1
      entry.2 hv).2
  · exact Graph.traverse_logged_enteredFrom runtimesGraph._graph
      (visitDuplicated X bundleGraph runtimesGraph bundle resolution) runtimeNode []

/-- C13: for every connection, the containment walk changes nothing of the bundle
graph but its edges, and the edges it adds are exactly the `contains` edges
from the bundle to the asset and dependency nodes the walk enters whose
identifier is not marked duplicated; it adds no `contains` edge to an
identifier that is marked duplicated; it prunes the subtree below a node
exactly when the node is an asset or a dependency whose identifier is marked,
and it does not descend below a pruned node: every node it enters is
`runtimeNode` or is connected from an entered node that was not pruned. -/
theorem contains_edges_exact (runtimesGraph : InternalBundleGraph) (bundle : InternalBundle)
    (duplicatedAssetIds : JsSet NodeId) (runtimeNode : Node)
    (bundleGraph : InternalBundleGraph) :
    runtimesGraph._graph.traverse (visitContains bundle duplicatedAssetIds) runtimeNode
        bundleGraph
      = ((containsWalk runtimesGraph bundle duplicatedAssetIds runtimeNode bundleGraph).1.1,
          (containsWalk runtimesGraph bundle duplicatedAssetIds runtimeNode bundleGraph).2) ∧
    (containsWalk runtimesGraph bundle duplicatedAssetIds runtimeNode
        bundleGraph).1.1._graph.nodes = bundleGraph._graph.nodes ∧
    (∀ e, e ∈ (containsWalk runtimesGraph bundle duplicatedAssetIds runtimeNode
        bundleGraph).1.1._graph.edges ↔
      e ∈ bundleGraph._graph.edges ∨
      ∃ entry ∈ (containsWalk runtimesGraph bundle duplicatedAssetIds runtimeNode
          bundleGraph).1.2,
        (entry.1.isAsset = true ∨ entry.1.isDependency = true) ∧
        entry.1.id ∉ duplicatedAssetIds ∧
        e = ⟨bundle.id, entry.1.id, some "contains"⟩) ∧
    (∀ x ∈ duplicatedAssetIds,
      (⟨bundle.id, x, some "contains"⟩ : Edge) ∈
        (containsWalk runtimesGraph bundle duplicatedAssetIds runtimeNode
          bundleGraph).1.1._graph.edges →
      (⟨bundle.id, x, some "contains"⟩ : Edge) ∈ bundleGraph._graph.edges) ∧
    (∀ entry ∈ (containsWalk runtimesGraph bundle duplicatedAssetIds runtimeNode
        bundleGraph).1.2,
      (entry.2 = true ↔
        (entry.1.isAsset = true ∨ entry.1.isDependency = true) ∧
          entry.1.id ∈ duplicatedAssetIds)) ∧
    (∀ entry ∈ (containsWalk runtimesGraph bundle duplicatedAssetIds runtimeNode
        bundleGraph).1.2,
      runtimesGraph._graph.EnteredFrom runtimeNode
        (containsWalk runtimesGraph bundle duplicatedAssetIds runtimeNode bundleGraph).1.2
        entry.1) := by
  obtain ⟨hnodes, -, -, -, hedges⟩ := containsWalk_exact runtimesGraph bundle duplicatedAssetIds
    runtimeNode bundleGraph
  refine ⟨containsWalk_eq runtimesGraph bundle duplicatedAssetIds runtimeNode bundleGraph,
    hnodes, hedges, ?_, ?_, ?_⟩
  · intro x hx hmem
    rcases (hedges _).1 hmem with h | ⟨entry, -, -, hnot, heq⟩
    · exact h
    · injection heq with _ h2 _
      exact absurd (h2 ▸ hx) hnot
  · intro entry he
    obtain ⟨s0, s1, hv⟩ := Graph.traverse_logged_visit runtimesGraph._graph
      (visitContains bundle duplicatedAssetIds) runtimeNode bundleGraph entry he
    exact (visitContains_spec bundle duplicatedAssetIds s0 s1 entry.1 entry.2 hv).1
  · exact Graph.traverse_logged_enteredFrom runtimesGraph._graph
      (visitContains bundle duplicatedAssetIds) runtimeNode bundleGraph

/-- C14, the code at the failing input: the loader of the child bundle depends
on `dep:helpers`, which points to `helperA` and `helperB`; `helperB` depends on
`dep:helperC`, which points to `helperC`. The parent bundle contains `helperA`
and `helperC`, so both are reachable from the child bundle, and `helperB` is
not. The first walk marks `helperA` only: it prunes below `dep:helpers` and
never enters `dep:helperC`. The containment walk tests each node on its own, so
it goes on below `dep:helpers` and `helperB`, and the pass, which returns,
adds a `contains` edge from the child bundle to `helperC`, a reachable asset
that is not `runtimeNode`. -/
theorem reachable_asset_contained :
    (collectConnections Example.sharedExternals Example.loaderConfig Example.pluginOptions
        Example.sharedBundleGraph).connections = Example.loaderConnections ∧
    locateRuntimeNode Example.sharedExternals (Example.helperAssetGraph true)
      (connectionOf Example.sharedExternals Example.pluginOptions Example.childBundle
        Example.loader).assetGroup = .ok Example.loaderNode ∧
    (Example.sharedRuntimesGraph (Example.helperAssetGraph true))._graph.getNodesConnectedFrom
      (Example.dependencyNode "dep:helpers" "./helpers") none
        = .ok [Example.assetNode "helperA", Example.assetNode "helperB"] ∧
    Example.sharedExternals.isAssetReachableFromBundle (Example.helperMerged true)
      { id := "helperA", type := "js" }
      ((Example.helperMerged true).currentBundle Example.childBundle) = true ∧
    Example.sharedExternals.isAssetReachableFromBundle (Example.helperMerged true)
      { id := "helperB", type := "js" }
      ((Example.helperMerged true).currentBundle Example.childBundle) = false ∧
    Example.sharedExternals.isAssetReachableFromBundle (Example.helperMerged true)
      { id := "helperC", type := "js" }
      ((Example.helperMerged true).currentBundle Example.childBundle) = true ∧
    duplicatedIdsOf Example.sharedExternals (Example.sharedRuntimesGraph
        (Example.helperAssetGraph true)) (Example.helperMerged true)
      (connectionOf Example.sharedExternals Example.pluginOptions Example.childBundle
        Example.loader) Example.loaderNode = ["helperA"] ∧
    Example.loaderNode.id ≠ "helperC" ∧
    (⟨"child", "helperC", some "contains"⟩ : Edge) ∉ (Example.helperMerged true)._graph.edges ∧
    (applyRuntimes Example.sharedExternals Example.sharedBundleGraph Example.loaderConfig
      Example.pluginOptions Example.helperABBuilder).error = none ∧
    (⟨"child", "helperC", some "contains"⟩ : Edge) ∈
      (applyRuntimes Example.sharedExternals Example.sharedBundleGraph Example.loaderConfig
        Example.pluginOptions Example.helperABBuilder).bundleGraph._graph.edges := by
  refine ⟨by decide, rfl, rfl, ?_, ?_, ?_, ?_, ?_, ?_, ?_, ?_⟩ <;> decide

/-- C15, counterexample: the loader of the child bundle depends on `dep:helpers`,
which points to `helperA` alone, an asset the parent bundle contains: every
asset below the runtime asset is reachable from the child bundle. The pass
returns, and it has added a `contains` edge from the child bundle to the
dependency node `dep:helpers`, a node other than the runtime asset. -/
theorem duplicate_suppression_counterexample :
    (collectConnections Example.sharedExternals Example.loaderConfig Example.pluginOptions
        Example.sharedBundleGraph).connections = Example.loaderConnections ∧
    locateRuntimeNode Example.sharedExternals (Example.helperAssetGraph false)
      (connectionOf Example.sharedExternals Example.pluginOptions Example.childBundle
        Example.loader).assetGroup = .ok Example.loaderNode ∧
    (Example.sharedRuntimesGraph (Example.helperAssetGraph false))._graph.edges
      = [⟨"@@root", Example.loaderNode.id, none⟩, ⟨Example.loaderNode.id, "dep:helpers", none⟩,
         ⟨"dep:helpers", "helperA", none⟩] ∧
    Example.sharedExternals.isAssetReachableFromBundle (Example.helperMerged false)
      { id := "helperA", type := "js" }
      ((Example.helperMerged false).currentBundle Example.childBundle) = true ∧
    Example.loaderNode.id ≠ "dep:helpers" ∧
    (⟨"child", "dep:helpers", some "contains"⟩ : Edge) ∉
      (Example.helperMerged false)._graph.edges ∧
    (applyRuntimes Example.sharedExternals Example.sharedBundleGraph Example.loaderConfig
      Example.pluginOptions Example.helperABuilder).error = none ∧
    (⟨"child", "dep:helpers", some "contains"⟩ : Edge) ∈
      (applyRuntimes Example.sharedExternals Example.sharedBundleGraph Example.loaderConfig
        Example.pluginOptions Example.helperABuilder).bundleGraph._graph.edges := by
  refine ⟨by decide, rfl, ?_, ?_, ?_, ?_, ?_, ?_⟩ <;> decide

/-- C15, amended: for every connection whose runtime node is an asset held by the
runtimes graph, a graph keyed by node identifier: if every node connected from
the runtime asset is a dependency all of whose assets are reachable from the
target bundle in the main graph, or are the resolution, then every `contains`
edge that processing the connection adds goes from the bundle to the runtime
asset itself or to one of the dependency nodes connected from it; no other
node, and so no asset other than the runtime asset, gets one. -/
theorem duplicate_suppression (X : Externals) (runtimesGraph bundleGraph : InternalBundleGraph)
    (connection : RuntimeConnection) (runtimeNode : Node)
    (hk : runtimesGraph._graph.keyedById = true)
    (hrt : runtimesGraph._graph.getNode runtimeNode.id = some runtimeNode)
    (hasset : runtimeNode.isAsset = true)
    (hdup : dependenciesResolveToDuplicates X runtimesGraph bundleGraph connection runtimeNode
      = true) :
    ∀ e ∈ (connectRuntimeNode X runtimesGraph bundleGraph connection
        runtimeNode).1._graph.edges,
      e ∉ bundleGraph._graph.edges → e.type = some "contains" →
      e = ⟨connection.bundle.id, runtimeNode.id, some "contains"⟩ ∨
      ∃ children dependencyNode,
        runtimesGraph._graph.getNodesConnectedFrom runtimeNode none = .ok children ∧
        dependencyNode ∈ children ∧ dependencyNode.isDependency = true ∧
        e = ⟨connection.bundle.id, dependencyNode.id, some "contains"⟩ := by
  intro e hmem hnew htype
  cases hok : (duplicatedWalk X bundleGraph runtimesGraph connection.bundle
      (resolutionOf X bundleGraph connection.bundle connection.dependency) runtimeNode).2 with
  | some err =>
    rw [connectRuntimeNode_eq, hok] at hmem
    exact absurd hmem hnew
  | none =>
    have hcontained : e ∈ (containedGraph X runtimesGraph bundleGraph connection
        runtimeNode)._graph.edges := by
      have hentered : e ∈ (enteredGraph X runtimesGraph bundleGraph connection
          runtimeNode)._graph.edges →
          e ∈ (containedGraph X runtimesGraph bundleGraph connection
            runtimeNode)._graph.edges := by
        intro h
        rcases (entryStep_frame _ _ _ _).2.2 e h with h1 | ⟨-, bundleNode, -, h1⟩
        · exact h1
        · rw [h1] at htype
          cases htype
      rcases connectRuntimeNode_result X runtimesGraph bundleGraph connection runtimeNode
        with h | h | h | h <;> rw [h] at hmem
      · exact absurd hmem hnew
      · exact hmem
      · exact hentered hmem
      · rcases ((linkStep_spec _ _ _).2.2.2.1 e).1 hmem with h1 | ⟨d, -, h1⟩
        · exact hentered h1
        · rw [h1] at htype
          cases htype
    obtain ⟨-, -, -, -, hedges⟩ := containsWalk_exact runtimesGraph connection.bundle
      (duplicatedIdsOf X runtimesGraph bundleGraph connection runtimeNode) runtimeNode
      bundleGraph
    rcases (hedges e).1 hcontained with h | ⟨entry, hentry, -, hnot, heq⟩
    · exact absurd h hnew
    · rcases containsWalk_flat X runtimesGraph bundleGraph connection runtimeNode hk hrt hasset
        hdup hok entry hentry with h1 | ⟨children, hc, h1⟩ | ⟨-, h1⟩
      · rw [h1] at heq
        exact Or.inl heq
      · exact Or.inr ⟨children, entry.1, hc, h1,
          (dependenciesResolveToDuplicates_spec X runtimesGraph bundleGraph connection
            runtimeNode hdup children hc entry.1 h1).1, heq⟩
      · exact absurd h1 hnot

/-- Witness of C15 as amended: the pass of the counterexample; the `contains` edge
that the body of the loop adds from the child bundle to `dep:helpers` goes to a
dependency node connected from the runtime asset. -/
theorem duplicate_suppression_witness :
    (⟨"child", "dep:helpers", some "contains"⟩ : Edge)
        = ⟨Example.childBundle.id, Example.loaderNode.id, some "contains"⟩ ∨
      ∃ children dependencyNode,
        (Example.sharedRuntimesGraph (Example.helperAssetGraph false))._graph.getNodesConnectedFrom
          Example.loaderNode none = .ok children ∧
        dependencyNode ∈ children ∧ dependencyNode.isDependency = true ∧
        (⟨"child", "dep:helpers", some "contains"⟩ : Edge)
          = ⟨Example.childBundle.id, dependencyNode.id, some "contains"⟩ :=
  duplicate_suppression Example.sharedExternals
    (Example.sharedRuntimesGraph (Example.helperAssetGraph false)) (Example.helperMerged false)
    (connectionOf Example.sharedExternals Example.pluginOptions Example.childBundle
      Example.loader) Example.loaderNode (by decide) (by decide) rfl (by decide)
    ⟨"child", "dep:helpers", some "contains"⟩ (by decide) (by decide) rfl

/-- C16: when the body of the loop returns for a connection whose `isEntry` is
true and whose bundle the graph holds, the graph has an edge of the default
kind from the bundle's node to `runtimeNode`, the entry list of the bundle is
the identifier of `runtimeNode` followed by the list as it was, and the bundle
object of every other bundle is as it was. For a connection whose `isEntry` is
false or absent the body, whether it returns or throws, leaves every bundle
with the entry list it had, and the only edge of the default kind it can add is
the one from the dependency of the connection to `runtimeNode`. -/
theorem entry_step_effect (X : Externals) (runtimesGraph bundleGraph : InternalBundleGraph)
    (connection : RuntimeConnection) (runtimeNode : Node) :
    (connection.isEntry = some true →
      (connectRuntimeNode X runtimesGraph bundleGraph connection runtimeNode).2 = none →
      (∃ held ∈ bundleGraph.getBundles, held.id = connection.bundle.id) →
      (∃ bundleNode, bundleGraph._graph.getNode connection.bundle.id = some bundleNode ∧
        (⟨bundleNode.id, runtimeNode.id, none⟩ : Edge) ∈
          (connectRuntimeNode X runtimesGraph bundleGraph connection
            runtimeNode).1._graph.edges) ∧
      ((connectRuntimeNode X runtimesGraph bundleGraph connection
          runtimeNode).1.currentBundle connection.bundle).entryAssetIds
        = runtimeNode.id :: (bundleGraph.currentBundle connection.bundle).entryAssetIds ∧
      ∀ bundle : InternalBundle, bundle.id ≠ connection.bundle.id →
        (connectRuntimeNode X runtimesGraph bundleGraph connection
          runtimeNode).1.currentBundle bundle = bundleGraph.currentBundle bundle) ∧
    (connection.isEntry ≠ some true →
      (connectRuntimeNode X runtimesGraph bundleGraph connection runtimeNode).1.getBundles
        = bundleGraph.getBundles ∧
      (∀ bundle : InternalBundle,
        (connectRuntimeNode X runtimesGraph bundleGraph connection
          runtimeNode).1.currentBundle bundle = bundleGraph.currentBundle bundle) ∧
      ∀ e ∈ (connectRuntimeNode X runtimesGraph bundleGraph connection
          runtimeNode).1._graph.edges,
        e ∉ bundleGraph._graph.edges → e.type = none →
        ∃ dependency, connection.dependency = some dependency ∧
          e = ⟨dependency.id, runtimeNode.id, none⟩) := by
  obtain ⟨hb1, hb2⟩ := connectRuntimeNode_getBundles X runtimesGraph bundleGraph connection
    runtimeNode
  obtain ⟨c1, -, -⟩ := containedGraph_frame X runtimesGraph bundleGraph connection runtimeNode
  refine ⟨?_, ?_⟩
  · intro he hok hheld
    obtain ⟨-, -, h3, -, h5⟩ := connectRuntimeNode_none X runtimesGraph bundleGraph connection
      runtimeNode hok
    have hmap := InternalBundleGraph.currentBundle_of_map _ bundleGraph
      connection.bundle.id runtimeNode.id (hb2 he hok)
    refine ⟨?_, (hmap connection.bundle).2 hheld rfl, fun bundle hne => (hmap bundle).1 hne⟩
    obtain ⟨-, s2, s3⟩ := entryStep_spec
      (containedGraph X runtimesGraph bundleGraph connection runtimeNode) connection.bundle
      runtimeNode connection.isEntry
    cases hn : (containedGraph X runtimesGraph bundleGraph connection
        runtimeNode)._graph.getNode connection.bundle.id with
    | none =>
      rw [s2 he hn] at h3
      cases h3
    | some bundleNode =>
      refine ⟨bundleNode, ?_, ?_⟩
      · rw [← Graph.getNode_congr _ _ c1]
        exact hn
      · rw [h5]
        apply linkStep_edges
        unfold enteredGraph
        rw [s3 he bundleNode hn]
        exact (Graph.mem_edges_addEdge _ _ _ _ _).2 (Or.inr rfl)
  · intro he
    refine ⟨hb1 he, ?_, ?_⟩
    · intro bundle
      unfold InternalBundleGraph.currentBundle
      rw [hb1 he]
    · have hent := (entryStep_spec
        (containedGraph X runtimesGraph bundleGraph connection runtimeNode)
        connection.bundle runtimeNode connection.isEntry).1 he
      have hentered : enteredGraph X runtimesGraph bundleGraph connection runtimeNode
          = containedGraph X runtimesGraph bundleGraph connection runtimeNode := by
        unfold enteredGraph
        rw [hent]
      have hcontained : ∀ e ∈ (containedGraph X runtimesGraph bundleGraph connection
          runtimeNode)._graph.edges, e ∉ bundleGraph._graph.edges → e.type = none → False := by
        intro e hmem hnew htype
        obtain ⟨-, -, -, -, hedges⟩ := containsWalk_exact runtimesGraph connection.bundle
          (duplicatedIdsOf X runtimesGraph bundleGraph connection runtimeNode) runtimeNode
          bundleGraph
        rcases (hedges e).1 hmem with h | ⟨entry, -, -, -, heq⟩
        · exact hnew h
        · rw [heq] at htype
          cases htype
      intro e hmem hnew htype
      rcases connectRuntimeNode_result X runtimesGraph bundleGraph connection runtimeNode
        with h | h | h | h <;> rw [h] at hmem
      · exact absurd hmem hnew
      · exact (hcontained e hmem hnew htype).elim
      · rw [hentered] at hmem
        exact (hcontained e hmem hnew htype).elim
      · rcases ((linkStep_spec _ _ _).2.2.2.1 e).1 hmem with h4 | h4
        · rw [hentered] at h4
          exact (hcontained e h4 hnew htype).elim
        · exact h4

/-- Witness of C16: the first connection of the example pass, the registry of
bundle A, whose `isEntry` is true; the entry list of bundle A, which was
`main`, starts with the runtime node of the registry. -/
theorem entry_step_effect_witness :
    ((connectRuntimeNode Example.externals
        (Example.externals.fromAssetGraph
          (Example.reconciled Example.externals Example.runtimesBuilder
            (collectConnections Example.externals Example.config Example.pluginOptions
              Example.bundleGraph).connections)
          Example.bundleGraph._publicIdByAssetId Example.bundleGraph._assetPublicIds)
        (mergeRuntimesGraph Example.bundleGraph
          (Example.externals.fromAssetGraph
            (Example.reconciled Example.externals Example.runtimesBuilder
              (collectConnections Example.externals Example.config Example.pluginOptions
                Example.bundleGraph).connections)
            Example.bundleGraph._publicIdByAssetId Example.bundleGraph._assetPublicIds))
        (connectionOf Example.externals Example.pluginOptions Example.bundleA Example.register)
        (Example.assetNode
          "asset(request(/rt/loader.js,register(),browser,map(/rt/runtime-md5(register()).js)))")
        ).1.currentBundle Example.bundleA).entryAssetIds
      = ["asset(request(/rt/loader.js,register(),browser,map(/rt/runtime-md5(register()).js)))",
         "main"] :=
  ((entry_step_effect Example.externals _ _
    (connectionOf Example.externals Example.pluginOptions Example.bundleA Example.register)
    (Example.assetNode
      "asset(request(/rt/loader.js,register(),browser,map(/rt/runtime-md5(register()).js)))")
    ).1 rfl (by decide) ⟨Example.bundleA, by decide, rfl⟩).2.1

/-- C17: after a pass that returns, the entry list of every bundle of the graph
is the identifiers of the runtime nodes of that bundle's connections whose
`isEntry` is true, in reverse order of enumeration, followed by the entry list
the bundle had; in particular, when these connections are two, the runtime
node of the later one is at index 0 and that of the earlier one at index 1. -/
theorem entry_lists_after_pass (X : Externals) (bundleGraph : InternalBundleGraph)
    (config : ParcelConfig) (pluginOptions : PluginOptions) (runtimesBuilder : AssetGraphBuilder)
    (hok : (applyRuntimes X bundleGraph config pluginOptions runtimesBuilder).error = none) :
    ∃ runtimesAssetGraph,
      reconcileNewRuntimes X runtimesBuilder
        (collectConnections X config pluginOptions bundleGraph).connections
          = .ok runtimesAssetGraph ∧
      (∀ bundle ∈ bundleGraph.getBundles,
        ((applyRuntimes X bundleGraph config pluginOptions
            runtimesBuilder).bundleGraph.currentBundle bundle).entryAssetIds
          = (entryRuntimeIds X runtimesAssetGraph bundle.id
              (collectConnections X config pluginOptions bundleGraph).connections).reverse
            ++ (bundleGraph.currentBundle bundle).entryAssetIds) ∧
      (∀ bundle ∈ bundleGraph.getBundles, ∀ earlier later,
        entryRuntimeIds X runtimesAssetGraph bundle.id
          (collectConnections X config pluginOptions bundleGraph).connections
            = [earlier, later] →
        ((applyRuntimes X bundleGraph config pluginOptions
            runtimesBuilder).bundleGraph.currentBundle bundle).entryAssetIds
          = later :: earlier :: (bundleGraph.currentBundle bundle).entryAssetIds) := by
  obtain ⟨rag, hrec, hlists⟩ := applyRuntimes_entryAssetIds X bundleGraph config pluginOptions
    runtimesBuilder hok
  refine ⟨rag, hrec, hlists, ?_⟩
  intro bundle hb earlier later hids
  rw [hlists bundle hb, hids]
  rfl

/-- Witness of C17: the example pass, where the providers return for bundle A the
registry, the HMR client and the preloader, in this order, all with `isEntry`
true; the entry list of bundle A, which was `main`, is then the preloader, the
HMR client, the registry and `main`. -/
theorem entry_lists_after_pass_witness :
    ∃ runtimesAssetGraph,
      reconcileNewRuntimes Example.externals Example.runtimesBuilder
        (collectConnections Example.externals Example.config Example.pluginOptions
          Example.bundleGraph).connections = .ok runtimesAssetGraph ∧
      entryRuntimeIds Example.externals runtimesAssetGraph "bundleA"
        (collectConnections Example.externals Example.config Example.pluginOptions
          Example.bundleGraph).connections
        = ["asset(request(/rt/loader.js,register(),browser,map(/rt/runtime-md5(register()).js)))",
           "asset(request(/rt/hmr.js,hmr(),browser,map(/rt/runtime-md5(hmr()).js)))",
           "asset(request(/rt/preload.js,preload(),browser,map(/rt/runtime-md5(preload()).js)))"] ∧
      ((applyRuntimes Example.externals Example.bundleGraph Example.config
          Example.pluginOptions Example.runtimesBuilder).bundleGraph.currentBundle
            Example.bundleA).entryAssetIds
        = ["asset(request(/rt/preload.js,preload(),browser,map(/rt/runtime-md5(preload()).js)))",
           "asset(request(/rt/hmr.js,hmr(),browser,map(/rt/runtime-md5(hmr()).js)))",
           "asset(request(/rt/loader.js,register(),browser,map(/rt/runtime-md5(register()).js)))",
           "main"] := by
  obtain ⟨rag, hrec, hlists, -⟩ := entry_lists_after_pass Example.externals Example.bundleGraph
    Example.config Example.pluginOptions Example.runtimesBuilder (by decide)
  have hrag : reconcileNewRuntimes Example.externals Example.runtimesBuilder
      (collectConnections Example.externals Example.config Example.pluginOptions
        Example.bundleGraph).connections
      = .ok (Example.reconciled Example.externals Example.runtimesBuilder
          (collectConnections Example.externals Example.config Example.pluginOptions
            Example.bundleGraph).connections) := rfl
  have hids : entryRuntimeIds Example.externals
      (Example.reconciled Example.externals Example.runtimesBuilder
        (collectConnections Example.externals Example.config Example.pluginOptions
          Example.bundleGraph).connections) "bundleA"
      (collectConnections Example.externals Example.config Example.pluginOptions
        Example.bundleGraph).connections
      = ["asset(request(/rt/loader.js,register(),browser,map(/rt/runtime-md5(register()).js)))",
         "asset(request(/rt/hmr.js,hmr(),browser,map(/rt/runtime-md5(hmr()).js)))",
         "asset(request(/rt/preload.js,preload(),browser,map(/rt/runtime-md5(preload()).js)))"] := by
    decide
  have heq : rag = Example.reconciled Example.externals Example.runtimesBuilder
      (collectConnections Example.externals Example.config Example.pluginOptions
        Example.bundleGraph).connections := by
    rw [hrag] at hrec
    injection hrec with hrec
    exact hrec.symm
  subst heq
  refine ⟨_, hrag, hids, ?_⟩
  rw [hlists Example.bundleA (by decide)]
  decide

/-- C18: for every connection with no dependency whose `isEntry` is not true and
whose walks pass, the body of the loop fails with the island-integrity error
if and only if `runtimeNode` has no inbound edge in the main graph after the
containment and entry steps, an inbound edge being what the check of line 194
asks the graph for: `getNodesConnectedTo(runtimeNode)` returns the empty
list. The entry step leaves the graph of the containment walk as it is. In a
graph that holds `runtimeNode`, as the main graph does after the merge of line
127, the list is empty exactly when no node of the graph is connected to
`runtimeNode` by an edge of the default kind, the kind that a query without a
kind follows; the `contains` edge that the containment walk has just added
from the bundle is of another kind. When the graph does not hold
`runtimeNode` the query itself fails, with another error. -/
theorem island_check (X : Externals) (runtimesGraph bundleGraph : InternalBundleGraph)
    (connection : RuntimeConnection) (runtimeNode : Node)
    (hd : connection.dependency = none) (he : connection.isEntry ≠ some true)
    (h1 : (duplicatedWalk X bundleGraph runtimesGraph connection.bundle
      (resolutionOf X bundleGraph connection.bundle connection.dependency) runtimeNode).2
        = none)
    (h2 : (containsWalk runtimesGraph connection.bundle
      (duplicatedIdsOf X runtimesGraph bundleGraph connection runtimeNode) runtimeNode
      bundleGraph).2 = none) :
    enteredGraph X runtimesGraph bundleGraph connection runtimeNode
      = containedGraph X runtimesGraph bundleGraph connection runtimeNode ∧
    ((connectRuntimeNode X runtimesGraph bundleGraph connection runtimeNode).2
        = some (PassError.assertionError
            (some "Runtime must have an inbound dependency or be an entry")) ↔
      (enteredGraph X runtimesGraph bundleGraph connection runtimeNode)._graph.getNodesConnectedTo
        runtimeNode none = .ok []) ∧
    ((connectRuntimeNode X runtimesGraph bundleGraph connection runtimeNode).2
        = some (PassError.assertionError
            (some "Runtime must have an inbound dependency or be an entry")) ↔
      (enteredGraph X runtimesGraph bundleGraph connection runtimeNode)._graph.hasNode
          runtimeNode.id = true ∧
        ∀ e ∈ (enteredGraph X runtimesGraph bundleGraph connection runtimeNode)._graph.edges,
          e.toId = runtimeNode.id → e.type = none →
          (enteredGraph X runtimesGraph bundleGraph connection runtimeNode)._graph.getNode
            e.fromId = none) ∧
    ((enteredGraph X runtimesGraph bundleGraph connection runtimeNode)._graph.hasNode
        runtimeNode.id = false →
      (connectRuntimeNode X runtimesGraph bundleGraph connection runtimeNode).2
        = some (PassError.nodeNotFound runtimeNode.id)) := by
  have hent := (entryStep_spec (containedGraph X runtimesGraph bundleGraph connection runtimeNode)
    connection.bundle runtimeNode connection.isEntry).1 he
  have hentered : enteredGraph X runtimesGraph bundleGraph connection runtimeNode
      = containedGraph X runtimesGraph bundleGraph connection runtimeNode := by
    unfold enteredGraph
    rw [hent]
  have h3 : (entryStep (containedGraph X runtimesGraph bundleGraph connection runtimeNode)
      connection.bundle runtimeNode connection.isEntry).2 = none := by
    rw [hent]
  rw [connectRuntimeNode_link X runtimesGraph bundleGraph connection runtimeNode h1 h2 h3]
  obtain ⟨-, -, -, -, -, hisland⟩ := linkStep_spec
    (enteredGraph X runtimesGraph bundleGraph connection runtimeNode) runtimeNode
    connection.dependency
  refine ⟨hentered, (hisland hd).1, ?_, ?_⟩
  · rw [(hisland hd).1]
    cases hn : (enteredGraph X runtimesGraph bundleGraph connection runtimeNode)._graph.hasNode
        runtimeNode.id with
    | true =>
      rw [Graph.getNodesConnectedTo_nil_iff _ _ _ hn]
      simp
    | false =>
      rw [Graph.getNodesConnectedTo_absent _ _ _ hn]
      simp
  · intro hn
    rw [hd]
    simp only [linkStep]
    rw [Graph.getNodesConnectedTo_absent _ _ _ hn]

/-- Witness of C18: the provider returns for the child bundle of the example a
record without dependency whose `isEntry` is false. Both walks pass, the
graph holds the runtime node, and the inbound query returns the empty list:
the body fails with the island-integrity error, and so does the pass. -/
theorem island_check_witness :
    (collectConnections Example.externals Example.islandConfig Example.pluginOptions
        Example.sharedBundleGraph).connections = [Example.islandConnection] ∧
    locateRuntimeNode Example.externals Example.islandAssetGraph
      Example.islandConnection.assetGroup = .ok Example.islandNode ∧
    (enteredGraph Example.externals Example.islandRuntimesGraph Example.islandMerged
        Example.islandConnection Example.islandNode)._graph.hasNode Example.islandNode.id
          = true ∧
    (connectRuntimeNode Example.externals Example.islandRuntimesGraph Example.islandMerged
      Example.islandConnection Example.islandNode).2
        = some (PassError.assertionError
            (some "Runtime must have an inbound dependency or be an entry")) ∧
    (applyRuntimes Example.externals Example.sharedBundleGraph Example.islandConfig
      Example.pluginOptions Example.runtimesBuilder).error
        = some (PassError.assertionError
            (some "Runtime must have an inbound dependency or be an entry")) :=
  ⟨by decide, rfl, by decide,
    (island_check Example.externals Example.islandRuntimesGraph Example.islandMerged
      Example.islandConnection Example.islandNode rfl (by decide) (by decide)
      (by decide)).2.1.2 rfl,
    by decide⟩

/-- C19: for every connection with a dependency whose walks and entry step
pass, the body of the loop returns without error, so no island check is made
for it whatever the inbound edges of `runtimeNode` are; the edges it leaves are
those of the entry step and the edge of the default kind from the dependency
to `runtimeNode`; and when the graph holds the dependency's node and
`runtimeNode`, `runtimeNode` is among the nodes connected from the
dependency's node. -/
theorem dependency_linked (X : Externals) (runtimesGraph bundleGraph : InternalBundleGraph)
    (connection : RuntimeConnection) (runtimeNode : Node) (dependency : Dependency)
    (hd : connection.dependency = some dependency)
    (h1 : (duplicatedWalk X bundleGraph runtimesGraph connection.bundle
      (resolutionOf X bundleGraph connection.bundle connection.dependency) runtimeNode).2
        = none)
    (h2 : (containsWalk runtimesGraph connection.bundle
      (duplicatedIdsOf X runtimesGraph bundleGraph connection runtimeNode) runtimeNode
      bundleGraph).2 = none)
    (h3 : (entryStep (containedGraph X runtimesGraph bundleGraph connection runtimeNode)
      connection.bundle runtimeNode connection.isEntry).2 = none) :
    (connectRuntimeNode X runtimesGraph bundleGraph connection runtimeNode).2 = none ∧
    (∀ e, e ∈ (connectRuntimeNode X runtimesGraph bundleGraph connection
        runtimeNode).1._graph.edges ↔
      e ∈ (enteredGraph X runtimesGraph bundleGraph connection runtimeNode)._graph.edges ∨
        e = ⟨dependency.id, runtimeNode.id, none⟩) ∧
    (⟨dependency.id, runtimeNode.id, none⟩ : Edge) ∈
      (connectRuntimeNode X runtimesGraph bundleGraph connection runtimeNode).1._graph.edges ∧
    (∀ dependencyNode : Node, dependencyNode.id = dependency.id →
      (connectRuntimeNode X runtimesGraph bundleGraph connection
        runtimeNode).1._graph.hasNode dependency.id = true →
      (connectRuntimeNode X runtimesGraph bundleGraph connection
        runtimeNode).1._graph.getNode runtimeNode.id = some runtimeNode →
      ∃ children, (connectRuntimeNode X runtimesGraph bundleGraph connection
          runtimeNode).1._graph.getNodesConnectedFrom dependencyNode none = .ok children ∧
        runtimeNode ∈ children) := by
  rw [connectRuntimeNode_link X runtimesGraph bundleGraph connection runtimeNode h1 h2 h3]
  obtain ⟨-, -, -, hedges, hnone, -⟩ := linkStep_spec
    (enteredGraph X runtimesGraph bundleGraph connection runtimeNode) runtimeNode
    connection.dependency
  have hedge : (⟨dependency.id, runtimeNode.id, none⟩ : Edge) ∈
      (linkStep (enteredGraph X runtimesGraph bundleGraph connection runtimeNode) runtimeNode
        connection.dependency).1._graph.edges :=
    (hedges _).2 (Or.inr ⟨dependency, hd, rfl⟩)
  refine ⟨hnone dependency hd, ?_, hedge, ?_⟩
  · intro e
    rw [hedges e]
    constructor
    · rintro (h | ⟨d, hd1, he⟩)
      · exact Or.inl h
      · rw [hd] at hd1
        injection hd1 with hd1
        subst hd1
        exact Or.inr he
    · rintro (h | h)
      · exact Or.inl h
      · exact Or.inr ⟨dependency, hd, h⟩
  · intro dependencyNode hid hheld hrt
    apply Graph.mem_getNodesConnectedFrom _ dependencyNode runtimeNode none
    · rw [hid]; exact hheld
    · exact hrt
    · rw [hid]; exact hedge

/-- Witness of C19: the first connection of the example pass with two records
for `dep:loader`; after its body `dep:loader` has the edge to the runtime
asset of `load1`. -/
theorem dependency_linked_witness :
    (⟨"dep:loader", Example.load1Node.id, none⟩ : Edge) ∈
      (connectRuntimeNode Example.sharedExternals
        (Example.sharedRuntimesGraph Example.loadAssetGraph) Example.loadMerged
        (connectionOf Example.sharedExternals Example.pluginOptions Example.parentBundle
          Example.load1) Example.load1Node).1._graph.edges :=
  (dependency_linked Example.sharedExternals
    (Example.sharedRuntimesGraph Example.loadAssetGraph) Example.loadMerged
    (connectionOf Example.sharedExternals Example.pluginOptions Example.parentBundle
      Example.load1) Example.load1Node Example.loaderDependency rfl
    (by decide) (by decide) (by decide)).2.2.1

/-- C20, counterexample: the main graph maps `main` to the public id `m1`, which
is allocated; the runtime graph of the pass comes with a mapping that gives
`main` the public id `zz` and gives `m1` to `lazy`. Both are collisions, and the
pass returns without error: the entry of `main` is overwritten, and `m1` now
belongs to two assets. -/
theorem publicId_collision_counterexample :
    JsMap.get Example.sharedBundleGraph._publicIdByAssetId "main" = some "m1" ∧
    "m1" ∈ Example.sharedBundleGraph._assetPublicIds ∧
    (Example.collidingExternals.fromAssetGraph
      (Example.reconciled Example.collidingExternals Example.helperABuilder
        (collectConnections Example.collidingExternals Example.loaderConfig
          Example.pluginOptions Example.sharedBundleGraph).connections)
      Example.sharedBundleGraph._publicIdByAssetId
      Example.sharedBundleGraph._assetPublicIds)._publicIdByAssetId
        = [("main", "zz"), ("lazy", "m1")] ∧
    (applyRuntimes Example.collidingExternals Example.sharedBundleGraph Example.loaderConfig
      Example.pluginOptions Example.helperABuilder).error = none ∧
    JsMap.get (applyRuntimes Example.collidingExternals Example.sharedBundleGraph
      Example.loaderConfig Example.pluginOptions
      Example.helperABuilder).bundleGraph._publicIdByAssetId "main" = some "zz" ∧
    JsMap.get (applyRuntimes Example.collidingExternals Example.sharedBundleGraph
      Example.loaderConfig Example.pluginOptions
      Example.helperABuilder).bundleGraph._publicIdByAssetId "lazy" = some "m1" := by
  refine ⟨by decide, by decide, rfl, ?_, ?_, ?_⟩ <;> decide

/-- C20, amended: when the runtime graph's public-id mapping is merged into the
main graph's, no collision is looked for and the step cannot fail: whether the
pass fails after a successful reconciliation is decided by the loop over the
connections alone. When the pass is over, every entry of the runtime mapping is
in the main mapping, whatever the main mapping held for that asset id before,
and its public id is allocated, whatever asset it was allocated to before; an
asset id that the runtime mapping does not hold keeps its entry, and every
public id that was allocated is still allocated. -/
theorem publicIds_set_without_check (X : Externals) (bundleGraph : InternalBundleGraph)
    (config : ParcelConfig) (pluginOptions : PluginOptions) (runtimesBuilder : AssetGraphBuilder)
    (runtimesAssetGraph : Graph)
    (hc : (collectConnections X config pluginOptions bundleGraph).error = none)
    (hrec : reconcileNewRuntimes X runtimesBuilder
      (collectConnections X config pluginOptions bundleGraph).connections
        = .ok runtimesAssetGraph)
    (hkeys : (JsMap.keys (X.fromAssetGraph runtimesAssetGraph bundleGraph._publicIdByAssetId
      bundleGraph._assetPublicIds)._publicIdByAssetId).Nodup) :
    (applyRuntimes X bundleGraph config pluginOptions runtimesBuilder).error
      = (applyConnections X runtimesAssetGraph
          (X.fromAssetGraph runtimesAssetGraph bundleGraph._publicIdByAssetId
            bundleGraph._assetPublicIds)
          (mergeRuntimesGraph bundleGraph
            (X.fromAssetGraph runtimesAssetGraph bundleGraph._publicIdByAssetId
              bundleGraph._assetPublicIds))
          (collectConnections X config pluginOptions bundleGraph).connections).2 ∧
    (∀ assetId publicId,
      (assetId, publicId) ∈ (X.fromAssetGraph runtimesAssetGraph bundleGraph._publicIdByAssetId
        bundleGraph._assetPublicIds)._publicIdByAssetId →
      JsMap.get (applyRuntimes X bundleGraph config pluginOptions
          runtimesBuilder).bundleGraph._publicIdByAssetId assetId = some publicId ∧
      publicId ∈ (applyRuntimes X bundleGraph config pluginOptions
          runtimesBuilder).bundleGraph._assetPublicIds) ∧
    (∀ assetId,
      assetId ∉ JsMap.keys (X.fromAssetGraph runtimesAssetGraph bundleGraph._publicIdByAssetId
        bundleGraph._assetPublicIds)._publicIdByAssetId →
      JsMap.get (applyRuntimes X bundleGraph config pluginOptions
          runtimesBuilder).bundleGraph._publicIdByAssetId assetId
        = JsMap.get bundleGraph._publicIdByAssetId assetId) ∧
    (∀ publicId ∈ bundleGraph._assetPublicIds,
      publicId ∈ (applyRuntimes X bundleGraph config pluginOptions
          runtimesBuilder).bundleGraph._assetPublicIds) := by
  obtain ⟨hg, herr⟩ := applyRuntimes_of_reconciled X bundleGraph config pluginOptions
    runtimesBuilder runtimesAssetGraph hc hrec
  obtain ⟨hp1, hp2⟩ := applyConnections_publicIds X runtimesAssetGraph
    (X.fromAssetGraph runtimesAssetGraph bundleGraph._publicIdByAssetId
      bundleGraph._assetPublicIds)
    (collectConnections X config pluginOptions bundleGraph).connections
    (mergeRuntimesGraph bundleGraph
      (X.fromAssetGraph runtimesAssetGraph bundleGraph._publicIdByAssetId
        bundleGraph._assetPublicIds))
  obtain ⟨m1, m2, m3⟩ := mergeRuntimesGraph_publicIds bundleGraph
    (X.fromAssetGraph runtimesAssetGraph bundleGraph._publicIdByAssetId
      bundleGraph._assetPublicIds) hkeys
  rw [hg, hp1, hp2]
  refine ⟨herr, ?_, m2, ?_⟩
  · intro assetId publicId hmem
    refine ⟨m1 assetId publicId hmem, (m3 publicId).2 (Or.inr ?_)⟩
    exact List.mem_map.2 ⟨(assetId, publicId), hmem, rfl⟩
  · intro publicId hmem
    exact (m3 publicId).2 (Or.inl hmem)

/-- Witness of C20 as amended: the pass of the counterexample; `main`, which the
main graph mapped to `m1`, is mapped to `zz` when the pass is over. -/
theorem publicIds_set_without_check_witness :
    JsMap.get (applyRuntimes Example.collidingExternals Example.sharedBundleGraph
        Example.loaderConfig Example.pluginOptions
        Example.helperABuilder).bundleGraph._publicIdByAssetId "main" = some "zz" ∧
      "zz" ∈ (applyRuntimes Example.collidingExternals Example.sharedBundleGraph
        Example.loaderConfig Example.pluginOptions
        Example.helperABuilder).bundleGraph._assetPublicIds :=
  (publicIds_set_without_check Example.collidingExternals Example.sharedBundleGraph
    Example.loaderConfig Example.pluginOptions Example.helperABuilder
    (Example.reconciled Example.collidingExternals Example.helperABuilder
      (collectConnections Example.collidingExternals Example.loaderConfig
        Example.pluginOptions Example.sharedBundleGraph).connections)
    (by decide) rfl (by decide)).2.1 "main" "zz" (by decide)

/-- C21: after the merge of lines 126-131, when the runtime mapping holds each
asset id once, the main mapping gives every asset id of the runtime mapping
the public id the runtime mapping gives it, gives every other asset id what it
gave before, and every public id of the runtime mapping is in the allocated
set, as is every public id that was there; so, if every public id of the main
mapping was allocated before the step, every public id of the main mapping is
allocated after it. -/
theorem publicIds_after_merge (bundleGraph runtimesGraph : InternalBundleGraph)
    (hkeys : (JsMap.keys runtimesGraph._publicIdByAssetId).Nodup) :
    (∀ assetId publicId, (assetId, publicId) ∈ runtimesGraph._publicIdByAssetId →
      JsMap.get (mergeRuntimesGraph bundleGraph runtimesGraph)._publicIdByAssetId assetId
        = some publicId) ∧
    (∀ assetId, assetId ∉ JsMap.keys runtimesGraph._publicIdByAssetId →
      JsMap.get (mergeRuntimesGraph bundleGraph runtimesGraph)._publicIdByAssetId assetId
        = JsMap.get bundleGraph._publicIdByAssetId assetId) ∧
    (∀ publicId ∈ JsMap.values runtimesGraph._publicIdByAssetId,
      publicId ∈ (mergeRuntimesGraph bundleGraph runtimesGraph)._assetPublicIds) ∧
    (∀ publicId ∈ bundleGraph._assetPublicIds,
      publicId ∈ (mergeRuntimesGraph bundleGraph runtimesGraph)._assetPublicIds) ∧
    ((∀ entry ∈ bundleGraph._publicIdByAssetId, entry.2 ∈ bundleGraph._assetPublicIds) →
      ∀ entry ∈ (mergeRuntimesGraph bundleGraph runtimesGraph)._publicIdByAssetId,
        entry.2 ∈ (mergeRuntimesGraph bundleGraph runtimesGraph)._assetPublicIds) := by
  obtain ⟨m1, m2, m3⟩ := mergeRuntimesGraph_publicIds bundleGraph runtimesGraph hkeys
  refine ⟨m1, m2, fun p hp => (m3 p).2 (Or.inr hp), fun p hp => (m3 p).2 (Or.inl hp), ?_⟩
  intro hbefore entry hentry
  rw [(mergeRuntimesGraph_parts bundleGraph runtimesGraph).2.1] at hentry
  rcases JsMap.foldl_set_subset _ _ entry hentry with h | h
  · exact (m3 entry.2).2 (Or.inl (hbefore entry h))
  · exact (m3 entry.2).2 (Or.inr (List.mem_map.2 ⟨entry, h, rfl⟩))

/-- Witness of C21: a runtime graph that maps the loader to the public id `r1` is
merged into the example graph, which maps `main` to `m1`; afterwards the loader
is mapped to `r1` and `main` still to `m1`. -/
theorem publicIds_after_merge_witness :
    JsMap.get (mergeRuntimesGraph Example.sharedBundleGraph
        { Example.sharedRuntimesGraph (Example.helperAssetGraph false) with
          _publicIdByAssetId := [(Example.loaderNode.id, "r1")] })._publicIdByAssetId
        Example.loaderNode.id = some "r1" ∧
      JsMap.get (mergeRuntimesGraph Example.sharedBundleGraph
        { Example.sharedRuntimesGraph (Example.helperAssetGraph false) with
          _publicIdByAssetId := [(Example.loaderNode.id, "r1")] })._publicIdByAssetId
        "main" = JsMap.get Example.sharedBundleGraph._publicIdByAssetId "main" :=
  ⟨(publicIds_after_merge Example.sharedBundleGraph
      { Example.sharedRuntimesGraph (Example.helperAssetGraph false) with
        _publicIdByAssetId := [(Example.loaderNode.id, "r1")] } (by decide)).1
      Example.loaderNode.id "r1" (by decide),
    (publicIds_after_merge Example.sharedBundleGraph
      { Example.sharedRuntimesGraph (Example.helperAssetGraph false) with
        _publicIdByAssetId := [(Example.loaderNode.id, "r1")] } (by decide)).2.1
      "main" (by decide)⟩

/-- C22, the code at the failing input: the provider returns for the child
bundle a record without dependency whose `isEntry` is false. The runtime
asset has an edge of the default kind from the root of the runtimes graph, so
the check of lines 191-196, which its comment and its message describe as the
test for an inbound dependency or an entry, passes, and the pass returns. The
pass has added a `contains` edge from the child bundle to the runtime asset.
The edges to the runtime asset come from the root, which is not a dependency,
and from the child bundle's own node; the child bundle contains neither of
the two, and the runtime asset is not in the entry list of the child
bundle. -/
theorem runtime_island_accepted :
    (collectConnections Example.sharedExternals Example.islandConfig Example.pluginOptions
        Example.sharedBundleGraph).connections = [Example.islandConnection] ∧
    Example.islandConnection.dependency = none ∧
    Example.islandConnection.isEntry = some false ∧
    Example.islandConnection.bundle.id = "child" ∧
    (applyRuntimes Example.sharedExternals Example.sharedBundleGraph Example.islandConfig
      Example.pluginOptions Example.runtimesBuilder).error = none ∧
    (⟨"child", Example.islandNode.id, some "contains"⟩ : Edge) ∉
      Example.sharedBundleGraph._graph.edges ∧
    (⟨"child", Example.islandNode.id, some "contains"⟩ : Edge) ∈
      (applyRuntimes Example.sharedExternals Example.sharedBundleGraph Example.islandConfig
        Example.pluginOptions Example.runtimesBuilder).bundleGraph._graph.edges ∧
    (∀ e ∈ (applyRuntimes Example.sharedExternals Example.sharedBundleGraph
        Example.islandConfig Example.pluginOptions
        Example.runtimesBuilder).bundleGraph._graph.edges,
      e.toId = Example.islandNode.id →
      (e.fromId = "@@root" ∨ e.fromId = "child") ∧
      (⟨"child", e.fromId, some "contains"⟩ : Edge) ∉
        (applyRuntimes Example.sharedExternals Example.sharedBundleGraph
          Example.islandConfig Example.pluginOptions
          Example.runtimesBuilder).bundleGraph._graph.edges) ∧
    ((applyRuntimes Example.sharedExternals Example.sharedBundleGraph Example.islandConfig
        Example.pluginOptions Example.runtimesBuilder).bundleGraph._graph.getNode
          "@@root").map Node.isDependency = some false ∧
    Example.islandNode.id ∉
      ((applyRuntimes Example.sharedExternals Example.sharedBundleGraph Example.islandConfig
        Example.pluginOptions Example.runtimesBuilder).bundleGraph.currentBundle
          Example.childBundle).entryAssetIds := by
  refine ⟨?_, rfl, rfl, rfl, ?_, ?_, ?_, ?_, ?_, ?_⟩ <;> decide

/-- C23, counterexample: three example passes, one for each fatal condition. The
pass in which a provider throws fails with a structured diagnostic; the pass
in which a request has no asset, and the pass in which a runtime asset has no
inbound edge of the default kind, fail with assertion errors, which are not
structured diagnostics. -/
theorem failure_kind_counterexample :
    (applyRuntimes Example.externals Example.bundleGraph Example.failingConfig
      Example.pluginOptions Example.runtimesBuilder).error
        = some (PassError.throwableDiagnostic
            { message := "boom", origin := "runtime-failing" }) ∧
    (applyRuntimes Example.externals Example.bundleGraph Example.config
      Example.pluginOptions Example.idleBuilder).error
        = some (PassError.assertionError none) ∧
    (applyRuntimes Example.externals Example.sharedBundleGraph Example.islandConfig
      Example.pluginOptions Example.runtimesBuilder).error
        = some (PassError.assertionError
            (some "Runtime must have an inbound dependency or be an entry")) ∧
    (PassError.assertionError none).isStructuredDiagnostic = false ∧
    (PassError.assertionError
      (some "Runtime must have an inbound dependency or be an entry")).isStructuredDiagnostic
        = false := by
  refine ⟨?_, ?_, ?_, rfl, rfl⟩ <;> decide

/-- C23, amended: a pass that fails in the provider loop fails with the structured
diagnostic built from the error of a provider that threw and the name of that
provider. A pass that reaches a connection whose request has a number of
nodes connected from it that is not one fails with an assertion error without
message, and a pass that reaches a connection without dependency whose walks
and entry step pass and whose runtime node has no node connected to it fails
with the assertion error of message `Runtime must have an inbound dependency
or be an entry`; neither is a structured diagnostic. -/
theorem failure_kinds (X : Externals) (bundleGraph : InternalBundleGraph)
    (config : ParcelConfig) (pluginOptions : PluginOptions)
    (runtimesBuilder : AssetGraphBuilder) :
    (∀ err, (collectConnections X config pluginOptions bundleGraph).error = some err →
      (applyRuntimes X bundleGraph config pluginOptions runtimesBuilder).error = some err ∧
      err.isStructuredDiagnostic = true ∧
      ∃ q ∈ providerQueries config bundleGraph.getBundles, ∃ e,
        q.2.apply q.1 bundleGraph = .error e ∧
        err = PassError.throwableDiagnostic (X.errorToDiagnostic e q.2.name)) ∧
    (∀ (runtimesAssetGraph : Graph) (pre post : List RuntimeConnection)
        (connection : RuntimeConnection) (reached : InternalBundleGraph),
      (collectConnections X config pluginOptions bundleGraph).error = none →
      (collectConnections X config pluginOptions bundleGraph).connections
        = pre ++ connection :: post →
      reconcileNewRuntimes X runtimesBuilder
        (collectConnections X config pluginOptions bundleGraph).connections
          = .ok runtimesAssetGraph →
      applyConnections X runtimesAssetGraph
        (X.fromAssetGraph runtimesAssetGraph bundleGraph._publicIdByAssetId
          bundleGraph._assetPublicIds)
        (mergeRuntimesGraph bundleGraph
          (X.fromAssetGraph runtimesAssetGraph bundleGraph._publicIdByAssetId
            bundleGraph._assetPublicIds)) pre = (reached, none) →
      (∀ ns, runtimesAssetGraph.getNodesConnectedFrom
          (nodeFromAssetGroup X.md5FromObject connection.assetGroup) none = .ok ns →
        ns.length ≠ 1 →
        (applyRuntimes X bundleGraph config pluginOptions runtimesBuilder).error
          = some (PassError.assertionError none)) ∧
      (∀ runtimeNode,
        locateRuntimeNode X runtimesAssetGraph connection.assetGroup = .ok runtimeNode →
        connection.dependency = none →
        (duplicatedWalk X reached
          (X.fromAssetGraph runtimesAssetGraph bundleGraph._publicIdByAssetId
            bundleGraph._assetPublicIds) connection.bundle
          (resolutionOf X reached connection.bundle connection.dependency) runtimeNode).2
            = none →
        (containsWalk
          (X.fromAssetGraph runtimesAssetGraph bundleGraph._publicIdByAssetId
            bundleGraph._assetPublicIds) connection.bundle
          (duplicatedIdsOf X
            (X.fromAssetGraph runtimesAssetGraph bundleGraph._publicIdByAssetId
              bundleGraph._assetPublicIds) reached connection runtimeNode) runtimeNode
          reached).2 = none →
        (entryStep (containedGraph X
            (X.fromAssetGraph runtimesAssetGraph bundleGraph._publicIdByAssetId
              bundleGraph._assetPublicIds) reached connection runtimeNode)
          connection.bundle runtimeNode connection.isEntry).2 = none →
        (enteredGraph X
            (X.fromAssetGraph runtimesAssetGraph bundleGraph._publicIdByAssetId
              bundleGraph._assetPublicIds) reached connection
            runtimeNode)._graph.getNodesConnectedTo runtimeNode none = .ok [] →
        (applyRuntimes X bundleGraph config pluginOptions runtimesBuilder).error
          = some (PassError.assertionError
              (some "Runtime must have an inbound dependency or be an entry")))) ∧
    (∀ message, (PassError.assertionError message).isStructuredDiagnostic = false) := by
  refine ⟨?_, ?_, fun _ => rfl⟩
  · intro err herr
    have hres := applyRuntimes_of_error X bundleGraph config pluginOptions runtimesBuilder err
      herr
    rw [collectConnections_eq_queryAll] at herr
    obtain ⟨q, hq, e, he, hkind⟩ := queryAll_error_kind X pluginOptions bundleGraph _ [] [] err
      herr
    refine ⟨by rw [hres], ?_, q, hq, e, he, hkind⟩
    rw [hkind]
    rfl
  · intro rag pre post connection reached hnone hconn hrec hpre
    refine ⟨?_, ?_⟩
    · intro ns hns hlen
      have hloc := locateRuntimeNode_error_of_count X rag connection.assetGroup ns hns
        (Or.inl hlen)
      exact (applyRuntimes_error_at X bundleGraph config pluginOptions runtimesBuilder rag pre
        post connection reached reached _ hnone hconn hrec hpre
        (by simp only [applyConnection, hloc])).1
    · intro runtimeNode hloc hd h1 h2 h3 hin
      have hlink := connectRuntimeNode_link X _ reached connection runtimeNode h1 h2 h3
      have hisland := ((linkStep_spec (enteredGraph X
        (X.fromAssetGraph rag bundleGraph._publicIdByAssetId bundleGraph._assetPublicIds)
        reached connection runtimeNode) runtimeNode connection.dependency).2.2.2.2.2 hd).1.2 hin
      refine (applyRuntimes_error_at X bundleGraph config pluginOptions runtimesBuilder rag pre
        post connection reached
        (linkStep (enteredGraph X
          (X.fromAssetGraph rag bundleGraph._publicIdByAssetId bundleGraph._assetPublicIds)
          reached connection runtimeNode) runtimeNode connection.dependency).1
        _ hnone hconn hrec hpre ?_).1
      simp only [applyConnection, hloc]
      rw [hlink]
      exact Prod.ext rfl hisland

/-- Witness of C23 as amended: the example pass in which the provider
`runtime-failing` throws for bundle B ends with a structured diagnostic. -/
theorem failure_kinds_witness :
    (applyRuntimes Example.externals Example.bundleGraph Example.failingConfig
        Example.pluginOptions Example.runtimesBuilder).error
      = some (PassError.throwableDiagnostic
          { message := "boom", origin := "runtime-failing" }) ∧
    (PassError.throwableDiagnostic
      { message := "boom", origin := "runtime-failing" }).isStructuredDiagnostic = true :=
  ⟨((failure_kinds Example.externals Example.bundleGraph Example.failingConfig
      Example.pluginOptions Example.runtimesBuilder).1 _ (by decide)).1,
   ((failure_kinds Example.externals Example.bundleGraph Example.failingConfig
      Example.pluginOptions Example.runtimesBuilder).1
      (PassError.throwableDiagnostic { message := "boom", origin := "runtime-failing" })
      (by decide)).2.1⟩

/-- C24: in a main graph keyed by node identifier, a connection with `isEntry`
true and no dependency whose entry step passes never fails the island check:
the link step does not end with the island-integrity error, and when the main
graph holds `runtimeNode` the bundle's node is connected to it and the link
step passes. So, for every connection whose entry step passes on a graph that
holds `runtimeNode`, the link step of the code, which checks whenever the
dependency is absent, gives what the link step of the spec gives, which checks
only when the dependency is absent and `isEntry` is not true; and the body of
the loop ends with the latter when its walks pass. -/
theorem island_check_equivalence (X : Externals)
    (runtimesGraph bundleGraph : InternalBundleGraph)
    (connection : RuntimeConnection) (runtimeNode : Node)
    (hk : bundleGraph._graph.keyedById = true)
    (h3 : (entryStep (containedGraph X runtimesGraph bundleGraph connection runtimeNode)
      connection.bundle runtimeNode connection.isEntry).2 = none) :
    (connection.isEntry = some true → connection.dependency = none →
      (linkStep (enteredGraph X runtimesGraph bundleGraph connection runtimeNode) runtimeNode
        connection.dependency).2
          ≠ some (PassError.assertionError
              (some "Runtime must have an inbound dependency or be an entry"))) ∧
    (bundleGraph._graph.hasNode runtimeNode.id = true →
      (connection.isEntry = some true → connection.dependency = none →
        (∃ inbound, (enteredGraph X runtimesGraph bundleGraph connection
            runtimeNode)._graph.getNodesConnectedTo runtimeNode none = .ok inbound ∧
          0 < inbound.length) ∧
        linkStep (enteredGraph X runtimesGraph bundleGraph connection runtimeNode) runtimeNode
          connection.dependency
            = (enteredGraph X runtimesGraph bundleGraph connection runtimeNode, none)) ∧
      linkStep (enteredGraph X runtimesGraph bundleGraph connection runtimeNode) runtimeNode
          connection.dependency
        = specLinkStep (enteredGraph X runtimesGraph bundleGraph connection runtimeNode)
            runtimeNode connection.isEntry connection.dependency ∧
      ((duplicatedWalk X bundleGraph runtimesGraph connection.bundle
          (resolutionOf X bundleGraph connection.bundle connection.dependency)
          runtimeNode).2 = none →
        (containsWalk runtimesGraph connection.bundle
          (duplicatedIdsOf X runtimesGraph bundleGraph connection runtimeNode) runtimeNode
          bundleGraph).2 = none →
        connectRuntimeNode X runtimesGraph bundleGraph connection runtimeNode
          = specLinkStep (enteredGraph X runtimesGraph bundleGraph connection runtimeNode)
              runtimeNode connection.isEntry connection.dependency)) := by
  obtain ⟨c1, -, -⟩ := containedGraph_frame X runtimesGraph bundleGraph connection runtimeNode
  have hkc : (containedGraph X runtimesGraph bundleGraph connection
      runtimeNode)._graph.keyedById = true :=
    Graph.keyedById_of_nodes _ _ c1 hk
  have hheld : ∀ key, (containedGraph X runtimesGraph bundleGraph connection
      runtimeNode)._graph.hasNode key = bundleGraph._graph.hasNode key := by
    intro key
    simp only [Graph.hasNode, Graph.getNode_congr _ _ c1]
  have hpass : bundleGraph._graph.hasNode runtimeNode.id = true →
      connection.isEntry = some true →
      ∃ inbound, (enteredGraph X runtimesGraph bundleGraph connection
          runtimeNode)._graph.getNodesConnectedTo runtimeNode none = .ok inbound ∧
        0 < inbound.length := by
    intro hrt he
    exact entryStep_inbound _ connection.bundle runtimeNode connection.isEntry hkc
      (by rw [hheld]; exact hrt) he h3
  have hlink : bundleGraph._graph.hasNode runtimeNode.id = true →
      connection.isEntry = some true → connection.dependency = none →
      linkStep (enteredGraph X runtimesGraph bundleGraph connection runtimeNode) runtimeNode
        connection.dependency
          = (enteredGraph X runtimesGraph bundleGraph connection runtimeNode, none) := by
    intro hrt he hd
    obtain ⟨inbound, hin, hlen⟩ := hpass hrt he
    rw [hd]
    simp only [linkStep, hin, gt_iff_lt, hlen, if_true]
  have hequiv : bundleGraph._graph.hasNode runtimeNode.id = true →
      linkStep (enteredGraph X runtimesGraph bundleGraph connection runtimeNode) runtimeNode
          connection.dependency
        = specLinkStep (enteredGraph X runtimesGraph bundleGraph connection runtimeNode)
            runtimeNode connection.isEntry connection.dependency := by
    intro hrt
    cases hd : connection.dependency with
    | some d => rfl
    | none =>
      by_cases he : connection.isEntry = some true
      · have := hlink hrt he hd
        rw [hd] at this
        rw [this]
        simp only [specLinkStep, he, if_true]
      · simp only [specLinkStep, he, if_false, linkStep]
  refine ⟨?_, fun hrt => ⟨fun he hd => ⟨hpass hrt he, hlink hrt he hd⟩, hequiv hrt, ?_⟩⟩
  · intro he hd
    cases hrt : bundleGraph._graph.hasNode runtimeNode.id with
    | true =>
      rw [hlink hrt he hd]
      simp
    | false =>
      have hno : (enteredGraph X runtimesGraph bundleGraph connection
          runtimeNode)._graph.hasNode runtimeNode.id = false := by
        unfold enteredGraph
        rw [entryStep_hasNode, hheld]
        exact hrt
      rw [hd]
      simp only [linkStep, Graph.getNodesConnectedTo_absent _ _ _ hno]
      simp
  · intro h1 h2
    rw [connectRuntimeNode_link X runtimesGraph bundleGraph connection runtimeNode h1 h2 h3]
    exact hequiv hrt

/-- Witness of C24: the loader of the example, an entry of the child bundle
without dependency; the link step passes. -/
theorem island_check_equivalence_witness :
    linkStep (enteredGraph Example.sharedExternals
        (Example.sharedRuntimesGraph (Example.helperAssetGraph false))
        (Example.helperMerged false)
        (connectionOf Example.sharedExternals Example.pluginOptions Example.childBundle
          Example.loader) Example.loaderNode) Example.loaderNode
        (connectionOf Example.sharedExternals Example.pluginOptions Example.childBundle
          Example.loader).dependency
      = (enteredGraph Example.sharedExternals
          (Example.sharedRuntimesGraph (Example.helperAssetGraph false))
          (Example.helperMerged false)
          (connectionOf Example.sharedExternals Example.pluginOptions Example.childBundle
            Example.loader) Example.loaderNode, none) :=
  (((island_check_equivalence Example.sharedExternals
    (Example.sharedRuntimesGraph (Example.helperAssetGraph false))
    (Example.helperMerged false)
    (connectionOf Example.sharedExternals Example.pluginOptions Example.childBundle
      Example.loader) Example.loaderNode (by decide) (by decide)).2 (by decide)).1 rfl rfl).2

/-- C25: the request built for a runtime record registers exactly one source
content: the record's code under the synthetic source name, which is the
directory of the record's file path joined with `runtime-`, the hash of the
code, a dot and the bundle type; the source map of the request is the empty
map made for that name and code. Two records whose file paths have the same
directory and whose code is the same get the same source name in bundles of
the same type. Every connection of a pass holds such a request. -/
theorem sourcesContent_single_entry (X : Externals) (bundleGraph : InternalBundleGraph)
    (config : ParcelConfig) (pluginOptions : PluginOptions) :
    (∀ (bundle : InternalBundle) (record : RuntimeAsset),
      (assetGroupOf X pluginOptions bundle record).sourcesContent
        = [(sourceName X bundle record, record.code)] ∧
      (assetGroupOf X pluginOptions bundle record).mapBuffer
        = X.emptyMapBuffer pluginOptions.projectRoot (sourceName X bundle record)
            record.code ∧
      sourceName X bundle record
        = X.pathJoin (X.pathDirname record.filePath)
            ("runtime-" ++ X.md5FromString record.code ++ "." ++ bundle.type)) ∧
    (∀ (bundle bundle1 : InternalBundle) (record record1 : RuntimeAsset),
      X.pathDirname record.filePath = X.pathDirname record1.filePath →
      record.code = record1.code → bundle.type = bundle1.type →
      sourceName X bundle record = sourceName X bundle1 record1) ∧
    (∀ c ∈ (collectConnections X config pluginOptions bundleGraph).connections,
      ∃ q ∈ providerQueries config bundleGraph.getBundles,
        ∃ applied, q.2.apply q.1 bundleGraph = .ok applied ∧
        ∃ record ∈ runtimeAssets applied,
          c.assetGroup.sourcesContent = [(sourceName X q.1 record, record.code)] ∧
          c.assetGroup.code = record.code) := by
  refine ⟨fun _ _ => ⟨rfl, rfl, rfl⟩, ?_, ?_⟩
  · intro bundle bundle1 record record1 hdir hcode htype
    unfold sourceName
    rw [hdir, hcode, htype]
  · intro c hc
    rw [collectConnections_eq_queryAll] at hc
    rcases queryAll_sound X pluginOptions bundleGraph _ [] [] c hc with h | h
    · cases h
    · obtain ⟨q, hq, applied, happ, record, hrec, rfl⟩ := h
      exact ⟨q, hq, applied, happ, record, hrec, rfl, rfl⟩

/-- Witness of C25: the registry of the example in bundle A and in bundle B, two
bundles of type `js`, has the same source name. -/
theorem sourcesContent_single_entry_witness :
    sourceName Example.externals Example.bundleA Example.register
      = sourceName Example.externals Example.bundleB Example.register :=
  (sourcesContent_single_entry Example.externals Example.bundleGraph Example.config
    Example.pluginOptions).2.1 Example.bundleA Example.bundleB Example.register
    Example.register rfl rfl (by decide)

/-- C26: if a provider query of the pass throws, the pass leaves the bundle graph
exactly as it was handed in: the same nodes and edges, the same bundles with
the same entry lists, the same public-id mapping and the same allocated set;
so a pass that changes the bundle graph has queried every provider of every
bundle without error. -/
theorem provider_failure_leaves_graph (X : Externals) (bundleGraph : InternalBundleGraph)
    (config : ParcelConfig) (pluginOptions : PluginOptions)
    (runtimesBuilder : AssetGraphBuilder) :
    ((∃ q ∈ providerQueries config bundleGraph.getBundles,
        ∃ e, q.2.apply q.1 bundleGraph = .error e) →
      (applyRuntimes X bundleGraph config pluginOptions runtimesBuilder).bundleGraph
        = bundleGraph ∧
      (applyRuntimes X bundleGraph config pluginOptions
        runtimesBuilder).bundleGraph._graph.nodes = bundleGraph._graph.nodes ∧
      (applyRuntimes X bundleGraph config pluginOptions
        runtimesBuilder).bundleGraph._graph.edges = bundleGraph._graph.edges ∧
      (applyRuntimes X bundleGraph config pluginOptions
        runtimesBuilder).bundleGraph.getBundles = bundleGraph.getBundles ∧
      (applyRuntimes X bundleGraph config pluginOptions
        runtimesBuilder).bundleGraph._publicIdByAssetId = bundleGraph._publicIdByAssetId ∧
      (applyRuntimes X bundleGraph config pluginOptions
        runtimesBuilder).bundleGraph._assetPublicIds = bundleGraph._assetPublicIds ∧
      (applyRuntimes X bundleGraph config pluginOptions runtimesBuilder).error ≠ none) ∧
    ((applyRuntimes X bundleGraph config pluginOptions runtimesBuilder).bundleGraph
        ≠ bundleGraph →
      ∀ q ∈ providerQueries config bundleGraph.getBundles,
        ∃ applied, q.2.apply q.1 bundleGraph = .ok applied) := by
  have hkeep : (collectConnections X config pluginOptions bundleGraph).error ≠ none →
      (applyRuntimes X bundleGraph config pluginOptions runtimesBuilder).bundleGraph
        = bundleGraph ∧
      (applyRuntimes X bundleGraph config pluginOptions runtimesBuilder).error ≠ none := by
    intro h
    cases herr : (collectConnections X config pluginOptions bundleGraph).error with
    | none => exact absurd herr h
    | some err =>
      rw [applyRuntimes_of_error X bundleGraph config pluginOptions runtimesBuilder err herr]
      exact ⟨rfl, by simp⟩
  have hiff := queryAll_error_iff X pluginOptions bundleGraph
    (providerQueries config bundleGraph.getBundles) [] []
  rw [← collectConnections_eq_queryAll] at hiff
  refine ⟨?_, ?_⟩
  · rintro ⟨q, hq, e, he⟩
    have hne : (collectConnections X config pluginOptions bundleGraph).error ≠ none := by
      intro hnone
      obtain ⟨applied, happ⟩ := hiff.1 hnone q hq
      rw [he] at happ
      cases happ
    obtain ⟨h1, h2⟩ := hkeep hne
    rw [h1]
    exact ⟨rfl, rfl, rfl, rfl, rfl, rfl, h2⟩
  · intro hchanged
    apply hiff.1
    by_contra hne
    exact hchanged (hkeep hne).1

/-- Witness of C26: the example pass in which the provider `runtime-failing`
throws for bundle B leaves the example graph as it was. -/
theorem provider_failure_leaves_graph_witness :
    (applyRuntimes Example.externals Example.bundleGraph Example.failingConfig
        Example.pluginOptions Example.runtimesBuilder).bundleGraph = Example.bundleGraph :=
  ((provider_failure_leaves_graph Example.externals Example.bundleGraph Example.failingConfig
    Example.pluginOptions Example.runtimesBuilder).1
    ⟨(Example.bundleB, Example.failingRuntime),
      by rw [Example.providerQueries_failingConfig]; simp,
      { message := "boom" }, rfl⟩).1

namespace Repl

/-- C27: for every state whose views are a `Map` and every `view.open` action
with a component or with the name of a file that exists, the reducer returns;
`currentView` is then the index of the opened name in the views, whose entry
holds the component or the value of the file; the names of the views are those
that were open, in their order, followed by the opened name if it was not
open; opening a name that is open does not change the number of views; every
other view and every other field of the state is as it was. -/
theorem view_open_index {F : Type} (env : Env F) (steps : Nat) (state : State F)
    (name : String) (component : Option String)
    (hnodup : (JsMap.keys state.views).Nodup)
    (hopen : component ≠ none ∨ env.get state.files name ≠ none) :
    ∃ result view,
      reducer env steps state (Action.viewOpen name component) = .ok result ∧
      openedView env state name component = some view ∧
      atIndex result.views result.currentView = some (name, view) ∧
      0 ≤ result.currentView ∧ result.currentView < result.views.length ∧
      JsMap.keys result.views
        = (if name ∈ JsMap.keys state.views then JsMap.keys state.views
          else JsMap.keys state.views ++ [name]) ∧
      (name ∈ JsMap.keys state.views → result.views.length = state.views.length) ∧
      (∀ other, other ≠ name → JsMap.get result.views other = JsMap.get state.views other) ∧
      result.files = state.files ∧ result.browserExpanded = state.browserExpanded ∧
      result.isEditing = state.isEditing ∧ result.options = state.options ∧
      result.useTabs = state.useTabs ∧ result.diagnostics = state.diagnostics := by
  have hview : ∃ view, openedView env state name component = some view := by
    cases component with
    | some c => exact ⟨_, rfl⟩
    | none =>
      rcases hopen with h | h
      · exact absurd rfl h
      · cases hget : env.get state.files name with
        | none => exact absurd hget h
        | some file => exact ⟨View.text file.value, by simp [openedView, hget]⟩
  obtain ⟨view, hview⟩ := hview
  have hset : JsMap.get (JsMap.set state.views name view) name = some view := by
    rw [JsMap.get_set]
    simp
  obtain ⟨h0, hlt, hat⟩ := findIndex_key (JsMap.set state.views name view)
    (nodup_keys_set state.views name view hnodup) name view hset
  refine ⟨{ state with
      views := JsMap.set state.views name view
      currentView :=
        findIndex (fun entry => decide (entry.1 = name)) (JsMap.set state.views name view) },
    view, ?_, hview, hat, h0, hlt, JsMap.keys_set state.views name view, ?_, ?_,
    rfl, rfl, rfl, rfl, rfl, rfl⟩
  · simp only [reducer]
    rw [viewOpen_eq env state name component hnodup, hview]
  · intro hmem
    simp only [length_set, hmem, if_true]
  · intro other hother
    simp only [JsMap.get_set, hother.symm, if_false]

/-- Witness of C27: in the example state with the views `/a.js` and `/a.js.map`,
the second one current, `/a.js` is opened again: it becomes the current view,
at index 0, and the views are still two. -/
theorem view_open_index_witness :
    ∃ result view,
      reducer Example.env 0 Example.twoViews (Action.viewOpen "/a.js" none) = .ok result ∧
      openedView Example.env Example.twoViews "/a.js" none = some view ∧
      atIndex result.views result.currentView = some ("/a.js", view) ∧
      0 ≤ result.currentView ∧ result.currentView < result.views.length ∧
      JsMap.keys result.views
        = (if "/a.js" ∈ JsMap.keys Example.twoViews.views then JsMap.keys Example.twoViews.views
          else JsMap.keys Example.twoViews.views ++ ["/a.js"]) ∧
      ("/a.js" ∈ JsMap.keys Example.twoViews.views →
        result.views.length = Example.twoViews.views.length) ∧
      (∀ other, other ≠ "/a.js" →
        JsMap.get result.views other = JsMap.get Example.twoViews.views other) ∧
      result.files = Example.twoViews.files ∧
      result.browserExpanded = Example.twoViews.browserExpanded ∧
      result.isEditing = Example.twoViews.isEditing ∧
      result.options = Example.twoViews.options ∧
      result.useTabs = Example.twoViews.useTabs ∧
      result.diagnostics = Example.twoViews.diagnostics :=
  view_open_index Example.env 0 Example.twoViews "/a.js" none (by decide)
    (Or.inr (by decide))

end Repl

namespace Repl

/-- C28, the code at the failing input: a text view that holds the empty string.
Such a view is what `file.addFile` followed by `view.open` of the new file
gives. On it `view.setValue` with the value `x` returns the state as it is:
the value of the view is still the empty string, not the value of the
action. -/
theorem empty_view_ignores_setValue :
    JsMap.get Example.emptyFile.views "/file1.js" = some (View.text (some "")) ∧
    reducer Example.env 0 Example.emptyFile (Action.viewSetValue "/file1.js" "x")
      = .ok Example.emptyFile ∧
    (∃ added opened,
      reducer Example.env 0 (initialState Example.env) Action.fileAddFile = .ok added ∧
      reducer Example.env 0 added (Action.viewOpen "/file1.js" none) = .ok opened ∧
      opened.views = [("/file1.js", View.text (some ""))] ∧
      reducer Example.env 0 opened (Action.viewSetValue "/file1.js" "x") = .ok opened) :=
  ⟨rfl, rfl, _, _, rfl, rfl, rfl, rfl⟩

/-- C29, counterexample: in the example state two views are open and the second
one is current, so `currentView` is the index of a view. After `view.close` of
the first view, after `view.closeCurrent`, and after `file.delete` of the
second file, one view is open and `currentView` is still 1, the index of no
view; and `view.saveCurrent` with tabs then throws. `view.select` sets any
index. `file.move` and the renaming of `browser.setEditing` give a view the
name of another open view, so that one view is left of the two, and leave
`currentView` as it is. -/
theorem view_index_counterexample :
    ViewIndexed Example.twoViews ∧ Example.twoViews.useTabs = true ∧
    (∃ result,
      reducer Example.env 0 Example.twoViews (Action.viewClose "/a.js") = .ok result ∧
      result.views = [("/a.js.map", View.text (some "map"))] ∧ result.currentView = 1 ∧
      ¬ ViewIndexed result ∧
      reducer Example.env 0 result Action.viewSaveCurrent = .error ReplError.typeError) ∧
    (∃ result,
      reducer Example.env 0 Example.twoViews Action.viewCloseCurrent = .ok result ∧
      result.views = [("/a.js", View.text (some "a"))] ∧ result.currentView = 1 ∧
      ¬ ViewIndexed result) ∧
    (∃ result,
      reducer Example.env 0 Example.twoViews (Action.fileDelete "/a.js.map") = .ok result ∧
      result.views = [("/a.js", View.text (some "a"))] ∧ result.currentView = 1 ∧
      ¬ ViewIndexed result) ∧
    (∃ result,
      reducer Example.env 0 Example.twoViews (Action.viewSelect 5) = .ok result ∧
      ¬ ViewIndexed result) ∧
    (ViewIndexed Example.nestedViews ∧
      ∃ result,
        reducer Example.env 0 Example.nestedViews (Action.fileMove "/lib/a.js" "")
          = .ok result ∧
        result.views = [("/a.js", View.text (some "b"))] ∧ result.currentView = 1 ∧
        ¬ ViewIndexed result) ∧
    (ViewIndexed Example.beingRenamed ∧
      ∃ result,
        reducer Example.env 0 Example.beingRenamed (Action.browserSetEditing none "a.js")
          = .ok result ∧
        result.views = [("/a.js", View.text (some "map"))] ∧ result.currentView = 1 ∧
        ¬ ViewIndexed result) := by
  refine ⟨?_, rfl, ⟨_, rfl, rfl, rfl, ?_, rfl⟩, ⟨_, rfl, rfl, rfl, ?_⟩,
    ⟨_, rfl, rfl, rfl, ?_⟩, ⟨_, rfl, ?_⟩, ⟨?_, _, rfl, by decide, rfl, ?_⟩,
    ⟨?_, _, rfl, by decide, rfl, ?_⟩⟩
  · intro _; decide
  · intro h; have := (h (by decide)).2; revert this; decide
  · intro h; have := (h (by decide)).2; revert this; decide
  · intro h; have := (h (by decide)).2; revert this; decide
  · intro h; have := (h (by decide)).2; revert this; decide
  · intro _; decide
  · intro h; have := (h (by decide)).2; revert this; decide
  · intro _; decide
  · intro h; have := (h (by decide)).2; revert this; decide

/-- C29, amended: the reducer keeps the invariant that `currentView` is the index
of a view whenever a view is open for every action that returns and is not
`view.select`, `view.close`, `view.closeCurrent`, `file.delete`, `file.move` or
`browser.setEditing`: `view.open` makes the opened view current, a preset is
loaded without views, and the other actions leave the number of views and
`currentView` as they are. The six actions named set `currentView` from
outside or change the views without touching `currentView`. -/
theorem view_index_preserved {F : Type} (env : Env F) (steps : Nat) (state result : State F)
    (action : Action)
    (hnodup : (JsMap.keys state.views).Nodup)
    (hinv : ViewIndexed state)
    (haction : action.leavesIndexAlone = true)
    (hreturns : reducer env steps state action = .ok result) :
    ViewIndexed result := by
  cases action with
  | viewSelect index => cases haction
  | viewClose name => cases haction
  | viewCloseCurrent => cases haction
  | fileMove name dir => cases haction
  | fileDelete name => cases haction
  | browserSetEditing name value => cases haction
  | other type => cases hreturns
  | viewOpen name component =>
    simp only [reducer] at hreturns
    rw [viewOpen_eq env state name component hnodup] at hreturns
    cases hview : openedView env state name component with
    | none => rw [hview] at hreturns; cases hreturns
    | some view =>
      rw [hview] at hreturns
      simp only [Except.ok.injEq] at hreturns
      subst hreturns
      have hset : JsMap.get (JsMap.set state.views name view) name = some view := by
        rw [JsMap.get_set]
        simp
      obtain ⟨h0, hlt, -⟩ := findIndex_key (JsMap.set state.views name view)
        (nodup_keys_set state.views name view hnodup) name view hset
      intro _
      exact ⟨h0, hlt⟩
  | viewSetValue name value =>
    simp only [reducer] at hreturns
    rw [viewSetValue_eq state name value hnodup] at hreturns
    cases hget : JsMap.get state.views name with
    | none => rw [hget] at hreturns; cases hreturns
    | some data =>
      rw [hget] at hreturns
      simp only at hreturns
      split at hreturns
      · simp only [Except.ok.injEq] at hreturns
        subst hreturns
        have hmem : name ∈ JsMap.keys state.views :=
          List.mem_map.2 ⟨(name, data), JsMap.mem_of_get _ _ _ hget, rfl⟩
        have hlen : (JsMap.set state.views name (View.text (some value))).length
            = state.views.length := by
          simp only [length_set, hmem, if_true]
        have hne : state.views ≠ [] := by
          intro h
          rw [h] at hmem
          cases hmem
        intro _
        show 0 ≤ state.currentView ∧
          state.currentView < ((JsMap.set state.views name (View.text (some value))).length : Int)
        rw [hlen]
        exact hinv hne
      · simp only [Except.ok.injEq] at hreturns
        subst hreturns
        exact hinv
  | viewSaveCurrent =>
    simp only [reducer] at hreturns
    obtain ⟨hv, hc⟩ := saveCurrent_views env state result hreturns
    exact ViewIndexed.congr state result hv hc hinv
  | fileAddFile =>
    obtain ⟨hv, hc⟩ := fileAdd_views env steps state result (Or.inl hreturns)
    exact ViewIndexed.congr state result hv hc hinv
  | fileAddFolder =>
    obtain ⟨hv, hc⟩ := fileAdd_views env steps state result (Or.inr hreturns)
    exact ViewIndexed.congr state result hv hc hinv
  | fileIsEntry name value =>
    simp only [reducer, Except.ok.injEq] at hreturns
    subst hreturns
    exact hinv
  | browserExpandToggle name =>
    simp only [reducer, Except.ok.injEq] at hreturns
    subst hreturns
    exact hinv
  | presetLoad name =>
    simp only [reducer] at hreturns
    intro hne
    exact absurd (loadPreset_views env _ result hreturns) hne
  | options name value =>
    simp only [reducer, Except.ok.injEq] at hreturns
    subst hreturns
    exact hinv
  | toggleView =>
    simp only [reducer, Except.ok.injEq] at hreturns
    subst hreturns
    exact hinv
  | diagnostics value =>
    simp only [reducer, Except.ok.injEq] at hreturns
    subst hreturns
    exact hinv

/-- Witness of C29 as amended: in the example state `view.setValue` on the first
view keeps `currentView` the index of a view. -/
theorem view_index_preserved_witness :
    ViewIndexed
      { Example.twoViews with
        views := [("/a.js", View.text (some "b")), ("/a.js.map", View.text (some "map"))] } :=
  view_index_preserved Example.env 0 Example.twoViews _ (Action.viewSetValue "/a.js" "b")
    (by decide) (by intro _; decide) rfl rfl

/-- C30, the code at the failing input: the files `/a.js` and `/a.js.map` are both
open. `/a.js.map` is not `/a.js` and does not lie inside a folder `/a.js`, but
its name starts with the characters of `/a.js`: `file.delete` of `/a.js` closes
both views, and no view is left, while the file `/a.js.map` is still there. -/
theorem delete_closes_sibling_view :
    Example.twoViews.views
      = [("/a.js", View.text (some "a")), ("/a.js.map", View.text (some "map"))] ∧
    isAtOrInside "/a.js.map" "/a.js" = false ∧
    startsWith "/a.js.map" "/a.js" = true ∧
    (∃ result,
      reducer Example.env 0 Example.twoViews (Action.fileDelete "/a.js") = .ok result ∧
      result.views = [] ∧
      Example.env.get result.files "/a.js.map" = some { value := some "map" }) := by
  refine ⟨rfl, by decide, by decide, _, rfl, rfl, rfl⟩

end Repl

namespace Repl

/-- C31: for every state whose files are among finitely many names, `file.addFile`
returns as soon as it is given as many steps as there are names: there is a
least positive `i` whose name `/file<i>.js` is not taken, it is at most the
number of names plus one, and the resulting state is the state with the empty
file of that name `set` in the files, every other field being as it was; with
fewer steps the model returns this state or runs out of steps, never another
state. When `set` and `get` of the file system behave as on a `Map`, the new
file is there with the empty string as its value and every other name has the
file it had. -/
theorem addFile_least_free {F : Type} (env : Env F) (state : State F) (names : List String)
    (hfinite : ∀ n, env.has state.files n = true → n ∈ names) :
    ∃ i, 1 ≤ i ∧ i ≤ names.length + 1 ∧
      env.has state.files (fileName i) = false ∧
      (∀ j, 1 ≤ j → j < i → env.has state.files (fileName j) = true) ∧
      (∀ steps, names.length ≤ steps →
        reducer env steps state Action.fileAddFile
          = .ok { state with
              files := env.set state.files (fileName i) { value := some "" } }) ∧
      (∀ steps result, reducer env steps state Action.fileAddFile = .ok result →
        result = { state with
          files := env.set state.files (fileName i) { value := some "" } }) ∧
      ((∀ files name item, env.get (env.set files name item) name = some item) →
        (∀ files name item other, other ≠ name →
          env.get (env.set files name item) other = env.get files other) →
        env.get (env.set state.files (fileName i) { value := some "" }) (fileName i)
          = some { value := some "" } ∧
        ∀ other, other ≠ fileName i →
          env.get (env.set state.files (fileName i) { value := some "" }) other
            = env.get state.files other) := by
  have hex : ∃ i, 1 ≤ i ∧ env.has state.files (fileName i) = false := by
    obtain ⟨i, h1, -, h3⟩ := exists_free (env.has state.files) names hfinite
    exact ⟨i, h1, h3⟩
  obtain ⟨k, hk1, hk2, hk3⟩ := exists_free (env.has state.files) names hfinite
  have hspec := Nat.find_spec hex
  have hmin : ∀ j, 1 ≤ j → j < Nat.find hex → env.has state.files (fileName j) = true := by
    intro j hj1 hj2
    have := Nat.find_min hex hj2
    by_contra hfree
    exact this ⟨hj1, by simpa using hfree⟩
  have hle : Nat.find hex ≤ names.length + 1 :=
    (Nat.find_min' hex ⟨hk1, hk3⟩).trans hk2
  have hloop : ∀ steps, Nat.find hex ≤ 1 + steps →
      firstFree (env.has state.files) (fun i => "/file" ++ toString i ++ ".js") steps 1
        = some (Nat.find hex) := by
    intro steps hsteps
    exact firstFree_of_free (env.has state.files) fileName steps 1 (Nat.find hex) hspec.1
      hsteps hspec.2 hmin
  refine ⟨Nat.find hex, hspec.1, hle, hspec.2, hmin, ?_, ?_, ?_⟩
  · intro steps hsteps
    simp only [reducer, fileAddFile]
    rw [hloop steps (by omega)]
    rfl
  · intro steps result hres
    simp only [reducer, fileAddFile] at hres
    cases hfirst : firstFree (env.has state.files) (fun i => "/file" ++ toString i ++ ".js")
        steps 1 with
    | none => rw [hfirst] at hres; cases hres
    | some i =>
      rw [hfirst] at hres
      obtain ⟨h1, -, h3, h4⟩ := firstFree_some (env.has state.files) fileName steps 1 i hfirst
      have hi : i = Nat.find hex := by
        apply Nat.le_antisymm
        · by_contra hlt
          have := h4 (Nat.find hex) hspec.1 (by omega)
          rw [hspec.2] at this
          cases this
        · exact Nat.find_min' hex ⟨h1, h3⟩
      subst hi
      simp only [Except.ok.injEq] at hres
      rw [← hres]
      rfl
  · intro hsame hother
    exact ⟨hsame _ _ _, fun other hne => hother _ _ _ other hne⟩

/-- Witness of C31: the example state holds the file `/file1.js` alone; with one
step `file.addFile` adds the empty file `/file2.js`. -/
theorem addFile_least_free_witness :
    reducer Example.env 1 Example.emptyFile Action.fileAddFile
      = .ok { Example.emptyFile with
          files := Example.env.set Example.emptyFile.files (fileName 2) { value := some "" } } := by
  obtain ⟨i, h1, h2, h3, h4, h5, -⟩ := addFile_least_free Example.env Example.emptyFile
    ["/file1.js"] (fun n h => Example.env_has _ n h)
  have hi : i = 2 := by
    have hone : Example.env.has Example.emptyFile.files (fileName 1) = true := by decide
    have : i ≠ 1 := by
      intro h
      rw [h, hone] at h3
      cases h3
    simp only [List.length_singleton] at h2
    omega
  subst hi
  exact h5 1 (by simp)

end Repl

namespace Repl

/-- C32 (confirmed). In `reducer`, `view.saveCurrent` without tabs (lines
117-137), on a state whose views have pairwise distinct names, as the keys of
a `Map` have, and in which every view with a value has a file: the reducer
returns, whatever the number of steps allowed to the loops, and what it
returns is the state with other files, every other field as it was. When
every view with a value has a file of that value already, what it returns is
the state itself. When `get` after `setMerge` of a value reads, as on a `Map`,
an item of that value at the name written and what was there at every other
name, every view with a value has a file of that value in the files returned,
and a name without such a view has the file that it had. The class `FS` is
not among the sources: its methods are parameters. -/
theorem save_all_views {F : Type} (env : Env F) (steps : Nat) (state : State F)
    (htabs : state.useTabs = false)
    (hnodup : (JsMap.keys state.views).Nodup)
    (hfiles : ∀ entry ∈ state.views, ∀ value, entry.2.value = some value →
      ∃ file, env.get state.files entry.1 = some file) :
    ∃ saved, reducer env steps state Action.viewSaveCurrent
        = .ok { state with files := saved } ∧
      ((∀ entry ∈ state.views, ∀ value, entry.2.value = some value →
          ∃ file, env.get state.files entry.1 = some file ∧ file.value = some value) →
        reducer env steps state Action.viewSaveCurrent = .ok state) ∧
      ((∀ files name value file, env.get files name = some file →
          ∃ written, env.get (env.setMerge files name (FsPatch.value value)) name
            = some written ∧ written.value = some value) →
        (∀ files name value other, other ≠ name →
          env.get (env.setMerge files name (FsPatch.value value)) other
            = env.get files other) →
        (∀ entry ∈ state.views, ∀ value, entry.2.value = some value →
          ∃ file, env.get saved entry.1 = some file ∧ file.value = some value) ∧
        (∀ other, (∀ entry ∈ state.views, entry.1 = other → entry.2.value = none) →
          env.get saved other = env.get state.files other)) := by
  obtain ⟨saved, hsaved⟩ := saveViews_ok env state state.views hfiles state.files
  have hred : ∀ files, saveViews env state state.views state.files = .ok files →
      reducer env steps state Action.viewSaveCurrent = .ok { state with files := files } := by
    intro files hs
    simp only [reducer, htabs, saveCurrentAll, hs]
    rfl
  refine ⟨saved, hred saved hsaved, ?_, ?_⟩
  · intro hsame
    exact hred state.files (saveViews_same env state state.views hsame state.files)
  · intro hwrite hother
    exact saveViews_spec env state hwrite hother state.views hnodup state.files saved
      (fun _ _ => rfl) hsaved

/-- Witness of C32: in the example state the view of `/a.js` is edited, the
view of `/a.js.map` is as in its file and `/b.js` is not open; after
`view.saveCurrent` the file `/a.js` holds the edited text and the two other
files are as they were; in the example state with nothing edited the state
itself is returned. -/
theorem save_all_views_witness :
    ∃ saved, reducer Example.env 0 Example.editedViews Action.viewSaveCurrent
        = .ok { Example.editedViews with files := saved } ∧
      (∃ file, Example.env.get saved "/a.js" = some file ∧ file.value = some "edited") ∧
      (∃ file, Example.env.get saved "/a.js.map" = some file ∧ file.value = some "map") ∧
      Example.env.get saved "/b.js" = some { value := some "b" } ∧
      reducer Example.env 0 Example.savedViews Action.viewSaveCurrent
        = .ok Example.savedViews := by
  have hsame : ∀ entry ∈ Example.savedViews.views,
      entry = ("/a.js", View.text (some "a")) ∨
        entry = ("/a.js.map", View.text (some "map")) := by
    intro entry he
    simpa [Example.savedViews, Example.twoViews, initialState] using he
  have hviews : ∀ entry ∈ Example.editedViews.views,
      entry = ("/a.js", View.text (some "edited")) ∨
        entry = ("/a.js.map", View.text (some "map")) := by
    intro entry he
    simpa [Example.editedViews, initialState] using he
  obtain ⟨saved, h1, -, h3⟩ := save_all_views Example.env 0 Example.editedViews
    (by decide) (by decide)
    (by
      intro entry he value _
      rcases hviews entry he with rfl | rfl
      · exact ⟨{ value := some "a" }, by decide⟩
      · exact ⟨{ value := some "map" }, by decide⟩)
  obtain ⟨w1, w2⟩ := h3
    (fun files name value _ _ => ⟨_, Example.env_laws.2.2.1 files name value, rfl⟩)
    Example.env_laws.2.2.2
  refine ⟨saved, h1, w1 ("/a.js", View.text (some "edited")) (by decide) "edited" rfl,
    w1 ("/a.js.map", View.text (some "map")) (by decide) "map" rfl, ?_, ?_⟩
  · rw [w2 "/b.js"]
    · decide
    · intro entry he hname
      rcases hviews entry he with rfl | rfl
      · exact absurd hname (by decide)
      · exact absurd hname (by decide)
  · obtain ⟨_, -, h2, -⟩ := save_all_views Example.env 0 Example.savedViews
      (by decide) (by decide)
      (by
        intro entry he value _
        rcases hsame entry he with rfl | rfl
        · exact ⟨{ value := some "a" }, by decide⟩
        · exact ⟨{ value := some "map" }, by decide⟩)
    apply h2
    intro entry he value hvalue
    rcases hsame entry he with rfl | rfl
    · refine ⟨{ value := some "a" }, by decide, ?_⟩
      rw [← hvalue]
      rfl
    · refine ⟨{ value := some "map" }, by decide, ?_⟩
      rw [← hvalue]
      rfl

end Repl

end Parcel
